import Mathlib

/-!
# VC4 command list validator

Shallow embedding of `src/gallium/drivers/vc4/vc4_simulator_validate.c` and of the two
functions of `src/gallium/drivers/vc4/vc4_simulator.c` that call it, followed by the
multisample patterns of `src/gallium/drivers/swr/rasterizer/core/multisample.h`.

Conventions of the embedding:

* `uint32_t` values are natural numbers; every 32-bit addition or multiplication of the
  source is followed by an explicit `% 4294967296`.
* A `void *` argument is a byte memory (`Mem`) read through offsets from the pointer.
  Multi-byte loads and stores are little-endian, as on the hosts the driver runs on.
* The output buffer `validated` is only ever written by the validator, never read: it is
  represented by the chronological log of the byte stores made to it.
* An access outside an array (the opcode table, `exec->bo`, `exec->shader_state`) is
  undefined behaviour in C; the embedding stops with an explicit `undefined` outcome naming
  the access.
* The `while` loop of `vc4_validate_cl` is one function for the loop iteration plus a
  fuel-indexed runner, since termination of the loop is a property to be proved and not
  an assumption.
-/

namespace VC4

/-! ## Memory -/

/-- Byte memory behind a base pointer: offset to stored value. -/
abbrev Mem := Nat → Nat

/-- The load `*(uint8_t *)(m + a)`. -/
def load8 (m : Mem) (a : Nat) : Nat := m a % 256

/-- The load `*(uint32_t *)(m + a)`, little-endian. -/
def load32 (m : Mem) (a : Nat) : Nat :=
  load8 m a + 256 * load8 m (a + 1) + 65536 * load8 m (a + 2) + 16777216 * load8 m (a + 3)

/-- Chronological list of byte stores `(offset, byte)` made to the output buffer. -/
abbrev WriteLog := List (Nat × Nat)

/-- The store `*(uint32_t *)(validated + a) = v`, little-endian, as four byte stores. -/
def store32 (a v : Nat) : WriteLog :=
  [(a, v % 256), (a + 1, v / 256 % 256), (a + 2, v / 65536 % 256), (a + 3, v / 16777216 % 256)]

/-- The byte stores of `memcpy(validated + d, src + s, n)`. -/
def memcpy (src : Mem) (d s n : Nat) : WriteLog :=
  (List.range n).map fun i => (d + i, load8 src (s + i))

/-- Content of the output buffer after the stores of a log, starting from `init`. -/
def apply_log (init : Mem) (log : WriteLog) : Mem :=
  log.foldl (fun m w => Function.update m w.1 w.2) init

/-- Memory holding the bytes of a list from offset 0 on (and zero beyond it). -/
def mem_of (l : List Nat) : Mem := fun i => l.getD i 0

/-! ## Data model -/

/-- Constants of `vc4_packet.h`, a header that is not part of the sources at hand: they are
parameters of the embedding. -/
structure vc4_packet_h where
  VC4_LOADSTORE_TILE_BUFFER_NONE : Nat
  VC4_PACKET_GL_SHADER_STATE : Nat
  VC4_PACKET_NV_SHADER_STATE : Nat

/-- The fields of `struct drm_gem_cma_object` the validator reads: `paddr` and `base.size`. -/
structure drm_gem_cma_object where
  paddr : Nat
  size : Nat
deriving DecidableEq, Repr

/-- One `struct vc4_shader_state`. -/
structure vc4_shader_state where
  packet : Nat
  addr : Nat
deriving DecidableEq, Repr

/-- The fields of `struct exec_info` used by the validator. `bo` is the array behind
`exec->bo` (its length is the number of slots really allocated), `bo_index` the two-entry
scratch handle array, `shader_state` the array behind `exec->shader_state`. `exec_bo` is the
object behind the pointer `exec->exec_bo`, which holds the validated lists and shader
records; `ct0ca` to `ct1ea` are the list addresses computed for the two hardware threads.
The last five fields are zero until `vc4_cl_validate` sets them. -/
structure exec_info where
  bo : List drm_gem_cma_object
  bo_count : Nat
  bo_index : Nat × Nat
  shader_state : List vc4_shader_state
  shader_state_count : Nat
  shader_state_size : Nat
  shader_paddr : Nat
  exec_bo : drm_gem_cma_object := { paddr := 0, size := 0 }
  ct0ca : Nat := 0
  ct0ea : Nat := 0
  ct1ca : Nat := 0
  ct1ea : Nat := 0
deriving DecidableEq, Repr

/-- Array accesses outside their array. -/
inductive Fault where
  | cmd_info_out_of_bounds (cmd : Nat)
  | bo_out_of_bounds (index : Nat)
  | shader_state_out_of_bounds (index : Nat)
deriving DecidableEq, Repr

/-- The `DRM_ERROR` sites of the relocation handlers. -/
inductive HandlerError where
  | unlimited_max_index
  | ib_access_overflow
  | ib_access_out_of_bounds
  | more_shader_states
  | nv_misaligned
  | bo_index_out_of_range
deriving DecidableEq, Repr

/-- Outcome of a relocation handler: `return 0`, `return -EINVAL` after a `DRM_ERROR`, or an
out-of-bounds array access. The context and the output log are those left behind. -/
inductive HandlerResult where
  | ok (exec : exec_info) (out : WriteLog)
  | einval (e : HandlerError) (exec : exec_info) (out : WriteLog)
  | undefined (f : Fault)
deriving DecidableEq, Repr

/-! ## Relocation handlers

Each handler takes the untrusted memory `src`, the context, the output log so far, and the
two pointers `validated` and `untrusted` as offsets into the output buffer and into `src`. -/

def validate_branch_to_sublist (src : Mem) (exec : exec_info) (out : WriteLog)
    (validated untrusted : Nat) : HandlerResult :=
  match exec.bo[exec.bo_index.1]? with
  | none => .undefined (.bo_out_of_bounds exec.bo_index.1)
  | some target =>
    .ok exec (out ++ store32 (validated + 0)
      ((load32 src (untrusted + 0) + target.paddr) % 4294967296))

/-- The handler of opcodes 28 and 29. The pointer `fbo` is loaded from
`exec->bo[exec->bo_index[0]]` before the test of the low nibble, but it is dereferenced
(`fbo->paddr`) only after it: with the low nibble `VC4_LOADSTORE_TILE_BUFFER_NONE` the
function returns 0 whatever the scratch handle is, and otherwise a scratch handle that
selects no entry of the buffer table makes the read of `fbo->paddr` an access through a
pointer that is not one of the table. -/
def validate_loadstore_tile_buffer_general (K : vc4_packet_h) (src : Mem) (exec : exec_info)
    (out : WriteLog) (validated untrusted : Nat) : HandlerResult :=
  let packet_b0 := load8 src (untrusted + 0)
  let fbo := exec.bo[exec.bo_index.1]?
  if packet_b0 % 16 = K.VC4_LOADSTORE_TILE_BUFFER_NONE then .ok exec out
  else
    match fbo with
    | none => .undefined (.bo_out_of_bounds exec.bo_index.1)
    | some fbo =>
      .ok exec (out ++ store32 (validated + 2)
        ((load32 src (untrusted + 2) + fbo.paddr) % 4294967296))

/-- The local `max_index` of `validate_indexed_prim_list`. -/
def ib_max_index (src : Mem) (untrusted : Nat) : Nat := load32 src (untrusted + 9)

/-- The local `index_size` of `validate_indexed_prim_list`. -/
def ib_index_size (src : Mem) (untrusted : Nat) : Nat :=
  if load8 src (untrusted + 0) / 16 ≠ 0 then 2 else 1

/-- The local `ib_access_end` of `validate_indexed_prim_list`, computed in 32 bits. -/
def ib_access_end (src : Mem) (untrusted : Nat) : Nat :=
  ((ib_max_index src untrusted + 1) % 4294967296 * ib_index_size src untrusted) % 4294967296

def validate_indexed_prim_list (src : Mem) (exec : exec_info) (out : WriteLog)
    (validated untrusted : Nat) : HandlerResult :=
  let max_index := ib_max_index src untrusted
  let ib_access_end := ib_access_end src untrusted
  if max_index = 4294967295 then .einval .unlimited_max_index exec out
  else if ib_access_end < max_index then .einval .ib_access_overflow exec out
  else
    match exec.bo[exec.bo_index.1]? with
    | none => .undefined (.bo_out_of_bounds exec.bo_index.1)
    | some ib =>
      if ib_access_end > ib.size then .einval .ib_access_out_of_bounds exec out
      else
        .ok exec (out ++ store32 (validated + 5)
          ((load32 src (untrusted + 5) + ib.paddr) % 4294967296))

def validate_gl_shader_state (K : vc4_packet_h) (src : Mem) (exec : exec_info)
    (out : WriteLog) (validated untrusted : Nat) : HandlerResult :=
  let i := exec.shader_state_count
  let exec1 := { exec with shader_state_count := (exec.shader_state_count + 1) % 4294967296 }
  if i ≥ exec1.shader_state_size then .einval .more_shader_states exec1 out
  else if i ≥ exec1.shader_state.length then .undefined (.shader_state_out_of_bounds i)
  else
    let addr := load32 src untrusted
    let exec2 := { exec1 with
      shader_state := exec1.shader_state.set i
        { packet := K.VC4_PACKET_GL_SHADER_STATE, addr := addr } }
    .ok exec2 (out ++ store32 validated ((addr + exec2.shader_paddr) % 4294967296))

def validate_nv_shader_state (K : vc4_packet_h) (src : Mem) (exec : exec_info)
    (out : WriteLog) (validated untrusted : Nat) : HandlerResult :=
  let i := exec.shader_state_count
  let exec1 := { exec with shader_state_count := (exec.shader_state_count + 1) % 4294967296 }
  if i ≥ exec1.shader_state_size then .einval .more_shader_states exec1 out
  else if i ≥ exec1.shader_state.length then .undefined (.shader_state_out_of_bounds i)
  else
    let addr := load32 src untrusted
    let exec2 := { exec1 with
      shader_state := exec1.shader_state.set i
        { packet := K.VC4_PACKET_NV_SHADER_STATE, addr := addr } }
    if addr % 16 ≠ 0 then .einval .nv_misaligned exec2 out
    else .ok exec2 (out ++ store32 validated ((addr + exec2.shader_paddr) % 4294967296))

def validate_tile_binning_config (src : Mem) (exec : exec_info) (out : WriteLog)
    (validated untrusted : Nat) : HandlerResult :=
  match exec.bo[exec.bo_index.1]? with
  | none => .undefined (.bo_out_of_bounds exec.bo_index.1)
  | some tile_allocation =>
    match exec.bo[exec.bo_index.2]? with
    | none => .undefined (.bo_out_of_bounds exec.bo_index.2)
    | some tile_state_data_array =>
      .ok exec (out
        ++ store32 validated ((load32 src untrusted + tile_allocation.paddr) % 4294967296)
        ++ store32 (validated + 8)
            ((load32 src (untrusted + 8) + tile_state_data_array.paddr) % 4294967296))

def validate_tile_rendering_mode_config (src : Mem) (exec : exec_info) (out : WriteLog)
    (validated untrusted : Nat) : HandlerResult :=
  match exec.bo[exec.bo_index.1]? with
  | none => .undefined (.bo_out_of_bounds exec.bo_index.1)
  | some fbo =>
    .ok exec (out ++ store32 validated ((load32 src untrusted + fbo.paddr) % 4294967296))

/-- The handler of opcode 254: `memcpy(exec->bo_index, untrusted, sizeof(exec->bo_index))`
followed by the range check of the two entries, in index order. -/
def validate_gem_handles (src : Mem) (exec : exec_info) (out : WriteLog)
    (_validated untrusted : Nat) : HandlerResult :=
  let exec1 := { exec with bo_index := (load32 src untrusted, load32 src (untrusted + 4)) }
  if exec1.bo_index.1 ≥ exec1.bo_count then .einval .bo_index_out_of_range exec1 out
  else if exec1.bo_index.2 ≥ exec1.bo_count then .einval .bo_index_out_of_range exec1 out
  else .ok exec1 out

/-! ## Opcode table -/

/-- The values a `func` pointer of the table can take: the eight handlers. -/
inductive validate_fn where
  | branch_to_sublist
  | loadstore_tile_buffer_general
  | indexed_prim_list
  | gl_shader_state
  | nv_shader_state
  | tile_binning_config
  | tile_rendering_mode_config
  | gem_handles
deriving DecidableEq, Repr

/-- One `struct cmd_info`; `name` and `func` are `none` for `NULL`. -/
structure cmd_info_entry where
  bin : Bool
  render : Bool
  len : Nat
  name : Option String
  func : Option validate_fn
deriving DecidableEq, Repr

/-- The initialiser of `cmd_info[]`: the designated entries, and the zero entry for every
slot without a designator. -/
def cmd_info_init : Nat → cmd_info_entry
  | 0 => ⟨true, true, 1, some "halt", none⟩
  | 1 => ⟨true, true, 1, some "nop", none⟩
  | 4 => ⟨true, true, 1, some "flush", none⟩
  | 5 => ⟨true, false, 1, some "flush all state", none⟩
  | 6 => ⟨true, false, 1, some "start tile binning", none⟩
  | 7 => ⟨true, false, 1, some "increment semaphore", none⟩
  | 8 => ⟨true, true, 1, some "wait on semaphore", none⟩
  | 17 => ⟨true, true, 5, some "branch to sublist", some .branch_to_sublist⟩
  | 24 => ⟨false, true, 1, some "store MS resolved tile color buffer", none⟩
  | 25 => ⟨false, true, 1, some "store MS resolved tile color buffer and EOF", none⟩
  | 28 => ⟨false, true, 7, some "Store Tile Buffer General",
            some .loadstore_tile_buffer_general⟩
  | 29 => ⟨false, true, 7, some "Load Tile Buffer General",
            some .loadstore_tile_buffer_general⟩
  | 32 => ⟨true, true, 14, some "Indexed Primitive List", some .indexed_prim_list⟩
  | 33 => ⟨true, true, 10, some "Vertex Array Primitives", none⟩
  | 56 => ⟨true, true, 2, some "primitive list format", none⟩
  | 64 => ⟨true, true, 5, some "GL Shader State", some .gl_shader_state⟩
  | 65 => ⟨true, true, 5, some "NV Shader State", some .nv_shader_state⟩
  | 96 => ⟨true, true, 4, some "configuration bits", none⟩
  | 97 => ⟨true, true, 5, some "flat shade flags", none⟩
  | 98 => ⟨true, true, 5, some "point size", none⟩
  | 99 => ⟨true, true, 5, some "line width", none⟩
  | 100 => ⟨true, true, 3, some "RHT X boundary", none⟩
  | 101 => ⟨true, true, 5, some "Depth Offset", none⟩
  | 102 => ⟨true, true, 9, some "Clip Window", none⟩
  | 103 => ⟨true, true, 5, some "Viewport Offset", none⟩
  | 105 => ⟨true, true, 9, some "Clipper XY Scaling", none⟩
  | 106 => ⟨true, true, 9, some "Clipper Z Scale and Offset", none⟩
  | 112 => ⟨true, false, 16, some "tile binning configuration", some .tile_binning_config⟩
  | 113 => ⟨false, true, 11, some "tile rendering mode configuration",
             some .tile_rendering_mode_config⟩
  | 114 => ⟨false, true, 14, some "Clear Colors", none⟩
  | 115 => ⟨false, true, 3, some "Tile Coordinates", none⟩
  | 254 => ⟨true, true, 9, some "GEM handles", some .gem_handles⟩
  | _ => ⟨false, false, 0, none, none⟩

/-- `ARRAY_SIZE(cmd_info)`: the highest designator is 254. -/
def ARRAY_SIZE_cmd_info : Nat := 255

/-- The array `cmd_info[]`. -/
def cmd_info : List cmd_info_entry := (List.range ARRAY_SIZE_cmd_info).map cmd_info_init

/-- The call `info->func(exec, validated, untrusted)` through a table pointer. -/
def call_func (K : vc4_packet_h) : validate_fn →
    Mem → exec_info → WriteLog → Nat → Nat → HandlerResult
  | .branch_to_sublist => validate_branch_to_sublist
  | .loadstore_tile_buffer_general => validate_loadstore_tile_buffer_general K
  | .indexed_prim_list => validate_indexed_prim_list
  | .gl_shader_state => validate_gl_shader_state K
  | .nv_shader_state => validate_nv_shader_state K
  | .tile_binning_config => validate_tile_binning_config
  | .tile_rendering_mode_config => validate_tile_rendering_mode_config
  | .gem_handles => validate_gem_handles

/-! ## Command list walker -/

/-- The `DRM_ERROR` sites of `vc4_validate_cl`; a handler failure keeps the handler's own
error. -/
inductive WalkError where
  | packet_out_of_bounds
  | packet_invalid
  | invalid_for_list
  | length_exceeds_bounds
  | failed_to_validate (e : HandlerError)
deriving DecidableEq, Repr

/-- The local variables of `vc4_validate_cl` together with the context and the output. -/
structure WalkState where
  dst_offset : Nat
  src_offset : Nat
  exec : exec_info
  out : WriteLog
deriving DecidableEq, Repr

/-- How `vc4_validate_cl` ends: `return 0`, `return -EINVAL` after a `DRM_ERROR`, or an
out-of-bounds array access; each with the state at that point. -/
inductive WalkResult where
  | ok (s : WalkState)
  | einval (e : WalkError) (s : WalkState)
  | undefined (f : Fault) (s : WalkState)
deriving DecidableEq, Repr

/-- The value returned to the caller (`EINVAL` is 22); none after undefined behaviour. -/
def WalkResult.ret : WalkResult → Option Int
  | .ok _ => some 0
  | .einval _ _ => some (-22)
  | .undefined _ _ => none

/-- Effect of one pass over the loop: go round again, or leave the function. -/
inductive LoopStep where
  | next (s : WalkState)
  | done (r : WalkResult)
deriving DecidableEq, Repr

/-- The test of lines 309-310: the opcode is not allowed in the current list. -/
def list_check_fails (is_bin : Bool) (info : cmd_info_entry) : Bool :=
  (is_bin && !info.bin) || (!is_bin && !info.render)

/-- Outcome of the three checks at the head of the loop body (lines 288-323): the table
entry of a packet that passed, the `DRM_ERROR` of a packet that did not, or a table
access out of bounds. -/
inductive Checked where
  | pass (info : cmd_info_entry)
  | fail (e : WalkError)
  | undefined (f : Fault)
deriving DecidableEq, Repr

/-- Lines 288-323 of `vc4_validate_cl`: opcode fetch, table lookup, list check and length
check, for the packet at `src_offset`. -/
def vc4_validate_cl_checks (unvalidated : Mem) (len : Nat) (is_bin : Bool) (s : WalkState) :
    Checked :=
  let cmd := load8 unvalidated s.src_offset
  if cmd > ARRAY_SIZE_cmd_info then .fail .packet_out_of_bounds
  else
    match cmd_info[cmd]? with
    | none => .undefined (.cmd_info_out_of_bounds cmd)
    | some info =>
      if info.name.isNone then .fail .packet_invalid
      else if list_check_fails is_bin info then .fail .invalid_for_list
      else if (s.src_offset + info.len) % 4294967296 > len then .fail .length_exceeds_bounds
      else .pass info

/-- The output log after line 326: the packet is copied unless its opcode is 254. -/
def copy_packet (unvalidated : Mem) (s : WalkState) (info : cmd_info_entry) : WriteLog :=
  if load8 unvalidated s.src_offset ≠ 254 then
    s.out ++ memcpy unvalidated s.dst_offset s.src_offset info.len
  else s.out

/-- Line 328: `info->func && info->func(exec, dst_pkt + 1, src_pkt + 1)`, a missing handler
counting as success. -/
def run_handler (K : vc4_packet_h) (unvalidated : Mem) (s : WalkState)
    (info : cmd_info_entry) : HandlerResult :=
  match info.func with
  | none => .ok s.exec (copy_packet unvalidated s info)
  | some f =>
    call_func K f unvalidated s.exec (copy_packet unvalidated s info)
      (s.dst_offset + 1) (s.src_offset + 1)

/-- Lines 325-345 of `vc4_validate_cl`, for a packet that passed the checks: copy, handler,
advance of the two offsets, stop at halt. -/
def vc4_validate_cl_process (K : vc4_packet_h) (unvalidated : Mem) (s : WalkState)
    (info : cmd_info_entry) : LoopStep :=
  let cmd := load8 unvalidated s.src_offset
  match run_handler K unvalidated s info with
  | .undefined f => .done (.undefined f { s with out := copy_packet unvalidated s info })
  | .einval e exec2 out2 =>
    .done (.einval (.failed_to_validate e) { s with exec := exec2, out := out2 })
  | .ok exec2 out2 =>
    let s2 : WalkState :=
      { dst_offset :=
          if cmd ≠ 254 then (s.dst_offset + info.len) % 4294967296 else s.dst_offset
        src_offset := (s.src_offset + info.len) % 4294967296
        exec := exec2
        out := out2 }
    if cmd = 0 then .done (.ok s2) else .next s2

/-- The body of the `while` loop of `vc4_validate_cl`, entered with `src_offset < len`. -/
def vc4_validate_cl_body (K : vc4_packet_h) (unvalidated : Mem) (len : Nat) (is_bin : Bool)
    (s : WalkState) : LoopStep :=
  match vc4_validate_cl_checks unvalidated len is_bin s with
  | .fail e => .done (.einval e s)
  | .undefined f => .done (.undefined f s)
  | .pass info => vc4_validate_cl_process K unvalidated s info

/-- One pass over `while (src_offset < len) { ... }`, the loop test included. -/
def vc4_validate_cl_iter (K : vc4_packet_h) (unvalidated : Mem) (len : Nat) (is_bin : Bool)
    (s : WalkState) : LoopStep :=
  if s.src_offset < len then vc4_validate_cl_body K unvalidated len is_bin s
  else .done (.ok s)

/-- The loop run for at most `fuel` passes; `none` when it is still going after them. -/
def vc4_validate_cl_loop (K : vc4_packet_h) (unvalidated : Mem) (len : Nat) (is_bin : Bool) :
    Nat → WalkState → Option WalkResult
  | 0, _ => none
  | fuel + 1, s =>
    match vc4_validate_cl_iter K unvalidated len is_bin s with
    | .next s2 => vc4_validate_cl_loop K unvalidated len is_bin fuel s2
    | .done r => some r

/-- The state on entry to the loop: both offsets zero, nothing written yet. -/
def vc4_validate_cl_entry (exec : exec_info) : WalkState :=
  { dst_offset := 0, src_offset := 0, exec := exec, out := [] }

/-- The function `vc4_validate_cl(dev, validated, unvalidated, len, is_bin, exec)`, run for at
most `fuel` loop passes. -/
def vc4_validate_cl (K : vc4_packet_h) (fuel : Nat) (unvalidated : Mem) (len : Nat)
    (is_bin : Bool) (exec : exec_info) : Option WalkResult :=
  vc4_validate_cl_loop K unvalidated len is_bin fuel (vc4_validate_cl_entry exec)

/-- The state at the start of pass `n` of the loop (counting from 0) when the loop, started
in `s`, goes round at least `n` times. -/
def vc4_validate_cl_at (K : vc4_packet_h) (unvalidated : Mem) (len : Nat) (is_bin : Bool) :
    Nat → WalkState → Option WalkState
  | 0, s => some s
  | n + 1, s =>
    match vc4_validate_cl_iter K unvalidated len is_bin s with
    | .next s2 => vc4_validate_cl_at K unvalidated len is_bin n s2
    | .done _ => none

/-- A packet boundary reached by the scan of `vc4_validate_cl`: the state at the start of some
pass of the loop whose loop test succeeds. -/
def Reached (K : vc4_packet_h) (unvalidated : Mem) (len : Nat) (is_bin : Bool)
    (exec : exec_info) (n : Nat) (s : WalkState) : Prop :=
  vc4_validate_cl_at K unvalidated len is_bin n (vc4_validate_cl_entry exec) = some s ∧
    s.src_offset < len

/-- The state a result carries. -/
def WalkResult.state : WalkResult → WalkState
  | .ok s => s
  | .einval _ s => s
  | .undefined _ s => s

/-- For each handler, the number of leading body bytes inside which all its stores to the
output body fall (one past the last body offset it writes; 0 when it writes nothing). -/
def handler_span : validate_fn → Nat
  | .branch_to_sublist => 4
  | .loadstore_tile_buffer_general => 6
  | .indexed_prim_list => 9
  | .gl_shader_state => 4
  | .nv_shader_state => 4
  | .tile_binning_config => 12
  | .tile_rendering_mode_config => 4
  | .gem_handles => 0

/-- For each handler, the number of leading body bytes inside which all its loads from the
untrusted body fall (one past the last body offset it reads). -/
def handler_read_span : validate_fn → Nat
  | .branch_to_sublist => 4
  | .loadstore_tile_buffer_general => 6
  | .indexed_prim_list => 13
  | .gl_shader_state => 4
  | .nv_shader_state => 4
  | .tile_binning_config => 12
  | .tile_rendering_mode_config => 4
  | .gem_handles => 8

/-- The loop invariant of `vc4_validate_cl` for stream lengths that leave room for the
longest packet below 2^32: the output offset trails the source offset, the source offset
is within the stream, and every byte stored so far lies below the output offset. -/
def walk_inv (len : Nat) (s : WalkState) : Prop :=
  s.dst_offset ≤ s.src_offset ∧ s.src_offset ≤ len ∧ ∀ x ∈ s.out, x.1 < s.dst_offset

/-- The table length of an opcode. -/
def table_len (c : Nat) : Nat := (cmd_info_init c).len

/-- The opcodes of the packets scanned by the loop within `fuel` passes, in order: those of
the passes that go round again, and the halt packet when the run stops at one. A packet
that makes the function fail is not listed. -/
def vc4_validate_cl_scanned (K : vc4_packet_h) (unvalidated : Mem) (len : Nat)
    (is_bin : Bool) : Nat → WalkState → List Nat
  | 0, _ => []
  | fuel + 1, s =>
    match vc4_validate_cl_iter K unvalidated len is_bin s with
    | .next s2 =>
      load8 unvalidated s.src_offset ::
        vc4_validate_cl_scanned K unvalidated len is_bin fuel s2
    | .done (.ok _) => if s.src_offset < len then [load8 unvalidated s.src_offset] else []
    | .done _ => []

/-- The bytes of the packet at the current source offset, opcode byte included, as many as
the table length of its opcode. -/
def packet_bytes (u : Mem) (s : WalkState) : List Nat :=
  (List.range (table_len (load8 u s.src_offset))).map fun i => load8 u (s.src_offset + i)

/-- The in-order concatenation of the bytes of the packets scanned by the loop within `fuel`
passes, the packets of opcode 254 left out. -/
def vc4_validate_cl_copied (K : vc4_packet_h) (unvalidated : Mem) (len : Nat)
    (is_bin : Bool) : Nat → WalkState → List Nat
  | 0, _ => []
  | fuel + 1, s =>
    match vc4_validate_cl_iter K unvalidated len is_bin s with
    | .next s2 =>
      (if load8 unvalidated s.src_offset ≠ 254 then packet_bytes unvalidated s else []) ++
        vc4_validate_cl_copied K unvalidated len is_bin fuel s2
    | .done (.ok _) =>
      if s.src_offset < len ∧ load8 unvalidated s.src_offset ≠ 254 then
        packet_bytes unvalidated s
      else []
    | .done _ => []

/-- The bytes of the output buffer below `n` after the stores of a log. -/
def output_bytes (init : Mem) (out : WriteLog) (n : Nat) : List Nat :=
  (List.range n).map fun j => load8 (apply_log init out) j

/-- The sum of the table lengths of a list of opcodes. -/
def total_len (cs : List Nat) : Nat := (cs.map table_len).sum

/-- An opcode with a table entry, allowed in the list and without relocation handler. -/
def plain_opcode (is_bin : Bool) (c : Nat) : Bool :=
  decide (c < 255) && (cmd_info_init c).name.isSome &&
    !list_check_fails is_bin (cmd_info_init c) && (cmd_info_init c).func.isNone

/-- The state after the pass over a packet of opcode `c` that has no handler: the packet is
copied and both offsets move on by its table length. -/
def plain_next (u : Mem) (s : WalkState) (c : Nat) : WalkState :=
  { dst_offset := (s.dst_offset + table_len c) % 4294967296
    src_offset := (s.src_offset + table_len c) % 4294967296
    exec := s.exec
    out := s.out ++ memcpy u s.dst_offset s.src_offset (table_len c) }

/-- The memory holds, from offset `a` on, whole packets with the opcodes `cs`, one after the
other (payload bytes are arbitrary). -/
def packets_at (u : Mem) : Nat → List Nat → Prop
  | _, [] => True
  | a, c :: cs => load8 u a = c ∧ packets_at u (a + table_len c) cs

/-- How a handler that returns 0 may change the shader state bookkeeping of the context:
not at all, or by recording one request in the slot numbered by the old count (which is
below the capacity) and incrementing the count. -/
def shader_step (e0 e1 : exec_info) : Prop :=
  e1.shader_state_size = e0.shader_state_size ∧
    ((e1.shader_state_count = e0.shader_state_count ∧ e1.shader_state = e0.shader_state) ∨
      (e0.shader_state_count < e0.shader_state_size ∧
        e1.shader_state_count = (e0.shader_state_count + 1) % 4294967296 ∧
        ∃ r, e1.shader_state = e0.shader_state.set e0.shader_state_count r))

/-- How any handler call, failing ones included, may change the request array: not at all,
or in the slot numbered by the old count, which is below the capacity. -/
def shader_touch (e0 e1 : exec_info) : Prop :=
  e1.shader_state_size = e0.shader_state_size ∧
    (e1.shader_state = e0.shader_state ∨
      (e0.shader_state_count < e0.shader_state_size ∧
        ∃ r, e1.shader_state = e0.shader_state.set e0.shader_state_count r))

/-- The request slots of `e0` that a later context `e` must still hold unchanged: those
below the count of `e0` (requests already recorded) and those at or beyond the capacity. -/
def slots_kept (e0 e : exec_info) : Prop :=
  e.shader_state_size = e0.shader_state_size ∧
    ∀ j, j < e0.shader_state_count ∨ e0.shader_state_size ≤ j →
      e.shader_state[j]? = e0.shader_state[j]?

/-- The relation between a context `e0` and a context `e` reached from it by packets that
went through: same capacity, count not smaller, count within the capacity if it was, and
the slots of `slots_kept` unchanged. -/
def shader_kept (e0 e : exec_info) : Prop :=
  e0.shader_state_count ≤ e.shader_state_count ∧
    (e0.shader_state_count ≤ e0.shader_state_size →
      e.shader_state_count ≤ e.shader_state_size) ∧
    slots_kept e0 e

/-- The 32-bit field at offset `a` of the output buffer holds `x` after the stores of `out2`,
and every byte outside that field is as it was after the stores of `out`. -/
def field_rewritten (init : Mem) (out out2 : WriteLog) (a x : Nat) : Prop :=
  load32 (apply_log init out2) a = x ∧
    ∀ b, b < a ∨ a + 4 ≤ b → apply_log init out2 b = apply_log init out b

/-! ## Shader record validator

The pointer `validated` of the two functions below points into the mapping of
`exec->exec_bo`: it is represented by its offset from `exec->exec_bo->vaddr`, and the stores
are logged at their offsets from that address. `unvalidated` is an offset into the memory
`src` holding the untrusted shader records. -/

/-- The `DRM_ERROR` sites of `validate_shader_rec` and `vc4_validate_shader_recs`. -/
inductive ShaderRecError where
  | overflowed_read
  | bo_index_out_of_range
  | unexpected_offset
deriving DecidableEq, Repr

/-- Outcome of `validate_shader_rec`: `return 0`, `return -EINVAL` after a `DRM_ERROR`, or an
out-of-bounds array access; with the context and the output log left behind. -/
inductive ShaderRecResult where
  | ok (exec : exec_info) (out : WriteLog)
  | einval (e : ShaderRecError) (exec : exec_info) (out : WriteLog)
  | undefined (f : Fault)
deriving DecidableEq, Repr

/-- The static array `gl_bo_offsets` of `validate_shader_rec`. -/
def gl_bo_offsets : List Nat := [4, 8, 16, 20, 28, 32]

/-- The static array `nv_bo_offsets` of `validate_shader_rec`. -/
def nv_bo_offsets : List Nat := [4, 8, 12]

/-- The local `bo_offsets` of `validate_shader_rec` after lines 375-388. -/
def shader_rec_bo_offsets (K : vc4_packet_h) (state : vc4_shader_state) : List Nat :=
  if state.packet = K.VC4_PACKET_NV_SHADER_STATE then nv_bo_offsets else gl_bo_offsets

/-- The local `nr_bo` of `validate_shader_rec` after lines 375-388. -/
def shader_rec_nr_bo (K : vc4_packet_h) (state : vc4_shader_state) : Nat :=
  if state.packet = K.VC4_PACKET_NV_SHADER_STATE then nv_bo_offsets.length
  else gl_bo_offsets.length

/-- The local `nr_attributes` of `validate_shader_rec` after lines 375-388. -/
def shader_rec_nr_attributes (K : vc4_packet_h) (state : vc4_shader_state) : Nat :=
  if state.packet = K.VC4_PACKET_NV_SHADER_STATE then 0
  else if state.addr % 8 = 0 then 8 else state.addr % 8

/-- The local `packet_size` of `validate_shader_rec` after lines 375-388. -/
def shader_rec_packet_size (K : vc4_packet_h) (state : vc4_shader_state) : Nat :=
  if state.packet = K.VC4_PACKET_NV_SHADER_STATE then 16
  else 36 + shader_rec_nr_attributes K state * 8

/-- The left-hand side of the length test of line 389:
`(nr_bo + nr_attributes) * 4 + packet_size`. -/
def shader_rec_needed (K : vc4_packet_h) (state : vc4_shader_state) : Nat :=
  (shader_rec_nr_bo K state + shader_rec_nr_attributes K state) * 4 +
    shader_rec_packet_size K state

/-- How the handle loop of lines 399-406 ends: with the local array `bo` filled, at the
`DRM_ERROR` for the handle word number `i`, or at an access outside `exec->bo`. -/
inductive LookupResult where
  | found (bo : List drm_gem_cma_object)
  | out_of_range (i : Nat)
  | undefined (f : Fault)
deriving DecidableEq, Repr

/-- The first `n` passes of the handle loop of lines 399-406; `src_handles[i]` is the 32-bit
word at `unvalidated + 4 * i`. -/
def shader_rec_lookup (src : Mem) (exec : exec_info) (unvalidated : Nat) : Nat → LookupResult
  | 0 => .found []
  | n + 1 =>
    match shader_rec_lookup src exec unvalidated n with
    | .found bo =>
      if load32 src (unvalidated + 4 * n) ≥ exec.bo_count then .out_of_range n
      else
        match exec.bo[load32 src (unvalidated + 4 * n)]? with
        | none => .undefined (.bo_out_of_bounds (load32 src (unvalidated + 4 * n)))
        | some b => .found (bo ++ [b])
    | r => r

/-- One relocation store of lines 411-412 and 418-419: the field at offset `o` of the body
becomes `bo->paddr + *(uint32_t *)(src_pkt + o)`. -/
def shader_rec_relocate (src : Mem) (validated src_pkt : Nat) (out : WriteLog)
    (p : Nat × drm_gem_cma_object) : WriteLog :=
  out ++ store32 (validated + p.1) ((p.2.paddr + load32 src (src_pkt + p.1)) % 4294967296)

/-- The offsets `36 + i * 8` of the attribute loop of lines 415-420, for `i` below
`nr_attributes`. -/
def shader_rec_attr_offsets (nr_attributes : Nat) : List Nat :=
  (List.range nr_attributes).map fun i => 36 + i * 8

/-- The function `validate_shader_rec(dev, exec, validated, unvalidated, len, state)`. The
loop of lines 408-413 pairs `bo_offsets[i]` with `bo[i]` for `i < nr_bo`, the loop of
lines 415-420 pairs the offset `36 + i * 8` with `bo[nr_bo + i]` for `i < nr_attributes`. -/
def validate_shader_rec (K : vc4_packet_h) (src : Mem) (exec : exec_info) (out : WriteLog)
    (validated unvalidated len : Nat) (state : vc4_shader_state) : ShaderRecResult :=
  let bo_offsets := shader_rec_bo_offsets K state
  let nr_bo := shader_rec_nr_bo K state
  let nr_attributes := shader_rec_nr_attributes K state
  let packet_size := shader_rec_packet_size K state
  if (nr_bo + nr_attributes) * 4 + packet_size > len then .einval .overflowed_read exec out
  else
    let src_pkt := unvalidated + 4 * (nr_bo + nr_attributes)
    let out1 := out ++ memcpy src validated src_pkt packet_size
    match shader_rec_lookup src exec unvalidated (nr_bo + nr_attributes) with
    | .out_of_range _ => .einval .bo_index_out_of_range exec out1
    | .undefined f => .undefined f
    | .found bo =>
      let out2 := (bo_offsets.zip bo).foldl (shader_rec_relocate src validated src_pkt) out1
      let out3 := ((shader_rec_attr_offsets nr_attributes).zip (bo.drop nr_bo)).foldl
        (shader_rec_relocate src validated src_pkt) out2
      .ok exec out3

/-- The 32-bit difference `a - b`. -/
def sub32 (a b : Nat) : Nat := (a % 4294967296 + 4294967296 - b % 4294967296) % 4294967296

/-- The left-hand side of the test of lines 438-440: `exec->shader_state[i].addr & ~0xf`, a
32-bit value. -/
def shader_rec_masked_addr (state : vc4_shader_state) : Nat :=
  state.addr % 4294967296 / 16 * 16

/-- The right-hand side of the test of lines 438-440:
`validated - exec->exec_bo->vaddr - (exec->shader_paddr - exec->exec_bo->paddr)`, a pointer
difference minus a 32-bit difference, computed in the signed type of pointer differences
(64 bits wide on the hosts of the simulator, so that nothing wraps here). -/
def shader_rec_expected_offset (validated : Nat) (exec : exec_info) : Int :=
  (validated : Int) - (sub32 exec.shader_paddr exec.exec_bo.paddr : Int)

/-- Outcome of `vc4_validate_shader_recs`; a failure carries the number `i` of the request
at which the function returned. -/
inductive ShaderRecsResult where
  | ok (exec : exec_info) (out : WriteLog)
  | einval (e : ShaderRecError) (i : Nat) (exec : exec_info) (out : WriteLog)
  | undefined (f : Fault)
deriving DecidableEq, Repr

/-- The value returned to the caller; none after undefined behaviour. -/
def ShaderRecsResult.ret : ShaderRecsResult → Option Int
  | .ok _ _ => some 0
  | .einval _ _ _ _ => some (-22)
  | .undefined _ => none

/-- The `for` loop of `vc4_validate_shader_recs` from request `i` on, with `n` requests left
(`n = exec->shader_state_count - i`). The locals `dst_offset` and `src_offset` are never
assigned after their initialisation to 0 (line 458 holds only the comment
`XXX: incr dst/src offset`). -/
def vc4_validate_shader_recs_from (K : vc4_packet_h) (src : Mem) (validated len : Nat)
    (exec : exec_info) : Nat → Nat → WriteLog → ShaderRecsResult
  | 0, _, out => .ok exec out
  | n + 1, i, out =>
    let dst_offset := 0
    let src_offset := 0
    match exec.shader_state[i]? with
    | none => .undefined (.shader_state_out_of_bounds i)
    | some state =>
      if (shader_rec_masked_addr state : Int) ≠ shader_rec_expected_offset validated exec then
        .einval .unexpected_offset i exec out
      else
        match validate_shader_rec K src exec out (validated + dst_offset) (0 + src_offset)
            (sub32 len src_offset) state with
        | .einval e exec2 out2 => .einval e i exec2 out2
        | .undefined f => .undefined f
        | .ok _ out2 => vc4_validate_shader_recs_from K src validated len exec n (i + 1) out2

/-- The function `vc4_validate_shader_recs(dev, validated, unvalidated, len, exec)`. -/
def vc4_validate_shader_recs (K : vc4_packet_h) (src : Mem) (validated len : Nat)
    (exec : exec_info) : ShaderRecsResult :=
  vc4_validate_shader_recs_from K src validated len exec exec.shader_state_count 0 []

/-- The stores made by a sequence of relocations, each given by the body offset of its
field and the buffer object whose address is added. -/
def shader_rec_stores (src : Mem) (validated src_pkt : Nat)
    (ps : List (Nat × drm_gem_cma_object)) : WriteLog :=
  ps.flatMap fun p =>
    store32 (validated + p.1) ((p.2.paddr + load32 src (src_pkt + p.1)) % 4294967296)

/-- The body offsets of the relocated fields of a record, in the order of its handle
words: the entries of `bo_offsets`, then one field per attribute. -/
def shader_rec_fields (K : vc4_packet_h) (state : vc4_shader_state) : List Nat :=
  shader_rec_bo_offsets K state ++ shader_rec_attr_offsets (shader_rec_nr_attributes K state)

/-- The number of handle words of a record, `nr_bo + nr_attributes`. -/
def shader_rec_handle_count (K : vc4_packet_h) (state : vc4_shader_state) : Nat :=
  shader_rec_nr_bo K state + shader_rec_nr_attributes K state

/-- For each handler, the body offsets of the bytes it may load from the untrusted body. -/
def handler_reads : validate_fn → List Nat
  | .branch_to_sublist => [0, 1, 2, 3]
  | .loadstore_tile_buffer_general => [0, 2, 3, 4, 5]
  | .indexed_prim_list => [0, 5, 6, 7, 8, 9, 10, 11, 12]
  | .gl_shader_state => [0, 1, 2, 3]
  | .nv_shader_state => [0, 1, 2, 3]
  | .tile_binning_config => [0, 1, 2, 3, 8, 9, 10, 11]
  | .tile_rendering_mode_config => [0, 1, 2, 3]
  | .gem_handles => [0, 1, 2, 3, 4, 5, 6, 7]

/-- For each handler, the body offsets of the bytes it may store to the output body. -/
def handler_writes : validate_fn → List Nat
  | .branch_to_sublist => [0, 1, 2, 3]
  | .loadstore_tile_buffer_general => [2, 3, 4, 5]
  | .indexed_prim_list => [5, 6, 7, 8]
  | .gl_shader_state => [0, 1, 2, 3]
  | .nv_shader_state => [0, 1, 2, 3]
  | .tile_binning_config => [0, 1, 2, 3, 8, 9, 10, 11]
  | .tile_rendering_mode_config => [0, 1, 2, 3]
  | .gem_handles => []

/-- The output log a handler result carries: the log left behind, or the log before the
call when the handler ran into an access outside an array (which it does before any
store). -/
def HandlerResult.log (out : WriteLog) : HandlerResult → WriteLog
  | .ok _ o => o
  | .einval _ _ o => o
  | .undefined _ => out

/-! ## The simulator: `vc4_cl_validate` and `vc4_simulator_flush`

Embedding of the two functions of `src/gallium/drivers/vc4/vc4_simulator.c` that drive the
validator. Pointers into the block `temp` and into the mapping of `exec->exec_bo` are
offsets from the start of the block and of the mapping. -/

/-- The fields of `struct drm_vc4_submit_cl` read by the simulator; the user pointers
`bin_cl`, `render_cl` and `shader_records` are the memories they point to, the lengths and
counts are 32-bit fields. -/
structure drm_vc4_submit_cl where
  bin_cl : Mem
  render_cl : Mem
  shader_records : Mem
  bin_cl_len : Nat
  render_cl_len : Nat
  shader_record_len : Nat
  shader_record_count : Nat
  bo_handle_count : Nat

/-- What the functions of `vc4_simulator.c` use but the sources at hand do not define, as
parameters of the embedding: the macro `roundup`, the function `align`, the value of
`sizeof(struct vc4_shader_state)`, whether `kmalloc` returns a block for a size, the
indeterminate content of a fresh block (bytes, and the shader state slots that lie in it),
the value returned by each of the three calls of `copy_from_user`, the field `size` of the
`i`-th buffer of the submission (`bos[i]->size`) and the physical address
`simpenrose_hw_addr(obj->vaddr)` its object gets, the field `size` of the buffer that
`vc4_bo_alloc` returns for a size, and the physical address the object made from it gets. -/
structure sim_env where
  roundup : Nat → Nat → Nat
  align : Nat → Nat → Nat
  sizeof_vc4_shader_state : Nat
  kmalloc_succeeds : Nat → Bool
  fresh_bytes : Mem
  fresh_shader_state : Nat → vc4_shader_state
  copy_from_user_ret : Nat → Int
  bo_size : Nat → Nat
  bo_paddr : Nat → Nat
  vc4_bo_alloc_size : Nat → Nat
  exec_bo_paddr : Nat → Nat

/-- The function `vc4_wrap_bo_with_cma(dev, bo)` for a buffer with `bo->size = bo_size`: the
size of the object is the `uint32_t` local `size = align(bo->size, 4096)`. The physical
address `simpenrose_hw_addr(obj->vaddr)`, which comes from the simulator memory through
functions that are not in the sources at hand, is the argument `paddr`. -/
def vc4_wrap_bo_with_cma (E : sim_env) (paddr bo_size : Nat) : drm_gem_cma_object :=
  let size := E.align bo_size 4096 % 4294967296
  { paddr := paddr, size := size }

/-- The function `drm_gem_cma_create(dev, size)`: the buffer returned by `vc4_bo_alloc`,
wrapped by `vc4_wrap_bo_with_cma`. -/
def drm_gem_cma_create (E : sim_env) (size : Nat) : drm_gem_cma_object :=
  vc4_wrap_bo_with_cma E (E.exec_bo_paddr size) (E.vc4_bo_alloc_size size)

/-- The local `render_offset` of `vc4_cl_validate`: `bin_offset + args->bin_cl_len` with
`bin_offset = 0`, in 32 bits. -/
def render_offset (args : drm_vc4_submit_cl) : Nat := (0 + args.bin_cl_len) % 4294967296

/-- The local `shader_rec_offset` of `vc4_cl_validate`:
`roundup(render_offset + args->render_cl_len, 16)`, in 32 bits. -/
def shader_rec_offset (E : sim_env) (args : drm_vc4_submit_cl) : Nat :=
  E.roundup ((render_offset args + args.render_cl_len) % 4294967296) 16 % 4294967296

/-- The local `exec_size` of `vc4_cl_validate`. -/
def exec_size (E : sim_env) (args : drm_vc4_submit_cl) : Nat :=
  (shader_rec_offset E args + args.shader_record_len) % 4294967296

/-- The local `temp_size` of `vc4_cl_validate`: the sum is truncated to 32 bits by the
assignment. -/
def temp_size (E : sim_env) (args : drm_vc4_submit_cl) : Nat :=
  (exec_size E args + E.sizeof_vc4_shader_state * args.shader_record_count) % 4294967296

/-- The condition of lines 119-123 of `vc4_simulator.c`, "overflow in exec arguments";
`UINT_MAX` is 4294967295. -/
def layout_check_fails (E : sim_env) (args : drm_vc4_submit_cl) : Bool :=
  decide (shader_rec_offset E args < render_offset args) ||
    decide (exec_size E args < shader_rec_offset E args) ||
    decide (args.shader_record_count ≥ 4294967295 / E.sizeof_vc4_shader_state) ||
    decide (temp_size E args < exec_size E args)

/-- The block `temp` after `copy_from_user(temp + d, src, n)`. -/
def copy_in (temp : Mem) (d : Nat) (src : Mem) (n : Nat) : Mem :=
  fun i => if d ≤ i ∧ i < d + n then src (i - d) else temp i

/-- The untrusted memory behind the pointer `temp + d`. -/
def mem_at (temp : Mem) (d : Nat) : Mem := fun i => temp (d + i)

/-- What a call of `vc4_cl_validate` that returned did: the value returned, the context left
behind, and the result of each of the three stages that was run (`none` for a stage that
was not run). -/
structure cl_validate_run where
  ret : Int
  exec : exec_info
  bin : Option WalkResult
  render : Option WalkResult
  shader_recs : Option ShaderRecsResult

/-- How a call of `vc4_cl_validate` ends: it returns; or one of the three copies into `temp`
runs past the `exec_size` bytes meant for the lists and records (into the shader state
array or past the end of the block), where the embedding stops; or a stage runs into an
access outside an array; or the walker is still going after `fuel` passes. -/
inductive ClValidateResult where
  | returned (run : cl_validate_run)
  | copy_out_of_region (which : Nat)
  | undefined (f : Fault)
  | out_of_fuel

/-- The function `vc4_cl_validate(dev, args, exec)`; `fuel` bounds the passes of each walk.
`ENOMEM` is 12 and `EINVAL` 22. -/
def vc4_cl_validate (K : vc4_packet_h) (E : sim_env) (fuel : Nat) (args : drm_vc4_submit_cl)
    (exec : exec_info) : ClValidateResult :=
  let ret : Int := 0
  let bin_offset := 0
  if layout_check_fails E args then
    -- DRM_ERROR("overflow in exec arguments"); goto fail
    .returned ⟨ret, exec, none, none, none⟩
  else if !E.kmalloc_succeeds (temp_size E args) then
    .returned ⟨-12, exec, none, none, none⟩
  else
    let exec1 := { exec with
      shader_state := (List.range args.shader_record_count).map E.fresh_shader_state
      shader_state_size := args.shader_record_count }
    if bin_offset + args.bin_cl_len > exec_size E args then .copy_out_of_region 0
    else
      let temp1 := copy_in E.fresh_bytes bin_offset args.bin_cl args.bin_cl_len
      if E.copy_from_user_ret 0 ≠ 0 then
        .returned ⟨E.copy_from_user_ret 0, exec1, none, none, none⟩
      else if render_offset args + args.render_cl_len > exec_size E args then
        .copy_out_of_region 1
      else
        let temp2 := copy_in temp1 (render_offset args) args.render_cl args.render_cl_len
        if E.copy_from_user_ret 1 ≠ 0 then
          .returned ⟨E.copy_from_user_ret 1, exec1, none, none, none⟩
        else if shader_rec_offset E args + args.shader_record_len > exec_size E args then
          .copy_out_of_region 2
        else
          let temp3 := copy_in temp2 (shader_rec_offset E args) args.shader_records
            args.shader_record_len
          if E.copy_from_user_ret 2 ≠ 0 then
            .returned ⟨E.copy_from_user_ret 2, exec1, none, none, none⟩
          else
            let exec_bo := drm_gem_cma_create E (exec_size E args)
            let ct0ca := (exec_bo.paddr + bin_offset) % 4294967296
            let ct1ca := (exec_bo.paddr + render_offset args) % 4294967296
            let exec2 := { exec1 with
              exec_bo := exec_bo
              ct0ca := ct0ca
              ct0ea := (ct0ca + args.bin_cl_len) % 4294967296
              ct1ca := ct1ca
              ct1ea := (ct1ca + args.render_cl_len) % 4294967296
              shader_paddr := (exec_bo.paddr + shader_rec_offset E args) % 4294967296 }
            match vc4_validate_cl K fuel (mem_at temp3 bin_offset) args.bin_cl_len true
                exec2 with
            | none => .out_of_fuel
            | some (.undefined f _) => .undefined f
            | some (.einval e s) =>
              .returned ⟨-22, s.exec, some (.einval e s), none, none⟩
            | some (.ok s) =>
              match vc4_validate_cl K fuel (mem_at temp3 (render_offset args))
                  args.render_cl_len false s.exec with
              | none => .out_of_fuel
              | some (.undefined f _) => .undefined f
              | some (.einval e t) =>
                .returned ⟨-22, t.exec, some (.ok s), some (.einval e t), none⟩
              | some (.ok t) =>
                match vc4_validate_shader_recs K (mem_at temp3 (shader_rec_offset E args))
                    (shader_rec_offset E args) args.shader_record_len t.exec with
                | .undefined f => .undefined f
                | .einval e i x o =>
                  .returned ⟨-22, x, some (.ok s), some (.ok t), some (.einval e i x o)⟩
                | .ok x o =>
                  .returned ⟨0, x, some (.ok s), some (.ok t), some (.ok x o)⟩

/-- The function `vc4_simulator_pin_bos(dev, args, exec)`, which always returns 0: the
context with the buffer table of the submission. -/
def vc4_simulator_pin_bos (E : sim_env) (args : drm_vc4_submit_cl) (exec : exec_info) :
    exec_info :=
  { exec with
    bo_count := args.bo_handle_count
    bo := (List.range args.bo_handle_count).map fun i =>
      vc4_wrap_bo_with_cma E (E.bo_paddr i) (E.bo_size i) }

/-- The context after `memset(&exec, 0, sizeof(exec))`. -/
def exec_zero : exec_info :=
  { bo := [], bo_count := 0, bo_index := (0, 0), shader_state := [], shader_state_count := 0,
    shader_state_size := 0, shader_paddr := 0 }

/-- How `vc4_simulator_flush` ends: it returns an error before anything is executed, or it
hands the two lists to the simulated hardware (`simpenrose_do_binning(ct0ca, ct0ea)` and
`simpenrose_do_rendering(ct1ca, ct1ea)`); or validation did not return. -/
inductive FlushResult where
  | rejected (ret : Int)
  | executed (ct0ca ct0ea ct1ca ct1ea : Nat)
  | not_returned
deriving DecidableEq, Repr

/-- The function `vc4_simulator_flush(vc4, args, csurf)` up to the hand-over to the
simulated hardware (the copies between the window system surface and the buffer object
are left out). -/
def vc4_simulator_flush (K : vc4_packet_h) (E : sim_env) (fuel : Nat)
    (args : drm_vc4_submit_cl) : FlushResult :=
  let exec := vc4_simulator_pin_bos E args exec_zero
  match vc4_cl_validate K E fuel args exec with
  | .returned run =>
    if run.ret ≠ 0 then .rejected run.ret
    else .executed run.exec.ct0ca run.exec.ct0ea run.exec.ct1ca run.exec.ct1ea
  | _ => .not_returned

/-- The output log a result of `validate_shader_rec` carries: the log left behind, or the log
before the call when the function ran into an access outside `exec->bo`. -/
def ShaderRecResult.log (out : WriteLog) : ShaderRecResult → WriteLog
  | .ok _ o => o
  | .einval _ _ o => o
  | .undefined _ => out

/-- The context a handler result carries: the context left behind, or the context before
the call when the handler ran into an access outside an array. -/
def HandlerResult.exec (exec : exec_info) : HandlerResult → exec_info
  | .ok e _ => e
  | .einval _ e _ => e
  | .undefined _ => exec

/-- The state a pass of the loop ends in: the state of the next pass or the state the
function is left with. -/
def LoopStep.state : LoopStep → WalkState
  | .next s => s
  | .done r => r.state

/-- The two scratch handles are below `bo_count`, and the array behind `exec->bo` has its
`bo_count` entries. -/
def bo_inv (exec : exec_info) : Prop :=
  exec.bo_index.1 < exec.bo_count ∧ exec.bo_index.2 < exec.bo_count ∧
    exec.bo_count ≤ exec.bo.length

/-! ## Multisample patterns

The sample count conversions and the `MultisampleTraits` specialisations of
`rasterizer/core/multisample.h` of the software rasterizer. -/

/-- The enumerators of `enum SWR_MULTISAMPLE_COUNT` that name a sample count, the ones
`MultisampleTraits` is specialised for. -/
inductive SWR_MULTISAMPLE_COUNT where
  | SWR_MULTISAMPLE_1X
  | SWR_MULTISAMPLE_2X
  | SWR_MULTISAMPLE_4X
  | SWR_MULTISAMPLE_8X
  | SWR_MULTISAMPLE_16X
  deriving DecidableEq, Repr

/-- What `multisample.h` takes from the declaration of `enum SWR_MULTISAMPLE_COUNT`, which
is in a header not at hand, as a parameter of the embedding: the integer value of each
enumerator that names a sample count, and the value of `SWR_MULTISAMPLE_TYPE_MAX`. -/
structure state_h where
  value : SWR_MULTISAMPLE_COUNT → Nat
  SWR_MULTISAMPLE_TYPE_MAX : Nat

/-- The array `sampleCountLUT[SWR_MULTISAMPLE_TYPE_MAX] {1, 2, 4, 8, 16}` of
`GetNumSamples`; elements after the five initialisers are zero. -/
def sampleCountLUT (H : state_h) : List Nat :=
  [1, 2, 4, 8, 16] ++ List.replicate (H.SWR_MULTISAMPLE_TYPE_MAX - 5) 0

/-- The function `GetNumSamples(sampleCount)`; `none` is the failure of the assertion
`sampleCount < SWR_MULTISAMPLE_TYPE_MAX`. -/
def GetNumSamples (H : state_h) (sampleCount : SWR_MULTISAMPLE_COUNT) : Option Nat :=
  if H.value sampleCount < H.SWR_MULTISAMPLE_TYPE_MAX then
    (sampleCountLUT H)[H.value sampleCount]?
  else none

/-- The function `GetSampleCount(numSamples)`; `none` is the failure of `assert(0)` in the
default branch of the switch. -/
def GetSampleCount (numSamples : Nat) : Option SWR_MULTISAMPLE_COUNT :=
  match numSamples with
  | 1 => some .SWR_MULTISAMPLE_1X
  | 2 => some .SWR_MULTISAMPLE_2X
  | 4 => some .SWR_MULTISAMPLE_4X
  | 8 => some .SWR_MULTISAMPLE_8X
  | 16 => some .SWR_MULTISAMPLE_16X
  | _ => none

/-- The type `__m128i` as four 32-bit lanes, `e0` the lowest. -/
structure __m128i where
  e0 : Nat
  e1 : Nat
  e2 : Nat
  e3 : Nat
  deriving DecidableEq, Repr

/-- The intrinsic `_mm_set1_epi32(a)`: `a` in every lane. -/
def _mm_set1_epi32 (a : Nat) : __m128i := { e0 := a, e1 := a, e2 := a, e3 := a }

/-- The intrinsic `_mm_set_epi32(e3, e2, e1, e0)`: the last argument goes to the lowest
lane. -/
def _mm_set_epi32 (e3 e2 e1 e0 : Nat) : __m128i := { e0 := e0, e1 := e1, e2 := e2, e3 := e3 }

/-- The type `simdscalar`, a register of floats, as the function from the number of a lane
to the value in it. The values stored by `multisample.h` are literals with at most four
binary digits after the point, which a float holds exactly, so that rationals stand for
them. -/
abbrev simdscalar : Type := Nat → ℚ

/-- The macro `_simd_set1_ps(a)`: `a` in every lane. -/
def _simd_set1_ps (a : ℚ) : simdscalar := fun _ => a

/-- The constant `MultisampleTraits<sampleCount>::numSamples`. -/
def MultisampleTraits.numSamples : SWR_MULTISAMPLE_COUNT → Nat
  | .SWR_MULTISAMPLE_1X => 1
  | .SWR_MULTISAMPLE_2X => 2
  | .SWR_MULTISAMPLE_4X => 4
  | .SWR_MULTISAMPLE_8X => 8
  | .SWR_MULTISAMPLE_16X => 16

/-- The constant `MultisampleTraits<sampleCount>::sampleMask`. -/
def MultisampleTraits.sampleMask : SWR_MULTISAMPLE_COUNT → Nat
  | .SWR_MULTISAMPLE_1X => 1
  | .SWR_MULTISAMPLE_2X => 0x3
  | .SWR_MULTISAMPLE_4X => 0xF
  | .SWR_MULTISAMPLE_8X => 0xFF
  | .SWR_MULTISAMPLE_16X => 0xFFFF

/-- The element `X[sampleNum]` of a table of `numSamples` elements after the assertion
`sampleNum < numSamples`; `none` is the failure of the assertion. -/
def asserted_element {α : Type} (numSamples : Nat) (X : List α) (sampleNum : Nat) :
    Option α :=
  if sampleNum < numSamples then X[sampleNum]? else none

/-- The function `MultisampleTraits<sampleCount>::vXi(sampleNum)`; the specialisation for
one sample does not look at `sampleNum`. -/
def MultisampleTraits.vXi (sampleCount : SWR_MULTISAMPLE_COUNT) (sampleNum : Nat) :
    Option __m128i :=
  match sampleCount with
  | .SWR_MULTISAMPLE_1X => some (_mm_set1_epi32 0x80)
  | .SWR_MULTISAMPLE_2X =>
    asserted_element (MultisampleTraits.numSamples .SWR_MULTISAMPLE_2X)
      [_mm_set1_epi32 0xC0, _mm_set1_epi32 0x40] sampleNum
  | .SWR_MULTISAMPLE_4X =>
    asserted_element (MultisampleTraits.numSamples .SWR_MULTISAMPLE_4X)
      [_mm_set1_epi32 0x60, _mm_set1_epi32 0xE0, _mm_set1_epi32 0x20, _mm_set1_epi32 0xA0]
      sampleNum
  | .SWR_MULTISAMPLE_8X =>
    asserted_element (MultisampleTraits.numSamples .SWR_MULTISAMPLE_8X)
      [_mm_set1_epi32 0x90, _mm_set1_epi32 0x70, _mm_set1_epi32 0xD0, _mm_set1_epi32 0x50,
       _mm_set1_epi32 0x30, _mm_set1_epi32 0x10, _mm_set1_epi32 0xB0, _mm_set1_epi32 0xF0]
      sampleNum
  | .SWR_MULTISAMPLE_16X =>
    asserted_element (MultisampleTraits.numSamples .SWR_MULTISAMPLE_16X)
      [_mm_set1_epi32 0x90, _mm_set1_epi32 0x70, _mm_set1_epi32 0x50, _mm_set1_epi32 0xC0,
       _mm_set1_epi32 0x30, _mm_set1_epi32 0xA0, _mm_set1_epi32 0xD0, _mm_set1_epi32 0xB0,
       _mm_set1_epi32 0x60, _mm_set1_epi32 0x80, _mm_set1_epi32 0x40, _mm_set1_epi32 0x20,
       _mm_set1_epi32 0x00, _mm_set1_epi32 0xF0, _mm_set1_epi32 0xE0, _mm_set1_epi32 0x10]
      sampleNum

/-- The function `MultisampleTraits<sampleCount>::vYi(sampleNum)`. -/
def MultisampleTraits.vYi (sampleCount : SWR_MULTISAMPLE_COUNT) (sampleNum : Nat) :
    Option __m128i :=
  match sampleCount with
  | .SWR_MULTISAMPLE_1X => some (_mm_set1_epi32 0x80)
  | .SWR_MULTISAMPLE_2X =>
    asserted_element (MultisampleTraits.numSamples .SWR_MULTISAMPLE_2X)
      [_mm_set1_epi32 0xC0, _mm_set1_epi32 0x40] sampleNum
  | .SWR_MULTISAMPLE_4X =>
    asserted_element (MultisampleTraits.numSamples .SWR_MULTISAMPLE_4X)
      [_mm_set1_epi32 0x20, _mm_set1_epi32 0x60, _mm_set1_epi32 0xA0, _mm_set1_epi32 0xE0]
      sampleNum
  | .SWR_MULTISAMPLE_8X =>
    asserted_element (MultisampleTraits.numSamples .SWR_MULTISAMPLE_8X)
      [_mm_set1_epi32 0x50, _mm_set1_epi32 0xB0, _mm_set1_epi32 0x90, _mm_set1_epi32 0x30,
       _mm_set1_epi32 0xD0, _mm_set1_epi32 0x70, _mm_set1_epi32 0xF0, _mm_set1_epi32 0x10]
      sampleNum
  | .SWR_MULTISAMPLE_16X =>
    asserted_element (MultisampleTraits.numSamples .SWR_MULTISAMPLE_16X)
      [_mm_set1_epi32 0x90, _mm_set1_epi32 0x50, _mm_set1_epi32 0xA0, _mm_set1_epi32 0x70,
       _mm_set1_epi32 0x60, _mm_set1_epi32 0xD0, _mm_set1_epi32 0xB0, _mm_set1_epi32 0x30,
       _mm_set1_epi32 0xE0, _mm_set1_epi32 0x10, _mm_set1_epi32 0x20, _mm_set1_epi32 0xC0,
       _mm_set1_epi32 0x80, _mm_set1_epi32 0x40, _mm_set1_epi32 0xF0, _mm_set1_epi32 0x00]
      sampleNum

/-- The function `MultisampleTraits<sampleCount>::vX(sampleNum)`. -/
def MultisampleTraits.vX (sampleCount : SWR_MULTISAMPLE_COUNT) (sampleNum : Nat) :
    Option simdscalar :=
  match sampleCount with
  | .SWR_MULTISAMPLE_1X => some (_simd_set1_ps 0.5)
  | .SWR_MULTISAMPLE_2X =>
    asserted_element (MultisampleTraits.numSamples .SWR_MULTISAMPLE_2X)
      [_simd_set1_ps 0.75, _simd_set1_ps 0.25] sampleNum
  | .SWR_MULTISAMPLE_4X =>
    asserted_element (MultisampleTraits.numSamples .SWR_MULTISAMPLE_4X)
      [_simd_set1_ps 0.375, _simd_set1_ps 0.875, _simd_set1_ps 0.125, _simd_set1_ps 0.625]
      sampleNum
  | .SWR_MULTISAMPLE_8X =>
    asserted_element (MultisampleTraits.numSamples .SWR_MULTISAMPLE_8X)
      [_simd_set1_ps 0.5625, _simd_set1_ps 0.4375, _simd_set1_ps 0.8125, _simd_set1_ps 0.3125,
       _simd_set1_ps 0.1875, _simd_set1_ps 0.0625, _simd_set1_ps 0.6875, _simd_set1_ps 0.9375]
      sampleNum
  | .SWR_MULTISAMPLE_16X =>
    asserted_element (MultisampleTraits.numSamples .SWR_MULTISAMPLE_16X)
      [_simd_set1_ps 0.5625, _simd_set1_ps 0.4375, _simd_set1_ps 0.3125, _simd_set1_ps 0.7500,
       _simd_set1_ps 0.1875, _simd_set1_ps 0.6250, _simd_set1_ps 0.8125, _simd_set1_ps 0.6875,
       _simd_set1_ps 0.3750, _simd_set1_ps 0.5000, _simd_set1_ps 0.2500, _simd_set1_ps 0.1250,
       _simd_set1_ps 0.0000, _simd_set1_ps 0.9375, _simd_set1_ps 0.8750, _simd_set1_ps 0.0625]
      sampleNum

/-- The function `MultisampleTraits<sampleCount>::vY(sampleNum)`. -/
def MultisampleTraits.vY (sampleCount : SWR_MULTISAMPLE_COUNT) (sampleNum : Nat) :
    Option simdscalar :=
  match sampleCount with
  | .SWR_MULTISAMPLE_1X => some (_simd_set1_ps 0.5)
  | .SWR_MULTISAMPLE_2X =>
    asserted_element (MultisampleTraits.numSamples .SWR_MULTISAMPLE_2X)
      [_simd_set1_ps 0.75, _simd_set1_ps 0.25] sampleNum
  | .SWR_MULTISAMPLE_4X =>
    asserted_element (MultisampleTraits.numSamples .SWR_MULTISAMPLE_4X)
      [_simd_set1_ps 0.125, _simd_set1_ps 0.375, _simd_set1_ps 0.625, _simd_set1_ps 0.875]
      sampleNum
  | .SWR_MULTISAMPLE_8X =>
    asserted_element (MultisampleTraits.numSamples .SWR_MULTISAMPLE_8X)
      [_simd_set1_ps 0.3125, _simd_set1_ps 0.6875, _simd_set1_ps 0.5625, _simd_set1_ps 0.1875,
       _simd_set1_ps 0.8125, _simd_set1_ps 0.4375, _simd_set1_ps 0.9375, _simd_set1_ps 0.0625]
      sampleNum
  | .SWR_MULTISAMPLE_16X =>
    asserted_element (MultisampleTraits.numSamples .SWR_MULTISAMPLE_16X)
      [_simd_set1_ps 0.5625, _simd_set1_ps 0.3125, _simd_set1_ps 0.6250, _simd_set1_ps 0.4375,
       _simd_set1_ps 0.3750, _simd_set1_ps 0.8125, _simd_set1_ps 0.6875, _simd_set1_ps 0.1875,
       _simd_set1_ps 0.8750, _simd_set1_ps 0.0625, _simd_set1_ps 0.1250, _simd_set1_ps 0.7500,
       _simd_set1_ps 0.5000, _simd_set1_ps 0.2500, _simd_set1_ps 0.9375, _simd_set1_ps 0.0000]
      sampleNum

/-- The function `MultisampleTraits<sampleCount>::TileSampleOffsetsX()`; the arguments of
`_mm_set_epi32` are, in this order, the offsets of the corners BR, BL, UR and UL. -/
def MultisampleTraits.TileSampleOffsetsX (sampleCount : SWR_MULTISAMPLE_COUNT) : __m128i :=
  match sampleCount with
  | .SWR_MULTISAMPLE_1X =>
    let bboxLeftEdge := 0x80
    let bboxRightEdge := 0x80
    _mm_set_epi32 bboxRightEdge bboxLeftEdge bboxRightEdge bboxLeftEdge
  | .SWR_MULTISAMPLE_2X =>
    let bboxLeftEdge := 0x40
    let bboxRightEdge := 0xC0
    _mm_set_epi32 bboxRightEdge bboxLeftEdge bboxRightEdge bboxLeftEdge
  | .SWR_MULTISAMPLE_4X =>
    let bboxLeftEdge := 0x20
    let bboxRightEdge := 0xE0
    _mm_set_epi32 bboxRightEdge bboxLeftEdge bboxRightEdge bboxLeftEdge
  | .SWR_MULTISAMPLE_8X =>
    let bboxLeftEdge := 0x10
    let bboxRightEdge := 0xF0
    _mm_set_epi32 bboxRightEdge bboxLeftEdge bboxRightEdge bboxLeftEdge
  | .SWR_MULTISAMPLE_16X =>
    let bboxLeftEdge := 0x00
    let bboxRightEdge := 0xF0
    _mm_set_epi32 bboxRightEdge bboxLeftEdge bboxRightEdge bboxLeftEdge

/-- The function `MultisampleTraits<sampleCount>::TileSampleOffsetsY()`. -/
def MultisampleTraits.TileSampleOffsetsY (sampleCount : SWR_MULTISAMPLE_COUNT) : __m128i :=
  match sampleCount with
  | .SWR_MULTISAMPLE_1X =>
    let bboxTopEdge := 0x80
    let bboxBottomEdge := 0x80
    _mm_set_epi32 bboxBottomEdge bboxBottomEdge bboxTopEdge bboxTopEdge
  | .SWR_MULTISAMPLE_2X =>
    let bboxTopEdge := 0x40
    let bboxBottomEdge := 0xC0
    _mm_set_epi32 bboxBottomEdge bboxBottomEdge bboxTopEdge bboxTopEdge
  | .SWR_MULTISAMPLE_4X =>
    let bboxTopEdge := 0x20
    let bboxBottomEdge := 0xE0
    _mm_set_epi32 bboxBottomEdge bboxBottomEdge bboxTopEdge bboxTopEdge
  | .SWR_MULTISAMPLE_8X =>
    let bboxTopEdge := 0x10
    let bboxBottomEdge := 0xF0
    _mm_set_epi32 bboxBottomEdge bboxBottomEdge bboxTopEdge bboxTopEdge
  | .SWR_MULTISAMPLE_16X =>
    let bboxTopEdge := 0x00
    let bboxBottomEdge := 0xF0
    _mm_set_epi32 bboxBottomEdge bboxBottomEdge bboxTopEdge bboxTopEdge

/-! ## Sample inputs -/

/-- Header constants as in the VideoCore IV packet encoding. -/
def K0 : vc4_packet_h :=
  { VC4_LOADSTORE_TILE_BUFFER_NONE := 0
    VC4_PACKET_GL_SHADER_STATE := 64
    VC4_PACKET_NV_SHADER_STATE := 65 }

/-- A context without buffer objects and without shader state slots, scratch table zeroed. -/
def exec_empty : exec_info :=
  { bo := [], bo_count := 0, bo_index := (0, 0), shader_state := [],
    shader_state_count := 0, shader_state_size := 0, shader_paddr := 0 }

/-- A context with a single buffer object of 4096 bytes at physical address 4096. -/
def exec_one_bo : exec_info :=
  { bo := [{ paddr := 4096, size := 4096 }], bo_count := 1, bo_index := (0, 0),
    shader_state := [], shader_state_count := 0, shader_state_size := 0, shader_paddr := 0 }

/-- A context with a single buffer object of 4294967295 bytes at physical address 0; no
object made by `vc4_wrap_bo_with_cma` has that size. -/
def exec_huge_bo : exec_info :=
  { bo := [{ paddr := 0, size := 4294967295 }], bo_count := 1, bo_index := (0, 0),
    shader_state := [], shader_state_count := 0, shader_state_size := 0, shader_paddr := 0 }

/-- A context with a single buffer object of 16 bytes at physical address 4096. -/
def exec_small_bo : exec_info :=
  { bo := [{ paddr := 4096, size := 16 }], bo_count := 1, bo_index := (0, 0),
    shader_state := [], shader_state_count := 0, shader_state_size := 0, shader_paddr := 0 }

/-- A bin list: a handle packet selecting buffer 0 twice, then a branch-to-sublist packet
whose offset field is 4096 (bytes 00 10 00 00). -/
def branch_stream : List Nat := [254, 0, 0, 0, 0, 0, 0, 0, 0, 17, 0, 16, 0, 0]

/-- Body of an indexed-primitive packet: 16-bit indices (type byte 0x10), offset 0 and
`maxIndex = 0xFFFFFFFE`. -/
def wide_index_body : List Nat := [16, 0, 0, 0, 0, 0, 0, 0, 0, 254, 255, 255, 255]

/-- Body of an indexed-primitive packet: 8-bit indices, offset 0 and
`maxIndex = 0xFFFFFFFF`. -/
def unlimited_index_body : List Nat := [0, 0, 0, 0, 0, 0, 0, 0, 0, 255, 255, 255, 255]

/-- Body of an indexed-primitive packet with 8-bit indices, offset 0 and the given
one-byte `maxIndex`. -/
def index_body (max_index : Nat) : List Nat := [0, 0, 0, 0, 0, 0, 0, 0, 0, max_index, 0, 0, 0]

/-- A context with one buffer object (4096 bytes at physical address 4096) and room for two
shader state requests, none recorded yet; the shader record region starts at 8192. -/
def exec_two_slots : exec_info :=
  { bo := [{ paddr := 4096, size := 4096 }], bo_count := 1, bo_index := (0, 0),
    shader_state := [{ packet := 0, addr := 0 }, { packet := 0, addr := 0 }],
    shader_state_count := 0, shader_state_size := 2, shader_paddr := 8192 }

/-- A render list: a handle packet selecting buffer 0 twice, then a "Store Tile Buffer
General" packet (opcode 28) whose first body byte is 0 and whose address field is 0. -/
def store_none_stream : List Nat := [254, 0, 0, 0, 0, 0, 0, 0, 0, 28, 0, 0, 0, 0, 0, 0]

/-- A list made of one GL shader state packet (opcode 64) with address 0. -/
def gl_state_stream : List Nat := [64, 0, 0, 0, 0]

/-- A stream of 4294967294 nop bytes followed, at offset 4294967294, by the first byte of a
two-byte "primitive list format" packet (opcode 56). -/
def wrap_stream : Mem := fun i => if i = 4294967294 then 56 else 1

/-- A stream for `len = 4294967295`: a two-byte packet (opcode 56) whose payload byte, at
offset 1, is 0; nop bytes from offset 2 to 4294967293; and at offset 4294967294 the first
byte of a three-byte packet (opcode 100). -/
def halt_wrap_stream : Mem :=
  fun i => if i = 0 then 56 else if i = 1 then 0 else if i = 4294967294 then 100 else 1

/-- The stream `halt_wrap_stream` with the byte at offset 2 replaced by 2, an opcode
without table entry. -/
def halt_wrap_stream_bad : Mem :=
  fun i => if i = 2 then 2 else halt_wrap_stream i

/-- An NV shader record: three handle words, all 0, then a body of 16 bytes whose first
word is 01 02 03 04 and whose address fields (body offsets 4, 8 and 12) hold 5, 6 and 7. -/
def nv_shader_rec : List Nat :=
  [0, 0, 0, 0, 0, 0, 0, 0, 0, 0, 0, 0, 1, 2, 3, 4, 5, 0, 0, 0, 6, 0, 0, 0, 7, 0, 0, 0]

/-- A context as `vc4_cl_validate` leaves it for the shader record stage when the two lists
take 16 bytes together: one buffer object (4096 bytes at physical address 4096), the
validated lists and records in an object at physical address 8192, the shader records
starting 16 bytes into it, and two NV requests recorded, with addresses 0 and 16. -/
def exec_two_requests : exec_info :=
  { bo := [{ paddr := 4096, size := 4096 }], bo_count := 1, bo_index := (0, 0),
    shader_state := [{ packet := 65, addr := 0 }, { packet := 65, addr := 16 }],
    shader_state_count := 2, shader_state_size := 2, shader_paddr := 8208,
    exec_bo := { paddr := 8192, size := 4096 } }

/-- The context `exec_two_requests` with both requests at address 0. -/
def exec_same_requests : exec_info :=
  { exec_two_requests with
    shader_state := [{ packet := 65, addr := 0 }, { packet := 65, addr := 0 }] }

/-- The stores of `validate_shader_rec` for the record `nv_shader_rec` written at offset 16
in the context `exec_two_requests`: the 16 body bytes, then the three relocated fields
(5, 6 and 7 plus the buffer address 4096, low byte first). -/
def nv_shader_rec_out : WriteLog :=
  [(16, 1), (17, 2), (18, 3), (19, 4), (20, 5), (21, 0), (22, 0), (23, 0), (24, 6), (25, 0),
   (26, 0), (27, 0), (28, 7), (29, 0), (30, 0), (31, 0), (20, 5), (21, 16), (22, 0), (23, 0),
   (24, 6), (25, 16), (26, 0), (27, 0), (28, 7), (29, 16), (30, 0), (31, 0)]

/-- A render list for `len = 4294967295`: a two-byte packet (opcode 56) whose payload byte,
at offset 1, is 5, the opcode of a one-byte packet allowed in bin lists only; nop bytes from
offset 2 to 4294967293; and at offset 4294967294 the first byte of a three-byte packet
(opcode 100). -/
def fail_wrap_stream : Mem :=
  fun i => if i = 0 then 56 else if i = 1 then 5 else if i = 4294967294 then 100 else 1

/-- The stream `fail_wrap_stream` with the byte at offset 2 replaced by 0, the halt opcode. -/
def fail_wrap_stream_halt : Mem :=
  fun i => if i = 2 then 0 else fail_wrap_stream i

/-- A list for `len = 4294967295`: a handle packet (opcode 254) selecting buffer 0 twice,
nop bytes from offset 9 to 4294967293, and at offset 4294967294 the first byte of a
three-byte packet (opcode 100). -/
def handles_wrap_stream : Mem :=
  fun i => if i = 0 then 254 else if i ≤ 8 then 0 else if i = 4294967294 then 100 else 1

/-- A submission with empty lists, no shader records and no buffers that declares
4294967295 shader records. -/
def overflow_args : drm_vc4_submit_cl :=
  { bin_cl := fun _ => 0, render_cl := fun _ => 0, shader_records := fun _ => 0,
    bin_cl_len := 0, render_cl_len := 0, shader_record_len := 0,
    shader_record_count := 4294967295, bo_handle_count := 0 }

/-- Two NV shader records one after the other. -/
def two_nv_shader_recs : List Nat := nv_shader_rec ++ nv_shader_rec

/-- A render list made of one "Store Tile Buffer General" packet (opcode 28) whose body is
all zero. -/
def store_none_packet : List Nat := [28, 0, 0, 0, 0, 0, 0]

/-- An environment for the simulator: `roundup(x, y)` and `align(x, y)` round up to a multiple
of `y` as `((x + (y - 1)) / y) * y`, a shader state slot takes 8 bytes, allocations and
copies succeed, fresh memory is zero, the buffers of the submission have 4096 bytes each
and follow each other from physical address 4096 on, `vc4_bo_alloc` returns a buffer of
the size asked for, and the object for the validated lists is at physical address 8192. -/
def E0 : sim_env :=
  { roundup := fun x y => (x + (y - 1)) / y * y
    align := fun x y => (x + (y - 1)) / y * y
    sizeof_vc4_shader_state := 8
    kmalloc_succeeds := fun _ => true
    fresh_bytes := fun _ => 0
    fresh_shader_state := fun _ => { packet := 0, addr := 0 }
    copy_from_user_ret := fun _ => 0
    bo_size := fun _ => 4096
    bo_paddr := fun i => 4096 * (i + 1)
    vc4_bo_alloc_size := fun size => size
    exec_bo_paddr := fun _ => 8192 }

/-- A submission without buffers whose bin list is one branch-to-sublist packet (opcode 17)
with offset 0, and whose render list and shader records are empty. -/
def branch_args : drm_vc4_submit_cl :=
  { bin_cl := mem_of [17, 0, 0, 0, 0], render_cl := fun _ => 0, shader_records := fun _ => 0,
    bin_cl_len := 5, render_cl_len := 0, shader_record_len := 0,
    shader_record_count := 0, bo_handle_count := 0 }

/-- A submission with an empty bin list and a render list of 4294967295 bytes. -/
def wrap_args : drm_vc4_submit_cl :=
  { bin_cl := fun _ => 0, render_cl := fun _ => 1, shader_records := fun _ => 0,
    bin_cl_len := 0, render_cl_len := 4294967295, shader_record_len := 0,
    shader_record_count := 0, bo_handle_count := 0 }


/-- Enumerators numbered from 0 in the order one, two, four, eight and sixteen samples,
with `SWR_MULTISAMPLE_TYPE_MAX` after them. -/
def H0 : state_h :=
  { value := fun c =>
      match c with
      | .SWR_MULTISAMPLE_1X => 0
      | .SWR_MULTISAMPLE_2X => 1
      | .SWR_MULTISAMPLE_4X => 2
      | .SWR_MULTISAMPLE_8X => 3
      | .SWR_MULTISAMPLE_16X => 4
    SWR_MULTISAMPLE_TYPE_MAX := 5 }

/-! ## Basic facts about the embedding -/

theorem load8_lt (m : Mem) (a : Nat) : load8 m a < 256 :=
  Nat.mod_lt _ (by norm_num)

theorem cmd_info_lookup (c : Nat) :
    cmd_info[c]? = if c < 255 then some (cmd_info_init c) else none := by
  unfold cmd_info ARRAY_SIZE_cmd_info
  rw [List.getElem?_map]
  by_cases h : c < 255
  · simp [h, List.getElem?_range h]
  · have h2 : (List.range 255).length ≤ c := by simp; omega
    simp [h, List.getElem?_eq_none h2]

set_option maxRecDepth 100000 in
/-- The table slots without a designated initialiser have no name. -/
theorem cmd_info_init_unnamed : ∀ c, c < 255 →
    c ∈ [0, 1, 4, 5, 6, 7, 8, 17, 24, 25, 28, 29, 32, 33, 56, 64, 65, 96, 97, 98, 99, 100,
      101, 102, 103, 105, 106, 112, 113, 114, 115, 254] ∨ (cmd_info_init c).name = none := by
  decide

/-- More fuel does not change a result already obtained. -/
theorem loop_fuel_mono (K : vc4_packet_h) (u : Mem) (len : Nat) (is_bin : Bool)
    (f k : Nat) (s : WalkState) (r : WalkResult)
    (h : vc4_validate_cl_loop K u len is_bin f s = some r) :
    vc4_validate_cl_loop K u len is_bin (f + k) s = some r := by
  induction f generalizing s with
  | zero => simp [vc4_validate_cl_loop] at h
  | succ f ih =>
    rw [Nat.add_right_comm]
    simp only [vc4_validate_cl_loop] at h ⊢
    cases hstep : vc4_validate_cl_iter K u len is_bin s with
    | next s2 => rw [hstep] at h; exact ih s2 h
    | done r2 => rw [hstep] at h; exact h

/-- The loop started in `s0` and having gone round `n` times to `s` continues as the loop
started in `s`. -/
theorem loop_of_at (K : vc4_packet_h) (u : Mem) (len : Nat) (is_bin : Bool)
    (n f : Nat) (s0 s : WalkState)
    (h : vc4_validate_cl_at K u len is_bin n s0 = some s) :
    vc4_validate_cl_loop K u len is_bin (n + f) s0 = vc4_validate_cl_loop K u len is_bin f s := by
  induction n generalizing s0 with
  | zero =>
    simp only [vc4_validate_cl_at, Option.some.injEq] at h
    simp [h]
  | succ n ih =>
    rw [Nat.add_right_comm]
    simp only [vc4_validate_cl_at] at h
    simp only [vc4_validate_cl_loop]
    cases hstep : vc4_validate_cl_iter K u len is_bin s0 with
    | next s2 => rw [hstep] at h; exact ih s2 h
    | done r2 => rw [hstep] at h; simp at h

/-- A pass of the loop that leaves the function at a reached packet decides the result of
`vc4_validate_cl` for every sufficient fuel. -/
theorem result_of_reached (K : vc4_packet_h) (u : Mem) (len : Nat) (is_bin : Bool)
    (exec : exec_info) (n : Nat) (s : WalkState) (r : WalkResult)
    (hr : Reached K u len is_bin exec n s)
    (hstep : vc4_validate_cl_iter K u len is_bin s = .done r) (fuel : Nat) (hf : n < fuel) :
    vc4_validate_cl K fuel u len is_bin exec = some r := by
  obtain ⟨k, rfl⟩ : ∃ k, fuel = n + (1 + k) := ⟨fuel - n - 1, by omega⟩
  unfold vc4_validate_cl
  rw [loop_of_at K u len is_bin n (1 + k) _ s hr.1, Nat.add_comm 1 k]
  simp [vc4_validate_cl_loop, hstep]

/-- The loop body at an opcode whose table slot has no name. -/
theorem body_packet_invalid (K : vc4_packet_h) (u : Mem) (len : Nat) (is_bin : Bool)
    (s : WalkState) (hc : load8 u s.src_offset < 255)
    (hn : (cmd_info_init (load8 u s.src_offset)).name = none) :
    vc4_validate_cl_body K u len is_bin s = .done (.einval .packet_invalid s) := by
  have h1 : ¬ load8 u s.src_offset > ARRAY_SIZE_cmd_info := by
    unfold ARRAY_SIZE_cmd_info; omega
  simp [vc4_validate_cl_body, vc4_validate_cl_checks, h1, cmd_info_lookup, hc, hn]

/-- The loop body at an opcode with a table entry that the list check refuses. -/
theorem body_invalid_for_list (K : vc4_packet_h) (u : Mem) (len : Nat) (is_bin : Bool)
    (s : WalkState) (hc : load8 u s.src_offset < 255)
    (hn : (cmd_info_init (load8 u s.src_offset)).name.isSome = true)
    (hl : list_check_fails is_bin (cmd_info_init (load8 u s.src_offset)) = true) :
    vc4_validate_cl_body K u len is_bin s = .done (.einval .invalid_for_list s) := by
  have h1 : ¬ load8 u s.src_offset > ARRAY_SIZE_cmd_info := by
    unfold ARRAY_SIZE_cmd_info; omega
  have hn2 : (cmd_info_init (load8 u s.src_offset)).name ≠ none := by
    intro h; rw [h] at hn; simp at hn
  simp [vc4_validate_cl_body, vc4_validate_cl_checks, h1, cmd_info_lookup, hc, hn2, hl]

/-- Appending one pass at the end of `n` passes. -/
theorem at_succ_last (K : vc4_packet_h) (u : Mem) (len : Nat) (is_bin : Bool)
    (n : Nat) (s0 s s2 : WalkState)
    (h : vc4_validate_cl_at K u len is_bin n s0 = some s)
    (hstep : vc4_validate_cl_iter K u len is_bin s = .next s2) :
    vc4_validate_cl_at K u len is_bin (n + 1) s0 = some s2 := by
  induction n generalizing s0 with
  | zero =>
    simp only [vc4_validate_cl_at, Option.some.injEq] at h
    subst h
    simp [vc4_validate_cl_at, hstep]
  | succ n ih =>
    simp only [vc4_validate_cl_at] at h
    rw [vc4_validate_cl_at]
    cases h0 : vc4_validate_cl_iter K u len is_bin s0 with
    | next s1 => rw [h0] at h; exact ih s1 h
    | done r => rw [h0] at h; simp at h

/-- The loop body at a packet that has a table entry, is allowed in the list, passes the
length test and has no handler: the packet is copied and both offsets move on. -/
theorem body_plain_packet (K : vc4_packet_h) (u : Mem) (len : Nat) (is_bin : Bool)
    (s : WalkState) (hc : load8 u s.src_offset < 255)
    (hn : (cmd_info_init (load8 u s.src_offset)).name.isSome = true)
    (hl : list_check_fails is_bin (cmd_info_init (load8 u s.src_offset)) = false)
    (hlen : (s.src_offset + (cmd_info_init (load8 u s.src_offset)).len) % 4294967296 ≤ len)
    (hf : (cmd_info_init (load8 u s.src_offset)).func = none)
    (h0 : load8 u s.src_offset ≠ 0) :
    vc4_validate_cl_body K u len is_bin s = .next
      { dst_offset := (s.dst_offset + (cmd_info_init (load8 u s.src_offset)).len) % 4294967296
        src_offset := (s.src_offset + (cmd_info_init (load8 u s.src_offset)).len) % 4294967296
        exec := s.exec
        out := s.out ++ memcpy u s.dst_offset s.src_offset
          (cmd_info_init (load8 u s.src_offset)).len } := by
  have h1 : ¬ load8 u s.src_offset > ARRAY_SIZE_cmd_info := by
    unfold ARRAY_SIZE_cmd_info; omega
  have hn2 : (cmd_info_init (load8 u s.src_offset)).name ≠ none := by
    intro h; rw [h] at hn; simp at hn
  have h254 : load8 u s.src_offset ≠ 254 := by
    intro h; rw [h] at hf; simp [cmd_info_init] at hf
  have hlen2 : ¬ (s.src_offset + (cmd_info_init (load8 u s.src_offset)).len) % 4294967296
      > len := by omega
  simp [vc4_validate_cl_body, vc4_validate_cl_checks, vc4_validate_cl_process, run_handler,
    copy_packet, h1, cmd_info_lookup, hc, hn2, hl, hlen2, hf, h0, h254]

/-- A stream that starts with `N` nop bytes is scanned nop by nop: after `n` passes, for
every `n` up to `N`, both offsets are `n` and the context is untouched. -/
theorem nop_run (K : vc4_packet_h) (u : Mem) (len : Nat) (is_bin : Bool)
    (exec : exec_info) (N : Nat) (hu : ∀ i, i < N → load8 u i = 1) (hN : N ≤ len)
    (hlen : len < 4294967296) (n : Nat) (hn : n ≤ N) :
    ∃ out, vc4_validate_cl_at K u len is_bin n (vc4_validate_cl_entry exec) =
      some { dst_offset := n, src_offset := n, exec := exec, out := out } := by
  induction n with
  | zero => exact ⟨[], rfl⟩
  | succ n ih =>
    obtain ⟨out, hout⟩ := ih (by omega)
    have hb : load8 u n = 1 := hu n (by omega)
    refine ⟨out ++ memcpy u n n 1, ?_⟩
    apply at_succ_last K u len is_bin n _ _ _ hout
    have hlt : n < len := by omega
    simp only [vc4_validate_cl_iter, hlt, if_true]
    have hstep := body_plain_packet K u len is_bin
      { dst_offset := n, src_offset := n, exec := exec, out := out }
      (by simp [hb]) (by simp [hb, cmd_info_init])
      (by cases is_bin <;> simp [hb, cmd_info_init, list_check_fails])
      (by simp only [hb, cmd_info_init]; omega)
      (by simp [hb, cmd_info_init]) (by simp [hb])
    rw [hstep]
    simp only [hb, cmd_info_init]
    have hm : (n + 1) % 4294967296 = n + 1 := Nat.mod_eq_of_lt (by omega)
    rw [hm]

/-- The scan of `wrap_stream` with `len = 4294967295` arrives at offset 4294967294. -/
theorem wrap_stream_run (K : vc4_packet_h) (is_bin : Bool) (exec : exec_info) :
    ∃ out, vc4_validate_cl_at K wrap_stream 4294967295 is_bin 4294967294
        (vc4_validate_cl_entry exec) =
      some { dst_offset := 4294967294, src_offset := 4294967294, exec := exec, out := out } :=
  nop_run K wrap_stream 4294967295 is_bin exec 4294967294
    (by intro i hi; have : i ≠ 4294967294 := by omega
        simp [load8, wrap_stream, this])
    (by omega) (by omega) 4294967294 (le_refl _)

/-- The pass of the loop over the last packet of `wrap_stream`: the two-byte packet at offset
4294967294 is copied and both offsets wrap to 0. -/
theorem wrap_stream_step (K : vc4_packet_h) (is_bin : Bool) (exec : exec_info)
    (out : WriteLog) :
    vc4_validate_cl_iter K wrap_stream 4294967295 is_bin
        { dst_offset := 4294967294, src_offset := 4294967294, exec := exec, out := out } =
      .next { dst_offset := 0, src_offset := 0, exec := exec,
              out := out ++ [(4294967294, 56), (4294967295, 1)] } := by
  have hb : load8 wrap_stream 4294967294 = 56 := by simp [load8, wrap_stream]
  have hb1 : load8 wrap_stream (4294967294 + 1) = 1 := by simp [load8, wrap_stream]
  have e56 : cmd_info_init 56 = ⟨true, true, 2, some "primitive list format", none⟩ := rfl
  have hstep := body_plain_packet K wrap_stream 4294967295 is_bin
      { dst_offset := 4294967294, src_offset := 4294967294, exec := exec, out := out }
      (by simp only [hb]; omega) (by simp only [hb, e56]; rfl)
      (by simp only [hb, e56]; cases is_bin <;> rfl)
      (by simp only [hb, e56]; omega)
      (by simp only [hb, e56]) (by simp only [hb]; omega)
  simp only [vc4_validate_cl_iter]
  rw [if_pos (by show 4294967294 < 4294967295; omega), hstep]
  simp only [hb, e56]
  have hm : memcpy wrap_stream 4294967294 4294967294 2 =
      [(4294967294, 56), (4294967295, 1)] := by
    simp only [memcpy, List.range_succ, List.range_zero, List.nil_append, List.map_cons,
      List.map_nil, List.singleton_append, Nat.add_zero, hb, hb1]
  rw [hm]

set_option maxRecDepth 100000 in
/-- The run of `vc4_validate_cl` over `branch_stream` as a bin list. -/
theorem branch_stream_run :
    vc4_validate_cl K0 3 (mem_of branch_stream) 14 true exec_one_bo =
      some (.ok { dst_offset := 5, src_offset := 14, exec := exec_one_bo,
                  out := [(0, 17), (1, 0), (2, 16), (3, 0), (4, 0),
                          (1, 0), (2, 32), (3, 0), (4, 0)] }) := by
  decide

theorem load32_lt (m : Mem) (a : Nat) : load32 m a < 4294967296 := by
  have h0 := load8_lt m a
  have h1 := load8_lt m (a + 1)
  have h2 := load8_lt m (a + 2)
  have h3 := load8_lt m (a + 3)
  unfold load32
  omega

theorem ib_index_size_cases (src : Mem) (untrusted : Nat) :
    ib_index_size src untrusted = 1 ∨ ib_index_size src untrusted = 2 := by
  unfold ib_index_size
  split <;> simp

/-- Apart from the single combination `maxIndex = 0xFFFFFFFE` with 16-bit indices, a packet
accepted by `validate_indexed_prim_list` has an exact product `(maxIndex + 1) * indexWidth`
below 2^32 and within the size of the buffer object selected by the first scratch handle. -/
theorem index_extent_exact_of_accepted (src : Mem) (exec : exec_info) (out : WriteLog)
    (validated untrusted : Nat) (exec2 : exec_info) (out2 : WriteLog)
    (h : validate_indexed_prim_list src exec out validated untrusted = .ok exec2 out2)
    (hne : ¬ (ib_max_index src untrusted = 4294967294 ∧ ib_index_size src untrusted = 2)) :
    (ib_max_index src untrusted + 1) * ib_index_size src untrusted < 4294967296 ∧
      ∃ ib, exec.bo[exec.bo_index.1]? = some ib ∧
        (ib_max_index src untrusted + 1) * ib_index_size src untrusted ≤ ib.size := by
  have hm : ib_max_index src untrusted < 4294967296 := load32_lt src (untrusted + 9)
  unfold validate_indexed_prim_list at h
  simp only at h
  split at h
  · simp at h
  · split at h
    · simp at h
    · rename_i h1 h2
      unfold ib_access_end at h h2
      cases hbo : exec.bo[exec.bo_index.1]? with
      | none => rw [hbo] at h; simp at h
      | some ib =>
        rw [hbo] at h
        simp only at h
        split at h
        · simp at h
        · rename_i h3
          rcases ib_index_size_cases src untrusted with hw | hw
          · rw [hw] at h2 h3 ⊢
            refine ⟨by omega, ib, rfl, by omega⟩
          · rw [hw] at h2 h3 ⊢
            have hne2 : ib_max_index src untrusted ≠ 4294967294 := fun hc => hne ⟨hc, hw⟩
            refine ⟨by omega, ib, rfl, by omega⟩

/-- The combination left out by `index_extent_exact_of_accepted`, `maxIndex = 0xFFFFFFFE`
with 16-bit indices, in a context whose buffer has 0xFFFFFFFF bytes - a size that
`vc4_wrap_bo_with_cma` does not make: the 32-bit `ib_access_end` is 0xFFFFFFFE, which is
not below `maxIndex`, and the packet would be accepted. -/
theorem index_extent_wrap_accepted :
    validate_indexed_prim_list (mem_of wide_index_body) exec_huge_bo [] 0 0 =
        .ok exec_huge_bo (store32 5 0) ∧
      ib_max_index (mem_of wide_index_body) 0 = 4294967294 ∧
      ib_index_size (mem_of wide_index_body) 0 = 2 ∧
      ib_access_end (mem_of wide_index_body) 0 = 4294967294 ∧
      ¬ ((4294967294 + 1) * 2 < 4294967296) ∧
      ¬ ((4294967294 + 1) * 2 ≤ 4294967295) := by
  refine ⟨by decide, by decide, by decide, by decide, by omega, by omega⟩

/-- The size of an object made by `vc4_wrap_bo_with_cma` is a multiple of 4096 that fits a
`uint32_t`, hence at most 0xFFFFF000, whenever `align(x, 4096)` is a multiple of 4096. -/
theorem wrap_bo_size (E : sim_env) (halign : ∀ x, 4096 ∣ E.align x 4096)
    (paddr bo_size : Nat) :
    4096 ∣ (vc4_wrap_bo_with_cma E paddr bo_size).size ∧
      (vc4_wrap_bo_with_cma E paddr bo_size).size ≤ 4294963200 := by
  obtain ⟨k, hk⟩ := halign bo_size
  show 4096 ∣ E.align bo_size 4096 % 4294967296 ∧ E.align bo_size 4096 % 4294967296 ≤ 4294963200
  rw [hk]
  omega

/-- Every entry of the buffer table made by `vc4_simulator_pin_bos` is an object made by
`vc4_wrap_bo_with_cma`. -/
theorem pin_bos_made (E : sim_env) (args : drm_vc4_submit_cl) (exec : exec_info)
    (b : drm_gem_cma_object) (hb : b ∈ (vc4_simulator_pin_bos E args exec).bo) :
    ∃ paddr bo_size, b = vc4_wrap_bo_with_cma E paddr bo_size := by
  simp only [vc4_simulator_pin_bos, List.mem_map, List.mem_range] at hb
  obtain ⟨i, _, rfl⟩ := hb
  exact ⟨_, _, rfl⟩

/-- The handler of opcode 32 when the first scratch handle selects the buffer object `ib`:
the three tests in the order of the source. -/
theorem indexed_prim_list_cases (src : Mem) (exec : exec_info) (out : WriteLog)
    (validated untrusted : Nat) (ib : drm_gem_cma_object)
    (hbo : exec.bo[exec.bo_index.1]? = some ib) :
    validate_indexed_prim_list src exec out validated untrusted =
      if ib_max_index src untrusted = 4294967295 then .einval .unlimited_max_index exec out
      else if ib_access_end src untrusted < ib_max_index src untrusted then
        .einval .ib_access_overflow exec out
      else if ib_access_end src untrusted > ib.size then
        .einval .ib_access_out_of_bounds exec out
      else
        .ok exec (out ++ store32 (validated + 5)
          ((load32 src (untrusted + 5) + ib.paddr) % 4294967296)) := by
  simp only [validate_indexed_prim_list, hbo]

theorem store32_span (a v b : Nat) (x : Nat × Nat) (hx : x ∈ store32 (a + b) v) :
    a + b ≤ x.1 ∧ x.1 < a + (b + 4) := by
  simp only [store32, List.mem_cons, List.mem_singleton, List.not_mem_nil, or_false] at hx
  rcases hx with h | h | h | h <;> subst h <;> simp <;> omega

theorem store32_span0 (a v : Nat) (x : Nat × Nat) (hx : x ∈ store32 a v) :
    a ≤ x.1 ∧ x.1 < a + 4 :=
  store32_span a v 0 x hx

/-- What a successful handler does to the output log: it appends stores that all fall in
the first `handler_span` bytes of the output body. -/
theorem call_func_ok_out (K : vc4_packet_h) (f : validate_fn) (u : Mem) (exec : exec_info)
    (out : WriteLog) (v unt : Nat) (e : exec_info) (o : WriteLog)
    (h : call_func K f u exec out v unt = .ok e o) :
    ∃ w, o = out ++ w ∧ ∀ x ∈ w, v ≤ x.1 ∧ x.1 < v + handler_span f := by
  cases f <;>
    simp only [call_func, validate_branch_to_sublist, validate_loadstore_tile_buffer_general,
      validate_indexed_prim_list, validate_gl_shader_state, validate_nv_shader_state,
      validate_tile_binning_config, validate_tile_rendering_mode_config,
      validate_gem_handles, handler_span] at h ⊢
  · split at h
    · simp at h
    · simp only [HandlerResult.ok.injEq] at h
      exact ⟨_, h.2.symm, fun x hx => store32_span v _ 0 x hx⟩
  · split at h
    · simp only [HandlerResult.ok.injEq] at h
      exact ⟨[], by simp [h.2], by simp⟩
    · split at h
      · simp at h
      · simp only [HandlerResult.ok.injEq] at h
        exact ⟨_, h.2.symm, fun x hx => by have := store32_span v _ 2 x hx; omega⟩
  · split at h
    · simp at h
    · split at h
      · simp at h
      · split at h
        · simp at h
        · split at h
          · simp at h
          · simp only [HandlerResult.ok.injEq] at h
            exact ⟨_, h.2.symm, fun x hx => by have := store32_span v _ 5 x hx; omega⟩
  · split at h
    · simp at h
    · split at h
      · simp at h
      · simp only [HandlerResult.ok.injEq] at h
        exact ⟨_, h.2.symm, fun x hx => store32_span0 v _ x hx⟩
  · split at h
    · simp at h
    · split at h
      · simp at h
      · split at h
        · simp at h
        · simp only [HandlerResult.ok.injEq] at h
          exact ⟨_, h.2.symm, fun x hx => store32_span0 v _ x hx⟩
  · split at h
    · simp at h
    · split at h
      · simp at h
      · simp only [HandlerResult.ok.injEq] at h
        refine ⟨_, by rw [← h.2, List.append_assoc], fun x hx => ?_⟩
        rcases List.mem_append.1 hx with h1 | h1
        · have := store32_span0 v _ x h1; omega
        · have := store32_span v _ 8 x h1; omega
  · split at h
    · simp at h
    · simp only [HandlerResult.ok.injEq] at h
      exact ⟨_, h.2.symm, fun x hx => store32_span0 v _ x hx⟩
  · split at h
    · simp at h
    · split at h
      · simp at h
      · simp only [HandlerResult.ok.injEq] at h
        exact ⟨[], by simp [h.2], by simp⟩

/-- A handler that fails has written nothing to the output. -/
theorem call_func_einval_out (K : vc4_packet_h) (f : validate_fn) (u : Mem)
    (exec : exec_info) (out : WriteLog) (v unt : Nat) (er : HandlerError) (e : exec_info)
    (o : WriteLog) (h : call_func K f u exec out v unt = .einval er e o) : o = out := by
  cases f <;>
    simp only [call_func, validate_branch_to_sublist, validate_loadstore_tile_buffer_general,
      validate_indexed_prim_list, validate_gl_shader_state, validate_nv_shader_state,
      validate_tile_binning_config, validate_tile_rendering_mode_config,
      validate_gem_handles] at h <;>
    (repeat' split at h) <;> simp_all

/-- What passing the three checks means. -/
theorem checks_pass (u : Mem) (len : Nat) (is_bin : Bool) (s : WalkState)
    (info : cmd_info_entry) (h : vc4_validate_cl_checks u len is_bin s = .pass info) :
    load8 u s.src_offset < 255 ∧ info = cmd_info_init (load8 u s.src_offset) ∧
      cmd_info[load8 u s.src_offset]? = some info ∧
      info.name.isSome = true ∧ list_check_fails is_bin info = false ∧
      (s.src_offset + info.len) % 4294967296 ≤ len := by
  unfold vc4_validate_cl_checks at h
  simp only at h
  split at h
  · simp at h
  · split at h
    · simp at h
    · rename_i info2 hinfo
      split at h
      · simp at h
      · split at h
        · simp at h
        · split at h
          · simp at h
          · rename_i hname hlist hlen
            simp only [Checked.pass.injEq] at h
            subst h
            have hl := hinfo
            rw [cmd_info_lookup] at hl
            by_cases hc : load8 u s.src_offset < 255
            · rw [if_pos hc] at hl
              simp only [Option.some.injEq] at hl
              refine ⟨hc, hl.symm, hinfo, ?_, by simpa using hlist, by omega⟩
              cases hnm : info2.name with
              | none => rw [hnm] at hname; simp at hname
              | some nm => rfl
            · rw [if_neg hc] at hl
              simp at hl

set_option maxRecDepth 100000 in
/-- Every named table entry has a length between 1 and 16, and the stores of its handler, if
it has one, fall inside the packet body. -/
theorem cmd_info_init_len : ∀ c, c < 255 → (cmd_info_init c).name.isSome = true →
    1 ≤ (cmd_info_init c).len ∧ (cmd_info_init c).len ≤ 16 ∧
      ∀ f, (cmd_info_init c).func = some f → handler_span f + 1 ≤ (cmd_info_init c).len := by
  decide

/-- The output log after the pass over a packet that went through: the log before, the copy
of the packet at `dst_offset` (unless the opcode is 254), then the handler's stores, all of
them inside the output body of this packet. -/
theorem process_out (K : vc4_packet_h) (u : Mem) (s t : WalkState) (info : cmd_info_entry)
    (h : vc4_validate_cl_process K u s info = .next t ∨
      vc4_validate_cl_process K u s info = .done (.ok t)) :
    t.dst_offset = (if load8 u s.src_offset ≠ 254
        then (s.dst_offset + info.len) % 4294967296 else s.dst_offset) ∧
      t.src_offset = (s.src_offset + info.len) % 4294967296 ∧
      ∃ w, t.out = copy_packet u s info ++ w ∧
        ∀ x ∈ w, s.dst_offset + 1 ≤ x.1 ∧
          ∃ f, info.func = some f ∧ x.1 < s.dst_offset + 1 + handler_span f := by
  unfold vc4_validate_cl_process at h
  simp only at h
  cases hr : run_handler K u s info with
  | undefined f => rw [hr] at h; simp at h
  | einval e x o => rw [hr] at h; simp at h
  | ok x o =>
    rw [hr] at h
    simp only at h
    have hw : ∃ w, o = copy_packet u s info ++ w ∧
        ∀ y ∈ w, s.dst_offset + 1 ≤ y.1 ∧
          ∃ f, info.func = some f ∧ y.1 < s.dst_offset + 1 + handler_span f := by
      unfold run_handler at hr
      cases hf : info.func with
      | none =>
        rw [hf] at hr
        simp only [HandlerResult.ok.injEq] at hr
        exact ⟨[], by simp [hr.2], by simp⟩
      | some f =>
        rw [hf] at hr
        obtain ⟨w, hw1, hw2⟩ := call_func_ok_out K f u _ _ _ _ _ _ hr
        exact ⟨w, hw1, fun y hy => ⟨(hw2 y hy).1, f, rfl, (hw2 y hy).2⟩⟩
    split at h
    · rcases h with h | h
      · simp at h
      · simp only [LoopStep.done.injEq, WalkResult.ok.injEq] at h
        subst h
        exact ⟨rfl, rfl, hw⟩
    · rcases h with h | h
      · simp only [LoopStep.next.injEq] at h
        subst h
        exact ⟨rfl, rfl, hw⟩
      · simp at h

/-- A pass of the loop that goes through (continues, or stops at halt) passed the checks. -/
theorem iter_through (K : vc4_packet_h) (u : Mem) (len : Nat) (is_bin : Bool)
    (s t : WalkState) (hlt : s.src_offset < len)
    (h : vc4_validate_cl_iter K u len is_bin s = .next t ∨
      vc4_validate_cl_iter K u len is_bin s = .done (.ok t)) :
    ∃ info, vc4_validate_cl_checks u len is_bin s = .pass info ∧
      (vc4_validate_cl_process K u s info = .next t ∨
        vc4_validate_cl_process K u s info = .done (.ok t)) := by
  unfold vc4_validate_cl_iter at h
  rw [if_pos hlt] at h
  unfold vc4_validate_cl_body at h
  cases hck : vc4_validate_cl_checks u len is_bin s with
  | fail e => rw [hck] at h; simp at h
  | undefined f => rw [hck] at h; simp at h
  | pass info => rw [hck] at h; exact ⟨info, rfl, h⟩

theorem memcpy_span (u : Mem) (d a n : Nat) (x : Nat × Nat) (hx : x ∈ memcpy u d a n) :
    d ≤ x.1 ∧ x.1 < d + n := by
  simp only [memcpy, List.mem_map, List.mem_range] at hx
  obtain ⟨i, hi, rfl⟩ := hx
  simp only
  omega

/-- For stream lengths up to 2^32 - 16 the length test is exact: a packet that passes the
checks ends inside the stream, `src_offset + length <= len` without wrap-around. -/
theorem length_check_exact (u : Mem) (len : Nat) (is_bin : Bool) (s : WalkState)
    (info : cmd_info_entry) (hlt : s.src_offset < len) (hlen : len ≤ 4294967280)
    (h : vc4_validate_cl_checks u len is_bin s = .pass info) :
    s.src_offset + info.len ≤ len ∧ 1 ≤ info.len := by
  obtain ⟨hc, hi, _, hn, _, hm⟩ := checks_pass u len is_bin s info h
  subst hi
  have hl := cmd_info_init_len _ hc hn
  have : (s.src_offset + (cmd_info_init (load8 u s.src_offset)).len) % 4294967296 =
      s.src_offset + (cmd_info_init (load8 u s.src_offset)).len :=
    Nat.mod_eq_of_lt (by omega)
  omega

/-- For stream lengths up to 2^32 - 16, a packet with a table entry that is allowed in the
list and whose table length exceeds the bytes left in the stream is refused with "length
exceeds bounds", in the state it was reached in. -/
theorem truncated_packet_rejected (K : vc4_packet_h) (u : Mem) (len : Nat) (is_bin : Bool)
    (s : WalkState) (hlt : s.src_offset < len) (hlen : len ≤ 4294967280)
    (hc : load8 u s.src_offset < 255)
    (hn : (cmd_info_init (load8 u s.src_offset)).name.isSome = true)
    (hl : list_check_fails is_bin (cmd_info_init (load8 u s.src_offset)) = false)
    (hshort : len - s.src_offset < (cmd_info_init (load8 u s.src_offset)).len) :
    vc4_validate_cl_iter K u len is_bin s = .done (.einval .length_exceeds_bounds s) := by
  have h1 : ¬ load8 u s.src_offset > ARRAY_SIZE_cmd_info := by
    unfold ARRAY_SIZE_cmd_info; omega
  have hn2 : (cmd_info_init (load8 u s.src_offset)).name ≠ none := by
    intro h; rw [h] at hn; simp at hn
  have hb := cmd_info_init_len _ hc hn
  have hm : (s.src_offset + (cmd_info_init (load8 u s.src_offset)).len) % 4294967296 =
      s.src_offset + (cmd_info_init (load8 u s.src_offset)).len :=
    Nat.mod_eq_of_lt (by omega)
  have hgt : (s.src_offset + (cmd_info_init (load8 u s.src_offset)).len) % 4294967296
      > len := by omega
  simp [vc4_validate_cl_iter, hlt, vc4_validate_cl_body, vc4_validate_cl_checks, h1,
    cmd_info_lookup, hc, hn2, hl, hgt]

/-- The stores made by the pass over a packet that passed the checks, whatever the outcome
of the pass: everything in the resulting log is either in the log before or inside the
output packet `dst_offset .. dst_offset + length - 1`, and nothing is added for
opcode 254. -/
theorem process_stores (K : vc4_packet_h) (u : Mem) (len : Nat) (is_bin : Bool)
    (s : WalkState) (info : cmd_info_entry)
    (hck : vc4_validate_cl_checks u len is_bin s = .pass info) (o : WriteLog)
    (ho : (∃ t, (vc4_validate_cl_process K u s info = .next t ∨
          vc4_validate_cl_process K u s info = .done (.ok t)) ∧ o = t.out) ∨
      (∃ r, vc4_validate_cl_process K u s info = .done r ∧ o = r.state.out)) :
    ∀ x ∈ o, x ∈ s.out ∨
      (load8 u s.src_offset ≠ 254 ∧ s.dst_offset ≤ x.1 ∧ x.1 < s.dst_offset + info.len) := by
  obtain ⟨hc, hi, _, hn, _, _⟩ := checks_pass u len is_bin s info hck
  have hl := cmd_info_init_len _ hc (hi ▸ hn)
  rw [← hi] at hl
  have hcopy : ∀ x ∈ copy_packet u s info, x ∈ s.out ∨
      (load8 u s.src_offset ≠ 254 ∧ s.dst_offset ≤ x.1 ∧ x.1 < s.dst_offset + info.len) := by
    intro x hx
    unfold copy_packet at hx
    split at hx
    · rename_i hne
      rcases List.mem_append.1 hx with h | h
      · exact Or.inl h
      · exact Or.inr ⟨hne, memcpy_span u _ _ _ x h⟩
    · exact Or.inl hx
  have hthrough : ∀ t, (vc4_validate_cl_process K u s info = .next t ∨
      vc4_validate_cl_process K u s info = .done (.ok t)) →
      ∀ x ∈ t.out, x ∈ s.out ∨
        (load8 u s.src_offset ≠ 254 ∧ s.dst_offset ≤ x.1 ∧ x.1 < s.dst_offset + info.len) := by
    intro t ht x hx
    obtain ⟨_, _, w, hw, hwb⟩ := process_out K u s t info ht
    rw [hw] at hx
    rcases List.mem_append.1 hx with h | h
    · exact hcopy x h
    · obtain ⟨h1, f, hf, h2⟩ := hwb x h
      have h3 := hl.2.2 f hf
      by_cases h254 : load8 u s.src_offset = 254
      · exfalso
        have : info.func = some .gem_handles := by rw [hi, h254]; rfl
        rw [this] at hf
        simp only [Option.some.injEq] at hf
        subst hf
        simp only [handler_span] at h2
        omega
      · exact Or.inr ⟨h254, by omega, by omega⟩
  rcases ho with ⟨t, ht, rfl⟩ | ⟨r, hr, rfl⟩
  · exact hthrough t ht
  · cases r with
    | ok t => exact hthrough t (Or.inr hr)
    | einval e t =>
      unfold vc4_validate_cl_process at hr
      simp only at hr
      cases hrun : run_handler K u s info with
      | undefined f => rw [hrun] at hr; simp at hr
      | ok x2 o2 =>
        rw [hrun] at hr
        simp only at hr
        split at hr <;> simp at hr
      | einval e2 x2 o2 =>
        rw [hrun] at hr
        simp only [LoopStep.done.injEq, WalkResult.einval.injEq] at hr
        have ho2 : o2 = copy_packet u s info := by
          unfold run_handler at hrun
          cases hf : info.func with
          | none => rw [hf] at hrun; simp at hrun
          | some f =>
            rw [hf] at hrun
            exact call_func_einval_out K f u _ _ _ _ _ _ _ hrun
        rw [← hr.2, ho2]
        exact hcopy
    | undefined f t =>
      unfold vc4_validate_cl_process at hr
      simp only at hr
      cases hrun : run_handler K u s info with
      | undefined f2 =>
        rw [hrun] at hr
        simp only [LoopStep.done.injEq, WalkResult.undefined.injEq] at hr
        rw [← hr.2]
        exact hcopy
      | ok x2 o2 =>
        rw [hrun] at hr
        simp only at hr
        split at hr <;> simp at hr
      | einval e2 x2 o2 => rw [hrun] at hr; simp at hr

/-- The loop invariant is kept by a pass that goes round again. -/
theorem iter_inv (K : vc4_packet_h) (u : Mem) (len : Nat) (is_bin : Bool) (s t : WalkState)
    (hlen : len ≤ 4294967280) (hinv : walk_inv len s)
    (h : vc4_validate_cl_iter K u len is_bin s = .next t) : walk_inv len t := by
  by_cases hlt : s.src_offset < len
  · obtain ⟨info, hck, hpr⟩ := iter_through K u len is_bin s t hlt (Or.inl h)
    obtain ⟨hle, h1⟩ := length_check_exact u len is_bin s info hlt hlen hck
    obtain ⟨hd, hs, _⟩ := process_out K u s t info hpr
    have hst := process_stores K u len is_bin s info hck t.out (Or.inl ⟨t, hpr, rfl⟩)
    obtain ⟨i1, i2, i3⟩ := hinv
    have hs2 : t.src_offset = s.src_offset + info.len := by
      rw [hs]; exact Nat.mod_eq_of_lt (by omega)
    have hm : (s.dst_offset + info.len) % 4294967296 = s.dst_offset + info.len :=
      Nat.mod_eq_of_lt (by omega)
    rw [hm] at hd
    refine ⟨?_, by omega, ?_⟩
    · rw [hd, hs2]; split <;> omega
    · intro x hx
      rcases hst x hx with hx1 | ⟨hne, _, hx2⟩
      · have := i3 x hx1
        rw [hd]; split <;> omega
      · rw [hd, if_pos hne]; exact hx2
  · unfold vc4_validate_cl_iter at h
    rw [if_neg hlt] at h
    simp at h

/-- When a pass leaves the function from a state satisfying the loop invariant, every byte
stored so far lies below `len`. -/
theorem iter_done_out (K : vc4_packet_h) (u : Mem) (len : Nat) (is_bin : Bool)
    (s : WalkState) (r : WalkResult) (hlen : len ≤ 4294967280) (hinv : walk_inv len s)
    (h : vc4_validate_cl_iter K u len is_bin s = .done r) :
    ∀ x ∈ r.state.out, x.1 < len := by
  obtain ⟨i1, i2, i3⟩ := hinv
  have hold : ∀ x ∈ s.out, x.1 < len := fun x hx => by have := i3 x hx; omega
  by_cases hlt : s.src_offset < len
  · unfold vc4_validate_cl_iter at h
    rw [if_pos hlt] at h
    unfold vc4_validate_cl_body at h
    cases hck : vc4_validate_cl_checks u len is_bin s with
    | fail e =>
      rw [hck] at h
      simp only [LoopStep.done.injEq] at h
      subst h
      exact hold
    | undefined f =>
      rw [hck] at h
      simp only [LoopStep.done.injEq] at h
      subst h
      exact hold
    | pass info =>
      rw [hck] at h
      simp only at h
      obtain ⟨hle, _⟩ := length_check_exact u len is_bin s info hlt hlen hck
      intro x hx
      rcases process_stores K u len is_bin s info hck r.state.out
        (Or.inr ⟨r, h, rfl⟩) x hx with hx1 | ⟨_, _, hx2⟩
      · exact hold x hx1
      · omega
  · unfold vc4_validate_cl_iter at h
    rw [if_neg hlt] at h
    simp only [LoopStep.done.injEq] at h
    subst h
    exact hold

/-- For every stream length up to 2^32 - 16, whatever the stream, the list type and the
context, and however `vc4_validate_cl` ends, every byte stored in the output buffer lies at
an offset strictly below `len`. -/
theorem output_stores_below_len (K : vc4_packet_h) (u : Mem) (len : Nat) (is_bin : Bool)
    (exec : exec_info) (fuel : Nat) (r : WalkResult) (hlen : len ≤ 4294967280)
    (h : vc4_validate_cl K fuel u len is_bin exec = some r) :
    ∀ x ∈ r.state.out, x.1 < len := by
  have hgen : ∀ (f : Nat) (s : WalkState), walk_inv len s →
      vc4_validate_cl_loop K u len is_bin f s = some r → ∀ x ∈ r.state.out, x.1 < len := by
    intro f
    induction f with
    | zero => intro s _ hl; simp [vc4_validate_cl_loop] at hl
    | succ f ih =>
      intro s hinv hl
      simp only [vc4_validate_cl_loop] at hl
      cases hstep : vc4_validate_cl_iter K u len is_bin s with
      | next t =>
        rw [hstep] at hl
        exact ih t (iter_inv K u len is_bin s t hlen hinv hstep) hl
      | done r2 =>
        rw [hstep] at hl
        simp only [Option.some.injEq] at hl
        subst hl
        exact iter_done_out K u len is_bin s r2 hlen hinv hstep
  exact hgen fuel _ ⟨le_refl _, Nat.zero_le _, by simp [vc4_validate_cl_entry]⟩ h

/-! ### Passes over packets without handler -/

theorem plain_opcode_facts (is_bin : Bool) (c : Nat) (hp : plain_opcode is_bin c = true) :
    c < 255 ∧ (cmd_info_init c).name.isSome = true ∧
      list_check_fails is_bin (cmd_info_init c) = false ∧ (cmd_info_init c).func = none ∧
      c ≠ 254 ∧ 1 ≤ table_len c ∧ table_len c ≤ 16 := by
  simp only [plain_opcode, Bool.and_eq_true, decide_eq_true_eq, Bool.not_eq_true',
    Option.isNone_iff_eq_none] at hp
  obtain ⟨⟨⟨h1, h2⟩, h3⟩, h4⟩ := hp
  have h5 := cmd_info_init_len c h1 h2
  refine ⟨h1, h2, h3, h4, ?_, h5.1, h5.2.1⟩
  intro h
  rw [h] at h4
  simp [cmd_info_init] at h4

/-- The pass of the loop over a packet without handler that passes the checks. -/
theorem iter_plain (K : vc4_packet_h) (u : Mem) (len : Nat) (is_bin : Bool) (s : WalkState)
    (c : Nat) (hlt : s.src_offset < len) (hc : load8 u s.src_offset = c)
    (hp : plain_opcode is_bin c = true)
    (hlen : (s.src_offset + table_len c) % 4294967296 ≤ len) :
    vc4_validate_cl_iter K u len is_bin s =
      if c = 0 then .done (.ok (plain_next u s c)) else .next (plain_next u s c) := by
  obtain ⟨h1, h2, h3, h4, h5, _, _⟩ := plain_opcode_facts is_bin c hp
  have ha : ¬ c > ARRAY_SIZE_cmd_info := by unfold ARRAY_SIZE_cmd_info; omega
  have hn : (cmd_info_init c).name ≠ none := by
    intro h; rw [h] at h2; simp at h2
  have hlen2 : ¬ (s.src_offset + (cmd_info_init c).len) % 4294967296 > len := by
    unfold table_len at hlen; omega
  simp [vc4_validate_cl_iter, hlt, vc4_validate_cl_body, vc4_validate_cl_checks,
    vc4_validate_cl_process, run_handler, copy_packet, hc, ha, cmd_info_lookup, h1, hn, h3,
    hlen2, h4, h5, plain_next, table_len]

theorem at_step (K : vc4_packet_h) (u : Mem) (len : Nat) (is_bin : Bool) (n : Nat)
    (s s2 : WalkState) (h : vc4_validate_cl_iter K u len is_bin s = .next s2) :
    vc4_validate_cl_at K u len is_bin (n + 1) s = vc4_validate_cl_at K u len is_bin n s2 := by
  simp [vc4_validate_cl_at, h]

theorem scanned_step (K : vc4_packet_h) (u : Mem) (len : Nat) (is_bin : Bool) (f : Nat)
    (s s2 : WalkState) (h : vc4_validate_cl_iter K u len is_bin s = .next s2) :
    vc4_validate_cl_scanned K u len is_bin (f + 1) s =
      load8 u s.src_offset :: vc4_validate_cl_scanned K u len is_bin f s2 := by
  simp [vc4_validate_cl_scanned, h]

theorem loop_step (K : vc4_packet_h) (u : Mem) (len : Nat) (is_bin : Bool) (f : Nat)
    (s s2 : WalkState) (h : vc4_validate_cl_iter K u len is_bin s = .next s2) :
    vc4_validate_cl_loop K u len is_bin (f + 1) s =
      vc4_validate_cl_loop K u len is_bin f s2 := by
  simp [vc4_validate_cl_loop, h]

theorem loop_done (K : vc4_packet_h) (u : Mem) (len : Nat) (is_bin : Bool) (f : Nat)
    (s : WalkState) (r : WalkResult) (h : vc4_validate_cl_iter K u len is_bin s = .done r) :
    vc4_validate_cl_loop K u len is_bin (f + 1) s = some r := by
  simp [vc4_validate_cl_loop, h]

/-- Composition of two stretches of passes. -/
theorem at_trans (K : vc4_packet_h) (u : Mem) (len : Nat) (is_bin : Bool) (n m : Nat)
    (s0 s1 s2 : WalkState) (h1 : vc4_validate_cl_at K u len is_bin n s0 = some s1)
    (h2 : vc4_validate_cl_at K u len is_bin m s1 = some s2) :
    vc4_validate_cl_at K u len is_bin (n + m) s0 = some s2 := by
  induction n generalizing s0 with
  | zero =>
    simp only [vc4_validate_cl_at, Option.some.injEq] at h1
    subst h1
    simpa using h2
  | succ n ih =>
    simp only [vc4_validate_cl_at] at h1
    cases hstep : vc4_validate_cl_iter K u len is_bin s0 with
    | next t =>
      rw [hstep] at h1
      rw [Nat.add_right_comm, at_step K u len is_bin (n + m) s0 t hstep]
      exact ih t h1
    | done r => rw [hstep] at h1; simp at h1

/-- The opcodes scanned along a stretch of passes followed by more passes. -/
theorem scanned_trans (K : vc4_packet_h) (u : Mem) (len : Nat) (is_bin : Bool) (n : Nat)
    (s0 s1 : WalkState) (h1 : vc4_validate_cl_at K u len is_bin n s0 = some s1) (f : Nat) :
    vc4_validate_cl_scanned K u len is_bin (n + f) s0 =
      vc4_validate_cl_scanned K u len is_bin n s0 ++
        vc4_validate_cl_scanned K u len is_bin f s1 := by
  induction n generalizing s0 with
  | zero =>
    simp only [vc4_validate_cl_at, Option.some.injEq] at h1
    subst h1
    simp [vc4_validate_cl_scanned]
  | succ n ih =>
    simp only [vc4_validate_cl_at] at h1
    cases hstep : vc4_validate_cl_iter K u len is_bin s0 with
    | next t =>
      rw [hstep] at h1
      rw [Nat.add_right_comm, scanned_step K u len is_bin (n + f) s0 t hstep,
        scanned_step K u len is_bin n s0 t hstep, ih t h1]
      rfl
    | done r => rw [hstep] at h1; simp at h1

/-- A stretch of `n` nop bytes starting at the current source offset is scanned nop by
nop. -/
theorem nop_segment (K : vc4_packet_h) (u : Mem) (len : Nat) (is_bin : Bool) (n : Nat)
    (s : WalkState) (hu : ∀ i, i < n → load8 u (s.src_offset + i) = 1)
    (hn : s.src_offset + n ≤ len) (hlen : len < 4294967296)
    (hd : s.dst_offset + n < 4294967296) :
    ∃ out, vc4_validate_cl_at K u len is_bin n s =
        some { dst_offset := s.dst_offset + n, src_offset := s.src_offset + n,
               exec := s.exec, out := out } ∧
      vc4_validate_cl_scanned K u len is_bin n s = List.replicate n 1 := by
  induction n generalizing s with
  | zero => exact ⟨s.out, rfl, rfl⟩
  | succ n ih =>
    have hb : load8 u s.src_offset = 1 := by simpa using hu 0 (by omega)
    have hp : plain_opcode is_bin 1 = true := by cases is_bin <;> decide
    have ht : table_len 1 = 1 := rfl
    have hstep := iter_plain K u len is_bin s 1 (by omega) hb hp
      (by rw [ht]; have := Nat.mod_le (s.src_offset + 1) 4294967296; omega)
    rw [if_neg (by decide)] at hstep
    have e1 : (s.dst_offset + 1) % 4294967296 = s.dst_offset + 1 :=
      Nat.mod_eq_of_lt (by omega)
    have e2 : (s.src_offset + 1) % 4294967296 = s.src_offset + 1 :=
      Nat.mod_eq_of_lt (by omega)
    obtain ⟨out, h1, h2⟩ := ih (plain_next u s 1)
      (by intro i hi
          simp only [plain_next, ht, e2]
          have := hu (i + 1) (by omega)
          rw [← this]; congr 1; omega)
      (by simp only [plain_next, ht, e2]; omega)
      (by simp only [plain_next, ht, e1]; omega)
    refine ⟨out, ?_, ?_⟩
    · rw [at_step K u len is_bin n s _ hstep, h1]
      simp only [plain_next, ht, e1, e2]
      congr 2 <;> omega
    · rw [scanned_step K u len is_bin n s _ hstep, h2, hb]
      rfl

theorem total_len_append (a b : List Nat) : total_len (a ++ b) = total_len a + total_len b := by
  simp [total_len]

theorem total_len_nops (n : Nat) : total_len (List.replicate n 1) = n := by
  induction n with
  | zero => rfl
  | succ n ih =>
    rw [List.replicate_succ]
    have h : total_len (1 :: List.replicate n 1) = table_len 1 + total_len (List.replicate n 1) := by
      simp [total_len]
    rw [h, ih]
    have : table_len 1 = 1 := rfl
    omega

theorem filter_nops (n : Nat) :
    (List.replicate n 1).filter (fun c => decide (c ≠ 254)) = List.replicate n 1 := by
  induction n with
  | zero => rfl
  | succ n ih =>
    rw [List.replicate_succ, List.filter_cons_of_pos (by decide), ih]

/-- The table lengths of the opcodes 56, `n` times 1, 100, 0 add up to `n + 6`, none of them
being 254. -/
theorem wrap_opcodes_len (n : Nat) :
    total_len (56 :: (List.replicate n 1 ++ [100, 0])) = n + 6 ∧
      (56 :: (List.replicate n 1 ++ [100, 0])).filter (fun c => decide (c ≠ 254)) =
        56 :: (List.replicate n 1 ++ [100, 0]) ∧
      (56 :: (List.replicate n 1 ++ [100, 0])).count 254 = 0 := by
  have h1 : total_len (56 :: (List.replicate n 1 ++ [100, 0])) =
      table_len 56 + total_len (List.replicate n 1 ++ [100, 0]) := by
    simp [total_len]
  have h2 : total_len [100, 0] = 4 := rfl
  have h3 : table_len 56 = 2 := rfl
  refine ⟨?_, ?_, ?_⟩
  · rw [h1, total_len_append, total_len_nops, h2, h3]
    omega
  · rw [List.filter_cons_of_pos (by decide), List.filter_append, filter_nops]
    rfl
  · rw [List.count_cons, List.count_append, List.count_replicate]
    simp

/-- The scan of `halt_wrap_stream` with `len = 4294967295`: after the two-byte packet at
offset 0, the nop bytes and the three-byte packet at offset 4294967294, both offsets have
wrapped to 1. -/
theorem halt_wrap_run (K : vc4_packet_h) (is_bin : Bool) (exec : exec_info) :
    ∃ out, vc4_validate_cl_at K halt_wrap_stream 4294967295 is_bin 4294967294
          (vc4_validate_cl_entry exec) =
        some { dst_offset := 1, src_offset := 1, exec := exec, out := out } ∧
      vc4_validate_cl_scanned K halt_wrap_stream 4294967295 is_bin 4294967294
          (vc4_validate_cl_entry exec) =
        56 :: (List.replicate 4294967292 1 ++ [100]) := by
  have hp56 : plain_opcode is_bin 56 = true := by cases is_bin <;> decide
  have hp100 : plain_opcode is_bin 100 = true := by cases is_bin <;> decide
  have t56 : table_len 56 = 2 := rfl
  have t100 : table_len 100 = 3 := rfl
  -- the packet at offset 0
  have hb0 : load8 halt_wrap_stream (vc4_validate_cl_entry exec).src_offset = 56 := by
    simp [load8, halt_wrap_stream, vc4_validate_cl_entry]
  have hstep1 := iter_plain K halt_wrap_stream 4294967295 is_bin (vc4_validate_cl_entry exec)
    56 (by simp [vc4_validate_cl_entry]) hb0 hp56
    (by rw [t56]; simp [vc4_validate_cl_entry])
  rw [if_neg (by decide)] at hstep1
  obtain ⟨o1, ho1⟩ : ∃ o1, plain_next halt_wrap_stream (vc4_validate_cl_entry exec) 56 =
      { dst_offset := 2, src_offset := 2, exec := exec, out := o1 } :=
    ⟨[] ++ memcpy halt_wrap_stream 0 0 2, by simp [plain_next, t56, vc4_validate_cl_entry]⟩
  rw [ho1] at hstep1
  -- the nop bytes
  obtain ⟨o2, ho2, hsc2⟩ := nop_segment K halt_wrap_stream 4294967295 is_bin 4294967292
    { dst_offset := 2, src_offset := 2, exec := exec, out := o1 }
    (by intro i hi
        have a1 : ¬ (2 + i = 0) := by omega
        have a2 : ¬ (2 + i = 1) := by omega
        have a3 : ¬ (2 + i = 4294967294) := by omega
        simp [load8, halt_wrap_stream, a1, a2, a3])
    (by show 2 + 4294967292 ≤ 4294967295; omega) (by omega)
    (by show 2 + 4294967292 < 4294967296; omega)
  have e2 : (2 : Nat) + 4294967292 = 4294967294 := by omega
  have ho2b : vc4_validate_cl_at K halt_wrap_stream 4294967295 is_bin 4294967292
      { dst_offset := 2, src_offset := 2, exec := exec, out := o1 } =
      some { dst_offset := 4294967294, src_offset := 4294967294, exec := exec, out := o2 } := by
    simp only [e2] at ho2
    exact ho2
  -- the packet at offset 4294967294
  have hb3 : load8 halt_wrap_stream 4294967294 = 100 := by
    simp [load8, halt_wrap_stream]
  have hstep3 := iter_plain K halt_wrap_stream 4294967295 is_bin
    { dst_offset := 4294967294, src_offset := 4294967294, exec := exec, out := o2 }
    100 (by show 4294967294 < 4294967295; omega) hb3 hp100
    (by rw [t100]; show (4294967294 + 3) % 4294967296 ≤ 4294967295; omega)
  rw [if_neg (by decide)] at hstep3
  obtain ⟨o3, ho3⟩ : ∃ o3, plain_next halt_wrap_stream
      { dst_offset := 4294967294, src_offset := 4294967294, exec := exec, out := o2 } 100 =
      { dst_offset := 1, src_offset := 1, exec := exec, out := o3 } := by
    refine ⟨o2 ++ memcpy halt_wrap_stream 4294967294 4294967294 3, ?_⟩
    have e3 : (4294967294 + 3) % 4294967296 = 1 := by omega
    unfold plain_next
    rw [t100]
    simp only [WalkState.mk.injEq]
  rw [ho3] at hstep3
  -- composition
  have h1 : vc4_validate_cl_at K halt_wrap_stream 4294967295 is_bin 1
      (vc4_validate_cl_entry exec) =
      some { dst_offset := 2, src_offset := 2, exec := exec, out := o1 } := by
    rw [at_step K _ _ _ 0 _ _ hstep1]; rfl
  have h3 : vc4_validate_cl_at K halt_wrap_stream 4294967295 is_bin 1
      { dst_offset := 4294967294, src_offset := 4294967294, exec := exec, out := o2 } =
      some { dst_offset := 1, src_offset := 1, exec := exec, out := o3 } := by
    rw [at_step K _ _ _ 0 _ _ hstep3]; rfl
  have h23 := at_trans K _ _ _ 4294967292 1 _ _ _ ho2b h3
  have h123 := at_trans K _ _ _ 1 (4294967292 + 1) _ _ _ h1 h23
  have e4 : 1 + (4294967292 + 1) = 4294967294 := by omega
  rw [e4] at h123
  refine ⟨o3, h123, ?_⟩
  have s1 := scanned_trans K halt_wrap_stream 4294967295 is_bin 1 _ _ h1 (4294967292 + 1)
  have s2 := scanned_trans K halt_wrap_stream 4294967295 is_bin 4294967292 _ _ ho2b 1
  rw [e4] at s1
  rw [s1, s2, hsc2, scanned_step K _ _ _ 0 _ _ hstep1, scanned_step K _ _ _ 0 _ _ hstep3,
    hb0, hb3]
  rfl

theorem wrap_opcodes_shape (n : Nat) :
    (56 :: (List.replicate n 1 ++ [100])) ++ [0] = 56 :: (List.replicate n 1 ++ [100, 0]) := by
  simp

/-- The whole run over `halt_wrap_stream` with `len = 4294967295`: the scan comes back to
offset 1 after the wrap, finds the halt byte there and returns 0 with both offsets at 2. -/
theorem halt_wrap_result (K : vc4_packet_h) (is_bin : Bool) (exec : exec_info) :
    ∃ out, vc4_validate_cl_at K halt_wrap_stream 4294967295 is_bin 4294967294
          (vc4_validate_cl_entry exec) =
        some { dst_offset := 1, src_offset := 1, exec := exec, out := out } ∧
      vc4_validate_cl K 4294967295 halt_wrap_stream 4294967295 is_bin exec =
        some (.ok { dst_offset := 2, src_offset := 2, exec := exec,
                    out := out ++ [(1, 0)] }) ∧
      vc4_validate_cl_scanned K halt_wrap_stream 4294967295 is_bin 4294967295
          (vc4_validate_cl_entry exec) =
        56 :: (List.replicate 4294967292 1 ++ [100, 0]) := by
  obtain ⟨out, hat, hsc⟩ := halt_wrap_run K is_bin exec
  have hp0 : plain_opcode is_bin 0 = true := by cases is_bin <;> decide
  have t0 : table_len 0 = 1 := rfl
  have hb : load8 halt_wrap_stream 1 = 0 := by simp [load8, halt_wrap_stream]
  have hstep := iter_plain K halt_wrap_stream 4294967295 is_bin
    { dst_offset := 1, src_offset := 1, exec := exec, out := out } 0
    (by show 1 < 4294967295; omega) hb hp0 (by rw [t0]; show (1 + 1) % 4294967296 ≤ 4294967295; omega)
  rw [if_pos rfl] at hstep
  have hnext : plain_next halt_wrap_stream
      { dst_offset := 1, src_offset := 1, exec := exec, out := out } 0 =
      { dst_offset := 2, src_offset := 2, exec := exec, out := out ++ [(1, 0)] } := by
    simp [plain_next, t0, memcpy, List.range_succ, hb]
  rw [hnext] at hstep
  refine ⟨out, hat, ?_, ?_⟩
  · exact result_of_reached K halt_wrap_stream 4294967295 is_bin exec 4294967294 _ _
      ⟨hat, by show 1 < 4294967295; omega⟩ hstep 4294967295 (by omega)
  · have e : (4294967294 : Nat) + 1 = 4294967295 := by omega
    have hs := scanned_trans K halt_wrap_stream 4294967295 is_bin 4294967294 _ _ hat 1
    rw [e] at hs
    have h1 : vc4_validate_cl_scanned K halt_wrap_stream 4294967295 is_bin 1
        { dst_offset := 1, src_offset := 1, exec := exec, out := out } = [0] := by
      simp only [vc4_validate_cl_scanned, hstep]
      rw [if_pos (by show 1 < 4294967295; omega), hb]
    rw [hs, hsc, h1]
    exact wrap_opcodes_shape 4294967292

/-- The run over `halt_wrap_stream_bad` with `len = 4294967295`: the second packet, at
offset 2, has an opcode without table entry and the function returns `-EINVAL`. -/
theorem halt_wrap_bad_result (K : vc4_packet_h) (is_bin : Bool) (exec : exec_info) :
    ∃ s, vc4_validate_cl K 4294967295 halt_wrap_stream_bad 4294967295 is_bin exec =
      some (.einval .packet_invalid s) := by
  have hp56 : plain_opcode is_bin 56 = true := by cases is_bin <;> decide
  have t56 : table_len 56 = 2 := rfl
  have hb0 : load8 halt_wrap_stream_bad (vc4_validate_cl_entry exec).src_offset = 56 := by
    simp [load8, halt_wrap_stream_bad, halt_wrap_stream, vc4_validate_cl_entry]
  have hstep1 := iter_plain K halt_wrap_stream_bad 4294967295 is_bin
    (vc4_validate_cl_entry exec) 56 (by simp [vc4_validate_cl_entry]) hb0 hp56
    (by rw [t56]; simp [vc4_validate_cl_entry])
  rw [if_neg (by decide)] at hstep1
  obtain ⟨o1, ho1⟩ : ∃ o1, plain_next halt_wrap_stream_bad (vc4_validate_cl_entry exec) 56 =
      { dst_offset := 2, src_offset := 2, exec := exec, out := o1 } :=
    ⟨[] ++ memcpy halt_wrap_stream_bad 0 0 2,
      by simp [plain_next, t56, vc4_validate_cl_entry]⟩
  rw [ho1] at hstep1
  have hat : vc4_validate_cl_at K halt_wrap_stream_bad 4294967295 is_bin 1
      (vc4_validate_cl_entry exec) =
      some { dst_offset := 2, src_offset := 2, exec := exec, out := o1 } := by
    rw [at_step K _ _ _ 0 _ _ hstep1]; rfl
  have hb2 : load8 halt_wrap_stream_bad 2 = 2 := by simp [load8, halt_wrap_stream_bad]
  have hbody := body_packet_invalid K halt_wrap_stream_bad 4294967295 is_bin
    { dst_offset := 2, src_offset := 2, exec := exec, out := o1 }
    (by show load8 halt_wrap_stream_bad 2 < 255; rw [hb2]; omega)
    (by show (cmd_info_init (load8 halt_wrap_stream_bad 2)).name = none; rw [hb2]; rfl)
  have hlt : (2 : Nat) < 4294967295 := by omega
  have hiter : vc4_validate_cl_iter K halt_wrap_stream_bad 4294967295 is_bin
      { dst_offset := 2, src_offset := 2, exec := exec, out := o1 } =
      .done (.einval .packet_invalid
        { dst_offset := 2, src_offset := 2, exec := exec, out := o1 }) := by
    unfold vc4_validate_cl_iter
    rw [if_pos hlt, hbody]
  exact ⟨_, result_of_reached K halt_wrap_stream_bad 4294967295 is_bin exec 1 _ _
    ⟨hat, hlt⟩ hiter 4294967295 (by omega)⟩

/-- A run that returns does so in a pass reached by the scan. -/
theorem loop_done_at (K : vc4_packet_h) (u : Mem) (len : Nat) (is_bin : Bool) (fuel : Nat)
    (s0 : WalkState) (r : WalkResult)
    (h : vc4_validate_cl_loop K u len is_bin fuel s0 = some r) :
    ∃ n s, n < fuel ∧ vc4_validate_cl_at K u len is_bin n s0 = some s ∧
      vc4_validate_cl_iter K u len is_bin s = .done r := by
  induction fuel generalizing s0 with
  | zero => simp [vc4_validate_cl_loop] at h
  | succ fuel ih =>
    simp only [vc4_validate_cl_loop] at h
    cases hstep : vc4_validate_cl_iter K u len is_bin s0 with
    | next s2 =>
      rw [hstep] at h
      obtain ⟨n, s, hn, hat, hit⟩ := ih s2 h
      exact ⟨n + 1, s, by omega, by rw [at_step K u len is_bin n s0 s2 hstep]; exact hat, hit⟩
    | done r2 =>
      rw [hstep] at h
      simp only [Option.some.injEq] at h
      subst h
      exact ⟨0, s0, by omega, rfl, hstep⟩

/-- The pass of the loop over a packet whose opcode is 255: the table is indexed one slot
past its end. -/
theorem iter_opcode_255 (K : vc4_packet_h) (u : Mem) (len : Nat) (is_bin : Bool)
    (s : WalkState) (hlt : s.src_offset < len) (hc : load8 u s.src_offset = 255) :
    vc4_validate_cl_iter K u len is_bin s =
      .done (.undefined (.cmd_info_out_of_bounds 255) s) := by
  simp [vc4_validate_cl_iter, hlt, vc4_validate_cl_body, vc4_validate_cl_checks, hc,
    cmd_info_lookup, ARRAY_SIZE_cmd_info]

theorem total_len_cons (c : Nat) (cs : List Nat) :
    total_len (c :: cs) = table_len c + total_len cs := by
  simp [total_len]

/-- The concatenation of the scanned packets other than those of opcode 254 is as long as
the sum of their table lengths. -/
theorem copied_length (K : vc4_packet_h) (u : Mem) (len : Nat) (is_bin : Bool) (fuel : Nat)
    (s : WalkState) :
    (vc4_validate_cl_copied K u len is_bin fuel s).length =
      total_len ((vc4_validate_cl_scanned K u len is_bin fuel s).filter
        (fun c => decide (c ≠ 254))) := by
  induction fuel generalizing s with
  | zero => rfl
  | succ fuel ih =>
    simp only [vc4_validate_cl_copied, vc4_validate_cl_scanned]
    cases hstep : vc4_validate_cl_iter K u len is_bin s with
    | next s2 =>
      simp only [List.length_append, ih s2]
      by_cases h : load8 u s.src_offset = 254
      · simp [h, total_len]
      · rw [List.filter_cons_of_pos (by simpa using h), total_len_cons]
        simp [h, packet_bytes]
    | done r =>
      cases r with
      | ok t =>
        simp only
        by_cases hlt : s.src_offset < len
        · by_cases h : load8 u s.src_offset = 254
          · simp [hlt, h, total_len]
          · simp [hlt, h, packet_bytes, total_len]
        · simp [hlt, total_len]
      | einval e t => simp [total_len]
      | undefined f t => simp [total_len]

/-- The run of the loop over whole packets without handler that fill the rest of the
stream: it returns 0, the context is untouched, and if no packet is a halt both offsets
have moved on by the total length. -/
theorem plain_run (K : vc4_packet_h) (u : Mem) (len : Nat) (is_bin : Bool)
    (hlen : len < 4294967296) (cs : List Nat) (s : WalkState)
    (hp : ∀ c ∈ cs, plain_opcode is_bin c = true) (hat : packets_at u s.src_offset cs)
    (htot : s.src_offset + total_len cs = len) (hd : s.dst_offset ≤ s.src_offset) :
    ∃ t, (∀ fuel, cs.length < fuel →
        vc4_validate_cl_loop K u len is_bin fuel s = some (.ok t)) ∧
      t.exec = s.exec ∧
      (0 ∉ cs → t.src_offset = len ∧ t.dst_offset = s.dst_offset + total_len cs) := by
  induction cs generalizing s with
  | nil =>
    have hn : ¬ s.src_offset < len := by
      simp only [total_len, List.map_nil, List.sum_nil] at htot; omega
    have hit : vc4_validate_cl_iter K u len is_bin s = .done (.ok s) := by
      simp [vc4_validate_cl_iter, hn]
    refine ⟨s, ?_, rfl, fun _ => ⟨?_, ?_⟩⟩
    · intro fuel hf
      obtain ⟨f, rfl⟩ : ∃ f, fuel = f + 1 := ⟨fuel - 1, by omega⟩
      exact loop_done K u len is_bin f s _ hit
    · simp only [total_len, List.map_nil, List.sum_nil] at htot; omega
    · simp [total_len]
  | cons c cs ih =>
    obtain ⟨hc, hrest⟩ := hat
    have hpc := hp c (List.mem_cons_self c cs)
    obtain ⟨_, _, _, _, _, hl1, hl16⟩ := plain_opcode_facts is_bin c hpc
    rw [total_len_cons] at htot
    have hlt : s.src_offset < len := by omega
    have e1 : (s.src_offset + table_len c) % 4294967296 = s.src_offset + table_len c :=
      Nat.mod_eq_of_lt (by omega)
    have e2 : (s.dst_offset + table_len c) % 4294967296 = s.dst_offset + table_len c :=
      Nat.mod_eq_of_lt (by omega)
    have hstep := iter_plain K u len is_bin s c hlt hc hpc (by rw [e1]; omega)
    by_cases h0 : c = 0
    · rw [if_pos h0] at hstep
      refine ⟨plain_next u s c, ?_, rfl, fun hno => absurd (h0 ▸ List.mem_cons_self c cs) hno⟩
      intro fuel hf
      obtain ⟨f, rfl⟩ : ∃ f, fuel = f + 1 := ⟨fuel - 1, by omega⟩
      exact loop_done K u len is_bin f s _ hstep
    · rw [if_neg h0] at hstep
      obtain ⟨t, ht1, ht2, ht3⟩ := ih (plain_next u s c)
        (fun c2 hc2 => hp c2 (List.mem_cons_of_mem c hc2))
        (by simp only [plain_next, e1]; exact hrest)
        (by simp only [plain_next, e1]; omega)
        (by simp only [plain_next, e1, e2]; omega)
      refine ⟨t, ?_, by rw [ht2]; rfl, fun hno => ?_⟩
      · intro fuel hf
        obtain ⟨f, rfl⟩ : ∃ f, fuel = f + 1 := ⟨fuel - 1, by omega⟩
        rw [loop_step K u len is_bin f s _ hstep]
        exact ht1 f (by simp only [List.length_cons] at hf; omega)
      · obtain ⟨h3, h4⟩ := ht3 (fun hm => hno (List.mem_cons_of_mem c hm))
        refine ⟨h3, ?_⟩
        rw [h4, total_len_cons]
        simp only [plain_next, e2]
        omega

/-- Every stream that is a concatenation of whole packets whose opcodes have a table entry,
are allowed in the list and have no relocation handler makes `vc4_validate_cl` return 0,
with the context untouched; without a halt among them the whole stream is consumed and
the output offset is the stream length. The empty stream is the case of no packet. -/
theorem plain_stream_validates (K : vc4_packet_h) (u : Mem) (len : Nat) (is_bin : Bool)
    (exec : exec_info) (cs : List Nat) (hlen : len < 4294967296)
    (hp : ∀ c ∈ cs, plain_opcode is_bin c = true) (hat : packets_at u 0 cs)
    (htot : total_len cs = len) :
    ∃ t, (∀ fuel, cs.length < fuel →
        vc4_validate_cl K fuel u len is_bin exec = some (.ok t)) ∧
      t.exec = exec ∧ (0 ∉ cs → t.src_offset = len ∧ t.dst_offset = len) := by
  obtain ⟨t, h1, h2, h3⟩ := plain_run K u len is_bin hlen cs (vc4_validate_cl_entry exec) hp
    hat (by simp [vc4_validate_cl_entry, htot]) (le_refl _)
  refine ⟨t, h1, h2, fun hno => ?_⟩
  obtain ⟨h4, h5⟩ := h3 hno
  exact ⟨h4, by rw [h5]; simp [vc4_validate_cl_entry, htot]⟩

/-- The empty stream is accepted, whatever the memory behind the pointer holds. -/
theorem empty_stream_validates (K : vc4_packet_h) (u : Mem) (is_bin : Bool)
    (exec : exec_info) (fuel : Nat) :
    vc4_validate_cl K (fuel + 1) u 0 is_bin exec = some (.ok (vc4_validate_cl_entry exec)) := by
  unfold vc4_validate_cl
  apply loop_done
  simp [vc4_validate_cl_iter]

/-- The table lengths of a list of opcodes: those of the opcodes other than 254, plus 9 for
each opcode 254. -/
theorem total_len_split (cs : List Nat) :
    total_len cs =
      total_len (cs.filter (fun c => decide (c ≠ 254))) + 9 * cs.count 254 := by
  induction cs with
  | nil => rfl
  | cons c cs ih =>
    rw [total_len_cons, ih]
    by_cases h : c = 254
    · subst h
      have h9 : table_len 254 = 9 := rfl
      rw [List.filter_cons_of_neg (by simp), List.count_cons_self, h9]
      omega
    · rw [List.filter_cons_of_pos (by simpa using h), total_len_cons,
        List.count_cons_of_ne (fun hc => h hc.symm)]
      omega

/-- The offsets after a pass that goes through, in terms of the table length of the opcode
of the packet. -/
theorem iter_through_offsets (K : vc4_packet_h) (u : Mem) (len : Nat) (is_bin : Bool)
    (s t : WalkState) (hlt : s.src_offset < len)
    (h : vc4_validate_cl_iter K u len is_bin s = .next t ∨
      vc4_validate_cl_iter K u len is_bin s = .done (.ok t)) :
    t.dst_offset = (if load8 u s.src_offset ≠ 254
        then (s.dst_offset + table_len (load8 u s.src_offset)) % 4294967296
        else s.dst_offset) ∧
      t.src_offset = (s.src_offset + table_len (load8 u s.src_offset)) % 4294967296 := by
  obtain ⟨info, hck, hpr⟩ := iter_through K u len is_bin s t hlt h
  obtain ⟨_, hi, _⟩ := checks_pass u len is_bin s info hck
  obtain ⟨hd, hs, _⟩ := process_out K u s t info hpr
  rw [hd, hs, hi]
  exact ⟨rfl, rfl⟩

/-- After a successful run of the loop, the output offset is the output offset at the start
plus the table lengths of the scanned packets other than those of opcode 254, and the
source offset is the source offset at the start plus the table lengths of all scanned
packets, both in 32-bit arithmetic. -/
theorem scan_offsets (K : vc4_packet_h) (u : Mem) (len : Nat) (is_bin : Bool) (fuel : Nat)
    (s t : WalkState) (hd : s.dst_offset < 4294967296) (hs : s.src_offset < 4294967296)
    (h : vc4_validate_cl_loop K u len is_bin fuel s = some (.ok t)) :
    t.dst_offset = (s.dst_offset + total_len ((vc4_validate_cl_scanned K u len is_bin fuel s
        ).filter (fun c => decide (c ≠ 254)))) % 4294967296 ∧
      t.src_offset = (s.src_offset +
        total_len (vc4_validate_cl_scanned K u len is_bin fuel s)) % 4294967296 := by
  induction fuel generalizing s with
  | zero => simp [vc4_validate_cl_loop] at h
  | succ fuel ih =>
    simp only [vc4_validate_cl_loop] at h
    simp only [vc4_validate_cl_scanned]
    cases hstep : vc4_validate_cl_iter K u len is_bin s with
    | next s2 =>
      rw [hstep] at h
      have hlt : s.src_offset < len := by
        by_contra hc
        simp [vc4_validate_cl_iter, hc] at hstep
      obtain ⟨o1, o2⟩ := iter_through_offsets K u len is_bin s s2 hlt (Or.inl hstep)
      have hd2 : s2.dst_offset < 4294967296 := by
        rw [o1]; split
        · exact Nat.mod_lt _ (by norm_num)
        · exact hd
      have hs2 : s2.src_offset < 4294967296 := by
        rw [o2]; exact Nat.mod_lt _ (by norm_num)
      obtain ⟨i1, i2⟩ := ih s2 hd2 hs2 h
      simp only
      rw [total_len_cons, i1, i2, o1, o2]
      by_cases h254 : load8 u s.src_offset = 254
      · rw [List.filter_cons_of_neg (by simp [h254])]
        simp only [h254, ne_eq, not_true_eq_false, if_false]
        constructor
        · trivial
        · omega
      · rw [List.filter_cons_of_pos (by simpa using h254), total_len_cons, if_pos h254]
        constructor <;> omega
    | done r =>
      rw [hstep] at h
      simp only [Option.some.injEq] at h
      subst h
      simp only
      by_cases hlt : s.src_offset < len
      · obtain ⟨o1, o2⟩ := iter_through_offsets K u len is_bin s t hlt (Or.inr hstep)
        rw [if_pos hlt, o1, o2]
        by_cases h254 : load8 u s.src_offset = 254
        · rw [List.filter_cons_of_neg (by simp [h254])]
          simp only [h254, ne_eq, not_true_eq_false, if_false, List.filter_nil]
          constructor
          · simp [total_len]; omega
          · simp [total_len]
        · rw [List.filter_cons_of_pos (by simpa using h254), if_pos h254]
          simp [total_len]
      · rw [if_neg hlt]
        simp only [vc4_validate_cl_iter, if_neg hlt, LoopStep.done.injEq,
          WalkResult.ok.injEq] at hstep
        subst hstep
        simp only [List.filter_nil, total_len, List.map_nil, List.sum_nil, Nat.add_zero]
        exact ⟨(Nat.mod_eq_of_lt hd).symm, (Nat.mod_eq_of_lt hs).symm⟩

/-- For stream lengths up to 2^32 - 16 the sums of `scan_offsets` do not wrap: after a
successful run from a state satisfying the loop invariant, the output offset has grown by
exactly the table lengths of the scanned packets other than those of opcode 254, the
source offset by exactly the table lengths of all scanned packets, and it is within the
stream. -/
theorem scan_offsets_exact (K : vc4_packet_h) (u : Mem) (len : Nat) (is_bin : Bool)
    (hlen : len ≤ 4294967280) (fuel : Nat) (s t : WalkState) (hinv : walk_inv len s)
    (h : vc4_validate_cl_loop K u len is_bin fuel s = some (.ok t)) :
    t.dst_offset = s.dst_offset + total_len ((vc4_validate_cl_scanned K u len is_bin fuel s
        ).filter (fun c => decide (c ≠ 254))) ∧
      t.src_offset = s.src_offset + total_len (vc4_validate_cl_scanned K u len is_bin fuel s) ∧
      t.src_offset ≤ len := by
  induction fuel generalizing s with
  | zero => simp [vc4_validate_cl_loop] at h
  | succ fuel ih =>
    have exact_pass : ∀ t2, (vc4_validate_cl_iter K u len is_bin s = .next t2 ∨
        vc4_validate_cl_iter K u len is_bin s = .done (.ok t2)) → s.src_offset < len →
        t2.dst_offset = (if load8 u s.src_offset ≠ 254
          then s.dst_offset + table_len (load8 u s.src_offset) else s.dst_offset) ∧
        t2.src_offset = s.src_offset + table_len (load8 u s.src_offset) ∧
        t2.src_offset ≤ len := by
      intro t2 ht2 hlt
      obtain ⟨o1, o2⟩ := iter_through_offsets K u len is_bin s t2 hlt ht2
      obtain ⟨info, hck, _⟩ := iter_through K u len is_bin s t2 hlt ht2
      obtain ⟨hle, _⟩ := length_check_exact u len is_bin s info hlt hlen hck
      obtain ⟨_, hi, _⟩ := checks_pass u len is_bin s info hck
      have hL : info.len = table_len (load8 u s.src_offset) := by rw [hi]; rfl
      rw [hL] at hle
      have e1 : (s.src_offset + table_len (load8 u s.src_offset)) % 4294967296 =
          s.src_offset + table_len (load8 u s.src_offset) := Nat.mod_eq_of_lt (by omega)
      have e2 : (s.dst_offset + table_len (load8 u s.src_offset)) % 4294967296 =
          s.dst_offset + table_len (load8 u s.src_offset) :=
        Nat.mod_eq_of_lt (by have := hinv.1; omega)
      rw [e1] at o2
      rw [e2] at o1
      exact ⟨o1, o2, by omega⟩
    simp only [vc4_validate_cl_loop] at h
    simp only [vc4_validate_cl_scanned]
    cases hstep : vc4_validate_cl_iter K u len is_bin s with
    | next s2 =>
      rw [hstep] at h
      have hlt : s.src_offset < len := by
        by_contra hc
        simp [vc4_validate_cl_iter, hc] at hstep
      obtain ⟨o1, o2, _⟩ := exact_pass s2 (Or.inl hstep) hlt
      obtain ⟨i1, i2, i3⟩ := ih s2 (iter_inv K u len is_bin s s2 hlen hinv hstep) h
      simp only
      rw [total_len_cons, i1, i2, o1, o2]
      refine ⟨?_, by omega, by omega⟩
      by_cases h254 : load8 u s.src_offset = 254
      · rw [List.filter_cons_of_neg (by simp [h254])]
        simp only [h254, ne_eq, not_true_eq_false, if_false]
      · rw [List.filter_cons_of_pos (by simpa using h254), total_len_cons, if_pos h254]
        omega
    | done r =>
      rw [hstep] at h
      simp only [Option.some.injEq] at h
      subst h
      simp only
      by_cases hlt : s.src_offset < len
      · obtain ⟨o1, o2, o3⟩ := exact_pass t (Or.inr hstep) hlt
        rw [if_pos hlt, o1, o2]
        refine ⟨?_, by simp [total_len], by omega⟩
        by_cases h254 : load8 u s.src_offset = 254
        · rw [List.filter_cons_of_neg (by simp [h254])]
          simp [h254, total_len]
        · rw [List.filter_cons_of_pos (by simpa using h254), if_pos h254]
          simp [total_len]
      · rw [if_neg hlt]
        simp only [vc4_validate_cl_iter, if_neg hlt, LoopStep.done.injEq,
          WalkResult.ok.injEq] at hstep
        subst hstep
        simp only [List.filter_nil, total_len, List.map_nil, List.sum_nil, Nat.add_zero]
        exact ⟨trivial, trivial, hinv.2.1⟩

/-- After a successful run of `vc4_validate_cl`: the final output offset is the sum of the
table lengths of the scanned packets other than those of opcode 254, taken modulo 2^32,
and that sum is the sum over all scanned packets minus 9 for each packet of opcode 254;
for stream lengths up to 2^32 - 16 nothing wraps and the final output offset is that sum
itself, the source offset being the number of bytes of all scanned packets. -/
theorem successful_run_offsets (K : vc4_packet_h) (u : Mem) (len : Nat) (is_bin : Bool)
    (exec : exec_info) (fuel : Nat) (t : WalkState)
    (h : vc4_validate_cl K fuel u len is_bin exec = some (.ok t)) :
    t.dst_offset = total_len ((vc4_validate_cl_scanned K u len is_bin fuel
        (vc4_validate_cl_entry exec)).filter (fun c => decide (c ≠ 254))) % 4294967296 ∧
      t.src_offset = total_len (vc4_validate_cl_scanned K u len is_bin fuel
        (vc4_validate_cl_entry exec)) % 4294967296 ∧
      total_len ((vc4_validate_cl_scanned K u len is_bin fuel
          (vc4_validate_cl_entry exec)).filter (fun c => decide (c ≠ 254))) =
        total_len (vc4_validate_cl_scanned K u len is_bin fuel (vc4_validate_cl_entry exec)) -
          9 * (vc4_validate_cl_scanned K u len is_bin fuel
            (vc4_validate_cl_entry exec)).count 254 ∧
      (len ≤ 4294967280 →
        t.dst_offset = total_len ((vc4_validate_cl_scanned K u len is_bin fuel
          (vc4_validate_cl_entry exec)).filter (fun c => decide (c ≠ 254))) ∧
        t.src_offset = total_len (vc4_validate_cl_scanned K u len is_bin fuel
          (vc4_validate_cl_entry exec)) ∧
        t.dst_offset = t.src_offset - 9 * (vc4_validate_cl_scanned K u len is_bin fuel
          (vc4_validate_cl_entry exec)).count 254) := by
  have hsplit := total_len_split
    (vc4_validate_cl_scanned K u len is_bin fuel (vc4_validate_cl_entry exec))
  obtain ⟨m1, m2⟩ := scan_offsets K u len is_bin fuel (vc4_validate_cl_entry exec) t
    (by simp [vc4_validate_cl_entry]) (by simp [vc4_validate_cl_entry]) h
  have ed : (vc4_validate_cl_entry exec).dst_offset = 0 := rfl
  have es : (vc4_validate_cl_entry exec).src_offset = 0 := rfl
  rw [ed, Nat.zero_add] at m1
  rw [es, Nat.zero_add] at m2
  refine ⟨m1, m2, by omega, fun hlen => ?_⟩
  obtain ⟨x1, x2, _⟩ := scan_offsets_exact K u len is_bin hlen fuel
    (vc4_validate_cl_entry exec) t
    ⟨le_refl _, Nat.zero_le _, by simp [vc4_validate_cl_entry]⟩ h
  rw [ed, Nat.zero_add] at x1
  rw [es, Nat.zero_add] at x2
  exact ⟨x1, x2, by omega⟩

/-! ### The bytes a pass depends on -/

theorem load32_agree (u u2 : Mem) (a : Nat)
    (h : ∀ i, a ≤ i → i < a + 4 → u2 i = u i) : load32 u2 a = load32 u a := by
  simp only [load32, load8]
  rw [h a (by omega) (by omega), h (a + 1) (by omega) (by omega),
    h (a + 2) (by omega) (by omega), h (a + 3) (by omega) (by omega)]

theorem load8_agree (u u2 : Mem) (a : Nat) (h : u2 a = u a) : load8 u2 a = load8 u a := by
  simp only [load8, h]

theorem memcpy_agree (u u2 : Mem) (d a n : Nat)
    (h : ∀ i, a ≤ i → i < a + n → u2 i = u i) : memcpy u2 d a n = memcpy u d a n := by
  simp only [memcpy]
  apply List.map_congr_left
  intro i hi
  rw [List.mem_range] at hi
  rw [load8_agree u u2 (a + i) (h (a + i) (by omega) (by omega))]

/-- A handler depends on the untrusted memory only through the first `handler_read_span`
bytes of the packet body. -/
theorem call_func_agree (K : vc4_packet_h) (f : validate_fn) (u u2 : Mem)
    (exec : exec_info) (out : WriteLog) (v unt : Nat)
    (h : ∀ i, unt ≤ i → i < unt + handler_read_span f → u2 i = u i) :
    call_func K f u2 exec out v unt = call_func K f u exec out v unt := by
  cases f <;> simp only [handler_read_span] at h
  · have e0 := load32_agree u u2 (unt + 0) (fun i h1 h2 => h i (by omega) (by omega))
    simp only [call_func, validate_branch_to_sublist, e0]
  · have e0 := load8_agree u u2 (unt + 0) (h (unt + 0) (by omega) (by omega))
    have e2 := load32_agree u u2 (unt + 2) (fun i h1 h2 => h i (by omega) (by omega))
    simp only [call_func, validate_loadstore_tile_buffer_general, e0, e2]
  · have e0 := load8_agree u u2 (unt + 0) (h (unt + 0) (by omega) (by omega))
    have e5 := load32_agree u u2 (unt + 5) (fun i h1 h2 => h i (by omega) (by omega))
    have e9 := load32_agree u u2 (unt + 9) (fun i h1 h2 => h i (by omega) (by omega))
    simp only [call_func, validate_indexed_prim_list, ib_max_index, ib_access_end,
      ib_index_size, e0, e5, e9]
  · have e0 := load32_agree u u2 unt (fun i h1 h2 => h i (by omega) (by omega))
    simp only [call_func, validate_gl_shader_state, e0]
  · have e0 := load32_agree u u2 unt (fun i h1 h2 => h i (by omega) (by omega))
    simp only [call_func, validate_nv_shader_state, e0]
  · have e0 := load32_agree u u2 unt (fun i h1 h2 => h i (by omega) (by omega))
    have e8 := load32_agree u u2 (unt + 8) (fun i h1 h2 => h i (by omega) (by omega))
    simp only [call_func, validate_tile_binning_config, e0, e8]
  · have e0 := load32_agree u u2 unt (fun i h1 h2 => h i (by omega) (by omega))
    simp only [call_func, validate_tile_rendering_mode_config, e0]
  · have e0 := load32_agree u u2 unt (fun i h1 h2 => h i (by omega) (by omega))
    have e4 := load32_agree u u2 (unt + 4) (fun i h1 h2 => h i (by omega) (by omega))
    simp only [call_func, validate_gem_handles, e0, e4]

set_option maxRecDepth 100000 in
/-- The loads of a handler stay inside the body of the packets it is registered for. -/
theorem cmd_info_init_read_span : ∀ c, c < 255 →
    ∀ f, (cmd_info_init c).func = some f → handler_read_span f + 1 ≤ (cmd_info_init c).len := by
  decide

/-- A pass of the loop depends on the untrusted memory only through the bytes of the packet
at the source offset: its opcode byte and, as far as the table length goes, its body. -/
theorem iter_agree (K : vc4_packet_h) (u u2 : Mem) (len : Nat) (is_bin : Bool)
    (s : WalkState)
    (h : ∀ i, s.src_offset ≤ i →
      i < s.src_offset + max 1 (table_len (load8 u s.src_offset)) → u2 i = u i) :
    vc4_validate_cl_iter K u2 len is_bin s = vc4_validate_cl_iter K u len is_bin s := by
  have hc : load8 u2 s.src_offset = load8 u s.src_offset :=
    load8_agree u u2 _ (h _ (le_refl _) (by omega))
  have hck : vc4_validate_cl_checks u2 len is_bin s = vc4_validate_cl_checks u len is_bin s := by
    simp only [vc4_validate_cl_checks, hc]
  unfold vc4_validate_cl_iter vc4_validate_cl_body
  rw [hck]
  split
  · cases hk : vc4_validate_cl_checks u len is_bin s with
    | fail e => rfl
    | undefined f => rfl
    | pass info =>
      simp only
      obtain ⟨h255, hi, _⟩ := checks_pass u len is_bin s info hk
      have hL : info.len = table_len (load8 u s.src_offset) := by rw [hi]; rfl
      have hcp : copy_packet u2 s info = copy_packet u s info := by
        simp only [copy_packet, hc]
        split
        · rw [memcpy_agree u u2 _ _ _ (fun i h1 h2 => h i h1 (by rw [hL] at h2; omega))]
        · rfl
      have hrun : run_handler K u2 s info = run_handler K u s info := by
        simp only [run_handler, hcp]
        cases hf : info.func with
        | none => rfl
        | some f =>
          simp only
          have hsp := cmd_info_init_read_span _ h255 f (by rw [← hi]; exact hf)
          rw [← hi, hL] at hsp
          exact call_func_agree K f u u2 _ _ _ _
            (fun i h1 h2 => h i (by omega) (by omega))
      simp only [vc4_validate_cl_process, hrun, hcp, hc]
  · rfl

/-- For stream lengths up to 2^32 - 16, a pass that goes through from a state satisfying the
loop invariant moves the source offset on by exactly the table length of the packet,
which is at least 1, and stays within the stream. -/
theorem iter_through_exact (K : vc4_packet_h) (u : Mem) (len : Nat) (is_bin : Bool)
    (hlen : len ≤ 4294967280) (s t : WalkState) (hinv : walk_inv len s)
    (hlt : s.src_offset < len)
    (h : vc4_validate_cl_iter K u len is_bin s = .next t ∨
      vc4_validate_cl_iter K u len is_bin s = .done (.ok t)) :
    t.src_offset = s.src_offset + table_len (load8 u s.src_offset) ∧
      1 ≤ table_len (load8 u s.src_offset) ∧ t.src_offset ≤ len ∧
      t.dst_offset = (if load8 u s.src_offset ≠ 254
        then s.dst_offset + table_len (load8 u s.src_offset) else s.dst_offset) := by
  obtain ⟨o1, o2⟩ := iter_through_offsets K u len is_bin s t hlt h
  obtain ⟨info, hck, _⟩ := iter_through K u len is_bin s t hlt h
  obtain ⟨hle, h1⟩ := length_check_exact u len is_bin s info hlt hlen hck
  obtain ⟨_, hi, _⟩ := checks_pass u len is_bin s info hck
  have hL : info.len = table_len (load8 u s.src_offset) := by rw [hi]; rfl
  rw [hL] at hle h1
  have e1 : (s.src_offset + table_len (load8 u s.src_offset)) % 4294967296 =
      s.src_offset + table_len (load8 u s.src_offset) := Nat.mod_eq_of_lt (by omega)
  have e2 : (s.dst_offset + table_len (load8 u s.src_offset)) % 4294967296 =
      s.dst_offset + table_len (load8 u s.src_offset) :=
    Nat.mod_eq_of_lt (by have := hinv.1; omega)
  rw [e1] at o2
  rw [e2] at o1
  exact ⟨o2, h1, by omega, o1⟩

/-- For stream lengths up to 2^32 - 16 the scan only moves forward, and the loop invariant
holds at every packet boundary it reaches. -/
theorem at_forward (K : vc4_packet_h) (u : Mem) (len : Nat) (is_bin : Bool)
    (hlen : len ≤ 4294967280) (n : Nat) (s0 s : WalkState) (hinv : walk_inv len s0)
    (h : vc4_validate_cl_at K u len is_bin n s0 = some s) :
    s0.src_offset ≤ s.src_offset ∧ walk_inv len s := by
  induction n generalizing s0 with
  | zero =>
    simp only [vc4_validate_cl_at, Option.some.injEq] at h
    subst h
    exact ⟨le_refl _, hinv⟩
  | succ n ih =>
    simp only [vc4_validate_cl_at] at h
    cases hstep : vc4_validate_cl_iter K u len is_bin s0 with
    | next s1 =>
      rw [hstep] at h
      have hlt : s0.src_offset < len := by
        by_contra hc
        simp [vc4_validate_cl_iter, hc] at hstep
      obtain ⟨e1, _, _, _⟩ := iter_through_exact K u len is_bin hlen s0 s1 hinv hlt
        (Or.inl hstep)
      obtain ⟨i1, i2⟩ := ih s1 (iter_inv K u len is_bin s0 s1 hlen hinv hstep) h
      exact ⟨by omega, i2⟩
    | done r => rw [hstep] at h; simp at h

/-- For stream lengths up to 2^32 - 16, the packet boundaries reached by a scan depend only
on the bytes between the source offset at the start and the source offset reached. -/
theorem at_agree (K : vc4_packet_h) (u u2 : Mem) (len : Nat) (is_bin : Bool)
    (hlen : len ≤ 4294967280) (n : Nat) (s0 s : WalkState) (hinv : walk_inv len s0)
    (h : vc4_validate_cl_at K u len is_bin n s0 = some s)
    (hu : ∀ i, s0.src_offset ≤ i → i < s.src_offset → u2 i = u i) :
    vc4_validate_cl_at K u2 len is_bin n s0 = some s := by
  induction n generalizing s0 with
  | zero => exact h
  | succ n ih =>
    simp only [vc4_validate_cl_at] at h
    cases hstep : vc4_validate_cl_iter K u len is_bin s0 with
    | next s1 =>
      rw [hstep] at h
      have hlt : s0.src_offset < len := by
        by_contra hc
        simp [vc4_validate_cl_iter, hc] at hstep
      obtain ⟨e1, e2, _, _⟩ := iter_through_exact K u len is_bin hlen s0 s1 hinv hlt
        (Or.inl hstep)
      have hinv1 := iter_inv K u len is_bin s0 s1 hlen hinv hstep
      obtain ⟨m1, _⟩ := at_forward K u len is_bin hlen n s1 s hinv1 h
      have hstep2 : vc4_validate_cl_iter K u2 len is_bin s0 = .next s1 := by
        rw [iter_agree K u u2 len is_bin s0 (fun i h1 h2 => hu i h1 (by
          have : max 1 (table_len (load8 u s0.src_offset)) =
            table_len (load8 u s0.src_offset) := by omega
          omega))]
        exact hstep
      rw [at_step K u2 len is_bin n s0 s1 hstep2]
      exact ih s1 hinv1 h (fun i h1 h2 => hu i (by omega) h2)
    | done r => rw [hstep] at h; simp at h

/-- For stream lengths up to 2^32 - 16: when the scan reaches a packet boundary whose byte
is 0, `vc4_validate_cl` returns 0 having moved the source offset one past the halt byte
and copied that byte, the context being the one the halt was reached with; and on every
memory that has the same bytes up to and including the halt byte the call returns the
very same result (offsets, context and output log). -/
theorem halt_ignores_later_bytes (K : vc4_packet_h) (u u2 : Mem) (len : Nat) (is_bin : Bool)
    (exec : exec_info) (n : Nat) (s : WalkState) (hlen : len ≤ 4294967280)
    (hr : Reached K u len is_bin exec n s) (h0 : load8 u s.src_offset = 0)
    (hu : ∀ i, i ≤ s.src_offset → u2 i = u i) :
    ∃ t, t.src_offset = s.src_offset + 1 ∧ t.exec = s.exec ∧
      t.out = s.out ++ [(s.dst_offset, 0)] ∧
      ∀ fuel, n < fuel →
        vc4_validate_cl K fuel u len is_bin exec = some (.ok t) ∧
        vc4_validate_cl K fuel u2 len is_bin exec = some (.ok t) := by
  have hp0 : plain_opcode is_bin 0 = true := by cases is_bin <;> decide
  have t0 : table_len 0 = 1 := rfl
  have e1 : (s.src_offset + 1) % 4294967296 = s.src_offset + 1 :=
    Nat.mod_eq_of_lt (by have := hr.2; omega)
  have hstep := iter_plain K u len is_bin s 0 hr.2 h0 hp0
    (by rw [t0, e1]; have := hr.2; omega)
  rw [if_pos rfl] at hstep
  have hstep2 : vc4_validate_cl_iter K u2 len is_bin s = .done (.ok (plain_next u s 0)) := by
    rw [iter_agree K u u2 len is_bin s (fun i h1 h2 => hu i (by
      rw [h0, t0] at h2
      have : max 1 1 = 1 := rfl
      omega))]
    exact hstep
  have hinv0 : walk_inv len (vc4_validate_cl_entry exec) :=
    ⟨le_refl _, Nat.zero_le _, by simp [vc4_validate_cl_entry]⟩
  have hat2 := at_agree K u u2 len is_bin hlen n (vc4_validate_cl_entry exec) s hinv0 hr.1
    (fun i _ h2 => hu i (by omega))
  refine ⟨plain_next u s 0, by simp [plain_next, t0, e1], rfl, ?_, ?_⟩
  · simp [plain_next, t0, memcpy, List.range_succ, h0]
  · intro fuel hf
    exact ⟨result_of_reached K u len is_bin exec n s _ hr hstep fuel hf,
      result_of_reached K u2 len is_bin exec n s _ ⟨hat2, hr.2⟩ hstep2 fuel hf⟩

/-! ### The output of streams without handlers -/

theorem range_map_append {α : Type} (g : Nat → α) (n m : Nat) :
    (List.range n).map g ++ (List.range m).map (fun i => g (n + i)) =
      (List.range (n + m)).map g := by
  rw [List.range_add, List.map_append, List.map_map]
  rfl

theorem memcpy_append (u : Mem) (d a n m : Nat) :
    memcpy u d a n ++ memcpy u (d + n) (a + n) m = memcpy u d a (n + m) := by
  simp only [memcpy]
  rw [← range_map_append (fun i => (d + i, load8 u (a + i))) n m]
  simp only [Nat.add_assoc]

theorem apply_log_snoc (init : Mem) (out : WriteLog) (x : Nat × Nat) (j : Nat) :
    apply_log init (out ++ [x]) j = if j = x.1 then x.2 else apply_log init out j := by
  simp only [apply_log, List.foldl_append, List.foldl_cons, List.foldl_nil,
    Function.update_apply]

/-- The output buffer after a `memcpy`: inside the copied range it holds the source bytes,
outside it is as before. -/
theorem apply_log_memcpy (init : Mem) (out : WriteLog) (u : Mem) (d a n j : Nat) :
    apply_log init (out ++ memcpy u d a n) j =
      if d ≤ j ∧ j < d + n then load8 u (a + (j - d)) else apply_log init out j := by
  induction n with
  | zero =>
    have h : ¬ (d ≤ j ∧ j < d) := by omega
    simp [memcpy, h]
  | succ n ih =>
    rw [← memcpy_append u d a n 1, ← List.append_assoc]
    have h1 : memcpy u (d + n) (a + n) 1 = [(d + n, load8 u (a + n))] := by
      simp [memcpy, List.range_succ]
    rw [h1, apply_log_snoc, ih]
    simp only
    by_cases hj : j = d + n
    · subst hj
      have : d ≤ d + n ∧ d + n < d + (n + 1) := by omega
      simp [this]
    · rw [if_neg hj]
      by_cases hin : d ≤ j ∧ j < d + n
      · have : d ≤ j ∧ j < d + (n + 1) := by omega
        rw [if_pos hin, if_pos this]
      · have : ¬ (d ≤ j ∧ j < d + (n + 1)) := by omega
        rw [if_neg hin, if_neg this]

/-- The run of the loop over whole packets without handler and without halt that fill the
rest of the stream, in full: result, scanned opcodes, copied bytes and output log. -/
theorem plain_run_trace (K : vc4_packet_h) (u : Mem) (len : Nat) (is_bin : Bool)
    (hlen : len < 4294967296) (cs : List Nat) (s : WalkState)
    (hp : ∀ c ∈ cs, plain_opcode is_bin c = true) (hno : 0 ∉ cs)
    (hat : packets_at u s.src_offset cs)
    (htot : s.src_offset + total_len cs = len) (hd : s.dst_offset ≤ s.src_offset)
    (fuel : Nat) (hf : cs.length < fuel) :
    vc4_validate_cl_loop K u len is_bin fuel s =
        some (.ok { dst_offset := s.dst_offset + total_len cs, src_offset := len,
                    exec := s.exec,
                    out := s.out ++ memcpy u s.dst_offset s.src_offset (total_len cs) }) ∧
      vc4_validate_cl_scanned K u len is_bin fuel s = cs ∧
      vc4_validate_cl_copied K u len is_bin fuel s =
        (List.range (total_len cs)).map (fun i => load8 u (s.src_offset + i)) := by
  induction cs generalizing s fuel with
  | nil =>
    have hn : ¬ s.src_offset < len := by
      simp only [total_len, List.map_nil, List.sum_nil] at htot; omega
    have hit : vc4_validate_cl_iter K u len is_bin s = .done (.ok s) := by
      simp [vc4_validate_cl_iter, hn]
    obtain ⟨f, rfl⟩ : ∃ f, fuel = f + 1 := ⟨fuel - 1, by simp at hf; omega⟩
    have e : s.src_offset = len := by
      simp only [total_len, List.map_nil, List.sum_nil] at htot; omega
    refine ⟨?_, ?_, ?_⟩
    · rw [loop_done K u len is_bin f s _ hit]
      simp [total_len, memcpy, ← e]
    · simp [vc4_validate_cl_scanned, hit, hn]
    · simp [vc4_validate_cl_copied, hit, hn, total_len]
  | cons c cs ih =>
    obtain ⟨hc, hrest⟩ := hat
    have hpc := hp c (List.mem_cons_self c cs)
    obtain ⟨_, _, _, _, h254, hl1, hl16⟩ := plain_opcode_facts is_bin c hpc
    have h0 : c ≠ 0 := fun h => hno (h ▸ List.mem_cons_self c cs)
    rw [total_len_cons] at htot
    have hlt : s.src_offset < len := by omega
    have e1 : (s.src_offset + table_len c) % 4294967296 = s.src_offset + table_len c :=
      Nat.mod_eq_of_lt (by omega)
    have e2 : (s.dst_offset + table_len c) % 4294967296 = s.dst_offset + table_len c :=
      Nat.mod_eq_of_lt (by omega)
    have hstep := iter_plain K u len is_bin s c hlt hc hpc (by rw [e1]; omega)
    rw [if_neg h0] at hstep
    obtain ⟨f, rfl⟩ : ∃ f, fuel = f + 1 := ⟨fuel - 1, by omega⟩
    obtain ⟨i1, i2, i3⟩ := ih (plain_next u s c)
      (fun c2 hc2 => hp c2 (List.mem_cons_of_mem c hc2))
      (fun hm => hno (List.mem_cons_of_mem c hm))
      (by simp only [plain_next, e1]; exact hrest)
      (by simp only [plain_next, e1]; omega)
      (by simp only [plain_next, e1, e2]; omega)
      f (by simp only [List.length_cons] at hf; omega)
    refine ⟨?_, ?_, ?_⟩
    · rw [loop_step K u len is_bin f s _ hstep, i1, total_len_cons]
      simp only [plain_next, e1, e2, List.append_assoc, memcpy_append, Nat.add_assoc]
    · rw [scanned_step K u len is_bin f s _ hstep, i2, hc]
    · simp only [vc4_validate_cl_copied, hstep]
      rw [i3, hc, if_pos h254, total_len_cons]
      simp only [packet_bytes, hc, plain_next, e1]
      rw [← range_map_append (fun i => load8 u (s.src_offset + i)) (table_len c)
        (total_len cs)]
      simp only [Nat.add_assoc]

/-- For every stream that is a concatenation of whole packets whose opcodes have a table
entry, are allowed in the list and have no relocation handler, none of them a halt:
`vc4_validate_cl` returns 0, the final output offset is the stream length, the scanned
packets are those of the stream, and the output bytes below the final output offset are
the concatenation of the scanned packets, which is the input stream itself, byte for
byte. -/
theorem plain_stream_output (K : vc4_packet_h) (u : Mem) (len : Nat) (is_bin : Bool)
    (exec : exec_info) (cs : List Nat) (init : Mem) (hlen : len < 4294967296)
    (hp : ∀ c ∈ cs, plain_opcode is_bin c = true) (hno : 0 ∉ cs) (hat : packets_at u 0 cs)
    (htot : total_len cs = len) (fuel : Nat) (hf : cs.length < fuel) :
    ∃ t, vc4_validate_cl K fuel u len is_bin exec = some (.ok t) ∧
      t.dst_offset = len ∧ t.src_offset = len ∧
      vc4_validate_cl_scanned K u len is_bin fuel (vc4_validate_cl_entry exec) = cs ∧
      output_bytes init t.out t.dst_offset =
        vc4_validate_cl_copied K u len is_bin fuel (vc4_validate_cl_entry exec) ∧
      output_bytes init t.out t.dst_offset = (List.range len).map (fun i => load8 u i) := by
  obtain ⟨h1, h2, h3⟩ := plain_run_trace K u len is_bin hlen cs (vc4_validate_cl_entry exec)
    hp hno hat (by simp [vc4_validate_cl_entry, htot]) (le_refl _) fuel hf
  have hout : output_bytes init
      ((vc4_validate_cl_entry exec).out ++ memcpy u (vc4_validate_cl_entry exec).dst_offset
        (vc4_validate_cl_entry exec).src_offset (total_len cs))
      ((vc4_validate_cl_entry exec).dst_offset + total_len cs) =
      (List.range len).map (fun i => load8 u i) := by
    simp only [vc4_validate_cl_entry, Nat.zero_add, htot, output_bytes]
    apply List.map_congr_left
    intro j hj
    rw [List.mem_range] at hj
    have hin : 0 ≤ j ∧ j < 0 + len := by omega
    simp only [load8]
    rw [apply_log_memcpy, if_pos hin]
    simp [load8]
  refine ⟨_, h1, by simp [vc4_validate_cl_entry, htot], rfl, h2, ?_, hout⟩
  rw [h3, hout]
  simp [vc4_validate_cl_entry, htot]

/-! ### Shader state bookkeeping -/

theorem call_func_shader_step (K : vc4_packet_h) (f : validate_fn) (u : Mem)
    (exec : exec_info) (out : WriteLog) (v unt : Nat) (e : exec_info) (o : WriteLog)
    (h : call_func K f u exec out v unt = .ok e o) : shader_step exec e := by
  cases f <;>
    simp only [call_func, validate_branch_to_sublist, validate_loadstore_tile_buffer_general,
      validate_indexed_prim_list, validate_gl_shader_state, validate_nv_shader_state,
      validate_tile_binning_config, validate_tile_rendering_mode_config,
      validate_gem_handles] at h
  case gl_shader_state =>
    split at h
    · simp at h
    · split at h
      · simp at h
      · rename_i h1 h2
        simp only [HandlerResult.ok.injEq] at h
        rw [← h.1]
        exact ⟨rfl, Or.inr ⟨by omega, rfl, _, rfl⟩⟩
  case nv_shader_state =>
    split at h
    · simp at h
    · split at h
      · simp at h
      · split at h
        · simp at h
        · rename_i h1 h2 h3
          simp only [HandlerResult.ok.injEq] at h
          rw [← h.1]
          exact ⟨rfl, Or.inr ⟨by omega, rfl, _, rfl⟩⟩
  all_goals
    (repeat' split at h) <;>
      first
        | (simp at h; done)
        | (simp only [HandlerResult.ok.injEq] at h
           rw [← h.1]
           exact ⟨rfl, Or.inl ⟨rfl, rfl⟩⟩)

theorem call_func_shader_touch (K : vc4_packet_h) (f : validate_fn) (u : Mem)
    (exec : exec_info) (out : WriteLog) (v unt : Nat) (er : HandlerError) (e : exec_info)
    (o : WriteLog) (h : call_func K f u exec out v unt = .einval er e o) :
    shader_touch exec e := by
  cases f <;>
    simp only [call_func, validate_branch_to_sublist, validate_loadstore_tile_buffer_general,
      validate_indexed_prim_list, validate_gl_shader_state, validate_nv_shader_state,
      validate_tile_binning_config, validate_tile_rendering_mode_config,
      validate_gem_handles] at h
  case nv_shader_state =>
    split at h
    · simp only [HandlerResult.einval.injEq] at h
      rw [← h.2.1]
      exact ⟨rfl, Or.inl rfl⟩
    · split at h
      · simp at h
      · split at h
        · rename_i h1 h2 h3
          simp only [HandlerResult.einval.injEq] at h
          rw [← h.2.1]
          exact ⟨rfl, Or.inr ⟨by omega, _, rfl⟩⟩
        · simp at h
  all_goals
    (repeat' split at h) <;>
      first
        | (simp at h; done)
        | (simp only [HandlerResult.einval.injEq] at h
           rw [← h.2.1]
           exact ⟨rfl, Or.inl rfl⟩)

theorem shader_step_refl (e : exec_info) : shader_step e e :=
  ⟨rfl, Or.inl ⟨rfl, rfl⟩⟩

theorem shader_touch_of_step (e0 e1 : exec_info) (h : shader_step e0 e1) :
    shader_touch e0 e1 := by
  obtain ⟨h1, h2 | ⟨h3, _, h4⟩⟩ := h
  · exact ⟨h1, Or.inl h2.2⟩
  · exact ⟨h1, Or.inr ⟨h3, h4⟩⟩

/-- A pass over a packet that went through ran its handler, if any, with success. -/
theorem process_through_handler (K : vc4_packet_h) (u : Mem) (s t : WalkState)
    (info : cmd_info_entry)
    (h : vc4_validate_cl_process K u s info = .next t ∨
      vc4_validate_cl_process K u s info = .done (.ok t)) :
    run_handler K u s info = .ok t.exec t.out := by
  unfold vc4_validate_cl_process at h
  simp only at h
  cases hr : run_handler K u s info with
  | undefined f => rw [hr] at h; simp at h
  | einval e x o => rw [hr] at h; simp at h
  | ok x o =>
    rw [hr] at h
    simp only at h
    split at h
    · rcases h with h | h
      · simp at h
      · simp only [LoopStep.done.injEq, WalkResult.ok.injEq] at h
        subst h
        rfl
    · rcases h with h | h
      · simp only [LoopStep.next.injEq] at h
        subst h
        rfl
      · simp at h

theorem run_handler_shader_step (K : vc4_packet_h) (u : Mem) (s : WalkState)
    (info : cmd_info_entry) (e : exec_info) (o : WriteLog)
    (h : run_handler K u s info = .ok e o) : shader_step s.exec e := by
  unfold run_handler at h
  cases hf : info.func with
  | none =>
    rw [hf] at h
    simp only [HandlerResult.ok.injEq] at h
    rw [← h.1]
    exact shader_step_refl _
  | some f =>
    rw [hf] at h
    exact call_func_shader_step K f u _ _ _ _ _ _ h

/-- The shader state bookkeeping across a pass that goes through. -/
theorem iter_shader_step (K : vc4_packet_h) (u : Mem) (len : Nat) (is_bin : Bool)
    (s t : WalkState)
    (h : vc4_validate_cl_iter K u len is_bin s = .next t ∨
      vc4_validate_cl_iter K u len is_bin s = .done (.ok t)) :
    shader_step s.exec t.exec := by
  by_cases hlt : s.src_offset < len
  · obtain ⟨info, _, hpr⟩ := iter_through K u len is_bin s t hlt h
    exact run_handler_shader_step K u s info _ _ (process_through_handler K u s t info hpr)
  · unfold vc4_validate_cl_iter at h
    rw [if_neg hlt] at h
    rcases h with h | h
    · simp at h
    · simp only [LoopStep.done.injEq, WalkResult.ok.injEq] at h
      subst h
      exact shader_step_refl _

/-- The request array across a pass that leaves the function, however it leaves it. -/
theorem iter_done_touch (K : vc4_packet_h) (u : Mem) (len : Nat) (is_bin : Bool)
    (s : WalkState) (r : WalkResult)
    (h : vc4_validate_cl_iter K u len is_bin s = .done r) :
    shader_touch s.exec r.state.exec := by
  cases r with
  | ok t => exact shader_touch_of_step _ _ (iter_shader_step K u len is_bin s t (Or.inr h))
  | einval er t =>
    unfold vc4_validate_cl_iter at h
    split at h
    · unfold vc4_validate_cl_body at h
      cases hck : vc4_validate_cl_checks u len is_bin s with
      | fail e =>
        rw [hck] at h
        simp only [LoopStep.done.injEq, WalkResult.einval.injEq] at h
        rw [← h.2]
        exact shader_touch_of_step _ _ (shader_step_refl _)
      | undefined f => rw [hck] at h; simp at h
      | pass info =>
        rw [hck] at h
        simp only [vc4_validate_cl_process] at h
        cases hr : run_handler K u s info with
        | undefined f => rw [hr] at h; simp at h
        | ok x o =>
          rw [hr] at h
          simp only at h
          split at h <;> simp at h
        | einval e2 x o =>
          rw [hr] at h
          simp only [LoopStep.done.injEq, WalkResult.einval.injEq] at h
          rw [← h.2]
          unfold run_handler at hr
          cases hf : info.func with
          | none => rw [hf] at hr; simp at hr
          | some f =>
            rw [hf] at hr
            exact call_func_shader_touch K f u _ _ _ _ _ _ _ hr
    · simp at h
  | undefined f t =>
    unfold vc4_validate_cl_iter at h
    split at h
    · unfold vc4_validate_cl_body at h
      cases hck : vc4_validate_cl_checks u len is_bin s with
      | fail e => rw [hck] at h; simp at h
      | undefined f2 =>
        rw [hck] at h
        simp only [LoopStep.done.injEq, WalkResult.undefined.injEq] at h
        rw [← h.2]
        exact shader_touch_of_step _ _ (shader_step_refl _)
      | pass info =>
        rw [hck] at h
        simp only [vc4_validate_cl_process] at h
        cases hr : run_handler K u s info with
        | undefined f2 =>
          rw [hr] at h
          simp only [LoopStep.done.injEq, WalkResult.undefined.injEq] at h
          rw [← h.2]
          exact shader_touch_of_step _ _ (shader_step_refl _)
        | ok x o =>
          rw [hr] at h
          simp only at h
          split at h <;> simp at h
        | einval e2 x o => rw [hr] at h; simp at h
    · simp at h

/-- Going through one more packet keeps the relation `shader_kept` to the first context. -/
theorem shader_kept_step (e0 e e1 : exec_info) (hsz : e0.shader_state_size < 4294967296)
    (hk : shader_kept e0 e) (hs : shader_step e e1) : shader_kept e0 e1 := by
  obtain ⟨k1, k2, k3, k4⟩ := hk
  obtain ⟨s1, ⟨s2, s3⟩ | ⟨s4, s5, r, s6⟩⟩ := hs
  · exact ⟨by omega, fun h => by have := k2 h; omega, by omega, fun j hj => by rw [s3]; exact k4 j hj⟩
  · have hm : (e.shader_state_count + 1) % 4294967296 = e.shader_state_count + 1 :=
      Nat.mod_eq_of_lt (by omega)
    rw [hm] at s5
    refine ⟨by omega, fun _ => by omega, by omega, fun j hj => ?_⟩
    rw [s6, List.getElem?_set_ne (by omega)]
    exact k4 j hj

/-- A last handler call, failing or not, still leaves the slots of `slots_kept` alone. -/
theorem slots_kept_touch (e0 e e1 : exec_info) (hk : shader_kept e0 e)
    (ht : shader_touch e e1) : slots_kept e0 e1 := by
  obtain ⟨k1, _, k3, k4⟩ := hk
  obtain ⟨t1, t2 | ⟨t3, r, t4⟩⟩ := ht
  · exact ⟨by omega, fun j hj => by rw [t2]; exact k4 j hj⟩
  · refine ⟨by omega, fun j hj => ?_⟩
    rw [t4, List.getElem?_set_ne (by omega)]
    exact k4 j hj

theorem shader_kept_refl (e : exec_info) : shader_kept e e :=
  ⟨le_refl _, fun h => h, rfl, fun _ _ => rfl⟩

/-- The relation `shader_kept` holds between the context a scan started with and the context
at every packet boundary it reaches. -/
theorem shader_kept_at (K : vc4_packet_h) (u : Mem) (len : Nat) (is_bin : Bool)
    (e0 : exec_info) (hsz : e0.shader_state_size < 4294967296) (n : Nat) (s0 s : WalkState)
    (hk : shader_kept e0 s0.exec)
    (h : vc4_validate_cl_at K u len is_bin n s0 = some s) : shader_kept e0 s.exec := by
  induction n generalizing s0 with
  | zero =>
    simp only [vc4_validate_cl_at, Option.some.injEq] at h
    subst h
    exact hk
  | succ n ih =>
    simp only [vc4_validate_cl_at] at h
    cases hstep : vc4_validate_cl_iter K u len is_bin s0 with
    | next s2 =>
      rw [hstep] at h
      exact ih s2 (shader_kept_step e0 _ _ hsz hk
        (iter_shader_step K u len is_bin s0 s2 (Or.inl hstep))) h
    | done r => rw [hstep] at h; simp at h

/-- However a run of the loop ends, the slots of `slots_kept` are as they were at the start;
when it ends with success the whole relation `shader_kept` holds. -/
theorem shader_kept_loop (K : vc4_packet_h) (u : Mem) (len : Nat) (is_bin : Bool)
    (e0 : exec_info) (hsz : e0.shader_state_size < 4294967296) (fuel : Nat)
    (s0 : WalkState) (r : WalkResult) (hk : shader_kept e0 s0.exec)
    (h : vc4_validate_cl_loop K u len is_bin fuel s0 = some r) :
    slots_kept e0 r.state.exec ∧ (∀ t, r = .ok t → shader_kept e0 t.exec) := by
  induction fuel generalizing s0 with
  | zero => simp [vc4_validate_cl_loop] at h
  | succ fuel ih =>
    simp only [vc4_validate_cl_loop] at h
    cases hstep : vc4_validate_cl_iter K u len is_bin s0 with
    | next s2 =>
      rw [hstep] at h
      exact ih s2 (shader_kept_step e0 _ _ hsz hk
        (iter_shader_step K u len is_bin s0 s2 (Or.inl hstep))) h
    | done r2 =>
      rw [hstep] at h
      simp only [Option.some.injEq] at h
      subst h
      refine ⟨slots_kept_touch e0 _ _ hk (iter_done_touch K u len is_bin s0 r2 hstep), ?_⟩
      intro t ht
      subst ht
      exact shader_kept_step e0 _ _ hsz hk
        (iter_shader_step K u len is_bin s0 t (Or.inr hstep))

/-- The request count after a failing handler call: one more than before when the failure
is the capacity test (the count was at or above the capacity), otherwise as before or, for
a misaligned NV address, one more than a count that was below the capacity. -/
theorem call_func_einval_count (K : vc4_packet_h) (f : validate_fn) (u : Mem)
    (exec : exec_info) (out : WriteLog) (v unt : Nat) (er : HandlerError) (e : exec_info)
    (o : WriteLog) (h : call_func K f u exec out v unt = .einval er e o) :
    e.shader_state_size = exec.shader_state_size ∧
      ((er = .more_shader_states ∧ exec.shader_state_count ≥ exec.shader_state_size ∧
          e.shader_state_count = (exec.shader_state_count + 1) % 4294967296) ∨
        (er ≠ .more_shader_states ∧
          (e.shader_state_count = exec.shader_state_count ∨
            (exec.shader_state_count < exec.shader_state_size ∧
              e.shader_state_count = (exec.shader_state_count + 1) % 4294967296)))) := by
  cases f <;>
    simp only [call_func, validate_branch_to_sublist, validate_loadstore_tile_buffer_general,
      validate_indexed_prim_list, validate_gl_shader_state, validate_nv_shader_state,
      validate_tile_binning_config, validate_tile_rendering_mode_config,
      validate_gem_handles] at h
  case gl_shader_state =>
    split at h
    · rename_i h1
      simp only [HandlerResult.einval.injEq] at h
      rw [← h.1, ← h.2.1]
      exact ⟨rfl, Or.inl ⟨rfl, h1, rfl⟩⟩
    · split at h <;> simp at h
  case nv_shader_state =>
    split at h
    · rename_i h1
      simp only [HandlerResult.einval.injEq] at h
      rw [← h.1, ← h.2.1]
      exact ⟨rfl, Or.inl ⟨rfl, h1, rfl⟩⟩
    · split at h
      · simp at h
      · split at h
        · rename_i h1 h2 h3
          simp only [HandlerResult.einval.injEq] at h
          rw [← h.1, ← h.2.1]
          exact ⟨rfl, Or.inr ⟨by decide, Or.inr ⟨by omega, rfl⟩⟩⟩
        · simp at h
  all_goals
    (repeat' split at h) <;>
      first
        | (simp at h; done)
        | (simp only [HandlerResult.einval.injEq] at h
           rw [← h.1, ← h.2.1]
           exact ⟨rfl, Or.inr ⟨by decide, Or.inl rfl⟩⟩)

/-- What a failed check means: the error names the check, and the condition of that check
holds for the table entry of the opcode. -/
theorem checks_fail (u : Mem) (len : Nat) (is_bin : Bool) (s : WalkState) (e : WalkError)
    (h : vc4_validate_cl_checks u len is_bin s = .fail e) :
    ∃ info, cmd_info[load8 u s.src_offset]? = some info ∧
      ((e = .packet_invalid ∧ info.name = none) ∨
        (e = .invalid_for_list ∧ info.name ≠ none ∧ list_check_fails is_bin info = true) ∨
        (e = .length_exceeds_bounds ∧ info.name ≠ none ∧
          list_check_fails is_bin info = false ∧
          (s.src_offset + info.len) % 4294967296 > len)) := by
  unfold vc4_validate_cl_checks at h
  simp only at h
  split at h
  · rename_i h1
    have := load8_lt u s.src_offset
    unfold ARRAY_SIZE_cmd_info at h1
    omega
  · split at h
    · simp at h
    · rename_i info hinfo
      refine ⟨info, hinfo, ?_⟩
      split at h
      · rename_i hn
        simp only [Checked.fail.injEq] at h
        exact Or.inl ⟨h.symm, by simpa using hn⟩
      · rename_i hn
        have hn2 : info.name ≠ none := by simpa using hn
        split at h
        · rename_i hl
          simp only [Checked.fail.injEq] at h
          exact Or.inr (Or.inl ⟨h.symm, hn2, hl⟩)
        · rename_i hl
          split at h
          · rename_i hlen
            simp only [Checked.fail.injEq] at h
            exact Or.inr (Or.inr ⟨h.symm, hn2, by simpa using hl, hlen⟩)
          · simp at h

/-- The ways a pass can leave the function: with the context untouched, with success after
a handler that went through, or with the failure of a handler. -/
theorem iter_done_cases (K : vc4_packet_h) (u : Mem) (len : Nat) (is_bin : Bool)
    (s : WalkState) (r : WalkResult)
    (h : vc4_validate_cl_iter K u len is_bin s = .done r) :
    (r.state.exec = s.exec ∧ ∀ t, r ≠ .einval (.failed_to_validate .more_shader_states) t) ∨
      (∃ t, r = .ok t ∧ shader_step s.exec t.exec) ∨
      (∃ er t info f, r = .einval (.failed_to_validate er) t ∧
        call_func K f u s.exec (copy_packet u s info) (s.dst_offset + 1) (s.src_offset + 1) =
          .einval er t.exec t.out) := by
  cases r with
  | ok t => exact Or.inr (Or.inl ⟨t, rfl, iter_shader_step K u len is_bin s t (Or.inr h)⟩)
  | einval er t =>
    unfold vc4_validate_cl_iter at h
    split at h
    · unfold vc4_validate_cl_body at h
      cases hck : vc4_validate_cl_checks u len is_bin s with
      | fail e =>
        rw [hck] at h
        simp only [LoopStep.done.injEq, WalkResult.einval.injEq] at h
        left
        refine ⟨by rw [← h.2]; rfl, ?_⟩
        intro t2 hc
        simp only [WalkResult.einval.injEq] at hc
        rw [← h.1] at hc
        obtain ⟨_, _, hk | hk | hk⟩ := checks_fail u len is_bin s e hck
        · rw [hk.1] at hc; simp at hc
        · rw [hk.1] at hc; simp at hc
        · rw [hk.1] at hc; simp at hc
      | undefined f => rw [hck] at h; simp at h
      | pass info =>
        rw [hck] at h
        simp only [vc4_validate_cl_process] at h
        cases hr : run_handler K u s info with
        | undefined f => rw [hr] at h; simp at h
        | ok x o =>
          rw [hr] at h
          simp only at h
          split at h <;> simp at h
        | einval e2 x o =>
          rw [hr] at h
          simp only [LoopStep.done.injEq, WalkResult.einval.injEq] at h
          unfold run_handler at hr
          cases hf : info.func with
          | none => rw [hf] at hr; simp at hr
          | some f =>
            rw [hf] at hr
            right; right
            refine ⟨e2, t, info, f, by rw [← h.1], ?_⟩
            rw [← h.2]
            exact hr
    · simp at h
  | undefined f t =>
    left
    refine ⟨?_, fun t2 hc => by simp at hc⟩
    unfold vc4_validate_cl_iter at h
    split at h
    · unfold vc4_validate_cl_body at h
      cases hck : vc4_validate_cl_checks u len is_bin s with
      | fail e => rw [hck] at h; simp at h
      | undefined f2 =>
        rw [hck] at h
        simp only [LoopStep.done.injEq, WalkResult.undefined.injEq] at h
        rw [← h.2]
        rfl
      | pass info =>
        rw [hck] at h
        simp only [vc4_validate_cl_process] at h
        cases hr : run_handler K u s info with
        | undefined f2 =>
          rw [hr] at h
          simp only [LoopStep.done.injEq, WalkResult.undefined.injEq] at h
          rw [← h.2]
          rfl
        | ok x o =>
          rw [hr] at h
          simp only at h
          split at h <;> simp at h
        | einval e2 x o => rw [hr] at h; simp at h
    · simp at h

/-- When `vc4_validate_cl` returns `-EINVAL`, it does so at a packet reached by the scan for
which one of four things holds: its table slot is empty, the list check refuses it, its
table length added to the source offset exceeds `len`, or its handler returned
`-EINVAL`. -/
theorem failure_has_cause (K : vc4_packet_h) (u : Mem) (len : Nat) (is_bin : Bool)
    (exec : exec_info) (fuel : Nat) (e : WalkError) (t : WalkState)
    (h : vc4_validate_cl K fuel u len is_bin exec = some (.einval e t)) :
    ∃ n s, Reached K u len is_bin exec n s ∧
      ((∃ info, cmd_info[load8 u s.src_offset]? = some info ∧
          ((e = .packet_invalid ∧ info.name = none) ∨
            (e = .invalid_for_list ∧ list_check_fails is_bin info = true) ∨
            (e = .length_exceeds_bounds ∧ s.src_offset + info.len > len)) ∧ t = s) ∨
        (∃ er info f, e = .failed_to_validate er ∧
          vc4_validate_cl_checks u len is_bin s = .pass info ∧ info.func = some f ∧
          call_func K f u s.exec (copy_packet u s info) (s.dst_offset + 1)
            (s.src_offset + 1) = .einval er t.exec t.out)) := by
  obtain ⟨n, s, _, hs, hit⟩ := loop_done_at K u len is_bin fuel _ _ h
  have hlt : s.src_offset < len := by
    by_contra hc
    simp [vc4_validate_cl_iter, hc] at hit
  refine ⟨n, s, ⟨hs, hlt⟩, ?_⟩
  unfold vc4_validate_cl_iter at hit
  rw [if_pos hlt] at hit
  unfold vc4_validate_cl_body at hit
  cases hck : vc4_validate_cl_checks u len is_bin s with
  | fail e2 =>
    rw [hck] at hit
    simp only [LoopStep.done.injEq, WalkResult.einval.injEq] at hit
    obtain ⟨rfl, rfl⟩ := hit
    obtain ⟨info, hinfo, hk⟩ := checks_fail u len is_bin s e2 hck
    left
    refine ⟨info, hinfo, ?_, rfl⟩
    rcases hk with hk | hk | hk
    · exact Or.inl hk
    · exact Or.inr (Or.inl ⟨hk.1, hk.2.2⟩)
    · refine Or.inr (Or.inr ⟨hk.1, ?_⟩)
      have := Nat.mod_le (s.src_offset + info.len) 4294967296
      omega
  | undefined f => rw [hck] at hit; simp at hit
  | pass info =>
    rw [hck] at hit
    simp only [vc4_validate_cl_process] at hit
    cases hr : run_handler K u s info with
    | undefined f => rw [hr] at hit; simp at hit
    | ok x o =>
      rw [hr] at hit
      simp only at hit
      split at hit <;> simp at hit
    | einval e2 x o =>
      rw [hr] at hit
      simp only [LoopStep.done.injEq, WalkResult.einval.injEq] at hit
      unfold run_handler at hr
      cases hf : info.func with
      | none => rw [hf] at hr; simp at hr
      | some f =>
        rw [hf] at hr
        right
        refine ⟨e2, info, f, hit.1.symm, rfl, hf, ?_⟩
        rw [← hit.2]
        exact hr

/-! ### Reading the output buffer back -/

theorem apply_log_append (init : Mem) (out w : WriteLog) :
    apply_log init (out ++ w) = apply_log (apply_log init out) w := by
  simp [apply_log, List.foldl_append]

theorem apply_log_store32 (m : Mem) (a x b : Nat) :
    apply_log m (store32 a x) b =
      if b = a + 3 then x / 16777216 % 256
      else if b = a + 2 then x / 65536 % 256
      else if b = a + 1 then x / 256 % 256
      else if b = a then x % 256
      else m b := by
  simp only [apply_log, store32, List.foldl_cons, List.foldl_nil, Function.update_apply]

/-- A 32-bit store followed by a 32-bit load at the same place gives the value back;
bytes outside the four stored ones are untouched. -/
theorem store32_rewrites (init : Mem) (out : WriteLog) (a x : Nat) (hx : x < 4294967296) :
    field_rewritten init out (out ++ store32 a x) a x := by
  constructor
  · simp only [load32, load8, apply_log_append, apply_log_store32]
    have e1 : ¬ (a = a + 3) := by omega
    have e2 : ¬ (a = a + 2) := by omega
    have e3 : ¬ (a = a + 1) := by omega
    have e4 : ¬ (a + 1 = a + 3) := by omega
    have e5 : ¬ (a + 1 = a + 2) := by omega
    have e6 : ¬ (a + 2 = a + 3) := by omega
    simp only [e1, e2, e3, e4, e5, e6, if_true, if_false]
    omega
  · intro b hb
    rw [apply_log_append, apply_log_store32]
    have e1 : ¬ (b = a + 3) := by omega
    have e2 : ¬ (b = a + 2) := by omega
    have e3 : ¬ (b = a + 1) := by omega
    have e4 : ¬ (b = a) := by omega
    simp only [e1, e2, e3, e4, if_false]

set_option maxRecDepth 100000 in
/-- The run of `vc4_validate_cl` over `store_none_stream` as a render list: the packet is
copied and nothing else is stored. -/
theorem store_none_stream_run :
    vc4_validate_cl K0 3 (mem_of store_none_stream) 16 false exec_one_bo =
      some (.ok { dst_offset := 7, src_offset := 16, exec := exec_one_bo,
                  out := [(0, 28), (1, 0), (2, 0), (3, 0), (4, 0), (5, 0), (6, 0)] }) := by
  decide

set_option maxRecDepth 100000 in
/-- The run of `vc4_validate_cl` over `gl_state_stream` in a context without shader state
slots. -/
theorem gl_state_stream_run :
    vc4_validate_cl K0 1 (mem_of gl_state_stream) 5 true exec_empty =
      some (.einval (.failed_to_validate .more_shader_states)
        { dst_offset := 0, src_offset := 0,
          exec := { exec_empty with shader_state_count := 1 },
          out := [(0, 64), (1, 0), (2, 0), (3, 0), (4, 0)] }) := by
  decide

/-! ### The shader record validator -/

theorem foldl_relocate (src : Mem) (v sp : Nat) (ps : List (Nat × drm_gem_cma_object))
    (out : WriteLog) :
    ps.foldl (shader_rec_relocate src v sp) out = out ++ shader_rec_stores src v sp ps := by
  induction ps generalizing out with
  | nil => simp [shader_rec_stores]
  | cons p ps ih =>
    rw [List.foldl_cons, ih]
    simp [shader_rec_stores, shader_rec_relocate, List.append_assoc]

theorem shader_rec_stores_cons (src : Mem) (v sp : Nat) (p : Nat × drm_gem_cma_object)
    (ps : List (Nat × drm_gem_cma_object)) :
    shader_rec_stores src v sp (p :: ps) =
      store32 (v + p.1) ((p.2.paddr + load32 src (sp + p.1)) % 4294967296) ++
        shader_rec_stores src v sp ps := by
  simp [shader_rec_stores]

/-- Relocation stores leave every byte outside their fields as it was. -/
theorem apply_log_stores_outside (init : Mem) (src : Mem) (v sp : Nat)
    (ps : List (Nat × drm_gem_cma_object)) (base : WriteLog) (a : Nat)
    (h : ∀ p ∈ ps, a < v + p.1 ∨ v + p.1 + 4 ≤ a) :
    apply_log init (base ++ shader_rec_stores src v sp ps) a = apply_log init base a := by
  induction ps generalizing base with
  | nil => simp [shader_rec_stores]
  | cons p ps ih =>
    rw [shader_rec_stores_cons, ← List.append_assoc,
      ih _ (fun q hq => h q (List.mem_cons_of_mem p hq))]
    exact (store32_rewrites init base (v + p.1) _ (Nat.mod_lt _ (by norm_num))).2 a
      (h p (List.mem_cons_self p ps))

/-- After relocation stores to fields that follow each other without overlap, each field
holds its relocated value. -/
theorem apply_log_stores_inside (init : Mem) (src : Mem) (v sp : Nat)
    (ps : List (Nat × drm_gem_cma_object)) (base : WriteLog)
    (hd : ps.Pairwise (fun p q => p.1 + 4 ≤ q.1)) (p : Nat × drm_gem_cma_object)
    (hp : p ∈ ps) :
    load32 (apply_log init (base ++ shader_rec_stores src v sp ps)) (v + p.1) =
      (p.2.paddr + load32 src (sp + p.1)) % 4294967296 := by
  induction ps generalizing base with
  | nil => simp at hp
  | cons q ps ih =>
    rw [List.pairwise_cons] at hd
    rw [shader_rec_stores_cons, ← List.append_assoc]
    rcases List.mem_cons.1 hp with h | h
    · subst h
      rw [load32_agree _ _ (v + p.1) (fun i h1 h2 =>
        apply_log_stores_outside init src v sp ps _ i (fun r hr => by
          have := hd.1 r hr
          omega))]
      exact (store32_rewrites init base (v + p.1) _ (Nat.mod_lt _ (by norm_num))).1
    · exact ih _ hd.2 h

theorem zip_pairwise (offs : List Nat) (bo : List drm_gem_cma_object)
    (h : offs.Pairwise (fun a b => a + 4 ≤ b)) :
    (offs.zip bo).Pairwise (fun p q => p.1 + 4 ≤ q.1) := by
  induction offs generalizing bo with
  | nil => simp
  | cons o offs ih =>
    cases bo with
    | nil => simp
    | cons b bo =>
      rw [List.pairwise_cons] at h
      rw [List.zip_cons_cons, List.pairwise_cons]
      exact ⟨fun q hq => h.1 q.1 (List.of_mem_zip hq).1, ih bo h.2⟩

theorem attr_offsets_pairwise (n : Nat) :
    (shader_rec_attr_offsets n).Pairwise (fun a b => a + 4 ≤ b) := by
  rw [shader_rec_attr_offsets, List.pairwise_map]
  exact (List.pairwise_lt_range n).imp (fun h => by omega)

theorem bo_offsets_pairwise (K : vc4_packet_h) (state : vc4_shader_state) :
    (shader_rec_bo_offsets K state).Pairwise (fun a b => a + 4 ≤ b) := by
  unfold shader_rec_bo_offsets
  split <;> decide

/-- The handle loop, when the first `n` handle words are all below `bo_count`: the local
array holds, in order, the buffer objects they name. -/
theorem lookup_found (src : Mem) (exec : exec_info) (unvalidated : Nat)
    (hbo : exec.bo_count ≤ exec.bo.length) (n : Nat)
    (h : ∀ i, i < n → load32 src (unvalidated + 4 * i) < exec.bo_count) :
    ∃ bo, shader_rec_lookup src exec unvalidated n = .found bo ∧ bo.length = n ∧
      ∀ i, i < n → bo[i]? = exec.bo[load32 src (unvalidated + 4 * i)]? ∧ bo[i]?.isSome := by
  induction n with
  | zero => exact ⟨[], rfl, rfl, fun i hi => by omega⟩
  | succ n ih =>
    obtain ⟨bo, h1, h2, h3⟩ := ih (fun i hi => h i (by omega))
    have hn := h n (by omega)
    have hlt : load32 src (unvalidated + 4 * n) < exec.bo.length := by omega
    obtain ⟨b, hb⟩ : ∃ b, exec.bo[load32 src (unvalidated + 4 * n)]? = some b :=
      ⟨_, List.getElem?_eq_getElem hlt⟩
    refine ⟨bo ++ [b], ?_, by simp [h2], fun i hi => ?_⟩
    · simp only [shader_rec_lookup, h1, hb]
      rw [if_neg (by omega)]
    · by_cases hi2 : i < n
      · rw [List.getElem?_append_left (by omega)]
        exact h3 i hi2
      · have e : i = n := by omega
        subst e
        rw [List.getElem?_append_right (by omega), h2, hb]
        simp

/-- The handle loop, when one of the first `n` handle words is not below `bo_count`: the
loop leaves the function at the first such word. -/
theorem lookup_out_of_range (src : Mem) (exec : exec_info) (unvalidated : Nat)
    (hbo : exec.bo_count ≤ exec.bo.length) (n : Nat)
    (h : ∃ i, i < n ∧ load32 src (unvalidated + 4 * i) ≥ exec.bo_count) :
    ∃ i, shader_rec_lookup src exec unvalidated n = .out_of_range i ∧ i < n ∧
      load32 src (unvalidated + 4 * i) ≥ exec.bo_count ∧
      ∀ j, j < i → load32 src (unvalidated + 4 * j) < exec.bo_count := by
  induction n with
  | zero => obtain ⟨i, hi, _⟩ := h; omega
  | succ n ih =>
    by_cases hex : ∃ i, i < n ∧ load32 src (unvalidated + 4 * i) ≥ exec.bo_count
    · obtain ⟨i, h1, h2, h3, h4⟩ := ih hex
      exact ⟨i, by simp only [shader_rec_lookup, h1], by omega, h3, h4⟩
    · have hall : ∀ i, i < n → load32 src (unvalidated + 4 * i) < exec.bo_count := by
        intro i hi
        by_contra hc
        exact hex ⟨i, hi, by omega⟩
      obtain ⟨bo, h1, _, _⟩ := lookup_found src exec unvalidated hbo n hall
      obtain ⟨i, hi, hge⟩ := h
      have e : i = n := by
        by_contra hc
        exact hex ⟨i, by omega, hge⟩
      subst e
      refine ⟨i, ?_, by omega, hge, hall⟩
      simp only [shader_rec_lookup, h1]
      rw [if_pos hge]

/-- The handle loop reads the first `n` handle words and nothing else. -/
theorem lookup_agree (src src2 : Mem) (exec : exec_info) (unvalidated : Nat) (n : Nat)
    (h : ∀ a, unvalidated ≤ a → a < unvalidated + 4 * n → src2 a = src a) :
    shader_rec_lookup src2 exec unvalidated n = shader_rec_lookup src exec unvalidated n := by
  induction n with
  | zero => rfl
  | succ n ih =>
    have e : load32 src2 (unvalidated + 4 * n) = load32 src (unvalidated + 4 * n) :=
      load32_agree src src2 _ (fun i h1 h2 => h i (by omega) (by omega))
    simp only [shader_rec_lookup, ih (fun a h1 h2 => h a h1 (by omega)), e]

/-- A failing handle loop never ends with `found`, whatever the allocation of `exec->bo`. -/
theorem lookup_found_handles (src : Mem) (exec : exec_info) (unvalidated : Nat) (n : Nat)
    (bo : List drm_gem_cma_object)
    (h : shader_rec_lookup src exec unvalidated n = .found bo) :
    bo.length = n ∧ ∀ i, i < n → load32 src (unvalidated + 4 * i) < exec.bo_count ∧
      bo[i]? = exec.bo[load32 src (unvalidated + 4 * i)]? ∧ bo[i]?.isSome := by
  induction n generalizing bo with
  | zero =>
    simp only [shader_rec_lookup, LookupResult.found.injEq] at h
    subst h
    exact ⟨rfl, fun i hi => by omega⟩
  | succ n ih =>
    simp only [shader_rec_lookup] at h
    cases hl : shader_rec_lookup src exec unvalidated n with
    | found bo0 =>
      rw [hl] at h
      simp only at h
      obtain ⟨h2, h3⟩ := ih bo0 hl
      by_cases hge : load32 src (unvalidated + 4 * n) ≥ exec.bo_count
      · rw [if_pos hge] at h; simp at h
      · rw [if_neg hge] at h
        cases hb : exec.bo[load32 src (unvalidated + 4 * n)]? with
        | none => rw [hb] at h; simp at h
        | some b =>
          rw [hb] at h
          simp only [LookupResult.found.injEq] at h
          subst h
          refine ⟨by simp [h2], fun i hi => ?_⟩
          by_cases hi2 : i < n
          · rw [List.getElem?_append_left (by omega)]
            exact h3 i hi2
          · have e : i = n := by omega
            subst e
            rw [List.getElem?_append_right (by omega), h2, hb]
            exact ⟨by omega, by simp, by simp⟩
    | out_of_range i => rw [hl] at h; simp at h
    | undefined f => rw [hl] at h; simp at h

/-- The handle loop ends at its `DRM_ERROR` only on a handle word, one of the first `n`,
that is not below `bo_count`. -/
theorem lookup_out_of_range_handle (src : Mem) (exec : exec_info) (unvalidated : Nat)
    (n i : Nat) (h : shader_rec_lookup src exec unvalidated n = .out_of_range i) :
    i < n ∧ load32 src (unvalidated + 4 * i) ≥ exec.bo_count := by
  induction n with
  | zero => simp [shader_rec_lookup] at h
  | succ n ih =>
    simp only [shader_rec_lookup] at h
    cases hl : shader_rec_lookup src exec unvalidated n with
    | found bo0 =>
      rw [hl] at h
      simp only at h
      by_cases hge : load32 src (unvalidated + 4 * n) ≥ exec.bo_count
      · rw [if_pos hge] at h
        simp only [LookupResult.out_of_range.injEq] at h
        subst h
        exact ⟨by omega, hge⟩
      · rw [if_neg hge] at h
        cases hb : exec.bo[load32 src (unvalidated + 4 * n)]? with
        | none => rw [hb] at h; simp at h
        | some b => rw [hb] at h; simp at h
    | out_of_range j =>
      rw [hl] at h
      simp only [LookupResult.out_of_range.injEq] at h
      subst h
      have := ih hl
      exact ⟨by omega, this.2⟩
    | undefined f => rw [hl] at h; simp at h

/-- The function `validate_shader_rec` for a record that fits: the body is copied, and the
outcome is that of the handle loop, the relocations following when it found all buffers. -/
theorem validate_shader_rec_pass (K : vc4_packet_h) (src : Mem) (exec : exec_info)
    (out : WriteLog) (v u len : Nat) (state : vc4_shader_state)
    (h : shader_rec_needed K state ≤ len) :
    validate_shader_rec K src exec out v u len state =
      match shader_rec_lookup src exec u (shader_rec_handle_count K state) with
      | .out_of_range _ =>
        .einval .bo_index_out_of_range exec
          (out ++ memcpy src v (u + 4 * shader_rec_handle_count K state)
            (shader_rec_packet_size K state))
      | .undefined f => .undefined f
      | .found bo =>
        .ok exec
          (out ++ memcpy src v (u + 4 * shader_rec_handle_count K state)
              (shader_rec_packet_size K state) ++
            shader_rec_stores src v (u + 4 * shader_rec_handle_count K state)
              ((shader_rec_bo_offsets K state).zip bo) ++
            shader_rec_stores src v (u + 4 * shader_rec_handle_count K state)
              ((shader_rec_attr_offsets (shader_rec_nr_attributes K state)).zip
                (bo.drop (shader_rec_nr_bo K state)))) := by
  unfold validate_shader_rec
  simp only [shader_rec_needed] at h
  rw [if_neg (by omega)]
  simp only [shader_rec_handle_count, foldl_relocate]

/-- The function `validate_shader_rec` for a record that does not fit. -/
theorem validate_shader_rec_short (K : vc4_packet_h) (src : Mem) (exec : exec_info)
    (out : WriteLog) (v u len : Nat) (state : vc4_shader_state)
    (h : shader_rec_needed K state > len) :
    validate_shader_rec K src exec out v u len state = .einval .overflowed_read exec out := by
  unfold validate_shader_rec
  simp only [shader_rec_needed] at h
  rw [if_pos h]

theorem shader_rec_needed_nv (K : vc4_packet_h) (state : vc4_shader_state)
    (h : state.packet = K.VC4_PACKET_NV_SHADER_STATE) :
    shader_rec_handle_count K state = 3 ∧ shader_rec_packet_size K state = 16 ∧
      shader_rec_needed K state = 28 := by
  simp [shader_rec_handle_count, shader_rec_needed, shader_rec_nr_bo, shader_rec_nr_attributes,
    shader_rec_packet_size, h, nv_bo_offsets]

theorem shader_rec_needed_gl (K : vc4_packet_h) (state : vc4_shader_state)
    (h : state.packet ≠ K.VC4_PACKET_NV_SHADER_STATE) :
    shader_rec_nr_attributes K state = (if state.addr % 8 = 0 then 8 else state.addr % 8) ∧
      shader_rec_handle_count K state = 6 + shader_rec_nr_attributes K state ∧
      shader_rec_packet_size K state = 36 + 8 * shader_rec_nr_attributes K state ∧
      shader_rec_needed K state = 60 + 12 * shader_rec_nr_attributes K state := by
  simp only [shader_rec_handle_count, shader_rec_needed, shader_rec_nr_bo,
    shader_rec_nr_attributes, shader_rec_packet_size, h, gl_bo_offsets, if_false,
    List.length_cons, List.length_nil]
  refine ⟨trivial, trivial, ?_, ?_⟩ <;> omega

theorem bo_offsets_in_body (K : vc4_packet_h) (state : vc4_shader_state) (o : Nat)
    (h : o ∈ shader_rec_bo_offsets K state) :
    o + 4 ≤ 36 ∧ o + 4 ≤ shader_rec_packet_size K state := by
  unfold shader_rec_bo_offsets at h
  unfold shader_rec_packet_size
  by_cases hnv : state.packet = K.VC4_PACKET_NV_SHADER_STATE
  · rw [if_pos hnv] at h ⊢
    simp only [nv_bo_offsets, List.mem_cons, List.mem_singleton, List.not_mem_nil,
      or_false] at h
    omega
  · rw [if_neg hnv] at h ⊢
    simp only [gl_bo_offsets, List.mem_cons, List.mem_singleton, List.not_mem_nil,
      or_false] at h
    omega

theorem attr_offsets_mem (n o : Nat) (h : o ∈ shader_rec_attr_offsets n) :
    ∃ i, i < n ∧ o = 36 + i * 8 := by
  simp only [shader_rec_attr_offsets, List.mem_map, List.mem_range] at h
  obtain ⟨i, hi, e⟩ := h
  exact ⟨i, hi, e.symm⟩

theorem attr_offsets_in_body (K : vc4_packet_h) (state : vc4_shader_state) (o : Nat)
    (h : o ∈ shader_rec_attr_offsets (shader_rec_nr_attributes K state)) :
    36 ≤ o ∧ o + 4 ≤ shader_rec_packet_size K state := by
  obtain ⟨i, hi, e⟩ := attr_offsets_mem _ o h
  unfold shader_rec_packet_size
  by_cases hnv : state.packet = K.VC4_PACKET_NV_SHADER_STATE
  · simp only [shader_rec_nr_attributes, if_pos hnv] at hi
    omega
  · rw [if_neg hnv]
    omega

theorem bo_offsets_length (K : vc4_packet_h) (state : vc4_shader_state) :
    (shader_rec_bo_offsets K state).length = shader_rec_nr_bo K state := by
  unfold shader_rec_bo_offsets shader_rec_nr_bo
  split <;> rfl

theorem attr_offsets_length (n : Nat) : (shader_rec_attr_offsets n).length = n := by
  simp [shader_rec_attr_offsets]

/-- What the output buffer holds after a successful `validate_shader_rec`, for a handle
loop that found the buffers `bo`. -/
theorem shader_rec_output (K : vc4_packet_h) (src : Mem) (out : WriteLog) (v sp : Nat)
    (state : vc4_shader_state) (init : Mem) (bo : List drm_gem_cma_object)
    (hlen : bo.length = shader_rec_handle_count K state) :
    (∀ k, k < shader_rec_handle_count K state →
      ∃ o b, (shader_rec_fields K state)[k]? = some o ∧ bo[k]? = some b ∧
        o + 4 ≤ shader_rec_packet_size K state ∧
        load32 (apply_log init (out ++ memcpy src v sp (shader_rec_packet_size K state) ++
            shader_rec_stores src v sp ((shader_rec_bo_offsets K state).zip bo) ++
            shader_rec_stores src v sp
              ((shader_rec_attr_offsets (shader_rec_nr_attributes K state)).zip
                (bo.drop (shader_rec_nr_bo K state))))) (v + o) =
          (load32 src (sp + o) + b.paddr) % 4294967296) ∧
      (∀ j, j < shader_rec_packet_size K state →
        (∀ o ∈ shader_rec_fields K state, j < o ∨ o + 4 ≤ j) →
        apply_log init (out ++ memcpy src v sp (shader_rec_packet_size K state) ++
            shader_rec_stores src v sp ((shader_rec_bo_offsets K state).zip bo) ++
            shader_rec_stores src v sp
              ((shader_rec_attr_offsets (shader_rec_nr_attributes K state)).zip
                (bo.drop (shader_rec_nr_bo K state)))) (v + j) = load8 src (sp + j)) ∧
      ∀ a, a < v ∨ v + shader_rec_packet_size K state ≤ a →
        apply_log init (out ++ memcpy src v sp (shader_rec_packet_size K state) ++
            shader_rec_stores src v sp ((shader_rec_bo_offsets K state).zip bo) ++
            shader_rec_stores src v sp
              ((shader_rec_attr_offsets (shader_rec_nr_attributes K state)).zip
                (bo.drop (shader_rec_nr_bo K state)))) a = apply_log init out a := by
  have hz1 : ∀ p ∈ (shader_rec_bo_offsets K state).zip bo,
      p.1 ∈ shader_rec_bo_offsets K state := fun p hp => (List.of_mem_zip hp).1
  have hz2 : ∀ p ∈ (shader_rec_attr_offsets (shader_rec_nr_attributes K state)).zip
      (bo.drop (shader_rec_nr_bo K state)),
      p.1 ∈ shader_rec_attr_offsets (shader_rec_nr_attributes K state) :=
    fun p hp => (List.of_mem_zip hp).1
  refine ⟨fun k hk => ?_, fun j hj hout => ?_, fun a ha => ?_⟩
  · obtain ⟨b, hb⟩ : ∃ b, bo[k]? = some b :=
      ⟨_, List.getElem?_eq_getElem (by omega)⟩
    by_cases hk1 : k < shader_rec_nr_bo K state
    · obtain ⟨o, ho⟩ : ∃ o, (shader_rec_bo_offsets K state)[k]? = some o :=
        ⟨_, List.getElem?_eq_getElem (by rw [bo_offsets_length]; exact hk1)⟩
      have hmem : (o, b) ∈ (shader_rec_bo_offsets K state).zip bo :=
        List.mem_iff_getElem?.2 ⟨k, List.getElem?_zip_eq_some.2 ⟨ho, hb⟩⟩
      have hin := bo_offsets_in_body K state o (hz1 _ hmem)
      refine ⟨o, b, ?_, hb, hin.2, ?_⟩
      · rw [shader_rec_fields, List.getElem?_append_left (by rw [bo_offsets_length]; exact hk1)]
        exact ho
      · rw [load32_agree _ _ (v + o) (fun i h1 h2 =>
          apply_log_stores_outside init src v sp _ _ i (fun r hr => by
            have := (attr_offsets_in_body K state r.1 (hz2 r hr)).1
            omega))]
        rw [apply_log_stores_inside init src v sp _ _
          (zip_pairwise _ _ (bo_offsets_pairwise K state)) (o, b) hmem]
        simp only [Nat.add_comm]
    · have hk2 : k - shader_rec_nr_bo K state < shader_rec_nr_attributes K state := by
        unfold shader_rec_handle_count at hk; omega
      have ho : (shader_rec_attr_offsets (shader_rec_nr_attributes K state))[k -
          shader_rec_nr_bo K state]? = some (36 + (k - shader_rec_nr_bo K state) * 8) := by
        simp only [shader_rec_attr_offsets, List.getElem?_map, List.getElem?_range hk2,
          Option.map_some']
      have hb2 : (bo.drop (shader_rec_nr_bo K state))[k - shader_rec_nr_bo K state]? =
          some b := by
        rw [List.getElem?_drop, ← hb]
        congr 1
        omega
      have hmem : (36 + (k - shader_rec_nr_bo K state) * 8, b) ∈
          (shader_rec_attr_offsets (shader_rec_nr_attributes K state)).zip
            (bo.drop (shader_rec_nr_bo K state)) :=
        List.mem_iff_getElem?.2 ⟨_, List.getElem?_zip_eq_some.2 ⟨ho, hb2⟩⟩
      have hin := attr_offsets_in_body K state _ (hz2 _ hmem)
      refine ⟨_, b, ?_, hb, hin.2, ?_⟩
      · rw [shader_rec_fields, List.getElem?_append_right
          (by rw [bo_offsets_length]; omega), bo_offsets_length]
        exact ho
      · rw [apply_log_stores_inside init src v sp _ _
          (zip_pairwise _ _ (attr_offsets_pairwise _)) _ hmem]
        simp only [Nat.add_comm]
  · rw [apply_log_stores_outside init src v sp _ _ _ (fun r hr => by
      have := hout r.1 (by
        rw [shader_rec_fields]
        exact List.mem_append_right _ (hz2 r hr))
      omega)]
    rw [apply_log_stores_outside init src v sp _ _ _ (fun r hr => by
      have := hout r.1 (by
        rw [shader_rec_fields]
        exact List.mem_append_left _ (hz1 r hr))
      omega)]
    rw [apply_log_memcpy, if_pos (by omega)]
    congr 2
    omega
  · rw [apply_log_stores_outside init src v sp _ _ _ (fun r hr => by
      have := (attr_offsets_in_body K state r.1 (hz2 r hr)).2
      omega)]
    rw [apply_log_stores_outside init src v sp _ _ _ (fun r hr => by
      have := (bo_offsets_in_body K state r.1 (hz1 r hr)).2
      omega)]
    rw [apply_log_memcpy, if_neg (by omega)]

/-- The handle loop in two contexts whose buffer tables differ at most in the sizes of the
buffer objects: same outcome, and the buffers found have the same addresses. -/
theorem lookup_same_paddr (src : Mem) (exec exec3 : exec_info) (unvalidated : Nat)
    (hc : exec3.bo_count = exec.bo_count)
    (hp : exec3.bo.map (fun b => b.paddr) = exec.bo.map (fun b => b.paddr)) (n : Nat) :
    match shader_rec_lookup src exec unvalidated n with
    | .found bo => ∃ bo3, shader_rec_lookup src exec3 unvalidated n = .found bo3 ∧
        bo3.map (fun b => b.paddr) = bo.map (fun b => b.paddr)
    | .out_of_range i => shader_rec_lookup src exec3 unvalidated n = .out_of_range i
    | .undefined f => shader_rec_lookup src exec3 unvalidated n = .undefined f := by
  induction n with
  | zero => exact ⟨[], rfl, rfl⟩
  | succ n ih =>
    have hget : ∀ i : Nat, (exec3.bo[i]?).map (fun b : drm_gem_cma_object => b.paddr) =
        (exec.bo[i]?).map (fun b : drm_gem_cma_object => b.paddr) := by
      intro i
      rw [← List.getElem?_map, ← List.getElem?_map, hp]
    simp only [shader_rec_lookup]
    cases hl : shader_rec_lookup src exec unvalidated n with
    | found bo =>
      rw [hl] at ih
      obtain ⟨bo3, h3, hm⟩ := ih
      simp only [h3, hc]
      by_cases hge : load32 src (unvalidated + 4 * n) ≥ exec.bo_count
      · simp only [if_pos hge]
      · simp only [if_neg hge]
        have hg := hget (load32 src (unvalidated + 4 * n))
        cases hb : exec.bo[load32 src (unvalidated + 4 * n)]? with
        | none =>
          rw [hb] at hg
          cases hb3 : exec3.bo[load32 src (unvalidated + 4 * n)]? with
          | none => simp
          | some b3 => rw [hb3] at hg; simp at hg
        | some b =>
          rw [hb] at hg
          cases hb3 : exec3.bo[load32 src (unvalidated + 4 * n)]? with
          | none => rw [hb3] at hg; simp at hg
          | some b3 =>
            rw [hb3] at hg
            simp only [Option.map_some', Option.some.injEq] at hg
            exact ⟨bo3 ++ [b3], rfl, by simp [hm, hg]⟩
    | out_of_range i =>
      rw [hl] at ih
      simp only at ih
      simp only [ih]
    | undefined f =>
      rw [hl] at ih
      simp only at ih
      simp only [ih]

theorem stores_same_paddr (src : Mem) (v sp : Nat) (offs : List Nat)
    (bo bo3 : List drm_gem_cma_object)
    (h : bo3.map (fun b => b.paddr) = bo.map (fun b => b.paddr)) :
    shader_rec_stores src v sp (offs.zip bo3) = shader_rec_stores src v sp (offs.zip bo) := by
  induction offs generalizing bo bo3 with
  | nil => simp [shader_rec_stores]
  | cons o offs ih =>
    cases bo with
    | nil =>
      cases bo3 with
      | nil => rfl
      | cons b3 bo3 => simp at h
    | cons b bo =>
      cases bo3 with
      | nil => simp at h
      | cons b3 bo3 =>
        simp only [List.map_cons, List.cons.injEq] at h
        rw [List.zip_cons_cons, List.zip_cons_cons, shader_rec_stores_cons,
          shader_rec_stores_cons, ih bo bo3 h.2]
        simp only [h.1]

theorem load32_agree_at (u u2 : Mem) (a : Nat) (h0 : u2 a = u a) (h1 : u2 (a + 1) = u (a + 1))
    (h2 : u2 (a + 2) = u (a + 2)) (h3 : u2 (a + 3) = u (a + 3)) :
    load32 u2 a = load32 u a := by
  simp only [load32, load8, h0, h1, h2, h3]

/-- A handler depends on the untrusted memory only through the body bytes listed in
`handler_reads`. -/
theorem call_func_reads (K : vc4_packet_h) (f : validate_fn) (u u2 : Mem)
    (exec : exec_info) (out : WriteLog) (v unt : Nat)
    (h : ∀ o ∈ handler_reads f, u2 (unt + o) = u (unt + o)) :
    call_func K f u2 exec out v unt = call_func K f u exec out v unt := by
  cases f <;> simp only [handler_reads, List.mem_cons, List.mem_singleton, List.not_mem_nil,
    or_false, forall_eq_or_imp, forall_eq, Nat.add_zero] at h
  · have e0 := load32_agree_at u u2 unt h.1 h.2.1 h.2.2.1 h.2.2.2
    simp only [call_func, validate_branch_to_sublist, e0, Nat.add_zero]
  · have e0 := load8_agree u u2 unt h.1
    have e2 := load32_agree_at u u2 (unt + 2) h.2.1 h.2.2.1 h.2.2.2.1 h.2.2.2.2
    simp only [call_func, validate_loadstore_tile_buffer_general, e0, e2, Nat.add_zero]
  · have e0 := load8_agree u u2 unt h.1
    have e5 := load32_agree_at u u2 (unt + 5) h.2.1 h.2.2.1 h.2.2.2.1 h.2.2.2.2.1
    have e9 := load32_agree_at u u2 (unt + 9) h.2.2.2.2.2.1 h.2.2.2.2.2.2.1
      h.2.2.2.2.2.2.2.1 h.2.2.2.2.2.2.2.2
    simp only [call_func, validate_indexed_prim_list, ib_max_index, ib_access_end,
      ib_index_size, e0, e5, e9, Nat.add_zero]
  · have e0 := load32_agree_at u u2 unt h.1 h.2.1 h.2.2.1 h.2.2.2
    simp only [call_func, validate_gl_shader_state, e0]
  · have e0 := load32_agree_at u u2 unt h.1 h.2.1 h.2.2.1 h.2.2.2
    simp only [call_func, validate_nv_shader_state, e0]
  · have e0 := load32_agree_at u u2 unt h.1 h.2.1 h.2.2.1 h.2.2.2.1
    have e8 := load32_agree_at u u2 (unt + 8) h.2.2.2.2.1 h.2.2.2.2.2.1 h.2.2.2.2.2.2.1
      h.2.2.2.2.2.2.2
    simp only [call_func, validate_tile_binning_config, e0, e8]
  · have e0 := load32_agree_at u u2 unt h.1 h.2.1 h.2.2.1 h.2.2.2
    simp only [call_func, validate_tile_rendering_mode_config, e0]
  · have e0 := load32_agree_at u u2 unt h.1 h.2.1 h.2.2.1 h.2.2.2.1
    have e4 := load32_agree_at u u2 (unt + 4) h.2.2.2.2.1 h.2.2.2.2.2.1 h.2.2.2.2.2.2.1
      h.2.2.2.2.2.2.2
    simp only [call_func, validate_gem_handles, e0, e4]

theorem store32_offsets (v b x : Nat) (l : List Nat) (w : Nat × Nat)
    (hw : w ∈ store32 (v + b) x)
    (hl : b ∈ l ∧ b + 1 ∈ l ∧ b + 2 ∈ l ∧ b + 3 ∈ l) : ∃ off ∈ l, w.1 = v + off := by
  simp only [store32, List.mem_cons, List.mem_singleton, List.not_mem_nil, or_false] at hw
  rcases hw with h | h | h | h <;> subst h
  · exact ⟨b, hl.1, rfl⟩
  · exact ⟨b + 1, hl.2.1, by simp only [Nat.add_assoc]⟩
  · exact ⟨b + 2, hl.2.2.1, by simp only [Nat.add_assoc]⟩
  · exact ⟨b + 3, hl.2.2.2, by simp only [Nat.add_assoc]⟩

/-- Whatever its outcome, a handler appends to the output log only stores to the body bytes
listed in `handler_writes`. -/
theorem call_func_writes (K : vc4_packet_h) (f : validate_fn) (u : Mem) (exec : exec_info)
    (out : WriteLog) (v unt : Nat) :
    ∃ w, (call_func K f u exec out v unt).log out = out ++ w ∧
      ∀ x ∈ w, ∃ off ∈ handler_writes f, x.1 = v + off := by
  cases hr : call_func K f u exec out v unt with
  | undefined ft => exact ⟨[], by simp [HandlerResult.log], by simp⟩
  | einval er e o =>
    exact ⟨[], by simp [HandlerResult.log, call_func_einval_out K f u exec out v unt er e o hr],
      by simp⟩
  | ok e o =>
    simp only [HandlerResult.log]
    cases f <;>
      simp only [call_func, validate_branch_to_sublist, validate_loadstore_tile_buffer_general,
        validate_indexed_prim_list, validate_gl_shader_state, validate_nv_shader_state,
        validate_tile_binning_config, validate_tile_rendering_mode_config,
        validate_gem_handles, handler_writes] at hr ⊢
    · split at hr
      · simp at hr
      · simp only [HandlerResult.ok.injEq] at hr
        exact ⟨_, hr.2.symm, fun x hx => store32_offsets v 0 _ _ x hx (by decide)⟩
    · split at hr
      · simp only [HandlerResult.ok.injEq] at hr
        exact ⟨[], by simp [hr.2], by simp⟩
      · split at hr
        · simp at hr
        · simp only [HandlerResult.ok.injEq] at hr
          exact ⟨_, hr.2.symm, fun x hx => store32_offsets v 2 _ _ x hx (by decide)⟩
    · split at hr
      · simp at hr
      · split at hr
        · simp at hr
        · split at hr
          · simp at hr
          · split at hr
            · simp at hr
            · simp only [HandlerResult.ok.injEq] at hr
              exact ⟨_, hr.2.symm, fun x hx => store32_offsets v 5 _ _ x hx (by decide)⟩
    · split at hr
      · simp at hr
      · split at hr
        · simp at hr
        · simp only [HandlerResult.ok.injEq] at hr
          exact ⟨_, hr.2.symm, fun x hx => store32_offsets v 0 _ _ x hx (by decide)⟩
    · split at hr
      · simp at hr
      · split at hr
        · simp at hr
        · split at hr
          · simp at hr
          · simp only [HandlerResult.ok.injEq] at hr
            exact ⟨_, hr.2.symm, fun x hx => store32_offsets v 0 _ _ x hx (by decide)⟩
    · split at hr
      · simp at hr
      · split at hr
        · simp at hr
        · simp only [HandlerResult.ok.injEq] at hr
          refine ⟨_, by rw [← hr.2, List.append_assoc], fun x hx => ?_⟩
          rcases List.mem_append.1 hx with h1 | h1
          · exact store32_offsets v 0 _ _ x h1 (by decide)
          · exact store32_offsets v 8 _ _ x h1 (by decide)
    · split at hr
      · simp at hr
      · simp only [HandlerResult.ok.injEq] at hr
        exact ⟨_, hr.2.symm, fun x hx => store32_offsets v 0 _ _ x hx (by decide)⟩
    · split at hr
      · simp at hr
      · split at hr
        · simp at hr
        · simp only [HandlerResult.ok.injEq] at hr
          exact ⟨[], by simp [hr.2], by simp⟩

set_option maxRecDepth 100000 in
/-- The table: the opcodes with a handler, and for each of them every body offset its
handler loads or stores lies below the table length minus one. -/
theorem cmd_info_init_handlers : ∀ c, c < 256 →
    ((cmd_info_init c).func.isSome = true ↔ c ∈ [17, 28, 29, 32, 64, 65, 112, 113, 254]) ∧
      ∀ f, (cmd_info_init c).func = some f →
        (∀ o ∈ handler_reads f, o < (cmd_info_init c).len - 1) ∧
          ∀ o ∈ handler_writes f, o < (cmd_info_init c).len - 1 := by
  decide

/-- With `len = 4294967295`: from a packet boundary followed by nop bytes up to offset
4294967293 and a three-byte packet (opcode 100) at offset 4294967294, the scan goes on
through the end of the 32-bit range: the length test of the last packet wraps and the
source offset becomes 1. -/
theorem wrap_tail_run (K : vc4_packet_h) (u : Mem) (is_bin : Bool) (s : WalkState)
    (hd : s.dst_offset ≤ s.src_offset) (hs : s.src_offset ≤ 4294967294)
    (hn : ∀ i, i < 4294967294 - s.src_offset → load8 u (s.src_offset + i) = 1)
    (h100 : load8 u 4294967294 = 100) :
    ∃ out, vc4_validate_cl_at K u 4294967295 is_bin (4294967294 - s.src_offset + 1) s =
      some { dst_offset := (s.dst_offset + (4294967294 - s.src_offset) + 3) % 4294967296,
             src_offset := 1, exec := s.exec, out := out } := by
  have hp100 : plain_opcode is_bin 100 = true := by cases is_bin <;> decide
  have t100 : table_len 100 = 3 := rfl
  obtain ⟨o2, ho2, _⟩ := nop_segment K u 4294967295 is_bin (4294967294 - s.src_offset) s hn
    (by omega) (by omega) (by omega)
  have e2 : s.src_offset + (4294967294 - s.src_offset) = 4294967294 := by omega
  rw [e2] at ho2
  have hstep3 := iter_plain K u 4294967295 is_bin
    { dst_offset := s.dst_offset + (4294967294 - s.src_offset), src_offset := 4294967294,
      exec := s.exec, out := o2 }
    100 (by show 4294967294 < 4294967295; omega) h100 hp100
    (by rw [t100]; show (4294967294 + 3) % 4294967296 ≤ 4294967295; omega)
  rw [if_neg (by decide)] at hstep3
  have ho3 : plain_next u
      { dst_offset := s.dst_offset + (4294967294 - s.src_offset), src_offset := 4294967294,
        exec := s.exec, out := o2 } 100 =
      { dst_offset := (s.dst_offset + (4294967294 - s.src_offset) + 3) % 4294967296,
        src_offset := 1, exec := s.exec,
        out := o2 ++ memcpy u (s.dst_offset + (4294967294 - s.src_offset)) 4294967294 3 } := by
    unfold plain_next
    rw [t100]
    simp only [WalkState.mk.injEq]
  rw [ho3] at hstep3
  have h3 : vc4_validate_cl_at K u 4294967295 is_bin 1
      { dst_offset := s.dst_offset + (4294967294 - s.src_offset), src_offset := 4294967294,
        exec := s.exec, out := o2 } =
      some { dst_offset := (s.dst_offset + (4294967294 - s.src_offset) + 3) % 4294967296,
             src_offset := 1, exec := s.exec,
             out := o2 ++
               memcpy u (s.dst_offset + (4294967294 - s.src_offset)) 4294967294 3 } := by
    rw [at_step K _ _ _ 0 _ _ hstep3]; rfl
  exact ⟨_, at_trans K _ _ _ (4294967294 - s.src_offset) 1 _ _ _ ho2 h3⟩

/-- The lemma `wrap_tail_run` for a state given by its fields. -/
theorem wrap_tail_at (K : vc4_packet_h) (u : Mem) (is_bin : Bool) (d a n r : Nat)
    (e : exec_info) (o : WriteLog) (hd : d ≤ a) (ha : a + n = 4294967294)
    (hr : r = (d + n + 3) % 4294967296) (hn : ∀ i, i < n → load8 u (a + i) = 1)
    (h100 : load8 u 4294967294 = 100) :
    ∃ out, vc4_validate_cl_at K u 4294967295 is_bin (n + 1)
        { dst_offset := d, src_offset := a, exec := e, out := o } =
      some { dst_offset := r, src_offset := 1, exec := e, out := out } := by
  have en : 4294967294 - a = n := by omega
  obtain ⟨out, h⟩ := wrap_tail_run K u is_bin
    { dst_offset := d, src_offset := a, exec := e, out := o } hd (by show a ≤ 4294967294; omega)
    (by intro i hi; exact hn i (by show i < n; rw [← en]; exact hi)) h100
  simp only [en] at h
  rw [← hr] at h
  exact ⟨out, h⟩

/-- The pass over a handle packet (opcode 254) whose two handles are below `bo_count`:
nothing is copied, the scratch handles are replaced, and only the source offset moves. -/
theorem iter_gem_handles (K : vc4_packet_h) (u : Mem) (len : Nat) (is_bin : Bool)
    (s : WalkState) (hlt : s.src_offset < len) (hc : load8 u s.src_offset = 254)
    (hlen : (s.src_offset + 9) % 4294967296 ≤ len)
    (h0 : load32 u (s.src_offset + 1) < s.exec.bo_count)
    (h1 : load32 u (s.src_offset + 1 + 4) < s.exec.bo_count) :
    vc4_validate_cl_iter K u len is_bin s =
      .next { dst_offset := s.dst_offset, src_offset := (s.src_offset + 9) % 4294967296,
              exec := { s.exec with
                bo_index := (load32 u (s.src_offset + 1), load32 u (s.src_offset + 1 + 4)) },
              out := s.out } := by
  have e254 : cmd_info_init 254 = ⟨true, true, 9, some "GEM handles", some .gem_handles⟩ := rfl
  have ha : ¬ (254 > ARRAY_SIZE_cmd_info) := by unfold ARRAY_SIZE_cmd_info; omega
  have hl : list_check_fails is_bin ⟨true, true, 9, some "GEM handles", some .gem_handles⟩ =
      false := by cases is_bin <;> rfl
  have hlen2 : ¬ (s.src_offset + 9) % 4294967296 > len := by omega
  have g0 : ¬ load32 u (s.src_offset + 1) ≥ s.exec.bo_count := by omega
  have g1 : ¬ load32 u (s.src_offset + 1 + 4) ≥ s.exec.bo_count := by omega
  simp [vc4_validate_cl_iter, hlt, vc4_validate_cl_body, vc4_validate_cl_checks,
    vc4_validate_cl_process, run_handler, copy_packet, hc, ha, cmd_info_lookup, e254, hl,
    hlen2, call_func, validate_gem_handles, g0, g1]

/-- The run over `fail_wrap_stream` as a render list with `len = 4294967295`: the scan comes
back to offset 1 after the wrap and fails there on the list check. -/
theorem fail_wrap_result (K : vc4_packet_h) (exec : exec_info) :
    ∃ out, vc4_validate_cl K 4294967295 fail_wrap_stream 4294967295 false exec =
      some (.einval .invalid_for_list
        { dst_offset := 1, src_offset := 1, exec := exec, out := out }) := by
  have hp56 : plain_opcode false 56 = true := by decide
  have t56 : table_len 56 = 2 := rfl
  have hb0 : load8 fail_wrap_stream (vc4_validate_cl_entry exec).src_offset = 56 := by
    simp [load8, fail_wrap_stream, vc4_validate_cl_entry]
  have hstep1 := iter_plain K fail_wrap_stream 4294967295 false (vc4_validate_cl_entry exec)
    56 (by simp [vc4_validate_cl_entry]) hb0 hp56
    (by rw [t56]; simp [vc4_validate_cl_entry])
  rw [if_neg (by decide)] at hstep1
  obtain ⟨o1, ho1⟩ : ∃ o1, plain_next fail_wrap_stream (vc4_validate_cl_entry exec) 56 =
      { dst_offset := 2, src_offset := 2, exec := exec, out := o1 } :=
    ⟨[] ++ memcpy fail_wrap_stream 0 0 2, by simp [plain_next, t56, vc4_validate_cl_entry]⟩
  rw [ho1] at hstep1
  have h1 : vc4_validate_cl_at K fail_wrap_stream 4294967295 false 1
      (vc4_validate_cl_entry exec) =
      some { dst_offset := 2, src_offset := 2, exec := exec, out := o1 } := by
    rw [at_step K _ _ _ 0 _ _ hstep1]; rfl
  obtain ⟨o3, h2⟩ := wrap_tail_at K fail_wrap_stream false 2 2 4294967292 1 exec o1
    (le_refl _) (by omega) (by omega)
    (by intro i hi
        have a1 : ¬ (2 + i = 0) := by omega
        have a2 : ¬ (2 + i = 1) := by omega
        have a3 : ¬ (2 + i = 4294967294) := by omega
        simp [load8, fail_wrap_stream, a1, a2, a3])
    (by simp [load8, fail_wrap_stream])
  have h12 := at_trans K _ _ _ 1 (4294967292 + 1) _ _ _ h1 h2
  have e4 : 1 + (4294967292 + 1) = 4294967294 := by omega
  rw [e4] at h12
  have hb1 : load8 fail_wrap_stream 1 = 5 := by simp [load8, fail_wrap_stream]
  have hbody := body_invalid_for_list K fail_wrap_stream 4294967295 false
    { dst_offset := 1, src_offset := 1, exec := exec, out := o3 }
    (by show load8 fail_wrap_stream 1 < 255; rw [hb1]; omega)
    (by show (cmd_info_init (load8 fail_wrap_stream 1)).name.isSome = true; rw [hb1]; rfl)
    (by show list_check_fails false (cmd_info_init (load8 fail_wrap_stream 1)) = true
        rw [hb1]; rfl)
  have hlt : (1 : Nat) < 4294967295 := by omega
  have hiter : vc4_validate_cl_iter K fail_wrap_stream 4294967295 false
      { dst_offset := 1, src_offset := 1, exec := exec, out := o3 } =
      .done (.einval .invalid_for_list
        { dst_offset := 1, src_offset := 1, exec := exec, out := o3 }) := by
    unfold vc4_validate_cl_iter
    rw [if_pos hlt, hbody]
  exact ⟨o3, result_of_reached K fail_wrap_stream 4294967295 false exec 4294967294 _ _
    ⟨h12, hlt⟩ hiter 4294967295 (by omega)⟩

/-- The run over `fail_wrap_stream_halt` as a render list with `len = 4294967295`: the
second packet, at offset 2, is a halt and the function returns 0. -/
theorem fail_wrap_halt_result (K : vc4_packet_h) (exec : exec_info) :
    ∃ out, vc4_validate_cl K 4294967295 fail_wrap_stream_halt 4294967295 false exec =
      some (.ok { dst_offset := 3, src_offset := 3, exec := exec, out := out }) := by
  have hp56 : plain_opcode false 56 = true := by decide
  have hp0 : plain_opcode false 0 = true := by decide
  have t56 : table_len 56 = 2 := rfl
  have t0 : table_len 0 = 1 := rfl
  have hb0 : load8 fail_wrap_stream_halt (vc4_validate_cl_entry exec).src_offset = 56 := by
    simp [load8, fail_wrap_stream_halt, fail_wrap_stream, vc4_validate_cl_entry]
  have hstep1 := iter_plain K fail_wrap_stream_halt 4294967295 false
    (vc4_validate_cl_entry exec) 56 (by simp [vc4_validate_cl_entry]) hb0 hp56
    (by rw [t56]; simp [vc4_validate_cl_entry])
  rw [if_neg (by decide)] at hstep1
  obtain ⟨o1, ho1⟩ : ∃ o1, plain_next fail_wrap_stream_halt (vc4_validate_cl_entry exec) 56 =
      { dst_offset := 2, src_offset := 2, exec := exec, out := o1 } :=
    ⟨[] ++ memcpy fail_wrap_stream_halt 0 0 2,
      by simp [plain_next, t56, vc4_validate_cl_entry]⟩
  rw [ho1] at hstep1
  have h1 : vc4_validate_cl_at K fail_wrap_stream_halt 4294967295 false 1
      (vc4_validate_cl_entry exec) =
      some { dst_offset := 2, src_offset := 2, exec := exec, out := o1 } := by
    rw [at_step K _ _ _ 0 _ _ hstep1]; rfl
  have hb2 : load8 fail_wrap_stream_halt 2 = 0 := by simp [load8, fail_wrap_stream_halt]
  have hlt : (2 : Nat) < 4294967295 := by omega
  have hstep2 := iter_plain K fail_wrap_stream_halt 4294967295 false
    { dst_offset := 2, src_offset := 2, exec := exec, out := o1 } 0 hlt hb2 hp0
    (by rw [t0]; show (2 + 1) % 4294967296 ≤ 4294967295; omega)
  rw [if_pos rfl] at hstep2
  have hnext : plain_next fail_wrap_stream_halt
      { dst_offset := 2, src_offset := 2, exec := exec, out := o1 } 0 =
      { dst_offset := 3, src_offset := 3, exec := exec,
        out := o1 ++ memcpy fail_wrap_stream_halt 2 2 1 } := by
    simp [plain_next, t0]
  rw [hnext] at hstep2
  exact ⟨_, result_of_reached K fail_wrap_stream_halt 4294967295 false exec 1 _ _
    ⟨h1, hlt⟩ hstep2 4294967295 (by omega)⟩

/-- The scan of `handles_wrap_stream` with `len = 4294967295` in the context `exec_one_bo`:
the handle packet moves the source offset only, and after the wrap the source offset is 1
while the output offset is 4294967288; the byte at offset 1 is a halt, so that the
function returns 0 with the output offset still beyond the source offset. -/
theorem handles_wrap_result (K : vc4_packet_h) (is_bin : Bool) :
    ∃ out, vc4_validate_cl_at K handles_wrap_stream 4294967295 is_bin 4294967287
          (vc4_validate_cl_entry exec_one_bo) =
        some { dst_offset := 4294967288, src_offset := 1, exec := exec_one_bo, out := out } ∧
      vc4_validate_cl K 4294967295 handles_wrap_stream 4294967295 is_bin exec_one_bo =
        some (.ok { dst_offset := 4294967289, src_offset := 2, exec := exec_one_bo,
                    out := out ++ [(4294967288, 0)] }) := by
  have hb : ∀ i, 1 ≤ i → i ≤ 8 → handles_wrap_stream i = 0 := by
    intro i h1 h2
    have a1 : ¬ (i = 0) := by omega
    simp [handles_wrap_stream, a1, h2]
  have l0 : load32 handles_wrap_stream 1 = 0 := by
    simp [load32, load8, hb]
  have l1 : load32 handles_wrap_stream 5 = 0 := by
    simp [load32, load8, hb]
  have hstep1 := iter_gem_handles K handles_wrap_stream 4294967295 is_bin
    (vc4_validate_cl_entry exec_one_bo) (by simp [vc4_validate_cl_entry])
    (by simp [load8, handles_wrap_stream, vc4_validate_cl_entry])
    (by simp [vc4_validate_cl_entry])
    (by show load32 handles_wrap_stream (0 + 1) < 1; rw [l0]; omega)
    (by show load32 handles_wrap_stream (0 + 1 + 4) < 1; rw [l1]; omega)
  have e1 : (vc4_validate_cl_entry exec_one_bo).src_offset + 1 = 1 := rfl
  have e5 : (1 : Nat) + 4 = 5 := rfl
  have e9 : ((vc4_validate_cl_entry exec_one_bo).src_offset + 9) % 4294967296 = 9 := rfl
  rw [e1, e5, e9, l0, l1] at hstep1
  have h1 : vc4_validate_cl_at K handles_wrap_stream 4294967295 is_bin 1
      (vc4_validate_cl_entry exec_one_bo) =
      some { dst_offset := 0, src_offset := 9, exec := exec_one_bo, out := [] } := by
    rw [at_step K _ _ _ 0 _ _ hstep1]; rfl
  obtain ⟨o3, h2⟩ := wrap_tail_at K handles_wrap_stream is_bin 0 9 4294967285 4294967288
    exec_one_bo [] (by omega) (by omega) (by omega)
    (by intro i hi
        have a1 : ¬ (9 + i = 0) := by omega
        have a2 : ¬ (9 + i ≤ 8) := by omega
        have a3 : ¬ (9 + i = 4294967294) := by omega
        simp [load8, handles_wrap_stream, a1, a2, a3])
    (by simp [load8, handles_wrap_stream])
  have h12 := at_trans K _ _ _ 1 (4294967285 + 1) _ _ _ h1 h2
  have e4 : 1 + (4294967285 + 1) = 4294967287 := by omega
  rw [e4] at h12
  have hp0 : plain_opcode is_bin 0 = true := by cases is_bin <;> decide
  have t0 : table_len 0 = 1 := rfl
  have hb1 : load8 handles_wrap_stream 1 = 0 := by simp [load8, hb]
  have hlt : (1 : Nat) < 4294967295 := by omega
  have hstep3 := iter_plain K handles_wrap_stream 4294967295 is_bin
    { dst_offset := 4294967288, src_offset := 1, exec := exec_one_bo, out := o3 } 0 hlt hb1 hp0
    (by rw [t0]; show (1 + 1) % 4294967296 ≤ 4294967295; omega)
  rw [if_pos rfl] at hstep3
  have hnext : plain_next handles_wrap_stream
      { dst_offset := 4294967288, src_offset := 1, exec := exec_one_bo, out := o3 } 0 =
      { dst_offset := 4294967289, src_offset := 2, exec := exec_one_bo,
        out := o3 ++ [(4294967288, 0)] } := by
    simp [plain_next, t0, memcpy, List.range_succ, hb1]
  rw [hnext] at hstep3
  exact ⟨o3, h12, result_of_reached K handles_wrap_stream 4294967295 is_bin exec_one_bo
    4294967287 _ _ ⟨h12, hlt⟩ hstep3 4294967295 (by omega)⟩

/-- The ways `vc4_cl_validate` returns: at the layout check with the initial value 0 of
`ret`; with a non-zero value before any stage was run (no block, or a failed copy); with
`-EINVAL` after a failed bin walk, after a failed render walk run on the context left by
the bin walk, or after failed shader record validation; or with 0 after the three stages
succeeded one after the other. -/
theorem cl_validate_cases (K : vc4_packet_h) (E : sim_env) (fuel : Nat)
    (args : drm_vc4_submit_cl) (exec : exec_info) (run : cl_validate_run)
    (h : vc4_cl_validate K E fuel args exec = .returned run) :
    (layout_check_fails E args = true ∧ run.ret = 0 ∧ run.exec = exec ∧
        run.bin = none ∧ run.render = none ∧ run.shader_recs = none) ∨
      (layout_check_fails E args = false ∧ run.ret ≠ 0 ∧
        run.bin = none ∧ run.render = none ∧ run.shader_recs = none) ∨
      (layout_check_fails E args = false ∧ run.ret = -22 ∧
        (∃ e s, run.bin = some (.einval e s) ∧ run.exec = s.exec) ∧
        run.render = none ∧ run.shader_recs = none) ∨
      (layout_check_fails E args = false ∧ run.ret = -22 ∧
        (∃ s e t, run.bin = some (.ok s) ∧ run.render = some (.einval e t) ∧
          run.exec = t.exec ∧
          ∃ u len, vc4_validate_cl K fuel u len false s.exec = some (.einval e t)) ∧
        run.shader_recs = none) ∨
      (layout_check_fails E args = false ∧ run.ret = -22 ∧
        ∃ s t e i x o, run.bin = some (.ok s) ∧ run.render = some (.ok t) ∧
          run.shader_recs = some (.einval e i x o) ∧
          ∃ u len, vc4_validate_cl K fuel u len false s.exec = some (.ok t)) ∨
      (layout_check_fails E args = false ∧ run.ret = 0 ∧
        ∃ s t x o, run.bin = some (.ok s) ∧ run.render = some (.ok t) ∧
          run.shader_recs = some (.ok x o) ∧
          ∃ u len, vc4_validate_cl K fuel u len false s.exec = some (.ok t)) := by
  unfold vc4_cl_validate at h
  dsimp only at h
  by_cases hl : layout_check_fails E args = true
  · rw [if_pos hl] at h
    simp only [ClValidateResult.returned.injEq] at h
    subst h
    exact Or.inl ⟨hl, rfl, rfl, rfl, rfl, rfl⟩
  · rw [if_neg hl] at h
    have hl2 : layout_check_fails E args = false := by simpa using hl
    right
    split at h
    · simp only [ClValidateResult.returned.injEq] at h
      subst h
      exact Or.inl ⟨hl2, by show (-12 : Int) ≠ 0; decide, rfl, rfl, rfl⟩
    · split at h
      · simp at h
      · split at h
        · rename_i hc
          simp only [ClValidateResult.returned.injEq] at h
          subst h
          exact Or.inl ⟨hl2, hc, rfl, rfl, rfl⟩
        · split at h
          · simp at h
          · split at h
            · rename_i hc
              simp only [ClValidateResult.returned.injEq] at h
              subst h
              exact Or.inl ⟨hl2, hc, rfl, rfl, rfl⟩
            · split at h
              · simp at h
              · split at h
                · rename_i hc
                  simp only [ClValidateResult.returned.injEq] at h
                  subst h
                  exact Or.inl ⟨hl2, hc, rfl, rfl, rfl⟩
                · right
                  split at h
                  · simp at h
                  · simp at h
                  · simp only [ClValidateResult.returned.injEq] at h
                    subst h
                    exact Or.inl ⟨hl2, rfl, ⟨_, _, rfl, rfl⟩, rfl, rfl⟩
                  · right
                    rename_i s hbin
                    split at h
                    · simp at h
                    · simp at h
                    · rename_i e t hrender
                      simp only [ClValidateResult.returned.injEq] at h
                      subst h
                      exact Or.inl ⟨hl2, rfl, ⟨_, _, _, rfl, rfl, rfl, _, _, hrender⟩, rfl⟩
                    · right
                      rename_i t hrender
                      split at h
                      · simp at h
                      · simp only [ClValidateResult.returned.injEq] at h
                        subst h
                        exact Or.inl ⟨hl2, rfl, _, _, _, _, _, _, rfl, rfl, rfl, _, _, hrender⟩
                      · simp only [ClValidateResult.returned.injEq] at h
                        subst h
                        exact Or.inr ⟨hl2, rfl, _, _, _, _, rfl, rfl, rfl, _, _, hrender⟩

set_option maxRecDepth 100000 in
/-- The record `nv_shader_rec` validated for an NV request in the context
`exec_two_requests`, the output going to offset 16. -/
theorem nv_shader_rec_run :
    validate_shader_rec K0 (mem_of two_nv_shader_recs) exec_two_requests [] 16 0 56
      { packet := 65, addr := 0 } = .ok exec_two_requests nv_shader_rec_out := by
  decide

set_option maxRecDepth 100000 in
/-- Two requests with addresses 0 and 16 against two NV records: the second request is
refused at the offset test. -/
theorem two_requests_run :
    vc4_validate_shader_recs K0 (mem_of two_nv_shader_recs) 16 56 exec_two_requests =
      .einval .unexpected_offset 1 exec_two_requests nv_shader_rec_out := by
  decide

set_option maxRecDepth 100000 in
/-- Two requests with address 0 against two NV records: both are accepted, and the stores of
the second are those of the first once more. -/
theorem same_requests_run :
    vc4_validate_shader_recs K0 (mem_of two_nv_shader_recs) 16 56 exec_same_requests =
      .ok exec_same_requests (nv_shader_rec_out ++ nv_shader_rec_out) := by
  decide

set_option maxRecDepth 100000 in
/-- Two requests with address 0 against a blob of 28 bytes, a single NV record: both are
accepted. -/
theorem same_requests_short_run :
    vc4_validate_shader_recs K0 (mem_of nv_shader_rec) 16 28 exec_same_requests =
      .ok exec_same_requests (nv_shader_rec_out ++ nv_shader_rec_out) := by
  decide

/-- In a context set up as by `vc4_cl_validate` - the records at `off` bytes into the
validated buffer and `shader_paddr` the address of the buffer plus `off` - the right-hand
side of the offset test is 0. -/
theorem shader_rec_expected_zero (exec : exec_info) (off : Nat) (hoff : off < 4294967296)
    (hp : exec.shader_paddr = (exec.exec_bo.paddr + off) % 4294967296) :
    shader_rec_expected_offset off exec = 0 := by
  unfold shader_rec_expected_offset sub32
  rw [hp]
  omega

/-- One pass of the loop of `vc4_validate_shader_recs` over a request that is present: the
offset test compares the masked address with a value that depends neither on the request
number nor on the records validated before, and the record is validated at output offset
`validated + 0`, source offset 0 and with the whole length `len`. -/
theorem shader_recs_from_step (K : vc4_packet_h) (src : Mem) (validated len : Nat)
    (exec : exec_info) (n i : Nat) (out : WriteLog) (state : vc4_shader_state)
    (hs : exec.shader_state[i]? = some state) :
    vc4_validate_shader_recs_from K src validated len exec (n + 1) i out =
      if (shader_rec_masked_addr state : Int) ≠ shader_rec_expected_offset validated exec then
        .einval .unexpected_offset i exec out
      else
        match validate_shader_rec K src exec out validated 0 (len % 4294967296) state with
        | .einval e exec2 out2 => .einval e i exec2 out2
        | .undefined f => .undefined f
        | .ok _ out2 => vc4_validate_shader_recs_from K src validated len exec n (i + 1) out2 := by
  have e : sub32 len 0 = len % 4294967296 := by unfold sub32; omega
  simp only [vc4_validate_shader_recs_from, hs, e, Nat.add_zero]

/-- For stream lengths up to 2^32 - 16: when `vc4_validate_cl` returns `-EINVAL` it does so
at a packet reached by the scan, and the call returns the very same result (error,
offsets, context and output log) on every memory that has the same bytes up to the end of
that packet, so that no byte after it was examined. -/
theorem failure_ignores_later_bytes (K : vc4_packet_h) (u : Mem) (len : Nat) (is_bin : Bool)
    (exec : exec_info) (hlen : len ≤ 4294967280) (fuel : Nat) (e : WalkError) (t : WalkState)
    (h : vc4_validate_cl K fuel u len is_bin exec = some (.einval e t)) :
    ∃ n s, Reached K u len is_bin exec n s ∧ t.src_offset = s.src_offset ∧
      ∀ u2 : Mem,
        (∀ i, i < s.src_offset + max 1 (table_len (load8 u s.src_offset)) → u2 i = u i) →
        vc4_validate_cl K fuel u2 len is_bin exec = some (.einval e t) := by
  obtain ⟨n, s, hn, hat, hit⟩ := loop_done_at K u len is_bin fuel _ _ h
  have hlt : s.src_offset < len := by
    by_contra hc
    simp [vc4_validate_cl_iter, hc] at hit
  have hinv0 : walk_inv len (vc4_validate_cl_entry exec) :=
    ⟨le_refl _, Nat.zero_le _, fun x hx => by simp [vc4_validate_cl_entry] at hx⟩
  have hsrc : t.src_offset = s.src_offset := by
    unfold vc4_validate_cl_iter at hit
    rw [if_pos hlt] at hit
    unfold vc4_validate_cl_body at hit
    cases hck : vc4_validate_cl_checks u len is_bin s with
    | fail e2 =>
      rw [hck] at hit
      simp only [LoopStep.done.injEq, WalkResult.einval.injEq] at hit
      rw [← hit.2]
    | undefined f => rw [hck] at hit; simp at hit
    | pass info =>
      rw [hck] at hit
      simp only at hit
      unfold vc4_validate_cl_process at hit
      simp only at hit
      split at hit
      · simp at hit
      · simp only [LoopStep.done.injEq, WalkResult.einval.injEq] at hit
        rw [← hit.2]
      · split at hit <;> simp at hit
  refine ⟨n, s, ⟨hat, hlt⟩, hsrc, fun u2 hu => ?_⟩
  have hat2 := at_agree K u u2 len is_bin hlen n _ s hinv0 hat (fun i _ h2 => hu i (by omega))
  have hit2 : vc4_validate_cl_iter K u2 len is_bin s = .done (.einval e t) := by
    rw [iter_agree K u u2 len is_bin s (fun i _ h2 => hu i h2)]
    exact hit
  exact result_of_reached K u2 len is_bin exec n s _ ⟨hat2, hlt⟩ hit2 fuel hn

theorem lookup_frame (src : Mem) (exec exec2 : exec_info) (unvalidated : Nat)
    (hb : exec2.bo = exec.bo) (hc : exec2.bo_count = exec.bo_count) (n : Nat) :
    shader_rec_lookup src exec2 unvalidated n = shader_rec_lookup src exec unvalidated n := by
  induction n with
  | zero => rfl
  | succ n ih => simp only [shader_rec_lookup, ih, hb, hc]

/-- The function `validate_shader_rec` uses the buffer table of the context and nothing else
of it. -/
theorem validate_shader_rec_frame (K : vc4_packet_h) (src : Mem) (exec exec2 : exec_info)
    (out : WriteLog) (v u len : Nat) (state : vc4_shader_state)
    (hb : exec2.bo = exec.bo) (hc : exec2.bo_count = exec.bo_count) :
    validate_shader_rec K src exec2 out v u len state =
      match validate_shader_rec K src exec out v u len state with
      | .ok _ o => .ok exec2 o
      | .einval e _ o => .einval e exec2 o
      | .undefined f => .undefined f := by
  unfold validate_shader_rec
  simp only [lookup_frame src exec exec2 u hb hc]
  split
  · rfl
  · split <;> rfl

/-- The loop of `vc4_validate_shader_recs` returns at the first request that fails: the
result is the same whatever requests follow it and however many they are. -/
theorem shader_recs_from_frame (K : vc4_packet_h) (src : Mem) (validated len : Nat)
    (exec : exec_info) (ss2 : List vc4_shader_state) (c2 : Nat) (n : Nat) :
    ∀ (i : Nat) (out : WriteLog) (e : ShaderRecError) (k : Nat) (x : exec_info) (o : WriteLog),
      vc4_validate_shader_recs_from K src validated len exec n i out = .einval e k x o →
      x = exec ∧ i ≤ k ∧ k < i + n ∧
        ∀ n2, (∀ j, i ≤ j → j ≤ k → ss2[j]? = exec.shader_state[j]?) → k < i + n2 →
          vc4_validate_shader_recs_from K src validated len
              { exec with shader_state := ss2, shader_state_count := c2 } n2 i out =
            .einval e k { exec with shader_state := ss2, shader_state_count := c2 } o := by
  induction n with
  | zero => intro i out e k x o h; simp [vc4_validate_shader_recs_from] at h
  | succ n ih =>
    intro i out e k x o h
    cases hs : exec.shader_state[i]? with
    | none => simp [vc4_validate_shader_recs_from, hs] at h
    | some state =>
      rw [shader_recs_from_step K src validated len exec n i out state hs] at h
      have hexp : shader_rec_expected_offset validated
          { exec with shader_state := ss2, shader_state_count := c2 } =
          shader_rec_expected_offset validated exec := rfl
      have hfr := validate_shader_rec_frame K src exec
        { exec with shader_state := ss2, shader_state_count := c2 } out validated 0
        (len % 4294967296) state rfl rfl
      by_cases hchk : (shader_rec_masked_addr state : Int) ≠
          shader_rec_expected_offset validated exec
      · rw [if_pos hchk] at h
        simp only [ShaderRecsResult.einval.injEq] at h
        obtain ⟨h1, h2, h3, h4⟩ := h
        subst h1 h2 h3 h4
        refine ⟨rfl, le_refl _, by omega, fun n2 hag hk => ?_⟩
        obtain ⟨m, rfl⟩ : ∃ m, n2 = m + 1 := ⟨n2 - 1, by omega⟩
        rw [shader_recs_from_step K src validated len _ m i out state
          (by rw [← hs]; exact hag i (le_refl _) (le_refl _)), hexp, if_pos hchk]
      · rw [if_neg hchk] at h
        cases hv : validate_shader_rec K src exec out validated 0 (len % 4294967296) state with
        | undefined f => rw [hv] at h; simp at h
        | einval e2 x2 o2 =>
          rw [hv] at h
          simp only [ShaderRecsResult.einval.injEq] at h
          obtain ⟨h1, h2, h3, h4⟩ := h
          subst h1 h2 h3 h4
          rw [hv] at hfr
          have hx : x2 = exec := by
            by_cases hl : shader_rec_needed K state ≤ len % 4294967296
            · rw [validate_shader_rec_pass K src exec out validated 0 _ state hl] at hv
              split at hv <;> simp at hv
              exact hv.2.1.symm
            · rw [validate_shader_rec_short K src exec out validated 0 _ state
                (by omega)] at hv
              simp at hv
              exact hv.2.1.symm
          refine ⟨hx, le_refl _, by omega, fun n2 hag hk => ?_⟩
          obtain ⟨m, rfl⟩ : ∃ m, n2 = m + 1 := ⟨n2 - 1, by omega⟩
          rw [shader_recs_from_step K src validated len _ m i out state
            (by rw [← hs]; exact hag i (le_refl _) (le_refl _)), hexp, if_neg hchk, hfr]
        | ok x2 o2 =>
          rw [hv] at h hfr
          simp only at h
          obtain ⟨g1, g2, g3, g4⟩ := ih (i + 1) o2 e k x o h
          refine ⟨g1, by omega, by omega, fun n2 hag hk => ?_⟩
          obtain ⟨m, rfl⟩ : ∃ m, n2 = m + 1 := ⟨n2 - 1, by omega⟩
          rw [shader_recs_from_step K src validated len _ m i out state
            (by rw [← hs]; exact hag i (le_refl _) (by omega)), hexp, if_neg hchk, hfr]
          exact g4 m (fun j h1 h2 => hag j (by omega) h2) (by omega)

/-- When `vc4_validate_shader_recs` returns `-EINVAL` at request `k`, it returns the same
error, at the same request and with the same output, whatever requests follow request `k`
in the context: the later requests are not processed. -/
theorem shader_recs_first_failure (K : vc4_packet_h) (src : Mem) (validated len : Nat)
    (exec : exec_info) (e : ShaderRecError) (k : Nat) (x : exec_info) (o : WriteLog)
    (h : vc4_validate_shader_recs K src validated len exec = .einval e k x o) :
    x = exec ∧ k < exec.shader_state_count ∧
      ∀ (ss2 : List vc4_shader_state) (c2 : Nat),
        (∀ j, j ≤ k → ss2[j]? = exec.shader_state[j]?) → k < c2 →
        vc4_validate_shader_recs K src validated len
            { exec with shader_state := ss2, shader_state_count := c2 } =
          .einval e k { exec with shader_state := ss2, shader_state_count := c2 } o := by
  unfold vc4_validate_shader_recs at h ⊢
  refine ⟨?_, ?_, fun ss2 c2 hag hk => ?_⟩
  · exact (shader_recs_from_frame K src validated len exec [] 0 _ 0 [] e k x o h).1
  · have := (shader_recs_from_frame K src validated len exec [] 0 _ 0 [] e k x o h).2.2.1
    omega
  · exact (shader_recs_from_frame K src validated len exec ss2 c2 _ 0 [] e k x o h).2.2.2 c2
      (fun j _ h2 => hag j h2) (by omega)

/-- When `vc4_cl_validate` returns 0, either the layout check fired or the three stages were
run and each of them succeeded. -/
theorem cl_validate_zero (K : vc4_packet_h) (E : sim_env) (fuel : Nat)
    (args : drm_vc4_submit_cl) (exec : exec_info) (run : cl_validate_run)
    (h : vc4_cl_validate K E fuel args exec = .returned run) (h0 : run.ret = 0) :
    (layout_check_fails E args = true ∧ run.bin = none ∧ run.render = none ∧
        run.shader_recs = none) ∨
      (layout_check_fails E args = false ∧
        ∃ s t x o, run.bin = some (.ok s) ∧ run.render = some (.ok t) ∧
          run.shader_recs = some (.ok x o)) := by
  rcases cl_validate_cases K E fuel args exec run h with
    c | c | c | c | c | c
  · exact Or.inl ⟨c.1, c.2.2.2⟩
  · exact absurd h0 c.2.1
  · rw [c.2.1] at h0; exact absurd h0 (by decide)
  · rw [c.2.1] at h0; exact absurd h0 (by decide)
  · rw [c.2.1] at h0; exact absurd h0 (by decide)
  · obtain ⟨c1, _, s, t, x, o, c3, c4, c5, _⟩ := c
    exact Or.inr ⟨c1, s, t, x, o, c3, c4, c5⟩

/-- The stages of `vc4_cl_validate` run one after the other and the first failure ends the
function: after a failed bin walk neither the render walk nor the shader record stage is
run, after a failed render walk the shader record stage is not run, and in each case the
value returned is `-EINVAL`; a later stage is only ever run after the success of the
stage before it. -/
theorem cl_validate_stops_at_failure (K : vc4_packet_h) (E : sim_env) (fuel : Nat)
    (args : drm_vc4_submit_cl) (exec : exec_info) (run : cl_validate_run)
    (h : vc4_cl_validate K E fuel args exec = .returned run) :
    (∀ e s, run.bin = some (.einval e s) →
        run.ret = -22 ∧ run.render = none ∧ run.shader_recs = none) ∧
      (∀ e t, run.render = some (.einval e t) → run.ret = -22 ∧ run.shader_recs = none) ∧
      (∀ e i x o, run.shader_recs = some (.einval e i x o) → run.ret = -22) ∧
      (∀ r, run.render = some r → ∃ s, run.bin = some (.ok s)) ∧
      (∀ r, run.shader_recs = some r → ∃ t, run.render = some (.ok t)) := by
  rcases cl_validate_cases K E fuel args exec run h with
    c | c | c | c | c | c
  · obtain ⟨_, _, _, c1, c2, c3⟩ := c
    simp [c1, c2, c3]
  · obtain ⟨_, _, c1, c2, c3⟩ := c
    simp [c1, c2, c3]
  · obtain ⟨_, c0, ⟨e, s, c1, _⟩, c2, c3⟩ := c
    simp [c0, c1, c2, c3]
  · obtain ⟨_, c0, ⟨s, e, t, c1, c2, _⟩, c3⟩ := c
    simp [c0, c1, c2, c3]
  · obtain ⟨_, c0, s, t, e, i, x, o, c1, c2, c3, _⟩ := c
    simp [c0, c1, c2, c3]
  · obtain ⟨_, c0, s, t, x, o, c1, c2, c3, _⟩ := c
    simp [c0, c1, c2, c3]

/-- How a pass that leaves the function leaves the two offsets: as they were, or - after a
halt packet - both moved on. -/
theorem iter_done_offsets (K : vc4_packet_h) (u : Mem) (len : Nat) (is_bin : Bool)
    (s : WalkState) (r : WalkResult)
    (h : vc4_validate_cl_iter K u len is_bin s = .done r) :
    (r.state.dst_offset = s.dst_offset ∧ r.state.src_offset = s.src_offset ∧
        ∀ t, r = .ok t → ¬ s.src_offset < len) ∨
      (∃ t, r = .ok t ∧ s.src_offset < len ∧ load8 u s.src_offset = 0) := by
  unfold vc4_validate_cl_iter at h
  by_cases hlt : s.src_offset < len
  · rw [if_pos hlt] at h
    unfold vc4_validate_cl_body at h
    cases hck : vc4_validate_cl_checks u len is_bin s with
    | fail e =>
      rw [hck] at h
      simp only [LoopStep.done.injEq] at h
      subst h
      exact Or.inl ⟨rfl, rfl, fun t ht => by simp at ht⟩
    | undefined f =>
      rw [hck] at h
      simp only [LoopStep.done.injEq] at h
      subst h
      exact Or.inl ⟨rfl, rfl, fun t ht => by simp at ht⟩
    | pass info =>
      rw [hck] at h
      simp only at h
      unfold vc4_validate_cl_process at h
      simp only at h
      split at h
      · simp only [LoopStep.done.injEq] at h
        subst h
        exact Or.inl ⟨rfl, rfl, fun t ht => by simp at ht⟩
      · simp only [LoopStep.done.injEq] at h
        subst h
        exact Or.inl ⟨rfl, rfl, fun t ht => by simp at ht⟩
      · split at h
        · rename_i h0
          simp only [LoopStep.done.injEq] at h
          exact Or.inr ⟨_, h.symm, hlt, h0⟩
        · simp at h
  · rw [if_neg hlt] at h
    simp only [LoopStep.done.injEq] at h
    subst h
    exact Or.inl ⟨rfl, rfl, fun t _ => hlt⟩

/-- For stream lengths up to 2^32 - 16: at the start of every pass of the loop of
`vc4_validate_cl` that enters the body `dst_offset ≤ src_offset < len`; however the function
ends, `dst_offset ≤ src_offset ≤ len` at that point; and when it returns 0, either the source
offset equals `len` or the last packet scanned was a halt, the source offset being one
past it. -/
theorem walk_offsets_in_order (K : vc4_packet_h) (u : Mem) (len : Nat) (is_bin : Bool)
    (exec : exec_info) (hlen : len ≤ 4294967280) :
    (∀ n s, Reached K u len is_bin exec n s →
        s.dst_offset ≤ s.src_offset ∧ s.src_offset < len) ∧
      (∀ fuel r, vc4_validate_cl K fuel u len is_bin exec = some r →
        r.state.dst_offset ≤ r.state.src_offset ∧ r.state.src_offset ≤ len) ∧
      ∀ fuel t, vc4_validate_cl K fuel u len is_bin exec = some (.ok t) →
        t.src_offset = len ∨
          ∃ n s, Reached K u len is_bin exec n s ∧ load8 u s.src_offset = 0 ∧
            t.src_offset = s.src_offset + 1 := by
  have hinv0 : walk_inv len (vc4_validate_cl_entry exec) :=
    ⟨le_refl _, Nat.zero_le _, fun x hx => by simp [vc4_validate_cl_entry] at hx⟩
  have t0 : table_len 0 = 1 := rfl
  refine ⟨fun n s hr => ?_, fun fuel r h => ?_, fun fuel t h => ?_⟩
  · exact ⟨(at_forward K u len is_bin hlen n _ s hinv0 hr.1).2.1, hr.2⟩
  · obtain ⟨n, s, _, hat, hit⟩ := loop_done_at K u len is_bin fuel _ _ h
    obtain ⟨i1, i2, _⟩ := (at_forward K u len is_bin hlen n _ s hinv0 hat).2
    rcases iter_done_offsets K u len is_bin s r hit with ⟨h1, h2, _⟩ | ⟨t, rfl, hlt, h0⟩
    · rw [h1, h2]; exact ⟨i1, i2⟩
    · obtain ⟨e1, _, e3, e4⟩ := iter_through_exact K u len is_bin hlen s t
        ⟨i1, i2, by assumption⟩ hlt (Or.inr hit)
      rw [h0, if_pos (by decide)] at e4
      rw [h0] at e1
      show t.dst_offset ≤ t.src_offset ∧ t.src_offset ≤ len
      omega
  · obtain ⟨n, s, _, hat, hit⟩ := loop_done_at K u len is_bin fuel _ _ h
    obtain ⟨i1, i2, i3⟩ := (at_forward K u len is_bin hlen n _ s hinv0 hat).2
    rcases iter_done_offsets K u len is_bin s _ hit with ⟨_, h2, h3⟩ | ⟨t2, ht, hlt, h0⟩
    · have := h3 t rfl
      left
      show (WalkResult.ok t).state.src_offset = len
      rw [h2]; omega
    · simp only [WalkResult.ok.injEq] at ht
      subst ht
      obtain ⟨e1, _, _, _⟩ := iter_through_exact K u len is_bin hlen s t ⟨i1, i2, i3⟩ hlt
        (Or.inr hit)
      rw [h0, t0] at e1
      exact Or.inr ⟨n, s, ⟨hat, hlt⟩, h0, e1⟩

theorem mem_shader_rec_stores (src : Mem) (v sp : Nat) (ps : List (Nat × drm_gem_cma_object))
    (x : Nat × Nat) (hx : x ∈ shader_rec_stores src v sp ps) :
    ∃ p ∈ ps, v + p.1 ≤ x.1 ∧ x.1 < v + p.1 + 4 := by
  simp only [shader_rec_stores, List.mem_flatMap] at hx
  obtain ⟨p, hp, hx⟩ := hx
  exact ⟨p, hp, store32_span0 _ _ x hx⟩

/-- Whatever its outcome, `validate_shader_rec` stores only to the `packet_size` bytes from
`validated` on, and only for a record that passed the length test. -/
theorem validate_shader_rec_stores (K : vc4_packet_h) (src : Mem) (exec : exec_info)
    (out : WriteLog) (v u len : Nat) (state : vc4_shader_state) :
    ∃ w, (validate_shader_rec K src exec out v u len state).log out = out ++ w ∧
      (w ≠ [] → shader_rec_needed K state ≤ len) ∧
      ∀ x ∈ w, v ≤ x.1 ∧ x.1 < v + shader_rec_packet_size K state := by
  by_cases hl : shader_rec_needed K state ≤ len
  · rw [validate_shader_rec_pass K src exec out v u len state hl]
    cases hlk : shader_rec_lookup src exec u (shader_rec_handle_count K state) with
    | undefined f => exact ⟨[], by simp [ShaderRecResult.log], fun h => hl, by simp⟩
    | out_of_range i =>
      exact ⟨_, rfl, fun _ => hl, fun x hx => memcpy_span src v _ _ x hx⟩
    | found bo =>
      refine ⟨memcpy src v (u + 4 * shader_rec_handle_count K state)
            (shader_rec_packet_size K state) ++
          shader_rec_stores src v (u + 4 * shader_rec_handle_count K state)
            ((shader_rec_bo_offsets K state).zip bo) ++
          shader_rec_stores src v (u + 4 * shader_rec_handle_count K state)
            ((shader_rec_attr_offsets (shader_rec_nr_attributes K state)).zip
              (bo.drop (shader_rec_nr_bo K state))),
        by simp only [ShaderRecResult.log, List.append_assoc], fun _ => hl, fun x hx => ?_⟩
      rcases List.mem_append.1 hx with h1 | h1
      · rcases List.mem_append.1 h1 with h2 | h2
        · exact memcpy_span src v _ _ x h2
        · obtain ⟨p, hp, h3, h4⟩ := mem_shader_rec_stores src v _ _ x h2
          have := (bo_offsets_in_body K state p.1 (List.of_mem_zip hp).1).2
          omega
      · obtain ⟨p, hp, h3, h4⟩ := mem_shader_rec_stores src v _ _ x h1
        have := (attr_offsets_in_body K state p.1 (List.of_mem_zip hp).1).2
        omega
  · rw [validate_shader_rec_short K src exec out v u len state (by omega)]
    exact ⟨[], by simp [ShaderRecResult.log], fun h => absurd rfl h, by simp⟩

theorem shader_rec_handle_count_le (K : vc4_packet_h) (state : vc4_shader_state) :
    shader_rec_handle_count K state ≤ 14 ∧ shader_rec_nr_attributes K state ≤ 8 ∧
      (shader_rec_fields K state).length = shader_rec_handle_count K state := by
  have hf : (shader_rec_fields K state).length = shader_rec_handle_count K state := by
    simp only [shader_rec_fields, List.length_append, bo_offsets_length, attr_offsets_length,
      shader_rec_handle_count]
  by_cases hnv : state.packet = K.VC4_PACKET_NV_SHADER_STATE
  · have h := (shader_rec_needed_nv K state hnv).1
    refine ⟨by omega, ?_, hf⟩
    simp [shader_rec_nr_attributes, hnv]
  · obtain ⟨h1, h2, _⟩ := shader_rec_needed_gl K state hnv
    have h8 : shader_rec_nr_attributes K state ≤ 8 := by
      rw [h1]; split <;> omega
    exact ⟨by omega, h8, hf⟩

/-- The handler of opcodes 28 and 29 when the first scratch handle selects an entry of the
buffer table: with the low nibble of the first body byte equal to
`VC4_LOADSTORE_TILE_BUFFER_NONE` it returns 0 and stores nothing, so that the output packet
stays the copy of the untrusted one; with any other low nibble it returns 0 after storing
the relocated address at body offset 2. -/
theorem loadstore_in_range (K : vc4_packet_h) (src : Mem) (exec : exec_info) (out : WriteLog)
    (validated untrusted : Nat) (fbo : drm_gem_cma_object)
    (hbo : exec.bo[exec.bo_index.1]? = some fbo) :
    (load8 src untrusted % 16 = K.VC4_LOADSTORE_TILE_BUFFER_NONE →
        validate_loadstore_tile_buffer_general K src exec out validated untrusted =
          .ok exec out) ∧
      (load8 src untrusted % 16 ≠ K.VC4_LOADSTORE_TILE_BUFFER_NONE →
        validate_loadstore_tile_buffer_general K src exec out validated untrusted =
          .ok exec (out ++ store32 (validated + 2)
            ((load32 src (untrusted + 2) + fbo.paddr) % 4294967296))) := by
  constructor
  · intro h
    simp [validate_loadstore_tile_buffer_general, hbo, h]
  · intro h
    simp [validate_loadstore_tile_buffer_general, hbo, h]

set_option maxRecDepth 100000 in
/-- The run of `vc4_validate_cl` over `store_none_packet` as a render list in the context
`exec_empty`, whose buffer table is empty: the packet is copied, the handler returns 0 at
the test of the low nibble, and the list is accepted. -/
theorem store_none_packet_run :
    vc4_validate_cl K0 2 (mem_of store_none_packet) 7 false exec_empty =
      some (.ok
        { dst_offset := 7, src_offset := 7, exec := exec_empty,
          out := [(0, 28), (1, 0), (2, 0), (3, 0), (4, 0), (5, 0), (6, 0)] }) := by
  decide

/-- What a handler call does to the buffer bookkeeping of the context, whatever its outcome:
the buffer table and `bo_count` stay as they are; the scratch handles stay as they are
unless the handler is that of opcode 254, which replaces them by the two words of its
packet body; and a handler that returns 0 leaves scratch handles below `bo_count` if they
were so before. -/
theorem call_func_frame (K : vc4_packet_h) (f : validate_fn) (u : Mem) (exec : exec_info)
    (out : WriteLog) (v unt : Nat) :
    ((call_func K f u exec out v unt).exec exec).bo = exec.bo ∧
      ((call_func K f u exec out v unt).exec exec).bo_count = exec.bo_count ∧
      (f ≠ .gem_handles →
        ((call_func K f u exec out v unt).exec exec).bo_index = exec.bo_index) ∧
      (f = .gem_handles →
        ((call_func K f u exec out v unt).exec exec).bo_index =
          (load32 u unt, load32 u (unt + 4))) ∧
      (∀ e o, call_func K f u exec out v unt = .ok e o →
        exec.bo_index.1 < exec.bo_count ∧ exec.bo_index.2 < exec.bo_count →
        e.bo_index.1 < e.bo_count ∧ e.bo_index.2 < e.bo_count) := by
  cases f <;>
    simp only [call_func, validate_branch_to_sublist, validate_loadstore_tile_buffer_general,
      validate_indexed_prim_list, validate_gl_shader_state, validate_nv_shader_state,
      validate_tile_binning_config, validate_tile_rendering_mode_config,
      validate_gem_handles] <;>
    (repeat' split) <;>
    simp_all [HandlerResult.exec]

/-- With scratch handles that select entries of the buffer table no handler call is an
access outside `exec->bo`. -/
theorem call_func_in_range (K : vc4_packet_h) (f : validate_fn) (u : Mem) (exec : exec_info)
    (out : WriteLog) (v unt : Nat) (hinv : bo_inv exec) (i : Nat) :
    call_func K f u exec out v unt ≠ .undefined (.bo_out_of_bounds i) := by
  obtain ⟨h1, h2, h3⟩ := hinv
  obtain ⟨b1, hb1⟩ : ∃ b, exec.bo[exec.bo_index.1]? = some b :=
    ⟨_, List.getElem?_eq_getElem (by omega)⟩
  obtain ⟨b2, hb2⟩ : ∃ b, exec.bo[exec.bo_index.2]? = some b :=
    ⟨_, List.getElem?_eq_getElem (by omega)⟩
  cases f <;>
    simp only [call_func, validate_branch_to_sublist, validate_loadstore_tile_buffer_general,
      validate_indexed_prim_list, validate_gl_shader_state, validate_nv_shader_state,
      validate_tile_binning_config, validate_tile_rendering_mode_config,
      validate_gem_handles, hb1, hb2] <;>
    (repeat' split) <;>
    simp

set_option maxRecDepth 100000 in
/-- The only table slot whose handler is `validate_gem_handles` is 254. -/
theorem cmd_info_gem_handles : ∀ c, c < 255 →
    ((cmd_info_init c).func = some .gem_handles ↔ c = 254) := by
  decide

/-- The context a pass over a packet that passed the checks ends with is the one its
handler call left, or the one before when there is no handler. -/
theorem process_state_exec (K : vc4_packet_h) (u : Mem) (s : WalkState)
    (info : cmd_info_entry) :
    (vc4_validate_cl_process K u s info).state.exec =
      (run_handler K u s info).exec s.exec := by
  unfold vc4_validate_cl_process
  simp only
  cases run_handler K u s info with
  | undefined f => rfl
  | einval e x o => rfl
  | ok x o =>
    simp only [HandlerResult.exec]
    split <;> rfl

/-- The buffer bookkeeping of the context across one pass of the loop, however it ends: the
buffer table and `bo_count` are unchanged, and so are the scratch handles unless the
packet has opcode 254. -/
theorem iter_frame (K : vc4_packet_h) (u : Mem) (len : Nat) (is_bin : Bool) (s : WalkState) :
    (vc4_validate_cl_iter K u len is_bin s).state.exec.bo = s.exec.bo ∧
      (vc4_validate_cl_iter K u len is_bin s).state.exec.bo_count = s.exec.bo_count ∧
      (load8 u s.src_offset ≠ 254 →
        (vc4_validate_cl_iter K u len is_bin s).state.exec.bo_index = s.exec.bo_index) := by
  unfold vc4_validate_cl_iter
  by_cases hlt : s.src_offset < len
  · rw [if_pos hlt]
    unfold vc4_validate_cl_body
    cases hck : vc4_validate_cl_checks u len is_bin s with
    | fail e => exact ⟨rfl, rfl, fun _ => rfl⟩
    | undefined f => exact ⟨rfl, rfl, fun _ => rfl⟩
    | pass info =>
      simp only
      rw [process_state_exec]
      obtain ⟨h255, hi, _⟩ := checks_pass u len is_bin s info hck
      unfold run_handler
      cases hf : info.func with
      | none => exact ⟨rfl, rfl, fun _ => rfl⟩
      | some f =>
        simp only
        obtain ⟨f1, f2, f3, _⟩ := call_func_frame K f u s.exec (copy_packet u s info)
          (s.dst_offset + 1) (s.src_offset + 1)
        refine ⟨f1, f2, fun hne => f3 (fun hg => hne ?_)⟩
        rw [hi, hg] at hf
        exact (cmd_info_gem_handles _ h255).1 hf
  · rw [if_neg hlt]
    exact ⟨rfl, rfl, fun _ => rfl⟩

/-- With scratch handles that select entries of the buffer table, a pass of the loop is not
an access outside `exec->bo`, and a pass that goes through leaves scratch handles that
select entries of the buffer table. -/
theorem iter_bo_inv (K : vc4_packet_h) (u : Mem) (len : Nat) (is_bin : Bool) (s : WalkState)
    (hinv : bo_inv s.exec) :
    (∀ i t, vc4_validate_cl_iter K u len is_bin s ≠
        .done (.undefined (.bo_out_of_bounds i) t)) ∧
      ∀ t, vc4_validate_cl_iter K u len is_bin s = .next t ∨
        vc4_validate_cl_iter K u len is_bin s = .done (.ok t) → bo_inv t.exec := by
  constructor
  · intro i t hc
    unfold vc4_validate_cl_iter at hc
    by_cases hlt : s.src_offset < len
    · rw [if_pos hlt] at hc
      unfold vc4_validate_cl_body at hc
      cases hck : vc4_validate_cl_checks u len is_bin s with
      | fail e => rw [hck] at hc; simp at hc
      | undefined f =>
        rw [hck] at hc
        simp only [LoopStep.done.injEq, WalkResult.undefined.injEq] at hc
        unfold vc4_validate_cl_checks at hck
        simp only at hck
        split at hck
        · simp at hck
        · split at hck
          · simp only [Checked.undefined.injEq] at hck
            rw [← hck] at hc
            simp at hc
          · split at hck
            · simp at hck
            · split at hck
              · simp at hck
              · split at hck <;> simp at hck
      | pass info =>
        rw [hck] at hc
        simp only at hc
        unfold vc4_validate_cl_process at hc
        simp only at hc
        cases hr : run_handler K u s info with
        | einval e x o => rw [hr] at hc; simp at hc
        | ok x o =>
          rw [hr] at hc
          simp only at hc
          split at hc <;> simp at hc
        | undefined f =>
          rw [hr] at hc
          simp only [LoopStep.done.injEq, WalkResult.undefined.injEq] at hc
          unfold run_handler at hr
          cases hf : info.func with
          | none => rw [hf] at hr; simp at hr
          | some g =>
            rw [hf] at hr
            simp only at hr
            rw [hc.1] at hr
            exact call_func_in_range K g u s.exec _ _ _ hinv i hr
    · rw [if_neg hlt] at hc
      simp at hc
  · intro t h
    by_cases hlt : s.src_offset < len
    · obtain ⟨info, _, hpr⟩ := iter_through K u len is_bin s t hlt h
      have hrun := process_through_handler K u s t info hpr
      obtain ⟨h1, h2, h3⟩ := hinv
      unfold run_handler at hrun
      cases hf : info.func with
      | none =>
        rw [hf] at hrun
        simp only [HandlerResult.ok.injEq] at hrun
        rw [← hrun.1]
        exact ⟨h1, h2, h3⟩
      | some g =>
        rw [hf] at hrun
        simp only at hrun
        obtain ⟨f1, f2, _, _, f5⟩ := call_func_frame K g u s.exec (copy_packet u s info)
          (s.dst_offset + 1) (s.src_offset + 1)
        rw [hrun] at f1 f2
        simp only [HandlerResult.exec] at f1 f2
        obtain ⟨g1, g2⟩ := f5 _ _ hrun ⟨h1, h2⟩
        exact ⟨g1, g2, by rw [f1, f2]; exact h3⟩
    · unfold vc4_validate_cl_iter at h
      rw [if_neg hlt] at h
      rcases h with h | h
      · simp at h
      · simp only [LoopStep.done.injEq, WalkResult.ok.injEq] at h
        rw [← h]
        exact hinv

/-- The buffer bookkeeping across the passes of a scan: the buffer table and `bo_count` are
unchanged, and so are the scratch handles when no packet scanned has opcode 254. -/
theorem at_frame (K : vc4_packet_h) (u : Mem) (len : Nat) (is_bin : Bool) (n : Nat)
    (s0 s : WalkState) (h : vc4_validate_cl_at K u len is_bin n s0 = some s) :
    s.exec.bo = s0.exec.bo ∧ s.exec.bo_count = s0.exec.bo_count ∧
      (254 ∉ vc4_validate_cl_scanned K u len is_bin n s0 →
        s.exec.bo_index = s0.exec.bo_index) := by
  induction n generalizing s0 with
  | zero =>
    simp only [vc4_validate_cl_at, Option.some.injEq] at h
    subst h
    exact ⟨rfl, rfl, fun _ => rfl⟩
  | succ n ih =>
    simp only [vc4_validate_cl_at] at h
    cases hstep : vc4_validate_cl_iter K u len is_bin s0 with
    | done r => rw [hstep] at h; simp at h
    | next s1 =>
      rw [hstep] at h
      obtain ⟨i1, i2, i3⟩ := ih s1 h
      obtain ⟨f1, f2, f3⟩ := iter_frame K u len is_bin s0
      rw [hstep] at f1 f2 f3
      simp only [LoopStep.state] at f1 f2 f3
      refine ⟨by rw [i1, f1], by rw [i2, f2], fun hno => ?_⟩
      rw [scanned_step K u len is_bin n s0 s1 hstep] at hno
      simp only [List.mem_cons, not_or] at hno
      rw [i3 hno.2, f3 (fun hc => hno.1 hc.symm)]

/-- Scratch handles that select entries of the buffer table do so at every packet boundary
the scan reaches. -/
theorem at_bo_inv (K : vc4_packet_h) (u : Mem) (len : Nat) (is_bin : Bool) (n : Nat)
    (s0 s : WalkState) (hinv : bo_inv s0.exec)
    (h : vc4_validate_cl_at K u len is_bin n s0 = some s) : bo_inv s.exec := by
  induction n generalizing s0 with
  | zero =>
    simp only [vc4_validate_cl_at, Option.some.injEq] at h
    subst h
    exact hinv
  | succ n ih =>
    simp only [vc4_validate_cl_at] at h
    cases hstep : vc4_validate_cl_iter K u len is_bin s0 with
    | done r => rw [hstep] at h; simp at h
    | next s1 =>
      rw [hstep] at h
      exact ih s1 ((iter_bo_inv K u len is_bin s0 hinv).2 s1 (Or.inl hstep)) h

/-- In a context whose scratch handles select entries of the buffer table - as after
`vc4_simulator_pin_bos` for a submission with at least one buffer - no lookup
`exec->bo[exec->bo_index[j]]` of a walk is out of range, and the context left by a walk
that returns 0 has scratch handles that select entries of the buffer table, so that the
same holds for the walk that follows on it. -/
theorem walk_lookups_in_range (K : vc4_packet_h) (u : Mem) (len : Nat) (is_bin : Bool)
    (exec : exec_info) (hinv : bo_inv exec) (fuel : Nat) (r : WalkResult)
    (h : vc4_validate_cl K fuel u len is_bin exec = some r) :
    (∀ i t, r ≠ .undefined (.bo_out_of_bounds i) t) ∧ ∀ t, r = .ok t → bo_inv t.exec := by
  obtain ⟨n, s, _, hat, hit⟩ := loop_done_at K u len is_bin fuel _ _ h
  have hs : bo_inv s.exec := at_bo_inv K u len is_bin n _ s hinv hat
  obtain ⟨g1, g2⟩ := iter_bo_inv K u len is_bin s hs
  refine ⟨fun i t hc => g1 i t (by rw [hit, hc]), fun t ht => g2 t (Or.inr (by rw [hit, ht]))⟩

/-- The context made by `vc4_simulator_pin_bos` from the zeroed context, for a submission
with at least one buffer, has scratch handles that select entries of the buffer table. -/
theorem pin_bos_bo_inv (E : sim_env) (args : drm_vc4_submit_cl)
    (h : 1 ≤ args.bo_handle_count) : bo_inv (vc4_simulator_pin_bos E args exec_zero) := by
  simp only [bo_inv, vc4_simulator_pin_bos, exec_zero, List.length_map, List.length_range]
  omega

/-- In `vc4_cl_validate` the render walk, when it is run, is run on the context the bin walk
left behind. -/
theorem cl_validate_render_start (K : vc4_packet_h) (E : sim_env) (fuel : Nat)
    (args : drm_vc4_submit_cl) (exec : exec_info) (run : cl_validate_run) (r : WalkResult)
    (h : vc4_cl_validate K E fuel args exec = .returned run) (hr : run.render = some r) :
    ∃ s u len, run.bin = some (.ok s) ∧
      vc4_validate_cl K fuel u len false s.exec = some r := by
  rcases cl_validate_cases K E fuel args exec run h with
    c | c | c | c | c | c
  · rw [c.2.2.2.2.1] at hr; simp at hr
  · rw [c.2.2.2.1] at hr; simp at hr
  · rw [c.2.2.2.1] at hr; simp at hr
  · obtain ⟨_, _, ⟨s, e, t, c1, c2, _, u, len, c3⟩, _⟩ := c
    rw [c2] at hr
    simp only [Option.some.injEq] at hr
    subst hr
    exact ⟨s, u, len, c1, c3⟩
  · obtain ⟨_, _, s, t, e, i, x, o, c1, c2, _, u, len, c3⟩ := c
    rw [c2] at hr
    simp only [Option.some.injEq] at hr
    subst hr
    exact ⟨s, u, len, c1, c3⟩
  · obtain ⟨_, _, s, t, x, o, c1, c2, _, u, len, c3⟩ := c
    rw [c2] at hr
    simp only [Option.some.injEq] at hr
    subst hr
    exact ⟨s, u, len, c1, c3⟩

/-- A handle packet that goes through leaves its two handle words as scratch handles. -/
theorem iter_gem_handles_index (K : vc4_packet_h) (u : Mem) (len : Nat) (is_bin : Bool)
    (s t : WalkState) (hc : load8 u s.src_offset = 254)
    (h : vc4_validate_cl_iter K u len is_bin s = .next t) :
    t.exec.bo_index = (load32 u (s.src_offset + 1), load32 u (s.src_offset + 1 + 4)) := by
  have hlt : s.src_offset < len := by
    by_contra hc2
    simp [vc4_validate_cl_iter, hc2] at h
  obtain ⟨info, hck, hpr⟩ := iter_through K u len is_bin s t hlt (Or.inl h)
  obtain ⟨_, hi, _⟩ := checks_pass u len is_bin s info hck
  have hrun := process_through_handler K u s t info hpr
  have hf : info.func = some .gem_handles := by rw [hi, hc]; rfl
  unfold run_handler at hrun
  rw [hf] at hrun
  simp only at hrun
  have f4 := (call_func_frame K .gem_handles u s.exec (copy_packet u s info)
    (s.dst_offset + 1) (s.src_offset + 1)).2.2.2.1 rfl
  rw [hrun] at f4
  exact f4

set_option maxRecDepth 100000 in
/-- The submission `branch_args` in the environment `E0`: the bin walk reads `exec->bo[0]`
in a context whose buffer table is empty. -/
theorem branch_args_run :
    vc4_cl_validate K0 E0 1 branch_args (vc4_simulator_pin_bos E0 branch_args exec_zero) =
      .undefined (.bo_out_of_bounds 0) := by
  rfl

set_option maxRecDepth 100000 in
/-- The walk over one branch-to-sublist packet in a context without buffers. -/
theorem branch_packet_run :
    vc4_validate_cl K0 1 (mem_of [17, 0, 0, 0, 0]) 5 true exec_empty =
      some (.undefined (.bo_out_of_bounds 0)
        { dst_offset := 0, src_offset := 0, exec := exec_empty,
          out := [(0, 17), (1, 0), (2, 0), (3, 0), (4, 0)] }) := by
  decide

set_option maxRecDepth 100000 in
/-- The submission `branch_args` in the environment `E0`: `vc4_simulator_flush` does not get
as far as returning or executing. -/
theorem branch_args_flush : vc4_simulator_flush K0 E0 1 branch_args = .not_returned := by
  decide

/-- The scan of `wrap_stream` with `len = 4294967295`, started with both offsets 0: after `n`
passes, for `n` up to 4294967294, both offsets are `n`. -/
theorem wrap_stream_prefix (K : vc4_packet_h) (is_bin : Bool) (e : exec_info) (o : WriteLog)
    (n : Nat) (hn : n ≤ 4294967294) :
    ∃ out, vc4_validate_cl_at K wrap_stream 4294967295 is_bin n
        { dst_offset := 0, src_offset := 0, exec := e, out := o } =
      some { dst_offset := n, src_offset := n, exec := e, out := out } := by
  obtain ⟨out, h, _⟩ := nop_segment K wrap_stream 4294967295 is_bin n
    { dst_offset := 0, src_offset := 0, exec := e, out := o }
    (by intro i hi
        have a : ¬ (0 + i = 4294967294) := by omega
        simp only [load8, wrap_stream, a, if_false])
    (by show 0 + n ≤ 4294967295; omega) (by omega) (by show 0 + n < 4294967296; omega)
  simp only [Nat.zero_add] at h
  exact ⟨out, h⟩

/-- The scan of `wrap_stream` with `len = 4294967295`, started with both offsets 0, is back at
both offsets 0 after 4294967295 passes. -/
theorem wrap_stream_cycle (K : vc4_packet_h) (is_bin : Bool) (e : exec_info) (o : WriteLog) :
    ∃ out, vc4_validate_cl_at K wrap_stream 4294967295 is_bin 4294967295
        { dst_offset := 0, src_offset := 0, exec := e, out := o } =
      some { dst_offset := 0, src_offset := 0, exec := e, out := out } := by
  obtain ⟨o1, h1⟩ := wrap_stream_prefix K is_bin e o 4294967294 (le_refl _)
  have h2 := at_succ_last K wrap_stream 4294967295 is_bin 4294967294 _ _ _ h1
    (wrap_stream_step K is_bin e o1)
  have e1 : 4294967294 + 1 = 4294967295 := by omega
  rw [e1] at h2
  exact ⟨_, h2⟩

/-- The scan of `wrap_stream` with `len = 4294967295` is still going after any number of
passes. -/
theorem wrap_stream_forever (K : vc4_packet_h) (is_bin : Bool) (n : Nat) :
    ∀ (e : exec_info) (o : WriteLog), ∃ t,
      vc4_validate_cl_at K wrap_stream 4294967295 is_bin n
        { dst_offset := 0, src_offset := 0, exec := e, out := o } = some t := by
  induction n using Nat.strong_induction_on with
  | _ n ih =>
    intro e o
    by_cases hn : n ≤ 4294967294
    · obtain ⟨out, h⟩ := wrap_stream_prefix K is_bin e o n hn
      exact ⟨_, h⟩
    · obtain ⟨m, rfl⟩ : ∃ m, n = 4294967295 + m := ⟨n - 4294967295, by omega⟩
      obtain ⟨o1, h1⟩ := wrap_stream_cycle K is_bin e o
      obtain ⟨t, h2⟩ := ih m (by omega) e o1
      exact ⟨t, at_trans K wrap_stream 4294967295 is_bin 4294967295 m _ _ _ h1 h2⟩

/-- For stream lengths up to 2^32 - 16 the loop of `vc4_validate_cl`, started in a state
satisfying the loop invariant, returns within `len - src_offset + 1` loop tests. -/
theorem loop_terminates (K : vc4_packet_h) (u : Mem) (len : Nat) (is_bin : Bool)
    (hlen : len ≤ 4294967280) (fuel : Nat) :
    ∀ s, walk_inv len s → len - s.src_offset < fuel →
      ∃ r, vc4_validate_cl_loop K u len is_bin fuel s = some r := by
  induction fuel with
  | zero => intro s _ h; omega
  | succ f ih =>
    intro s hinv hf
    cases hstep : vc4_validate_cl_iter K u len is_bin s with
    | done r => exact ⟨r, loop_done K u len is_bin f s r hstep⟩
    | next t =>
      have hlt : s.src_offset < len := by
        by_contra hc
        simp [vc4_validate_cl_iter, hc] at hstep
      obtain ⟨e1, e2, e3, _⟩ := iter_through_exact K u len is_bin hlen s t hinv hlt
        (Or.inl hstep)
      obtain ⟨r, hr⟩ := ih t (iter_inv K u len is_bin s t hlen hinv hstep) (by omega)
      exact ⟨r, by rw [loop_step K u len is_bin f s t hstep]; exact hr⟩

/-- For stream lengths up to 2^32 - 16 the source offset after `n` passes is at least `n`
beyond the one at the start. -/
theorem at_src_offset_grows (K : vc4_packet_h) (u : Mem) (len : Nat) (is_bin : Bool)
    (hlen : len ≤ 4294967280) (n : Nat) :
    ∀ s0 s, walk_inv len s0 → vc4_validate_cl_at K u len is_bin n s0 = some s →
      s0.src_offset + n ≤ s.src_offset := by
  induction n with
  | zero =>
    intro s0 s _ h
    simp only [vc4_validate_cl_at, Option.some.injEq] at h
    subst h
    omega
  | succ n ih =>
    intro s0 s hinv h
    simp only [vc4_validate_cl_at] at h
    cases hstep : vc4_validate_cl_iter K u len is_bin s0 with
    | done r => rw [hstep] at h; simp at h
    | next s1 =>
      rw [hstep] at h
      have hlt : s0.src_offset < len := by
        by_contra hc
        simp [vc4_validate_cl_iter, hc] at hstep
      obtain ⟨e1, e2, _, _⟩ := iter_through_exact K u len is_bin hlen s0 s1 hinv hlt
        (Or.inl hstep)
      have := ih s1 s (iter_inv K u len is_bin s0 s1 hlen hinv hstep) h
      omega

/-- For stream lengths up to 2^32 - 16 `vc4_validate_cl` terminates: every table entry that
is present has a length of at least 1, a pass of the loop that goes round again moves the
source offset forward by that length, the `n`-th pass starts at a source offset of at
least `n`, so that the loop body is run at most `len` times, and the function has
returned after at most `len + 1` loop tests. -/
theorem walk_terminates (K : vc4_packet_h) (u : Mem) (len : Nat) (is_bin : Bool)
    (exec : exec_info) (hlen : len ≤ 4294967280) :
    (∀ c, c < 255 → (cmd_info_init c).name.isSome = true → 1 ≤ (cmd_info_init c).len) ∧
      (∀ n s t, Reached K u len is_bin exec n s →
        vc4_validate_cl_iter K u len is_bin s = .next t → s.src_offset < t.src_offset) ∧
      (∀ n s, Reached K u len is_bin exec n s → n ≤ s.src_offset ∧ n < len) ∧
      ∃ r, vc4_validate_cl K (len + 1) u len is_bin exec = some r := by
  have hinv0 : walk_inv len (vc4_validate_cl_entry exec) :=
    ⟨le_refl _, Nat.zero_le _, fun x hx => by simp [vc4_validate_cl_entry] at hx⟩
  refine ⟨fun c hc hn => (cmd_info_init_len c hc hn).1, fun n s t hr hstep => ?_,
    fun n s hr => ?_, ?_⟩
  · obtain ⟨e1, e2, _, _⟩ := iter_through_exact K u len is_bin hlen s t
      (at_forward K u len is_bin hlen n _ s hinv0 hr.1).2 hr.2 (Or.inl hstep)
    omega
  · have h := at_src_offset_grows K u len is_bin hlen n _ s hinv0 hr.1
    have h0 : (vc4_validate_cl_entry exec).src_offset = 0 := rfl
    have := hr.2
    omega
  · exact loop_terminates K u len is_bin hlen (len + 1) _ hinv0
      (by have h0 : (vc4_validate_cl_entry exec).src_offset = 0 := rfl
          omega)

theorem shader_rec_offset_lt (E : sim_env) (args : drm_vc4_submit_cl) :
    shader_rec_offset E args < 4294967296 :=
  Nat.mod_lt _ (by norm_num)

theorem exec_size_lt (E : sim_env) (args : drm_vc4_submit_cl) :
    exec_size E args < 4294967296 :=
  Nat.mod_lt _ (by norm_num)

/-- The layout check of `vc4_cl_validate` on `wrap_args` passes whatever `roundup` returns. -/
theorem wrap_args_layout (E : sim_env) (hs : 1 ≤ E.sizeof_vc4_shader_state)
    (hs2 : E.sizeof_vc4_shader_state ≤ 4294967295) :
    layout_check_fails E wrap_args = false := by
  have h1 : render_offset wrap_args = 0 := by decide
  have h2 : exec_size E wrap_args = shader_rec_offset E wrap_args := by
    have := shader_rec_offset_lt E wrap_args
    show (shader_rec_offset E wrap_args + 0) % 4294967296 = _
    omega
  have h3 : temp_size E wrap_args = exec_size E wrap_args := by
    have := exec_size_lt E wrap_args
    show (exec_size E wrap_args + E.sizeof_vc4_shader_state * 0) % 4294967296 = _
    omega
  have h4 : 1 ≤ 4294967295 / E.sizeof_vc4_shader_state :=
    (Nat.one_le_div_iff (by omega)).2 hs2
  have h5 : wrap_args.shader_record_count = 0 := rfl
  simp only [layout_check_fails, h1, h2, h3, h5, Bool.or_eq_false_iff, decide_eq_false_iff_not]
  omega

/-- The run of `vc4_cl_validate` on `wrap_args` with the parameters `E0`: the check passes
with `exec_size = 0`, and the copy of the render list runs past the region. -/
theorem wrap_args_run (K : vc4_packet_h) (fuel : Nat) (exec : exec_info) :
    vc4_cl_validate K E0 fuel wrap_args exec = .copy_out_of_region 1 := rfl

/-- Where the sum of the two list lengths is at most 2^32 - 16 and `roundup(x, 16)` is
`((x + 15) / 16) * 16`, for a 32-bit shader record length, a layout check that passes has computed a layout that did not wrap:
the shader record offset is a multiple of 16 at or after the end of the render list, and
shader record offset plus shader record length is `exec_size`, below 2^32. -/
theorem layout_check_no_wrap (E : sim_env) (args : drm_vc4_submit_cl)
    (hr : ∀ x, E.roundup x 16 = (x + 15) / 16 * 16)
    (hsum : args.bin_cl_len + args.render_cl_len ≤ 4294967280)
    (hsl : args.shader_record_len < 4294967296)
    (hpass : layout_check_fails E args = false) :
    render_offset args = args.bin_cl_len ∧
      args.bin_cl_len + args.render_cl_len ≤ shader_rec_offset E args ∧
      16 ∣ shader_rec_offset E args ∧
      shader_rec_offset E args + args.shader_record_len = exec_size E args ∧
      exec_size E args < 4294967296 ∧
      exec_size E args + E.sizeof_vc4_shader_state * args.shader_record_count =
        temp_size E args := by
  have h1 : render_offset args = args.bin_cl_len := by
    show (0 + args.bin_cl_len) % 4294967296 = _
    omega
  have h2 : shader_rec_offset E args =
      (args.bin_cl_len + args.render_cl_len + 15) / 16 * 16 := by
    unfold shader_rec_offset
    rw [h1, hr]
    omega
  simp only [layout_check_fails, Bool.or_eq_false_iff, decide_eq_false_iff_not] at hpass
  obtain ⟨⟨⟨p1, p2⟩, p3⟩, p4⟩ := hpass
  have h3 := exec_size_lt E args
  have h4 : exec_size E args =
      (shader_rec_offset E args + args.shader_record_len) % 4294967296 := rfl
  have h5 : temp_size E args =
      (exec_size E args + E.sizeof_vc4_shader_state * args.shader_record_count) %
        4294967296 := rfl
  have h6 : temp_size E args < 4294967296 := Nat.mod_lt _ (by norm_num)
  have h7 : shader_rec_offset E args < 4294967296 := shader_rec_offset_lt E args
  refine ⟨h1, by omega, ⟨(args.bin_cl_len + args.render_cl_len + 15) / 16, by omega⟩, ?_, h3, ?_⟩
  · omega
  · have hP : E.sizeof_vc4_shader_state * args.shader_record_count < 4294967295 := by
      have h8 : args.shader_record_count < 4294967295 / E.sizeof_vc4_shader_state := by omega
      have h9 := Nat.mul_le_mul_left E.sizeof_vc4_shader_state (Nat.succ_le_of_lt h8)
      have h10 := Nat.mul_div_le 4294967295 E.sizeof_vc4_shader_state
      have h11 : 1 ≤ E.sizeof_vc4_shader_state := by
        by_contra hc
        have h12 : E.sizeof_vc4_shader_state = 0 := by omega
        rw [h12] at h8
        simp at h8
      rw [Nat.mul_succ] at h9
      omega
    omega

/-! ### Multisample patterns -/

/-- With the enumerators numbered from 0 and `SWR_MULTISAMPLE_TYPE_MAX` at least 5, the
assertion of `GetNumSamples` holds for every sample count, and the value returned is the
`numSamples` of the specialisation. -/
theorem GetNumSamples_eq (H : state_h)
    (h1 : H.value .SWR_MULTISAMPLE_1X = 0) (h2 : H.value .SWR_MULTISAMPLE_2X = 1)
    (h4 : H.value .SWR_MULTISAMPLE_4X = 2) (h8 : H.value .SWR_MULTISAMPLE_8X = 3)
    (h16 : H.value .SWR_MULTISAMPLE_16X = 4) (hmax : 5 ≤ H.SWR_MULTISAMPLE_TYPE_MAX)
    (c : SWR_MULTISAMPLE_COUNT) :
    GetNumSamples H c = some (MultisampleTraits.numSamples c) := by
  cases c <;>
    simp only [GetNumSamples, sampleCountLUT, h1, h2, h4, h8, h16,
      MultisampleTraits.numSamples] <;>
    rw [if_pos (by omega), List.getElem?_append_left (by decide)] <;> rfl

/-! ## Claims -/

/-- C1, at the boundary opcode: a stream whose first byte is 255 makes `vc4_validate_cl` read
`cmd_info[255]`, one slot past the 255 slots of the table, instead of failing with
`-EINVAL`: the guard `cmd > ARRAY_SIZE(cmd_info)` lets 255 through. -/
theorem opcode_255_reads_past_table (K : vc4_packet_h) (is_bin : Bool) (exec : exec_info) :
    vc4_validate_cl K 1 (mem_of [255]) 1 is_bin exec =
      some (.undefined (.cmd_info_out_of_bounds 255) (vc4_validate_cl_entry exec)) := by
  have h255 : load8 (mem_of [255]) 0 = 255 := by decide
  simp [vc4_validate_cl, vc4_validate_cl_loop, vc4_validate_cl_iter, vc4_validate_cl_entry,
    vc4_validate_cl_body, vc4_validate_cl_checks, h255, cmd_info_lookup, ARRAY_SIZE_cmd_info]

/-- Every opcode below 255 without a table entry is refused with "packet invalid" and
`-EINVAL`, the state being left as it was (nothing copied, no handler run). -/
theorem unregistered_opcode_rejected (K : vc4_packet_h) (u : Mem) (len : Nat) (is_bin : Bool)
    (exec : exec_info) (n : Nat) (s : WalkState)
    (hr : Reached K u len is_bin exec n s)
    (hc : load8 u s.src_offset ∉ [0, 1, 4, 5, 6, 7, 8, 17, 24, 25, 28, 29, 32, 33, 56, 64,
      65, 96, 97, 98, 99, 100, 101, 102, 103, 105, 106, 112, 113, 114, 115, 254, 255])
    (fuel : Nat) (hf : n < fuel) :
    vc4_validate_cl K fuel u len is_bin exec = some (.einval .packet_invalid s) := by
  apply result_of_reached K u len is_bin exec n s _ hr _ fuel hf
  have hlt := load8_lt u s.src_offset
  have h255 : load8 u s.src_offset < 255 := by
    simp only [List.mem_cons, List.mem_singleton, not_or] at hc
    omega
  simp only [vc4_validate_cl_iter, hr.2, if_true]
  apply body_packet_invalid K u len is_bin s h255
  rcases cmd_info_init_unnamed _ h255 with h | h
  · exact absurd (List.mem_append_left [255] h) hc
  · exact h

/-- C2: a packet reached by the scan whose opcode is render-only (24, 25, 28, 29, 113, 114,
115) in the bin list, or bin-only (5, 6, 7, 112) in the render list, makes
`vc4_validate_cl` return `-EINVAL` with "invalid for binner/render", in the state it was
reached in (nothing copied, no handler run); and the list check does not refuse the same
opcode in the other list. -/
theorem list_mismatch_rejected (K : vc4_packet_h) (u : Mem) (len : Nat) (is_bin : Bool)
    (exec : exec_info) (n : Nat) (s : WalkState)
    (hr : Reached K u len is_bin exec n s)
    (hc : (is_bin = true ∧ load8 u s.src_offset ∈ [24, 25, 28, 29, 113, 114, 115]) ∨
      (is_bin = false ∧ load8 u s.src_offset ∈ [5, 6, 7, 112]))
    (fuel : Nat) (hf : n < fuel) :
    vc4_validate_cl K fuel u len is_bin exec = some (.einval .invalid_for_list s) ∧
      (WalkResult.einval .invalid_for_list s).ret = some (-22) ∧
      ∃ info, cmd_info[load8 u s.src_offset]? = some info ∧
        list_check_fails (!is_bin) info = false := by
  have key : load8 u s.src_offset < 255 ∧
      (cmd_info_init (load8 u s.src_offset)).name.isSome = true ∧
      list_check_fails is_bin (cmd_info_init (load8 u s.src_offset)) = true ∧
      list_check_fails (!is_bin) (cmd_info_init (load8 u s.src_offset)) = false := by
    rcases hc with ⟨hb, hm⟩ | ⟨hb, hm⟩
    · subst hb
      simp only [List.mem_cons, List.mem_singleton, List.not_mem_nil, or_false] at hm
      rcases hm with h | h | h | h | h | h | h <;> rw [h] <;> decide
    · subst hb
      simp only [List.mem_cons, List.mem_singleton, List.not_mem_nil, or_false] at hm
      rcases hm with h | h | h | h <;> rw [h] <;> decide
  obtain ⟨h255, hname, hfail, hpass⟩ := key
  refine ⟨?_, rfl, cmd_info_init (load8 u s.src_offset), ?_, hpass⟩
  · apply result_of_reached K u len is_bin exec n s _ hr _ fuel hf
    simp only [vc4_validate_cl_iter, hr.2, if_true]
    exact body_invalid_for_list K u len is_bin s h255 hname hfail
  · simp [cmd_info_lookup, h255]

/-- C2 at work: opcode 24 as the only byte of a bin list. -/
theorem list_mismatch_rejected_witness :
    vc4_validate_cl K0 1 (mem_of [24]) 1 true exec_empty =
        some (.einval .invalid_for_list (vc4_validate_cl_entry exec_empty)) ∧
      (WalkResult.einval .invalid_for_list (vc4_validate_cl_entry exec_empty)).ret
        = some (-22) ∧
      ∃ info, cmd_info[load8 (mem_of [24]) (vc4_validate_cl_entry exec_empty).src_offset]?
        = some info ∧ list_check_fails (!true) info = false :=
  list_mismatch_rejected K0 (mem_of [24]) 1 true exec_empty 0 (vc4_validate_cl_entry exec_empty)
    ⟨rfl, by decide⟩ (Or.inl ⟨rfl, by decide⟩) 1 (by decide)

/-- C3, at a stream length near 2^32: with `len = 4294967295`, the scan of `wrap_stream`
reaches the packet at offset 4294967294 (opcode 56, table length 2). The exact sum
`src_offset + 2` exceeds `len`, but the 32-bit sum of the length test is 0, so the packet is
not refused: it is copied, one byte being read from beyond the stream, and both offsets
wrap to 0. -/
theorem length_check_wraps (K : vc4_packet_h) (is_bin : Bool) (exec : exec_info) :
    ∃ s, Reached K wrap_stream 4294967295 is_bin exec 4294967294 s ∧
      s.src_offset = 4294967294 ∧
      cmd_info[load8 wrap_stream s.src_offset]? = some (cmd_info_init 56) ∧
      (cmd_info_init 56).len = 2 ∧
      ¬ (s.src_offset + (cmd_info_init 56).len ≤ 4294967295) ∧
      vc4_validate_cl_iter K wrap_stream 4294967295 is_bin s = .next
        { dst_offset := 0, src_offset := 0, exec := exec,
          out := s.out ++ [(4294967294, 56), (4294967295, 1)] } := by
  obtain ⟨out, hout⟩ := wrap_stream_run K is_bin exec
  have hb : load8 wrap_stream 4294967294 = 56 := by simp [load8, wrap_stream]
  have e56 : (cmd_info_init 56).len = 2 := rfl
  have hlt : (4294967294 : Nat) < 4294967295 := by omega
  refine ⟨{ dst_offset := 4294967294, src_offset := 4294967294, exec := exec, out := out },
    ⟨hout, hlt⟩, rfl, ?_, e56, ?_, wrap_stream_step K is_bin exec out⟩
  · show cmd_info[load8 wrap_stream 4294967294]? = some (cmd_info_init 56)
    rw [hb, cmd_info_lookup]
    rfl
  · show ¬ (4294967294 + (cmd_info_init 56).len ≤ 4294967295)
    rw [e56]
    omega

/-- C4, at a stream length near 2^32: with `len = 4294967295`, after the pass over the last
packet of `wrap_stream` the output log holds a byte stored at offset 4294967295, which is
not strictly below `len`; the length test that should have refused the packet wrapped. -/
theorem write_at_offset_len (K : vc4_packet_h) (is_bin : Bool) (exec : exec_info) :
    ∃ s, vc4_validate_cl_at K wrap_stream 4294967295 is_bin (4294967294 + 1)
        (vc4_validate_cl_entry exec) = some s ∧
      (4294967295, 1) ∈ s.out ∧ ¬ (4294967295 < 4294967295) := by
  obtain ⟨out, hout⟩ := wrap_stream_run K is_bin exec
  have h := at_succ_last K wrap_stream 4294967295 is_bin 4294967294 _ _ _ hout
    (wrap_stream_step K is_bin exec out)
  exact ⟨_, h, by simp, by omega⟩

/-- C5, on a validated list: the bin list `branch_stream` is accepted in a context whose only
buffer object is 4096 bytes at physical address 4096, and the address written by the
branch-to-sublist handler (opcode 17) at output offset 1 is 8192, outside the
range 4096..8191 of the buffer object selected by the scratch handle. -/
theorem branch_address_not_confined :
    ∃ s, vc4_validate_cl K0 3 (mem_of branch_stream) 14 true exec_one_bo = some (.ok s) ∧
      load32 (apply_log (fun _ => 0) s.out) 1 = 8192 ∧
      s.exec.bo[s.exec.bo_index.1]? = some { paddr := 4096, size := 4096 } ∧
      ¬ (4096 ≤ 8192 ∧ 8192 < 4096 + 4096) := by
  refine ⟨{ dst_offset := 5, src_offset := 14, exec := exec_one_bo,
            out := [(0, 17), (1, 0), (2, 16), (3, 0), (4, 0),
                    (1, 0), (2, 32), (3, 0), (4, 0)] }, ?_, ?_, ?_, ?_⟩
  · exact branch_stream_run
  · decide
  · decide
  · omega

/-- C6: `validate_indexed_prim_list` returns `-EINVAL` ("unlimited max index") for every
packet body whose `maxIndex` field (body bytes 9..12) is 0xFFFFFFFF, whatever the other
body bytes, the context and the buffer objects are; the context and the output are left
as they were. -/
theorem unlimited_max_index_rejected (src : Mem) (exec : exec_info) (out : WriteLog)
    (validated untrusted : Nat) (h : load32 src (untrusted + 9) = 4294967295) :
    validate_indexed_prim_list src exec out validated untrusted =
      .einval .unlimited_max_index exec out := by
  simp [validate_indexed_prim_list, ib_max_index, h]

/-- C6 at work: `maxIndex = 0xFFFFFFFF` in a context without any buffer object. -/
theorem unlimited_max_index_rejected_witness :
    validate_indexed_prim_list (mem_of unlimited_index_body) exec_empty [] 0 0 =
      .einval .unlimited_max_index exec_empty [] :=
  unlimited_max_index_rejected (mem_of unlimited_index_body) exec_empty [] 0 0 (by decide)

/-- C7, where it fails: at `maxIndex = 0xFFFFFFFE` with 16-bit indices the exact product
`(maxIndex + 1) * 2` is not below 2^32 and the 32-bit `ib_access_end` has wrapped to
0xFFFFFFFE, yet neither overflow test fires: `max_index` is not 0xFFFFFFFF and
`ib_access_end` is not below `max_index`. In a context whose buffer is one made by
`vc4_wrap_bo_with_cma`, of 4096 bytes, the packet is refused by the extent test ("IB
access out of bounds") and not by an overflow test. -/
theorem overflow_tests_miss_wrap :
    ib_max_index (mem_of wide_index_body) 0 = 4294967294 ∧
      ib_index_size (mem_of wide_index_body) 0 = 2 ∧
      ¬ ((ib_max_index (mem_of wide_index_body) 0 + 1) *
          ib_index_size (mem_of wide_index_body) 0 < 4294967296) ∧
      ib_access_end (mem_of wide_index_body) 0 = 4294967294 ∧
      ib_max_index (mem_of wide_index_body) 0 ≠ 4294967295 ∧
      ¬ (ib_access_end (mem_of wide_index_body) 0 < ib_max_index (mem_of wide_index_body) 0) ∧
      exec_one_bo.bo = [vc4_wrap_bo_with_cma E0 4096 4096] ∧
      validate_indexed_prim_list (mem_of wide_index_body) exec_one_bo [] 0 0 =
        .einval .ib_access_out_of_bounds exec_one_bo [] := by
  refine ⟨by decide, by decide, by decide, by decide, by decide, by decide, rfl, by decide⟩

/-- C7, amended: every entry of the buffer table made by `vc4_simulator_pin_bos` is an object
made by `vc4_wrap_bo_with_cma`, whose size is at most 0xFFFFF000 when `align(x, 4096)` is a
multiple of 4096. With the first scratch handle selecting such an object, a packet that
`validate_indexed_prim_list` accepts has an exact product `(maxIndex + 1) * indexWidth`
below 2^32 and at most the size of the object; and a packet whose exact product is not
below 2^32 is refused: by one of the two overflow tests, except for
`maxIndex = 0xFFFFFFFE` with 16-bit indices, which the extent test refuses. -/
theorem index_extent_in_made_buffer (E : sim_env) (halign : ∀ x, 4096 ∣ E.align x 4096)
    (src : Mem) (exec : exec_info) (out : WriteLog) (validated untrusted paddr bo_size : Nat)
    (hbo : exec.bo[exec.bo_index.1]? = some (vc4_wrap_bo_with_cma E paddr bo_size)) :
    (∀ args exec0 b, b ∈ (vc4_simulator_pin_bos E args exec0).bo →
        ∃ p z, b = vc4_wrap_bo_with_cma E p z) ∧
      (vc4_wrap_bo_with_cma E paddr bo_size).size ≤ 4294963200 ∧
      (∀ exec2 out2,
        validate_indexed_prim_list src exec out validated untrusted = .ok exec2 out2 →
        (ib_max_index src untrusted + 1) * ib_index_size src untrusted < 4294967296 ∧
          (ib_max_index src untrusted + 1) * ib_index_size src untrusted ≤
            (vc4_wrap_bo_with_cma E paddr bo_size).size) ∧
      (4294967296 ≤ (ib_max_index src untrusted + 1) * ib_index_size src untrusted →
        validate_indexed_prim_list src exec out validated untrusted =
            .einval .unlimited_max_index exec out ∨
          validate_indexed_prim_list src exec out validated untrusted =
            .einval .ib_access_overflow exec out ∨
          (ib_max_index src untrusted = 4294967294 ∧ ib_index_size src untrusted = 2 ∧
            validate_indexed_prim_list src exec out validated untrusted =
              .einval .ib_access_out_of_bounds exec out)) := by
  have hsz := (wrap_bo_size E halign paddr bo_size).2
  have hm : ib_max_index src untrusted < 4294967296 := load32_lt src (untrusted + 9)
  have hcases := indexed_prim_list_cases src exec out validated untrusted _ hbo
  have ha : ib_access_end src untrusted =
      ((ib_max_index src untrusted + 1) % 4294967296 * ib_index_size src untrusted) %
        4294967296 := rfl
  refine ⟨fun args exec0 b hb => pin_bos_made E args exec0 b hb, hsz, ?_, ?_⟩
  · intro exec2 out2 h
    by_cases hsp : ib_max_index src untrusted = 4294967294 ∧ ib_index_size src untrusted = 2
    · exfalso
      rw [hcases] at h
      rw [hsp.1, hsp.2] at ha
      have ha2 : ib_access_end src untrusted = 4294967294 := by rw [ha]
      rw [if_neg (by omega), if_neg (by omega), if_pos (by omega)] at h
      simp at h
    · obtain ⟨h1, ib, h2, h3⟩ :=
        index_extent_exact_of_accepted src exec out validated untrusted exec2 out2 h hsp
      rw [hbo] at h2
      simp only [Option.some.injEq] at h2
      subst h2
      exact ⟨h1, h3⟩
  · intro hw
    rw [hcases]
    rcases ib_index_size_cases src untrusted with hi | hi
    · rw [hi] at hw
      left
      rw [if_pos (by omega)]
    · rw [hi] at hw ha
      by_cases h1 : ib_max_index src untrusted = 4294967295
      · left
        rw [if_pos h1]
      · by_cases h2 : ib_max_index src untrusted = 4294967294
        · right; right
          rw [h2] at ha
          have ha2 : ib_access_end src untrusted = 4294967294 := by rw [ha]
          refine ⟨h2, hi, ?_⟩
          rw [if_neg h1, if_neg (by omega), if_pos (by omega)]
        · right; left
          rw [if_neg h1, if_pos (by omega)]

theorem index_extent_in_made_buffer_witness :
    (∀ x, 4096 ∣ E0.align x 4096) ∧
      exec_one_bo.bo[exec_one_bo.bo_index.1]? = some (vc4_wrap_bo_with_cma E0 4096 4096) ∧
      validate_indexed_prim_list (mem_of (index_body 15)) exec_one_bo [] 0 0 =
        .ok exec_one_bo (store32 5 4096) ∧
      (vc4_wrap_bo_with_cma E0 4096 4096).size ≤ 4294963200 ∧
      (∀ exec2 out2,
        validate_indexed_prim_list (mem_of (index_body 15)) exec_one_bo [] 0 0 = .ok exec2 out2 →
        (ib_max_index (mem_of (index_body 15)) 0 + 1) * ib_index_size (mem_of (index_body 15)) 0 <
            4294967296 ∧
          (ib_max_index (mem_of (index_body 15)) 0 + 1) * ib_index_size (mem_of (index_body 15)) 0 ≤
            (vc4_wrap_bo_with_cma E0 4096 4096).size) :=
  ⟨fun _ => Dvd.intro_left _ rfl, rfl, by decide,
    (index_extent_in_made_buffer E0 (fun _ => Dvd.intro_left _ rfl) (mem_of (index_body 15))
      exec_one_bo [] 0 0 4096 4096 rfl).2.1,
    (index_extent_in_made_buffer E0 (fun _ => Dvd.intro_left _ rfl) (mem_of (index_body 15))
      exec_one_bo [] 0 0 4096 4096 rfl).2.2.1⟩

/-- C8: for an indexed-primitive packet that passes the two overflow tests, with the first
scratch handle selecting the buffer object `ib`: `validate_indexed_prim_list` fails if
and only if the 32-bit `ib_access_end` exceeds `ib.size`, the failure being "IB access out
of bounds" with `-EINVAL`; otherwise (equality included) it succeeds and relocates the
offset field. `ib_access_end` is the product `(maxIndex + 1) * indexWidth` whenever that
product is below 2^32. -/
theorem index_extent_check (src : Mem) (exec : exec_info) (out : WriteLog)
    (validated untrusted : Nat) (ib : drm_gem_cma_object)
    (hib : exec.bo[exec.bo_index.1]? = some ib)
    (h1 : ib_max_index src untrusted ≠ 4294967295)
    (h2 : ¬ ib_access_end src untrusted < ib_max_index src untrusted) :
    ((∃ e x o, validate_indexed_prim_list src exec out validated untrusted = .einval e x o) ↔
        ib_access_end src untrusted > ib.size) ∧
      (ib_access_end src untrusted > ib.size →
        validate_indexed_prim_list src exec out validated untrusted =
          .einval .ib_access_out_of_bounds exec out) ∧
      (ib_access_end src untrusted ≤ ib.size →
        validate_indexed_prim_list src exec out validated untrusted =
          .ok exec (out ++ store32 (validated + 5)
            ((load32 src (untrusted + 5) + ib.paddr) % 4294967296))) ∧
      ((ib_max_index src untrusted + 1) * ib_index_size src untrusted < 4294967296 →
        ib_access_end src untrusted =
          (ib_max_index src untrusted + 1) * ib_index_size src untrusted) := by
  have hgt : ib_access_end src untrusted > ib.size →
      validate_indexed_prim_list src exec out validated untrusted =
        .einval .ib_access_out_of_bounds exec out := by
    intro h
    simp [validate_indexed_prim_list, h1, h2, hib, h]
  have hle : ib_access_end src untrusted ≤ ib.size →
      validate_indexed_prim_list src exec out validated untrusted =
        .ok exec (out ++ store32 (validated + 5)
          ((load32 src (untrusted + 5) + ib.paddr) % 4294967296)) := by
    intro h
    have h3 : ¬ ib_access_end src untrusted > ib.size := by omega
    simp [validate_indexed_prim_list, h1, h2, hib, h3]
  refine ⟨⟨?_, fun h => ⟨_, _, _, hgt h⟩⟩, hgt, hle, ?_⟩
  · rintro ⟨e, x, o, he⟩
    by_contra hcon
    rw [hle (by omega)] at he
    simp at he
  · intro hp
    have hw := ib_index_size_cases src untrusted
    unfold ib_access_end
    rcases hw with hw | hw <;> rw [hw] at hp ⊢ <;> omega

/-- C8 at its boundary: in a 16-byte buffer, 8-bit indices with `maxIndex = 15`
(`ib_access_end = 16`) are accepted and with `maxIndex = 16` (`ib_access_end = 17`) are
rejected. -/
theorem index_extent_check_witness :
    validate_indexed_prim_list (mem_of (index_body 15)) exec_small_bo [] 0 0 =
        .ok exec_small_bo ([] ++ store32 (0 + 5)
          ((load32 (mem_of (index_body 15)) (0 + 5) + 4096) % 4294967296)) ∧
      validate_indexed_prim_list (mem_of (index_body 16)) exec_small_bo [] 0 0 =
        .einval .ib_access_out_of_bounds exec_small_bo [] :=
  ⟨(index_extent_check (mem_of (index_body 15)) exec_small_bo [] 0 0 ⟨4096, 16⟩ (by decide)
      (by decide) (by decide)).2.2.1 (by decide),
   (index_extent_check (mem_of (index_body 16)) exec_small_bo [] 0 0 ⟨4096, 16⟩ (by decide)
      (by decide) (by decide)).2.1 (by decide)⟩

/-- C9: `validate_gem_handles` loads the two 32-bit words of the packet body into the
scratch table, in order, and fails ("Validated BO index >= count", `-EINVAL`) if and only
if at least one of the two is `>= bo_count`; so it fails whenever `bo_count` is 0, and the
second word is checked like the first. On success the scratch table holds exactly the two
words and nothing else of the context has changed; nothing is written to the output. -/
theorem gem_handles_check (src : Mem) (exec : exec_info) (out : WriteLog)
    (validated untrusted : Nat) :
    ((∃ e x o, validate_gem_handles src exec out validated untrusted = .einval e x o) ↔
        (load32 src untrusted ≥ exec.bo_count ∨ load32 src (untrusted + 4) ≥ exec.bo_count)) ∧
      ((load32 src untrusted ≥ exec.bo_count ∨ load32 src (untrusted + 4) ≥ exec.bo_count) →
        validate_gem_handles src exec out validated untrusted =
          .einval .bo_index_out_of_range
            { exec with bo_index := (load32 src untrusted, load32 src (untrusted + 4)) } out) ∧
      (¬ (load32 src untrusted ≥ exec.bo_count ∨ load32 src (untrusted + 4) ≥ exec.bo_count) →
        validate_gem_handles src exec out validated untrusted =
          .ok { exec with bo_index := (load32 src untrusted, load32 src (untrusted + 4)) }
            out) ∧
      (exec.bo_count = 0 →
        ∃ x, validate_gem_handles src exec out validated untrusted =
          .einval .bo_index_out_of_range x out) := by
  have hbad : (load32 src untrusted ≥ exec.bo_count ∨
      load32 src (untrusted + 4) ≥ exec.bo_count) →
      validate_gem_handles src exec out validated untrusted =
        .einval .bo_index_out_of_range
          { exec with bo_index := (load32 src untrusted, load32 src (untrusted + 4)) } out := by
    intro h
    unfold validate_gem_handles
    simp only
    by_cases h0 : load32 src untrusted ≥ exec.bo_count
    · rw [if_pos h0]
    · rw [if_neg h0]
      have h4 : load32 src (untrusted + 4) ≥ exec.bo_count := by
        rcases h with h | h
        · exact absurd h h0
        · exact h
      rw [if_pos h4]
  have hgood : ¬ (load32 src untrusted ≥ exec.bo_count ∨
      load32 src (untrusted + 4) ≥ exec.bo_count) →
      validate_gem_handles src exec out validated untrusted =
        .ok { exec with bo_index := (load32 src untrusted, load32 src (untrusted + 4)) }
          out := by
    intro h
    have h0 : ¬ load32 src untrusted ≥ exec.bo_count := fun hc => h (Or.inl hc)
    have h4 : ¬ load32 src (untrusted + 4) ≥ exec.bo_count := fun hc => h (Or.inr hc)
    unfold validate_gem_handles
    simp only
    rw [if_neg h0, if_neg h4]
  refine ⟨⟨?_, fun h => ⟨_, _, _, hbad h⟩⟩, hbad, hgood, ?_⟩
  · rintro ⟨e, x, o, he⟩
    by_contra hcon
    rw [hgood hcon] at he
    simp at he
  · intro hz
    exact ⟨_, hbad (Or.inl (by omega))⟩

/-- C9 at work: with one buffer object, handle words (0, 1) are refused because of the
second word, and the scratch table has been overwritten. -/
theorem gem_handles_check_witness :
    validate_gem_handles (mem_of [0, 0, 0, 0, 1, 0, 0, 0]) exec_one_bo [] 0 0 =
      .einval .bo_index_out_of_range
        { exec_one_bo with
          bo_index := (load32 (mem_of [0, 0, 0, 0, 1, 0, 0, 0]) 0,
            load32 (mem_of [0, 0, 0, 0, 1, 0, 0, 0]) (0 + 4)) } [] :=
  (gem_handles_check (mem_of [0, 0, 0, 0, 1, 0, 0, 0]) exec_one_bo [] 0 0).2.1
    (Or.inr (by decide))

/-- C10: at a packet whose opcode is 254 the pass of the loop stores nothing in the output
and leaves `dst_offset` as it is: either `vc4_validate_cl` returns `-EINVAL` there
(truncated packet or handle out of range), or it goes on with `src_offset` advanced by 9
(32-bit addition, exact whenever `src_offset + 9 < 2^32`), only the context having
changed. The copy of the packet that follows therefore starts at the output offset
the handle packet started at. -/
theorem gem_handles_packet_elided (K : vc4_packet_h) (u : Mem) (len : Nat) (is_bin : Bool)
    (s : WalkState) (hlt : s.src_offset < len) (hc : load8 u s.src_offset = 254) :
    ((∃ r, vc4_validate_cl_iter K u len is_bin s = .done r ∧ r.ret = some (-22) ∧
          r.state.out = s.out ∧ r.state.dst_offset = s.dst_offset ∧
          r.state.src_offset = s.src_offset) ∨
        (∃ x, vc4_validate_cl_iter K u len is_bin s = .next
          { dst_offset := s.dst_offset, src_offset := (s.src_offset + 9) % 4294967296,
            exec := x, out := s.out })) ∧
      (s.src_offset + 9 < 4294967296 →
        (s.src_offset + 9) % 4294967296 = s.src_offset + 9) ∧
      (∀ s2 s3, vc4_validate_cl_iter K u len is_bin s = .next s2 →
        s2.src_offset < len → load8 u s2.src_offset ≠ 254 →
        (vc4_validate_cl_iter K u len is_bin s2 = .next s3 ∨
          vc4_validate_cl_iter K u len is_bin s2 = .done (.ok s3)) →
        ∃ info w, cmd_info[load8 u s2.src_offset]? = some info ∧
          s3.out = s.out ++ memcpy u s.dst_offset s2.src_offset info.len ++ w) := by
  have e254 : cmd_info_init 254 = ⟨true, true, 9, some "GEM handles", some .gem_handles⟩ :=
    rfl
  have hfirst : (∃ r, vc4_validate_cl_iter K u len is_bin s = .done r ∧ r.ret = some (-22) ∧
        r.state.out = s.out ∧ r.state.dst_offset = s.dst_offset ∧
        r.state.src_offset = s.src_offset) ∨
      (∃ x, vc4_validate_cl_iter K u len is_bin s = .next
        { dst_offset := s.dst_offset, src_offset := (s.src_offset + 9) % 4294967296,
          exec := x, out := s.out }) := by
    unfold vc4_validate_cl_iter
    rw [if_pos hlt]
    unfold vc4_validate_cl_body vc4_validate_cl_checks
    simp only [hc, cmd_info_lookup, ARRAY_SIZE_cmd_info, e254]
    by_cases hlen : (s.src_offset + 9) % 4294967296 > len
    · left
      refine ⟨.einval .length_exceeds_bounds s, ?_, rfl, rfl, rfl, rfl⟩
      simp [list_check_fails, hlen]
    · have hck : (if (254 : Nat) > 255 then Checked.fail WalkError.packet_out_of_bounds
          else
            match (if (254 : Nat) < 255 then some (⟨true, true, 9, some "GEM handles",
                some validate_fn.gem_handles⟩ : cmd_info_entry) else none) with
            | none => Checked.undefined (Fault.cmd_info_out_of_bounds 254)
            | some info =>
              if info.name.isNone = true then Checked.fail WalkError.packet_invalid
              else if list_check_fails is_bin info = true then
                Checked.fail WalkError.invalid_for_list
              else if (s.src_offset + info.len) % 4294967296 > len then
                Checked.fail WalkError.length_exceeds_bounds
              else Checked.pass info) =
          Checked.pass ⟨true, true, 9, some "GEM handles", some validate_fn.gem_handles⟩ := by
        simp [list_check_fails, hlen]
      rw [hck]
      simp only [vc4_validate_cl_process, run_handler, copy_packet, hc, call_func,
        validate_gem_handles, ne_eq, not_true_eq_false, if_false]
      by_cases h0 : load32 u (s.src_offset + 1) ≥ s.exec.bo_count
      · left
        simp only [if_pos h0]
        exact ⟨_, rfl, rfl, rfl, rfl, rfl⟩
      · by_cases h4 : load32 u (s.src_offset + 1 + 4) ≥ s.exec.bo_count
        · left
          simp only [if_neg h0, if_pos h4]
          exact ⟨_, rfl, rfl, rfl, rfl, rfl⟩
        · right
          simp only [if_neg h0, if_neg h4]
          simp
  refine ⟨hfirst, fun h => Nat.mod_eq_of_lt h, ?_⟩
  intro s2 s3 h2 hlt2 hne2 h3
  have hs2 : s2.out = s.out ∧ s2.dst_offset = s.dst_offset := by
    rcases hfirst with ⟨r, hr, _⟩ | ⟨x, hx⟩
    · rw [hr] at h2; simp at h2
    · rw [hx] at h2
      simp only [LoopStep.next.injEq] at h2
      subst h2
      exact ⟨rfl, rfl⟩
  obtain ⟨info, hck, hpr⟩ := iter_through K u len is_bin s2 s3 hlt2 h3
  obtain ⟨_, _, w, hw, _⟩ := process_out K u s2 s3 info hpr
  refine ⟨info, w, (checks_pass u len is_bin s2 info hck).2.2.1, ?_⟩
  rw [hw, copy_packet, if_pos hne2, hs2.1, hs2.2]

/-- C10 at work: the handle packet that opens `branch_stream`. -/
theorem gem_handles_packet_elided_witness :
    (∃ r, vc4_validate_cl_iter K0 (mem_of branch_stream) 14 true
          (vc4_validate_cl_entry exec_one_bo) = .done r ∧ r.ret = some (-22) ∧
        r.state.out = (vc4_validate_cl_entry exec_one_bo).out ∧
        r.state.dst_offset = (vc4_validate_cl_entry exec_one_bo).dst_offset ∧
        r.state.src_offset = (vc4_validate_cl_entry exec_one_bo).src_offset) ∨
      (∃ x, vc4_validate_cl_iter K0 (mem_of branch_stream) 14 true
          (vc4_validate_cl_entry exec_one_bo) = .next
        { dst_offset := (vc4_validate_cl_entry exec_one_bo).dst_offset,
          src_offset := ((vc4_validate_cl_entry exec_one_bo).src_offset + 9) % 4294967296,
          exec := x, out := (vc4_validate_cl_entry exec_one_bo).out }) :=
  (gem_handles_packet_elided K0 (mem_of branch_stream) 14 true
    (vc4_validate_cl_entry exec_one_bo) (by decide) (by decide)).1

/-- C15, where it fails: in the render list `store_none_stream` the "Store Tile Buffer
General" packet has a first body byte whose low nibble is
`VC4_LOADSTORE_TILE_BUFFER_NONE`; the list is accepted, and the address field at body
offset 2 (output offset 3) still holds the untrusted value 0 and not 0 + 4096, the
physical address of the buffer object selected by the first scratch handle. -/
theorem loadstore_none_not_relocated :
    ∃ s, vc4_validate_cl K0 3 (mem_of store_none_stream) 16 false exec_one_bo = some (.ok s) ∧
      s.exec.bo[s.exec.bo_index.1]? = some { paddr := 4096, size := 4096 } ∧
      load32 (mem_of store_none_stream) (9 + 1 + 2) = 0 ∧
      load32 (apply_log (fun _ => 0) s.out) (0 + 1 + 2) ≠ (0 + 4096) % 4294967296 := by
  refine ⟨_, store_none_stream_run, by decide, by decide, by decide⟩

/-- C15, amended: with the first scratch handle selecting the buffer object `b`, the
handlers of opcodes 17 and 113 always return 0 and rewrite the field at body offset 0 to
(untrusted field + `b.paddr`) mod 2^32, whatever the field is; the handler of opcodes 28
and 29 always returns 0 and does the same to the field at body offset 2 when the low
nibble of the first body byte is not `VC4_LOADSTORE_TILE_BUFFER_NONE`, and stores nothing
at all when it is. The context is unchanged and every other output byte stays as it
was. -/
theorem base_add_relocation (K : vc4_packet_h) (src : Mem) (exec : exec_info)
    (out : WriteLog) (validated untrusted : Nat) (b : drm_gem_cma_object) (init : Mem)
    (hb : exec.bo[exec.bo_index.1]? = some b) :
    (∀ c ∈ [17, 113], ∃ f out2, (cmd_info_init c).func = some f ∧
        call_func K f src exec out validated untrusted = .ok exec out2 ∧
        field_rewritten init out out2 validated
          ((load32 src untrusted + b.paddr) % 4294967296)) ∧
      (∀ c ∈ [28, 29], ∃ f, (cmd_info_init c).func = some f ∧
        (load8 src untrusted % 16 ≠ K.VC4_LOADSTORE_TILE_BUFFER_NONE →
          ∃ out2, call_func K f src exec out validated untrusted = .ok exec out2 ∧
            field_rewritten init out out2 (validated + 2)
              ((load32 src (untrusted + 2) + b.paddr) % 4294967296)) ∧
        (load8 src untrusted % 16 = K.VC4_LOADSTORE_TILE_BUFFER_NONE →
          call_func K f src exec out validated untrusted = .ok exec out)) := by
  have hlt : ∀ x : Nat, x % 4294967296 < 4294967296 := fun x => Nat.mod_lt _ (by norm_num)
  constructor
  · intro c hc
    simp only [List.mem_cons, List.mem_singleton, List.not_mem_nil, or_false] at hc
    rcases hc with rfl | rfl
    · exact ⟨.branch_to_sublist, _, rfl,
        by simp [call_func, validate_branch_to_sublist, hb],
        store32_rewrites init out validated _ (hlt _)⟩
    · exact ⟨.tile_rendering_mode_config, _, rfl,
        by simp [call_func, validate_tile_rendering_mode_config, hb],
        store32_rewrites init out validated _ (hlt _)⟩
  · intro c hc
    have hf : (cmd_info_init c).func = some .loadstore_tile_buffer_general := by
      simp only [List.mem_cons, List.mem_singleton, List.not_mem_nil, or_false] at hc
      rcases hc with rfl | rfl <;> rfl
    refine ⟨_, hf, ?_, ?_⟩
    · intro hne
      exact ⟨_, by simp [call_func, validate_loadstore_tile_buffer_general, hb, hne],
        store32_rewrites init out (validated + 2) _ (hlt _)⟩
    · intro heq
      simp [call_func, validate_loadstore_tile_buffer_general, hb, heq]

/-- C15 at work: offset 4096, beyond the end of the 4096-byte buffer at 4096. -/
theorem base_add_relocation_witness :
    ∃ f out2, (cmd_info_init 17).func = some f ∧
      call_func K0 f (mem_of [0, 16, 0, 0]) exec_one_bo [] 1 0 = .ok exec_one_bo out2 ∧
      field_rewritten (fun _ => 0) [] out2 1
        ((load32 (mem_of [0, 16, 0, 0]) 0 + 4096) % 4294967296) :=
  (base_add_relocation K0 (mem_of [0, 16, 0, 0]) exec_one_bo [] 1 0 ⟨4096, 4096⟩
    (fun _ => 0) (by decide)).1 17 (by decide)

/-- C16: with the two scratch handles selecting the buffer objects `b0` and `b1`,
`validate_tile_binning_config` (the handler of opcode 112, a 16-byte packet) always
returns 0, leaves the context as it is, and afterwards the output field at body offset 0
is (untrusted field at 0 + `b0.paddr`) mod 2^32, the field at body offset 8 is (untrusted
field at 8 + `b1.paddr`) mod 2^32, and every other output byte, body bytes 4..7 and
12..14 among them, is as it was. -/
theorem tile_binning_two_handles (src : Mem) (exec : exec_info) (out : WriteLog)
    (validated untrusted : Nat) (b0 b1 : drm_gem_cma_object) (init : Mem)
    (h0 : exec.bo[exec.bo_index.1]? = some b0) (h1 : exec.bo[exec.bo_index.2]? = some b1) :
    cmd_info_init 112 =
        ⟨true, false, 16, some "tile binning configuration", some .tile_binning_config⟩ ∧
      ∃ out2, validate_tile_binning_config src exec out validated untrusted = .ok exec out2 ∧
        load32 (apply_log init out2) validated =
          (load32 src untrusted + b0.paddr) % 4294967296 ∧
        load32 (apply_log init out2) (validated + 8) =
          (load32 src (untrusted + 8) + b1.paddr) % 4294967296 ∧
        ∀ b, b < validated ∨ (validated + 4 ≤ b ∧ b < validated + 8) ∨ validated + 12 ≤ b →
          apply_log init out2 b = apply_log init out b := by
  have hlt : ∀ x : Nat, x % 4294967296 < 4294967296 := fun x => Nat.mod_lt _ (by norm_num)
  obtain ⟨f1, f2⟩ := store32_rewrites init out validated
    ((load32 src untrusted + b0.paddr) % 4294967296) (hlt _)
  obtain ⟨g1, g2⟩ := store32_rewrites init
    (out ++ store32 validated ((load32 src untrusted + b0.paddr) % 4294967296))
    (validated + 8) ((load32 src (untrusted + 8) + b1.paddr) % 4294967296) (hlt _)
  refine ⟨rfl, _, by simp only [validate_tile_binning_config, h0, h1], ?_, g1, ?_⟩
  · have e : ∀ m1 m2 : Mem, (∀ b, b < validated + 8 → m1 b = m2 b) →
        load32 m1 validated = load32 m2 validated := by
      intro m1 m2 h
      simp only [load32, load8]
      rw [h validated (by omega), h (validated + 1) (by omega), h (validated + 2) (by omega),
        h (validated + 3) (by omega)]
    rw [e _ _ (fun b hb => g2 b (Or.inl hb)), f1]
  · intro b hb
    rw [g2 b (by omega), f2 b (by omega)]

/-- C16 at work: both handles select the buffer object at 4096; the fields are 4096 and 1. -/
theorem tile_binning_two_handles_witness :
    ∃ out2, validate_tile_binning_config
        (mem_of [0, 16, 0, 0, 9, 9, 9, 9, 1, 0, 0, 0, 7, 7, 7]) exec_one_bo [] 1 0
          = .ok exec_one_bo out2 ∧
      load32 (apply_log (fun _ => 0) out2) 1 =
        (load32 (mem_of [0, 16, 0, 0, 9, 9, 9, 9, 1, 0, 0, 0, 7, 7, 7]) 0 + 4096)
          % 4294967296 ∧
      load32 (apply_log (fun _ => 0) out2) (1 + 8) =
        (load32 (mem_of [0, 16, 0, 0, 9, 9, 9, 9, 1, 0, 0, 0, 7, 7, 7]) (0 + 8) + 4096)
          % 4294967296 ∧
      ∀ b, b < 1 ∨ (1 + 4 ≤ b ∧ b < 1 + 8) ∨ 1 + 12 ≤ b →
        apply_log (fun _ => 0) out2 b = apply_log (fun _ => 0) [] b :=
  (tile_binning_two_handles (mem_of [0, 16, 0, 0, 9, 9, 9, 9, 1, 0, 0, 0, 7, 7, 7])
    exec_one_bo [] 1 0 ⟨4096, 4096⟩ ⟨4096, 4096⟩ (fun _ => 0) (by decide) (by decide)).2

/-- C17: the handlers of opcodes 64 and 65 return `-EINVAL` ("More requests for shader
states than declared") whenever `shader_state_count >= shader_state_size`, so always when
the capacity is 0, without touching the request array or the output. Consequently, in a
scan started with a count within the capacity, the count is within the capacity at every
packet boundary reached and after every successful run, and however a run ends no slot at
or beyond the capacity (and no slot recorded before the run) has been written. -/
theorem shader_state_capacity (K : vc4_packet_h) (src : Mem) (exec : exec_info)
    (out : WriteLog) (validated untrusted : Nat)
    (hsz : exec.shader_state_size < 4294967296) :
    (∀ c ∈ [64, 65], ∃ f, (cmd_info_init c).func = some f ∧
        (exec.shader_state_count ≥ exec.shader_state_size →
          call_func K f src exec out validated untrusted =
            .einval .more_shader_states
              { exec with
                shader_state_count := (exec.shader_state_count + 1) % 4294967296 } out) ∧
        (exec.shader_state_size = 0 →
          ∃ x, call_func K f src exec out validated untrusted =
            .einval .more_shader_states x out ∧ x.shader_state = exec.shader_state)) ∧
      (exec.shader_state_count ≤ exec.shader_state_size →
        (∀ len is_bin n s,
          vc4_validate_cl_at K src len is_bin n (vc4_validate_cl_entry exec) = some s →
            s.exec.shader_state_count ≤ exec.shader_state_size ∧ slots_kept exec s.exec) ∧
        (∀ len is_bin fuel r, vc4_validate_cl K fuel src len is_bin exec = some r →
          slots_kept exec r.state.exec ∧
            ∀ t, r = .ok t → t.exec.shader_state_count ≤ exec.shader_state_size)) := by
  have hrej : ∀ f, f = validate_fn.gl_shader_state ∨ f = validate_fn.nv_shader_state →
      exec.shader_state_count ≥ exec.shader_state_size →
      call_func K f src exec out validated untrusted =
        .einval .more_shader_states
          { exec with
            shader_state_count := (exec.shader_state_count + 1) % 4294967296 } out := by
    intro f hf hfull
    rcases hf with rfl | rfl
    · simp only [call_func, validate_gl_shader_state]
      rw [if_pos hfull]
    · simp only [call_func, validate_nv_shader_state]
      rw [if_pos hfull]
  constructor
  · intro c hc
    have hf : ∃ f, (cmd_info_init c).func = some f ∧
        (f = validate_fn.gl_shader_state ∨ f = validate_fn.nv_shader_state) := by
      simp only [List.mem_cons, List.mem_singleton, List.not_mem_nil, or_false] at hc
      rcases hc with rfl | rfl
      · exact ⟨_, rfl, Or.inl rfl⟩
      · exact ⟨_, rfl, Or.inr rfl⟩
    obtain ⟨f, hf1, hf2⟩ := hf
    exact ⟨f, hf1, hrej f hf2, fun h0 => ⟨_, hrej f hf2 (by omega), rfl⟩⟩
  · intro hcount
    constructor
    · intro len is_bin n s hs
      have hk := shader_kept_at K src len is_bin exec hsz n (vc4_validate_cl_entry exec) s
        (shader_kept_refl exec) hs
      have h1 := hk.2.1 hcount
      have h2 := hk.2.2.1
      exact ⟨by omega, hk.2.2⟩
    · intro len is_bin fuel r hr
      obtain ⟨h1, h2⟩ := shader_kept_loop K src len is_bin exec hsz fuel
        (vc4_validate_cl_entry exec) r (shader_kept_refl exec) hr
      refine ⟨h1, fun t ht => ?_⟩
      have hk := h2 t ht
      have h3 := hk.2.1 hcount
      have h4 := hk.2.2.1
      omega

/-- C17 at work: one GL shader state packet in a context with capacity 0. -/
theorem shader_state_capacity_witness :
    ∃ f, (cmd_info_init 64).func = some f ∧
      (exec_empty.shader_state_count ≥ exec_empty.shader_state_size →
        call_func K0 f (mem_of [0, 0, 0, 0]) exec_empty [] 1 0 =
          .einval .more_shader_states
            { exec_empty with
              shader_state_count := (exec_empty.shader_state_count + 1) % 4294967296 } []) ∧
      (exec_empty.shader_state_size = 0 →
        ∃ x, call_func K0 f (mem_of [0, 0, 0, 0]) exec_empty [] 1 0 =
          .einval .more_shader_states x [] ∧ x.shader_state = exec_empty.shader_state) :=
  (shader_state_capacity K0 (mem_of [0, 0, 0, 0]) exec_empty [] 1 0 (by decide)).1 64
    (by decide)

/-- C18: in a context with free capacity (and the request array allocated for the whole
capacity), the handler of opcode 65 returns `-EINVAL` ("NV shader state address
misaligned") for every source address with one of its low 4 bits set and returns 0 for
the others, while the handler of opcode 64 returns 0 for every source address. -/
theorem shader_state_alignment (K : vc4_packet_h) (src : Mem) (exec : exec_info)
    (out : WriteLog) (validated untrusted : Nat)
    (hfree : exec.shader_state_count < exec.shader_state_size)
    (hslot : exec.shader_state_size ≤ exec.shader_state.length) :
    (cmd_info_init 64).func = some .gl_shader_state ∧
      (cmd_info_init 65).func = some .nv_shader_state ∧
      (load32 src untrusted % 16 ≠ 0 →
        ∃ x, call_func K .nv_shader_state src exec out validated untrusted =
          .einval .nv_misaligned x out) ∧
      (load32 src untrusted % 16 = 0 →
        ∃ x o, call_func K .nv_shader_state src exec out validated untrusted = .ok x o) ∧
      (∃ x o, call_func K .gl_shader_state src exec out validated untrusted = .ok x o) := by
  have h1 : ¬ exec.shader_state_count ≥ exec.shader_state_size := by omega
  have h2 : ¬ exec.shader_state_count ≥ exec.shader_state.length := by omega
  refine ⟨rfl, rfl, ?_, ?_, ?_⟩
  · intro hmis
    simp only [call_func, validate_nv_shader_state]
    rw [if_neg h1, if_neg h2, if_pos hmis]
    exact ⟨_, rfl⟩
  · intro hal
    simp only [call_func, validate_nv_shader_state]
    rw [if_neg h1, if_neg h2, if_neg (by simpa using hal)]
    exact ⟨_, _, rfl⟩
  · simp only [call_func, validate_gl_shader_state]
    rw [if_neg h1, if_neg h2]
    exact ⟨_, _, rfl⟩

/-- C18 at work: source address 4 in a context with two free slots. -/
theorem shader_state_alignment_witness :
    (load32 (mem_of [4, 0, 0, 0]) 0 % 16 ≠ 0 →
        ∃ x, call_func K0 .nv_shader_state (mem_of [4, 0, 0, 0]) exec_two_slots [] 1 0 =
          .einval .nv_misaligned x []) ∧
      (∃ x o, call_func K0 .gl_shader_state (mem_of [4, 0, 0, 0]) exec_two_slots [] 1 0 =
        .ok x o) :=
  ⟨(shader_state_alignment K0 (mem_of [4, 0, 0, 0]) exec_two_slots [] 1 0 (by decide)
      (by decide)).2.2.1,
   (shader_state_alignment K0 (mem_of [4, 0, 0, 0]) exec_two_slots [] 1 0 (by decide)
      (by decide)).2.2.2.2⟩

/-- C20, where it fails: in a fresh context with capacity 0 (count 0), the list
`gl_state_stream` - one GL shader state packet - is rejected with "More requests for
shader states than declared", and the context left behind has `shader_state_count = 1`,
above `shader_state_size = 0`: the count is incremented before it is tested. -/
theorem count_exceeds_capacity_after_reject :
    ∃ s, vc4_validate_cl K0 1 (mem_of gl_state_stream) 5 true exec_empty =
        some (.einval (.failed_to_validate .more_shader_states) s) ∧
      exec_empty.shader_state_count = 0 ∧
      s.exec.shader_state_count = 1 ∧ s.exec.shader_state_size = 0 ∧
      ¬ (s.exec.shader_state_count ≤ s.exec.shader_state_size) :=
  ⟨_, gl_state_stream_run, rfl, rfl, rfl, by decide⟩

/-- C19: when the handler of opcode 64 or 65 returns 0 in a context with `n` requests
recorded, then `n` is below the capacity and the new context is the old one with the
request (variant of the opcode, untrusted 32-bit address as read) stored in slot `n` and
the count set to `n + 1`, every other slot and field being the same; the output field at
body offset 0 is (address + `shader_paddr`) mod 2^32, and it is the same whatever the
buffer table and the scratch handles are. When a bin walk has succeeded and a render walk
is run on the context it left, then however the render walk ends the slots below the
count reached by the bin walk are unchanged, and on success the count has not
decreased. -/
theorem shader_state_recorded (K : vc4_packet_h) (src : Mem) (exec : exec_info)
    (out : WriteLog) (validated untrusted : Nat) (init : Mem)
    (hsz : exec.shader_state_size < 4294967296) :
    (∀ c ∈ [64, 65], ∃ f variant, (cmd_info_init c).func = some f ∧
        variant = (if c = 64 then K.VC4_PACKET_GL_SHADER_STATE
          else K.VC4_PACKET_NV_SHADER_STATE) ∧
        ∀ e o, call_func K f src exec out validated untrusted = .ok e o →
          exec.shader_state_count < exec.shader_state_size ∧
          e = { exec with
                shader_state_count := exec.shader_state_count + 1
                shader_state := exec.shader_state.set exec.shader_state_count
                  { packet := variant, addr := load32 src untrusted } } ∧
          e.shader_state[exec.shader_state_count]? =
            some { packet := variant, addr := load32 src untrusted } ∧
          (∀ j, j ≠ exec.shader_state_count →
            e.shader_state[j]? = exec.shader_state[j]?) ∧
          field_rewritten init out o validated
            ((load32 src untrusted + exec.shader_paddr) % 4294967296) ∧
          ∀ bo cnt idx, ∃ e2,
            call_func K f src { exec with bo := bo, bo_count := cnt, bo_index := idx }
              out validated untrusted = .ok e2 o) ∧
      (∀ u1 len1 fuel1 s1, vc4_validate_cl K fuel1 u1 len1 true exec = some (.ok s1) →
        ∀ u2 len2 fuel2 r2, vc4_validate_cl K fuel2 u2 len2 false s1.exec = some r2 →
          (∀ j, j < s1.exec.shader_state_count →
            r2.state.exec.shader_state[j]? = s1.exec.shader_state[j]?) ∧
          ∀ t, r2 = .ok t → s1.exec.shader_state_count ≤ t.exec.shader_state_count) := by
  have hlt : ∀ x : Nat, x % 4294967296 < 4294967296 := fun x => Nat.mod_lt _ (by norm_num)
  constructor
  · intro c hc
    simp only [List.mem_cons, List.mem_singleton, List.not_mem_nil, or_false] at hc
    rcases hc with rfl | rfl
    · refine ⟨.gl_shader_state, _, rfl, rfl, ?_⟩
      intro e o h
      simp only [call_func, validate_gl_shader_state] at h
      split at h
      · simp at h
      · split at h
        · simp at h
        · rename_i h1 h2
          simp only [HandlerResult.ok.injEq] at h
          obtain ⟨he, ho⟩ := h
          have hm : (exec.shader_state_count + 1) % 4294967296 =
              exec.shader_state_count + 1 := Nat.mod_eq_of_lt (by omega)
          rw [hm] at he
          subst he ho
          refine ⟨by omega, rfl, ?_, ?_, store32_rewrites init out validated _ (hlt _), ?_⟩
          · simp only [if_true]
            rw [List.getElem?_set_self (by omega)]
          · intro j hj
            exact List.getElem?_set_ne (Ne.symm hj)
          · intro bo cnt idx
            simp only [call_func, validate_gl_shader_state]
            rw [if_neg h1, if_neg h2]
            exact ⟨_, rfl⟩
    · refine ⟨.nv_shader_state, _, rfl, rfl, ?_⟩
      intro e o h
      simp only [call_func, validate_nv_shader_state] at h
      split at h
      · simp at h
      · split at h
        · simp at h
        · split at h
          · simp at h
          · rename_i h1 h2 h3
            simp only [HandlerResult.ok.injEq] at h
            obtain ⟨he, ho⟩ := h
            have hm : (exec.shader_state_count + 1) % 4294967296 =
                exec.shader_state_count + 1 := Nat.mod_eq_of_lt (by omega)
            rw [hm] at he
            subst he ho
            refine ⟨by omega, rfl, ?_, ?_, store32_rewrites init out validated _ (hlt _), ?_⟩
            · simp only [show ¬ ((65 : Nat) = 64) by decide, if_false]
              rw [List.getElem?_set_self (by omega)]
            · intro j hj
              exact List.getElem?_set_ne (Ne.symm hj)
            · intro bo cnt idx
              simp only [call_func, validate_nv_shader_state]
              rw [if_neg h1, if_neg h2, if_neg h3]
              exact ⟨_, rfl⟩
  · intro u1 len1 fuel1 s1 h1 u2 len2 fuel2 r2 h2
    have k1 := (shader_kept_loop K u1 len1 true exec hsz fuel1 (vc4_validate_cl_entry exec) _
      (shader_kept_refl exec) h1).2 s1 rfl
    have hsz1 : s1.exec.shader_state_size < 4294967296 := by
      have := k1.2.2.1
      omega
    obtain ⟨k2, k3⟩ := shader_kept_loop K u2 len2 false s1.exec hsz1 fuel2
      (vc4_validate_cl_entry s1.exec) r2 (shader_kept_refl s1.exec) h2
    exact ⟨fun j hj => k2.2 j (Or.inl hj), fun t ht => (k3 t ht).1⟩

/-- C19 at work: the two handlers in a context with two free slots. -/
theorem shader_state_recorded_witness :
    ∃ f variant, (cmd_info_init 65).func = some f ∧
      variant = (if 65 = 64 then K0.VC4_PACKET_GL_SHADER_STATE
        else K0.VC4_PACKET_NV_SHADER_STATE) ∧
      ∀ e o, call_func K0 f (mem_of [16, 0, 0, 0]) exec_two_slots [] 1 0 = .ok e o →
        exec_two_slots.shader_state_count < exec_two_slots.shader_state_size ∧
        e = { exec_two_slots with
              shader_state_count := exec_two_slots.shader_state_count + 1
              shader_state := exec_two_slots.shader_state.set
                exec_two_slots.shader_state_count
                { packet := variant, addr := load32 (mem_of [16, 0, 0, 0]) 0 } } ∧
        e.shader_state[exec_two_slots.shader_state_count]? =
          some { packet := variant, addr := load32 (mem_of [16, 0, 0, 0]) 0 } ∧
        (∀ j, j ≠ exec_two_slots.shader_state_count →
          e.shader_state[j]? = exec_two_slots.shader_state[j]?) ∧
        field_rewritten (fun _ => 0) [] o 1
          ((load32 (mem_of [16, 0, 0, 0]) 0 + exec_two_slots.shader_paddr) % 4294967296) ∧
        ∀ bo cnt idx, ∃ e2,
          call_func K0 f (mem_of [16, 0, 0, 0])
            { exec_two_slots with bo := bo, bo_count := cnt, bo_index := idx }
            [] 1 0 = .ok e2 o :=
  (shader_state_recorded K0 (mem_of [16, 0, 0, 0]) exec_two_slots [] 1 0 (fun _ => 0)
    (by decide)).1 65 (by decide)

/-- C11, at a stream length near 2^32: with `len = 4294967295`, the scan of
`halt_wrap_stream` skips offset 1 on its way up (it is the payload of the first packet),
wraps at offset 4294967294 and then reaches offset 1 as a packet boundary; the byte there
is 0 and `vc4_validate_cl` returns 0. The stream `halt_wrap_stream_bad` has the same bytes
at offsets 0 and 1 and another byte at offset 2, and on it `vc4_validate_cl` returns
`-EINVAL`: the result is not the same for every choice of the bytes after the halt. -/
theorem halt_after_wrap_depends_on_later_bytes (K : vc4_packet_h) (is_bin : Bool)
    (exec : exec_info) :
    ∃ s t s2, Reached K halt_wrap_stream 4294967295 is_bin exec 4294967294 s ∧
      s.src_offset = 1 ∧ load8 halt_wrap_stream s.src_offset = 0 ∧
      vc4_validate_cl K 4294967295 halt_wrap_stream 4294967295 is_bin exec = some (.ok t) ∧
      (∀ i, i ≤ 1 → halt_wrap_stream_bad i = halt_wrap_stream i) ∧
      vc4_validate_cl K 4294967295 halt_wrap_stream_bad 4294967295 is_bin exec =
        some (.einval .packet_invalid s2) := by
  obtain ⟨out, hat, hres, _⟩ := halt_wrap_result K is_bin exec
  obtain ⟨s2, hbad⟩ := halt_wrap_bad_result K is_bin exec
  refine ⟨_, _, s2, ⟨hat, by show 1 < 4294967295; omega⟩, rfl, ?_, hres, ?_, hbad⟩
  · show load8 halt_wrap_stream 1 = 0
    simp [load8, halt_wrap_stream]
  · intro i hi
    have : ¬ (i = 2) := by omega
    simp [halt_wrap_stream_bad, this]

/-- C12, at the boundary opcode: the one-byte stream 0xFF is a packet reached by the scan
whose opcode has no table entry (there is not even a slot 255 in the table), and yet
`vc4_validate_cl` does not fail: whatever the fuel, a run that ends does not return
`-EINVAL` but has read `cmd_info[255]`, past the end of the table. -/
theorem opcode_255_not_rejected (K : vc4_packet_h) (is_bin : Bool) (exec : exec_info) :
    Reached K (mem_of [255]) 1 is_bin exec 0 (vc4_validate_cl_entry exec) ∧
      load8 (mem_of [255]) (vc4_validate_cl_entry exec).src_offset = 255 ∧
      cmd_info[255]? = none ∧ (cmd_info_init 255).name = none ∧
      ∀ fuel r, vc4_validate_cl K fuel (mem_of [255]) 1 is_bin exec = some r →
        r = .undefined (.cmd_info_out_of_bounds 255) (vc4_validate_cl_entry exec) ∧
          r.ret ≠ some (-22) := by
  have hlt : (vc4_validate_cl_entry exec).src_offset < 1 := by simp [vc4_validate_cl_entry]
  have hc : load8 (mem_of [255]) (vc4_validate_cl_entry exec).src_offset = 255 := by
    simp [vc4_validate_cl_entry, load8, mem_of]
  refine ⟨⟨rfl, hlt⟩, hc, by simp [cmd_info_lookup], rfl, ?_⟩
  intro fuel r hr
  have hit := iter_opcode_255 K (mem_of [255]) 1 is_bin _ hlt hc
  cases fuel with
  | zero => simp [vc4_validate_cl, vc4_validate_cl_loop] at hr
  | succ f =>
    unfold vc4_validate_cl at hr
    rw [loop_done K _ _ _ f _ _ hit] at hr
    simp only [Option.some.injEq] at hr
    subst hr
    exact ⟨rfl, by simp [WalkResult.ret]⟩

/-- C13, at a stream length near 2^32: the run over `halt_wrap_stream` with
`len = 4294967295` succeeds with a final output offset of 2, while the table lengths of
the scanned packets, none of which has opcode 254, add up to 4294967298: the 32-bit output
offset wrapped together with the source offset. -/
theorem output_offset_wraps (K : vc4_packet_h) (is_bin : Bool) (exec : exec_info) :
    ∃ t, vc4_validate_cl K 4294967295 halt_wrap_stream 4294967295 is_bin exec =
        some (.ok t) ∧
      t.dst_offset = 2 ∧
      total_len ((vc4_validate_cl_scanned K halt_wrap_stream 4294967295 is_bin 4294967295
        (vc4_validate_cl_entry exec)).filter (fun c => decide (c ≠ 254))) = 4294967298 ∧
      (vc4_validate_cl_scanned K halt_wrap_stream 4294967295 is_bin 4294967295
        (vc4_validate_cl_entry exec)).count 254 = 0 ∧
      t.dst_offset ≠ 4294967298 := by
  obtain ⟨out, _, hres, hsc⟩ := halt_wrap_result K is_bin exec
  obtain ⟨h1, h2, h3⟩ := wrap_opcodes_len 4294967292
  refine ⟨_, hres, rfl, ?_, ?_, ?_⟩
  · rw [hsc, h2, h1]
  · rw [hsc, h3]
  · show (2 : Nat) ≠ 4294967298
    omega

/-- C14, at a stream length near 2^32: the run over `halt_wrap_stream` with
`len = 4294967295`, a stream without any opcode that has a relocation handler, succeeds
with a final output offset of 2, so there are 2 output bytes below it, while the
concatenation of the scanned packets is 4294967298 bytes long: the output below the final
offset is not that concatenation. -/
theorem output_not_the_scanned_packets (K : vc4_packet_h) (is_bin : Bool)
    (exec : exec_info) (init : Mem) :
    ∃ t, vc4_validate_cl K 4294967295 halt_wrap_stream 4294967295 is_bin exec =
        some (.ok t) ∧
      (output_bytes init t.out t.dst_offset).length = 2 ∧
      (vc4_validate_cl_copied K halt_wrap_stream 4294967295 is_bin 4294967295
        (vc4_validate_cl_entry exec)).length = 4294967298 ∧
      output_bytes init t.out t.dst_offset ≠
        vc4_validate_cl_copied K halt_wrap_stream 4294967295 is_bin 4294967295
          (vc4_validate_cl_entry exec) := by
  obtain ⟨out, _, hres, hsc⟩ := halt_wrap_result K is_bin exec
  obtain ⟨h1, h2, _⟩ := wrap_opcodes_len 4294967292
  have hl : (vc4_validate_cl_copied K halt_wrap_stream 4294967295 is_bin 4294967295
      (vc4_validate_cl_entry exec)).length = 4294967298 := by
    rw [copied_length, hsc, h2, h1]
  have ho : (output_bytes init (out ++ [(1, 0)]) 2).length = 2 := by
    simp [output_bytes]
  refine ⟨_, hres, ho, hl, ?_⟩
  intro heq
  have := congrArg List.length heq
  rw [hl] at this
  rw [ho] at this
  omega

/-- C20, amended: in a scan started from a fresh context (count 0), the request count is
within the capacity at every packet boundary reached, and in the context left behind when
`vc4_validate_cl` returns, whatever it returns - except after a shader state packet
rejected with "More requests for shader states than declared", where the count left
behind is the capacity plus one. -/
theorem shader_count_within_capacity (K : vc4_packet_h) (u : Mem) (len : Nat)
    (is_bin : Bool) (exec : exec_info) (hfresh : exec.shader_state_count = 0)
    (hsz : exec.shader_state_size < 4294967296) :
    (∀ n s, vc4_validate_cl_at K u len is_bin n (vc4_validate_cl_entry exec) = some s →
        s.exec.shader_state_count ≤ s.exec.shader_state_size) ∧
      (∀ fuel r, vc4_validate_cl K fuel u len is_bin exec = some r →
        r.state.exec.shader_state_count ≤ r.state.exec.shader_state_size ∨
          (∃ t, r = .einval (.failed_to_validate .more_shader_states) t ∧
            t.exec.shader_state_count = t.exec.shader_state_size + 1)) := by
  have hcount : exec.shader_state_count ≤ exec.shader_state_size := by omega
  have hat : ∀ n s,
      vc4_validate_cl_at K u len is_bin n (vc4_validate_cl_entry exec) = some s →
      s.exec.shader_state_count ≤ s.exec.shader_state_size ∧
        s.exec.shader_state_size = exec.shader_state_size := by
    intro n s hs
    have hk := shader_kept_at K u len is_bin exec hsz n (vc4_validate_cl_entry exec) s
      (shader_kept_refl exec) hs
    exact ⟨hk.2.1 hcount, hk.2.2.1⟩
  refine ⟨fun n s hs => (hat n s hs).1, ?_⟩
  intro fuel r hr
  obtain ⟨n, s, _, hs, hit⟩ := loop_done_at K u len is_bin fuel _ r hr
  obtain ⟨hc1, hc2⟩ := hat n s hs
  rcases iter_done_cases K u len is_bin s r hit with ⟨h1, _⟩ | ⟨t, rfl, hst⟩ | ⟨er, t, info, f, rfl, hcall⟩
  · left
    rw [h1]
    exact hc1
  · left
    have hk := shader_kept_step s.exec s.exec t.exec (by omega) (shader_kept_refl _) hst
    exact hk.2.1 hc1
  · obtain ⟨e1, e2 | e2⟩ := call_func_einval_count K f u _ _ _ _ _ _ _ hcall
    · obtain ⟨rfl, e3, e4⟩ := e2
      have heq : s.exec.shader_state_count = s.exec.shader_state_size := by omega
      by_cases hw : s.exec.shader_state_size + 1 < 4294967296
      · right
        refine ⟨t, rfl, ?_⟩
        rw [e4, e1, heq]
        exact Nat.mod_eq_of_lt hw
      · left
        have hz : (s.exec.shader_state_count + 1) % 4294967296 = 0 := by omega
        show t.exec.shader_state_count ≤ t.exec.shader_state_size
        rw [e4, hz]
        omega
    · left
      show t.exec.shader_state_count ≤ t.exec.shader_state_size
      rcases e2.2 with e3 | ⟨e3, e4⟩
      · rw [e3, e1]; exact hc1
      · rw [e4, e1]
        have := Nat.mod_le (s.exec.shader_state_count + 1) 4294967296
        omega

/-- C20 at work: the GL shader state packet of `gl_state_stream` in a fresh context with
two free slots. -/
theorem shader_count_within_capacity_witness :
    (∀ n s, vc4_validate_cl_at K0 (mem_of gl_state_stream) 5 true n
          (vc4_validate_cl_entry exec_two_slots) = some s →
        s.exec.shader_state_count ≤ s.exec.shader_state_size) ∧
      (∀ fuel r, vc4_validate_cl K0 fuel (mem_of gl_state_stream) 5 true exec_two_slots
          = some r →
        r.state.exec.shader_state_count ≤ r.state.exec.shader_state_size ∨
          (∃ t, r = .einval (.failed_to_validate .more_shader_states) t ∧
            t.exec.shader_state_count = t.exec.shader_state_size + 1)) :=
  shader_count_within_capacity K0 (mem_of gl_state_stream) 5 true exec_two_slots rfl
    (by decide)

/-- C23: `validate_shader_rec` sizes a record as `(nr_bo + nr_attributes) * 4 + packet_size`:
28 bytes (3 handles and a body of 16) for an NV request, and `(6 + n) * 4 + 36 + 8 * n =
60 + 12 * n` bytes for any other (GL) request, `n` being the low 3 bits of the request
address with 0 standing for 8, hence 156 bytes for low bits 0 and 96 for low bits 3. It
returns `-EINVAL` at "overflowed shader packet read" exactly when that size exceeds `len`:
with one byte less than the size it is rejected, with exactly the size it is not. -/
theorem shader_rec_length_check (K : vc4_packet_h) (src : Mem) (exec : exec_info)
    (out : WriteLog) (validated unvalidated len : Nat) (state : vc4_shader_state) :
    (state.packet = K.VC4_PACKET_NV_SHADER_STATE →
        shader_rec_handle_count K state = 3 ∧ shader_rec_packet_size K state = 16 ∧
        shader_rec_needed K state = 3 * 4 + 16 ∧ shader_rec_needed K state = 28) ∧
      (state.packet ≠ K.VC4_PACKET_NV_SHADER_STATE →
        shader_rec_nr_attributes K state = (if state.addr % 8 = 0 then 8 else state.addr % 8) ∧
        shader_rec_handle_count K state = 6 + shader_rec_nr_attributes K state ∧
        shader_rec_packet_size K state = 36 + 8 * shader_rec_nr_attributes K state ∧
        shader_rec_needed K state =
          (6 + shader_rec_nr_attributes K state) * 4 + 36 + 8 * shader_rec_nr_attributes K state ∧
        shader_rec_needed K state = 60 + 12 * shader_rec_nr_attributes K state ∧
        (state.addr % 8 = 0 → shader_rec_needed K state = 156) ∧
        (state.addr % 8 = 3 → shader_rec_needed K state = 96)) ∧
      ((∃ e o, validate_shader_rec K src exec out validated unvalidated len state =
          .einval .overflowed_read e o) ↔ shader_rec_needed K state > len) ∧
      validate_shader_rec K src exec out validated unvalidated (shader_rec_needed K state - 1)
          state = .einval .overflowed_read exec out ∧
      ∀ e o, validate_shader_rec K src exec out validated unvalidated (shader_rec_needed K state)
          state ≠ .einval .overflowed_read e o := by
  have hpass : ∀ l, shader_rec_needed K state ≤ l → ∀ e o,
      validate_shader_rec K src exec out validated unvalidated l state ≠
        .einval .overflowed_read e o := by
    intro l hl e o hc
    rw [validate_shader_rec_pass K src exec out validated unvalidated l state hl] at hc
    split at hc <;> simp at hc
  have hpos : 0 < shader_rec_needed K state := by
    by_cases hnv : state.packet = K.VC4_PACKET_NV_SHADER_STATE
    · have := (shader_rec_needed_nv K state hnv).2.2; omega
    · have := (shader_rec_needed_gl K state hnv).2.2.2; omega
  refine ⟨fun hnv => ?_, fun hgl => ?_, ⟨fun ⟨e, o, h⟩ => ?_, fun h => ?_⟩, ?_, hpass _ (le_refl _)⟩
  · obtain ⟨h1, h2, h3⟩ := shader_rec_needed_nv K state hnv
    exact ⟨h1, h2, h3, h3⟩
  · obtain ⟨h1, h2, h3, h4⟩ := shader_rec_needed_gl K state hgl
    refine ⟨h1, h2, h3, by omega, h4, fun h0 => ?_, fun h3 => ?_⟩
    · rw [h4, h1, if_pos h0]
    · rw [h4, h1, if_neg (by omega), h3]
  · by_contra hc
    exact hpass len (by omega) e o h
  · exact ⟨exec, out, validate_shader_rec_short K src exec out validated unvalidated len state h⟩
  · exact validate_shader_rec_short K src exec out validated unvalidated _ state (by omega)

/-- C24: for a record that passes the length check, in a context whose buffer table has its
`bo_count` entries: `validate_shader_rec` returns `-EINVAL` exactly when one of the first
`nr_bo + nr_attributes` handle words (3 for NV, 6 + n for GL), read as unsigned 32-bit
values, is at least `bo_count`; the error is then the one of the handle loop; when all
those words are below `bo_count` the function returns 0; and the verdict is the same on
every memory that has the same handle words, so that no later word is examined. -/
theorem shader_rec_handle_check (K : vc4_packet_h) (src : Mem) (exec : exec_info)
    (out : WriteLog) (validated unvalidated len : Nat) (state : vc4_shader_state)
    (hlen : shader_rec_needed K state ≤ len) (hbo : exec.bo_count ≤ exec.bo.length) :
    ((∃ er e o, validate_shader_rec K src exec out validated unvalidated len state =
          .einval er e o) ↔
        ∃ i, i < shader_rec_handle_count K state ∧
          load32 src (unvalidated + 4 * i) ≥ exec.bo_count) ∧
      (∀ er e o, validate_shader_rec K src exec out validated unvalidated len state =
          .einval er e o → er = .bo_index_out_of_range) ∧
      ((∀ i, i < shader_rec_handle_count K state →
          load32 src (unvalidated + 4 * i) < exec.bo_count) →
        ∃ o, validate_shader_rec K src exec out validated unvalidated len state = .ok exec o) ∧
      shader_rec_handle_count K state =
        (if state.packet = K.VC4_PACKET_NV_SHADER_STATE then 3
         else 6 + shader_rec_nr_attributes K state) ∧
      (∀ i, i < shader_rec_handle_count K state →
        load32 src (unvalidated + 4 * i) < 4294967296) ∧
      ∀ src2 : Mem,
        (∀ a, unvalidated ≤ a → a < unvalidated + 4 * shader_rec_handle_count K state →
          src2 a = src a) →
        ((∃ er e o, validate_shader_rec K src2 exec out validated unvalidated len state =
            .einval er e o) ↔
          ∃ er e o, validate_shader_rec K src exec out validated unvalidated len state =
            .einval er e o) := by
  have key : ∀ s : Mem,
      ((∃ er e o, validate_shader_rec K s exec out validated unvalidated len state =
          .einval er e o) ↔
        ∃ i, i < shader_rec_handle_count K state ∧
          load32 s (unvalidated + 4 * i) ≥ exec.bo_count) := by
    intro s
    rw [validate_shader_rec_pass K s exec out validated unvalidated len state hlen]
    constructor
    · rintro ⟨er, e, o, h⟩
      cases hl : shader_rec_lookup s exec unvalidated (shader_rec_handle_count K state) with
      | found bo => rw [hl] at h; simp at h
      | undefined f => rw [hl] at h; simp at h
      | out_of_range i => exact ⟨i, lookup_out_of_range_handle s exec unvalidated _ i hl⟩
    · intro h
      obtain ⟨i, hl, _⟩ := lookup_out_of_range s exec unvalidated hbo _ h
      rw [hl]
      exact ⟨_, _, _, rfl⟩
  refine ⟨key src, ?_, ?_, ?_, fun i _ => load32_lt src _, ?_⟩
  · intro er e o h
    rw [validate_shader_rec_pass K src exec out validated unvalidated len state hlen] at h
    split at h <;> simp at h
    exact h.1.symm
  · intro h
    obtain ⟨bo, hl, _⟩ := lookup_found src exec unvalidated hbo _ h
    rw [validate_shader_rec_pass K src exec out validated unvalidated len state hlen, hl]
    exact ⟨_, rfl⟩
  · by_cases hnv : state.packet = K.VC4_PACKET_NV_SHADER_STATE
    · rw [if_pos hnv]; exact (shader_rec_needed_nv K state hnv).1
    · rw [if_neg hnv]; exact (shader_rec_needed_gl K state hnv).2.1
  · intro src2 hs
    rw [key src2, key src]
    constructor
    · rintro ⟨i, hi, h⟩
      refine ⟨i, hi, ?_⟩
      rw [← load32_agree src src2 _ (fun a h1 h2 => hs a (by omega) (by omega))]
      exact h
    · rintro ⟨i, hi, h⟩
      refine ⟨i, hi, ?_⟩
      rw [load32_agree src src2 _ (fun a h1 h2 => hs a (by omega) (by omega))]
      exact h

/-- An NV record with three handles 0 in a context with one buffer object is accepted. -/
theorem shader_rec_handle_check_witness :
    ∃ o, validate_shader_rec K0 (mem_of nv_shader_rec) exec_two_requests [] 16 0 28
      { packet := 65, addr := 0 } = .ok exec_two_requests o :=
  (shader_rec_handle_check K0 (mem_of nv_shader_rec) exec_two_requests [] 16 0 28
    { packet := 65, addr := 0 } (by decide) (by decide)).2.2.1 (by decide)

/-- C25: when `validate_shader_rec` returns 0 the context is unchanged and the output holds,
from `validated` on, a body of `packet_size` bytes (16 for NV, 36 + 8n for GL): the field
of handle `k` (offsets 4, 8, 12 for NV; 4, 8, 16, 20, 28, 32 and then 36 + 8i for
attribute `i`, handle 6 + i, for GL) holds the untrusted field plus the `paddr` of the
buffer named by handle word `k`, modulo 2^32; every body byte outside these fields is the
untrusted byte; nothing outside the body is written; and the sizes of the buffer objects
play no part: with other sizes the outcome and the output are the same. -/
theorem shader_rec_relocation (K : vc4_packet_h) (src : Mem) (exec exec2 : exec_info)
    (out out2 : WriteLog) (validated unvalidated len : Nat) (state : vc4_shader_state)
    (init : Mem)
    (h : validate_shader_rec K src exec out validated unvalidated len state = .ok exec2 out2) :
    exec2 = exec ∧
      (state.packet = K.VC4_PACKET_NV_SHADER_STATE →
        shader_rec_fields K state = [4, 8, 12] ∧ shader_rec_packet_size K state = 16) ∧
      (state.packet ≠ K.VC4_PACKET_NV_SHADER_STATE →
        shader_rec_fields K state = [4, 8, 16, 20, 28, 32] ++
          (List.range (shader_rec_nr_attributes K state)).map (fun i => 36 + i * 8) ∧
        shader_rec_packet_size K state = 36 + 8 * shader_rec_nr_attributes K state) ∧
      (∀ k, k < shader_rec_handle_count K state →
        ∃ o b, (shader_rec_fields K state)[k]? = some o ∧
          exec.bo[load32 src (unvalidated + 4 * k)]? = some b ∧
          o + 4 ≤ shader_rec_packet_size K state ∧
          load32 (apply_log init out2) (validated + o) =
            (load32 src (unvalidated + 4 * shader_rec_handle_count K state + o) + b.paddr) %
              4294967296) ∧
      (∀ j, j < shader_rec_packet_size K state →
        (∀ o ∈ shader_rec_fields K state, j < o ∨ o + 4 ≤ j) →
        apply_log init out2 (validated + j) =
          load8 src (unvalidated + 4 * shader_rec_handle_count K state + j)) ∧
      (∀ a, a < validated ∨ validated + shader_rec_packet_size K state ≤ a →
        apply_log init out2 a = apply_log init out a) ∧
      ∀ exec3 : exec_info, exec3.bo_count = exec.bo_count →
        exec3.bo.map (fun b => b.paddr) = exec.bo.map (fun b => b.paddr) →
        validate_shader_rec K src exec3 out validated unvalidated len state =
          .ok exec3 out2 := by
  have hlen : shader_rec_needed K state ≤ len := by
    by_contra hc
    rw [validate_shader_rec_short K src exec out validated unvalidated len state
      (by omega)] at h
    simp at h
  have h2 := h
  rw [validate_shader_rec_pass K src exec out validated unvalidated len state hlen] at h2
  cases hl : shader_rec_lookup src exec unvalidated (shader_rec_handle_count K state) with
  | out_of_range i => rw [hl] at h2; simp at h2
  | undefined f => rw [hl] at h2; simp at h2
  | found bo =>
    rw [hl] at h2
    simp only [ShaderRecResult.ok.injEq] at h2
    obtain ⟨he, ho⟩ := h2
    obtain ⟨hbl, hbo⟩ := lookup_found_handles src exec unvalidated _ bo hl
    obtain ⟨f1, f2, f3⟩ := shader_rec_output K src out validated
      (unvalidated + 4 * shader_rec_handle_count K state) state init bo hbl
    rw [ho] at f1 f2 f3
    refine ⟨he.symm, fun hnv => ?_, fun hgl => ?_, fun k hk => ?_, f2, f3,
      fun exec3 hc hp => ?_⟩
    · simp [shader_rec_fields, shader_rec_bo_offsets, shader_rec_nr_attributes,
        shader_rec_attr_offsets, shader_rec_packet_size, hnv, nv_bo_offsets]
    · refine ⟨by simp [shader_rec_fields, shader_rec_bo_offsets, shader_rec_attr_offsets, hgl,
        gl_bo_offsets], ?_⟩
      simp only [shader_rec_packet_size, if_neg hgl]
      omega
    · obtain ⟨o, b, g1, g2, g3, g4⟩ := f1 k hk
      exact ⟨o, b, g1, by rw [← (hbo k hk).2.1]; exact g2, g3, g4⟩
    · have hs := lookup_same_paddr src exec exec3 unvalidated hc hp
        (shader_rec_handle_count K state)
      rw [hl] at hs
      obtain ⟨bo3, h3, hm⟩ := hs
      rw [validate_shader_rec_pass K src exec3 out validated unvalidated len state hlen, h3]
      simp only [ShaderRecResult.ok.injEq, true_and]
      rw [stores_same_paddr src validated _ _ bo bo3 hm,
        stores_same_paddr src validated _ _ (bo.drop (shader_rec_nr_bo K state))
          (bo3.drop (shader_rec_nr_bo K state)) (by rw [List.map_drop, List.map_drop, hm])]
      exact ho

/-- The record `nv_shader_rec`: its first relocated field, at body offset 4, ends up holding
5 + 4096. -/
theorem shader_rec_relocation_witness :
    ∃ o b, (shader_rec_fields K0 { packet := 65, addr := 0 })[0]? = some o ∧
      exec_two_requests.bo[load32 (mem_of nv_shader_rec) (0 + 4 * 0)]? = some b ∧
      o + 4 ≤ shader_rec_packet_size K0 { packet := 65, addr := 0 } ∧
      load32 (apply_log (fun _ => 0) nv_shader_rec_out) (16 + o) =
        (load32 (mem_of nv_shader_rec)
          (0 + 4 * shader_rec_handle_count K0 { packet := 65, addr := 0 } + o) + b.paddr) %
            4294967296 :=
  (shader_rec_relocation K0 (mem_of nv_shader_rec) exec_two_requests exec_two_requests []
    nv_shader_rec_out 16 0 28 { packet := 65, addr := 0 } (fun _ => 0)
    (by decide)).2.2.2.1 0 (by decide)

/-- C28: for every opcode byte `c` whose table entry has a handler - these are 17, 28, 29,
32, 64, 65, 112, 113 and 254 - every body offset the handler loads from the untrusted body
and every body offset it stores to in the output body is below the table length minus
one: the outcome of the handler depends on the untrusted memory through the bytes at the
offsets of `handler_reads` only, and whatever the outcome its stores go to the offsets of
`handler_writes` only. Opcode 32 reads body bytes 0, 5..8 and 9..12 of a 13-byte body,
opcode 112 writes body bytes 0..3 and 8..11 of a 15-byte body, opcode 254 reads body bytes
0..7 of an 8-byte body. -/
theorem handlers_stay_in_packet (K : vc4_packet_h) (c : Nat) (f : validate_fn) (hc : c < 256)
    (hf : (cmd_info_init c).func = some f) :
    c ∈ [17, 28, 29, 32, 64, 65, 112, 113, 254] ∧
      (∀ o ∈ handler_reads f, o < (cmd_info_init c).len - 1) ∧
      (∀ o ∈ handler_writes f, o < (cmd_info_init c).len - 1) ∧
      (∀ (u u2 : Mem) (exec : exec_info) (out : WriteLog) (v unt : Nat),
        (∀ o ∈ handler_reads f, u2 (unt + o) = u (unt + o)) →
        call_func K f u2 exec out v unt = call_func K f u exec out v unt) ∧
      (∀ (u : Mem) (exec : exec_info) (out : WriteLog) (v unt : Nat),
        ∃ w, (call_func K f u exec out v unt).log out = out ++ w ∧
          ∀ x ∈ w, ∃ off ∈ handler_writes f, x.1 = v + off) ∧
      ((cmd_info_init 32).func = some .indexed_prim_list ∧ (cmd_info_init 32).len - 1 = 13 ∧
        handler_reads .indexed_prim_list = [0, 5, 6, 7, 8, 9, 10, 11, 12]) ∧
      ((cmd_info_init 112).func = some .tile_binning_config ∧
        (cmd_info_init 112).len - 1 = 15 ∧
        handler_writes .tile_binning_config = [0, 1, 2, 3, 8, 9, 10, 11]) ∧
      ((cmd_info_init 254).func = some .gem_handles ∧ (cmd_info_init 254).len - 1 = 8 ∧
        handler_reads .gem_handles = [0, 1, 2, 3, 4, 5, 6, 7]) := by
  obtain ⟨h1, h2⟩ := cmd_info_init_handlers c hc
  obtain ⟨h3, h4⟩ := h2 f hf
  exact ⟨h1.1 (by rw [hf]; rfl), h3, h4,
    fun u u2 exec out v unt h => call_func_reads K f u u2 exec out v unt h,
    fun u exec out v unt => call_func_writes K f u exec out v unt,
    ⟨rfl, rfl, rfl⟩, ⟨rfl, rfl, rfl⟩, ⟨rfl, rfl, rfl⟩⟩

/-- The handler of opcode 112 stores to body offsets below 15 only. -/
theorem handlers_stay_in_packet_witness :
    (112 < 256 ∧ (cmd_info_init 112).func = some .tile_binning_config) ∧
      ∀ o ∈ handler_writes .tile_binning_config, o < (cmd_info_init 112).len - 1 :=
  ⟨⟨by decide, rfl⟩,
    (handlers_stay_in_packet K0 112 .tile_binning_config (by decide) rfl).2.2.1⟩

/-- C30: `validate_indexed_prim_list` takes the index width 2 when the high nibble of the
first body byte is non-zero and 1 otherwise. When it returns 0 the three checks have passed
with that width, the context is unchanged, and its only stores are those of the 32-bit
field at body offset 5, which then holds the untrusted field plus the `paddr` of
`bo[bo_index[0]]` modulo 2^32, every other byte of the output staying as it was (body
bytes 0..4 and 9..12 as copied). When it returns `-EINVAL` (unlimited max index, access
overflow or access out of bounds) the output log and the context are as before the call. -/
theorem indexed_prim_list_relocation (src : Mem) (exec : exec_info) (out : WriteLog)
    (validated untrusted : Nat) (init : Mem) :
    ib_index_size src untrusted = (if load8 src untrusted / 16 ≠ 0 then 2 else 1) ∧
      ib_access_end src untrusted =
        ((load32 src (untrusted + 9) + 1) % 4294967296 * ib_index_size src untrusted) %
          4294967296 ∧
      (∀ exec2 out2,
        validate_indexed_prim_list src exec out validated untrusted = .ok exec2 out2 →
        ∃ ib, exec.bo[exec.bo_index.1]? = some ib ∧ exec2 = exec ∧
          load32 src (untrusted + 9) ≠ 4294967295 ∧
          load32 src (untrusted + 9) ≤ ib_access_end src untrusted ∧
          ib_access_end src untrusted ≤ ib.size ∧
          out2 = out ++ store32 (validated + 5)
            ((load32 src (untrusted + 5) + ib.paddr) % 4294967296) ∧
          field_rewritten init out out2 (validated + 5)
            ((load32 src (untrusted + 5) + ib.paddr) % 4294967296)) ∧
      ∀ e exec2 out2,
        validate_indexed_prim_list src exec out validated untrusted = .einval e exec2 out2 →
        exec2 = exec ∧ out2 = out ∧
          (e = .unlimited_max_index ∨ e = .ib_access_overflow ∨
            e = .ib_access_out_of_bounds) := by
  refine ⟨by simp [ib_index_size], rfl, fun exec2 out2 h => ?_, fun e exec2 out2 h => ?_⟩
  · unfold validate_indexed_prim_list at h
    simp only at h
    split at h
    · simp at h
    · rename_i h1
      split at h
      · simp at h
      · rename_i h2
        cases hbo : exec.bo[exec.bo_index.1]? with
        | none => rw [hbo] at h; simp at h
        | some ib =>
          rw [hbo] at h
          simp only at h
          split at h
          · simp at h
          · rename_i h3
            simp only [HandlerResult.ok.injEq] at h
            refine ⟨ib, rfl, h.1.symm, h1, by simp only [ib_max_index] at h2; omega,
              by omega, h.2.symm, ?_⟩
            rw [← h.2]
            exact store32_rewrites init out _ _ (Nat.mod_lt _ (by norm_num))
  · unfold validate_indexed_prim_list at h
    simp only at h
    split at h
    · simp only [HandlerResult.einval.injEq] at h
      exact ⟨h.2.1.symm, h.2.2.symm, Or.inl h.1.symm⟩
    · split at h
      · simp only [HandlerResult.einval.injEq] at h
        exact ⟨h.2.1.symm, h.2.2.symm, Or.inr (Or.inl h.1.symm)⟩
      · cases hbo : exec.bo[exec.bo_index.1]? with
        | none => rw [hbo] at h; simp at h
        | some ib =>
          rw [hbo] at h
          simp only at h
          split at h
          · simp only [HandlerResult.einval.injEq] at h
            exact ⟨h.2.1.symm, h.2.2.symm, Or.inr (Or.inr h.1.symm)⟩
          · simp at h

/-- C26, on the error path of the layout check: for the submission `overflow_args`, whose
`shader_record_count` is 4294967295, the check of lines 119-123 fires whatever the
environment is, and `vc4_cl_validate` leaves through `goto fail` with `ret` still holding
its initial value: it returns 0 without having run any stage, and `vc4_simulator_flush`
goes on to hand the lists to the simulated hardware, with the list addresses of the zeroed
context. -/
theorem layout_overflow_returns_zero (K : vc4_packet_h) (E : sim_env) (fuel : Nat)
    (exec : exec_info) :
    layout_check_fails E overflow_args = true ∧
      vc4_cl_validate K E fuel overflow_args exec =
        .returned { ret := 0, exec := exec, bin := none, render := none,
                    shader_recs := none } ∧
      vc4_simulator_flush K E fuel overflow_args = .executed 0 0 0 0 := by
  have hl : layout_check_fails E overflow_args = true := by
    have h := Nat.div_le_self 4294967295 E.sizeof_vc4_shader_state
    simp only [layout_check_fails, overflow_args, ge_iff_le, h, decide_True, Bool.or_true,
      Bool.true_or]
  have hv : ∀ x : exec_info, vc4_cl_validate K E fuel overflow_args x =
      .returned { ret := 0, exec := x, bin := none, render := none, shader_recs := none } := by
    intro x
    unfold vc4_cl_validate
    dsimp only
    rw [if_pos hl]
  refine ⟨hl, hv exec, ?_⟩
  unfold vc4_simulator_flush
  dsimp only
  rw [hv]
  rfl

/-- C21, with two NV requests in a context set up as by `vc4_cl_validate` (records 16 bytes
into the validated buffer): record 0 is validated and writes a body of 16 bytes, so that
the cumulative output offset of record 1 is 16; request 1 has the masked address 16 and is
refused by the offset test ("unexpected shader rec offset"); and with the address 0
instead, which differs from the cumulative offset, request 1 passes the test. The test
compares the masked address with the same value for every request. -/
theorem offset_test_ignores_earlier_records :
    validate_shader_rec K0 (mem_of two_nv_shader_recs) exec_two_requests [] 16 0 56
        { packet := 65, addr := 0 } = .ok exec_two_requests nv_shader_rec_out ∧
      shader_rec_packet_size K0 { packet := 65, addr := 0 } = 16 ∧
      exec_two_requests.shader_state[1]? = some { packet := 65, addr := 16 } ∧
      shader_rec_masked_addr { packet := 65, addr := 16 } = 16 ∧
      vc4_validate_shader_recs K0 (mem_of two_nv_shader_recs) 16 56 exec_two_requests =
        .einval .unexpected_offset 1 exec_two_requests nv_shader_rec_out ∧
      exec_same_requests.shader_state[1]? = some { packet := 65, addr := 0 } ∧
      shader_rec_masked_addr { packet := 65, addr := 0 } = 0 ∧
      vc4_validate_shader_recs K0 (mem_of two_nv_shader_recs) 16 56 exec_same_requests =
        .ok exec_same_requests (nv_shader_rec_out ++ nv_shader_rec_out) :=
  ⟨nv_shader_rec_run, by decide, by decide, by decide, two_requests_run, by decide, by decide,
    same_requests_run⟩

/-- C22, with two NV requests and a blob of 28 bytes, the size of a single NV record:
`vc4_validate_shader_recs` returns 0. The second request is validated against the record at
source offset 0 again, with the whole length 28, and its stores go to the output body of
the first record again: all stores of the call lie in the 16 bytes from `validated` on. -/
theorem shader_recs_never_advance :
    shader_rec_needed K0 { packet := 65, addr := 0 } = 28 ∧
      exec_same_requests.shader_state_count = 2 ∧
      vc4_validate_shader_recs K0 (mem_of nv_shader_rec) 16 28 exec_same_requests =
        .ok exec_same_requests (nv_shader_rec_out ++ nv_shader_rec_out) ∧
      ∀ x ∈ nv_shader_rec_out ++ nv_shader_rec_out, 16 ≤ x.1 ∧ x.1 < 16 + 16 :=
  ⟨by decide, by decide, same_requests_short_run, by decide⟩

/-- C27, for a render list longer than 2^32 - 16 bytes: with `len = 4294967295` the scan of
`fail_wrap_stream` wraps and then fails, on the list check, at the one-byte packet that
starts at offset 1; the stream `fail_wrap_stream_halt` differs from it only in the byte at
offset 2, after that packet, and on it the call returns 0. -/
theorem failure_after_wrap_depends_on_later_bytes (K : vc4_packet_h) (exec : exec_info) :
    (∃ out, vc4_validate_cl K 4294967295 fail_wrap_stream 4294967295 false exec =
        some (.einval .invalid_for_list
          { dst_offset := 1, src_offset := 1, exec := exec, out := out })) ∧
      load8 fail_wrap_stream 1 = 5 ∧ table_len 5 = 1 ∧
      (∀ i, i ≠ 2 → fail_wrap_stream_halt i = fail_wrap_stream i) ∧
      ∃ out, vc4_validate_cl K 4294967295 fail_wrap_stream_halt 4294967295 false exec =
        some (.ok { dst_offset := 3, src_offset := 3, exec := exec, out := out }) := by
  refine ⟨fail_wrap_result K exec, by simp [load8, fail_wrap_stream], rfl, fun i hi => ?_,
    fail_wrap_halt_result K exec⟩
  simp [fail_wrap_stream_halt, hi]

/-- C29, for a stream longer than 2^32 - 16 bytes: with `len = 4294967295` the scan of
`handles_wrap_stream` reaches, after 4294967287 passes, a packet boundary at which the
source offset has wrapped to 1 while the output offset is 4294967288, so that a pass of the
loop starts with `dst_offset > src_offset`; the function then returns 0 with the output
offset 4294967289 and the source offset 2. -/
theorem dst_offset_beyond_src_offset (K : vc4_packet_h) (is_bin : Bool) :
    ∃ out, Reached K handles_wrap_stream 4294967295 is_bin exec_one_bo 4294967287
          { dst_offset := 4294967288, src_offset := 1, exec := exec_one_bo, out := out } ∧
      vc4_validate_cl K 4294967295 handles_wrap_stream 4294967295 is_bin exec_one_bo =
        some (.ok { dst_offset := 4294967289, src_offset := 2, exec := exec_one_bo,
                    out := out ++ [(4294967288, 0)] }) ∧
      ¬ ((4294967288 : Nat) ≤ 1) ∧ ¬ ((4294967289 : Nat) ≤ 2) := by
  obtain ⟨out, h1, h2⟩ := handles_wrap_result K is_bin
  exact ⟨out, ⟨h1, by show (1 : Nat) < 4294967295; omega⟩, h2, by omega, by omega⟩

/-- C33: opcodes 28 and 29 are 7-byte packets handled by
`validate_loadstore_tile_buffer_general`. When the low nibble of the first body byte is
`VC4_LOADSTORE_TILE_BUFFER_NONE` the handler returns 0 without a store and without a change
of the context, whatever the address field, the scratch handles and the buffer table are,
so that the pass of the walker over the packet leaves in the output the copy of the 7
untrusted bytes; for every other low nibble, with the first scratch handle selecting the
buffer object `fbo`, the handler returns 0 and the field at body offset 2 holds
(untrusted field + `fbo.paddr`) mod 2^32, every other byte being as it was. The list of
the single packet `store_none_packet` is accepted in a context without buffers. -/
theorem loadstore_none_untouched (K : vc4_packet_h) (src : Mem) (exec : exec_info)
    (out : WriteLog) (validated untrusted : Nat) (init : Mem) :
    (∀ c ∈ [28, 29], (cmd_info_init c).func = some .loadstore_tile_buffer_general ∧
        (cmd_info_init c).len = 7) ∧
      (load8 src untrusted % 16 = K.VC4_LOADSTORE_TILE_BUFFER_NONE →
        validate_loadstore_tile_buffer_general K src exec out validated untrusted =
          .ok exec out) ∧
      (load8 src untrusted % 16 ≠ K.VC4_LOADSTORE_TILE_BUFFER_NONE →
        ∀ fbo, exec.bo[exec.bo_index.1]? = some fbo →
          ∃ out2, validate_loadstore_tile_buffer_general K src exec out validated untrusted =
              .ok exec out2 ∧
            field_rewritten init out out2 (validated + 2)
              ((load32 src (untrusted + 2) + fbo.paddr) % 4294967296)) ∧
      (∀ (s : WalkState) (c : Nat), c ∈ [28, 29] → load8 src s.src_offset = c →
        load8 src (s.src_offset + 1) % 16 = K.VC4_LOADSTORE_TILE_BUFFER_NONE →
        vc4_validate_cl_process K src s (cmd_info_init c) =
            .next { dst_offset := (s.dst_offset + 7) % 4294967296,
                    src_offset := (s.src_offset + 7) % 4294967296,
                    exec := s.exec,
                    out := s.out ++ memcpy src s.dst_offset s.src_offset 7 } ∧
          ∀ i, i < 7 →
            apply_log init (s.out ++ memcpy src s.dst_offset s.src_offset 7)
              (s.dst_offset + i) = load8 src (s.src_offset + i)) ∧
      vc4_validate_cl K0 2 (mem_of store_none_packet) 7 false exec_empty =
        some (.ok
          { dst_offset := 7, src_offset := 7, exec := exec_empty,
            out := [(0, 28), (1, 0), (2, 0), (3, 0), (4, 0), (5, 0), (6, 0)] }) := by
  have hlt : ∀ x : Nat, x % 4294967296 < 4294967296 := fun x => Nat.mod_lt _ (by norm_num)
  refine ⟨by decide, fun h => ?_, fun h fbo hbo => ?_, fun s c hc hop hn => ?_,
    store_none_packet_run⟩
  · simp [validate_loadstore_tile_buffer_general, h]
  · exact ⟨_, by simp [validate_loadstore_tile_buffer_general, hbo, h],
      store32_rewrites init out (validated + 2) _ (hlt _)⟩
  · have hf : (cmd_info_init c).func = some .loadstore_tile_buffer_general ∧
        (cmd_info_init c).len = 7 := by
      simp only [List.mem_cons, List.mem_singleton, List.not_mem_nil, or_false] at hc
      rcases hc with rfl | rfl <;> exact ⟨rfl, rfl⟩
    have hc254 : load8 src s.src_offset ≠ 254 := by
      simp only [List.mem_cons, List.mem_singleton, List.not_mem_nil, or_false] at hc
      omega
    have hc0 : load8 src s.src_offset ≠ 0 := by
      simp only [List.mem_cons, List.mem_singleton, List.not_mem_nil, or_false] at hc
      omega
    constructor
    · simp [vc4_validate_cl_process, run_handler, copy_packet, call_func, hf.1, hf.2,
        validate_loadstore_tile_buffer_general, hn, hc254, hc0]
    · intro i hi
      rw [apply_log_memcpy, if_pos ⟨by omega, by omega⟩]
      congr 1
      omega

/-- C36: for every request, whatever its packet byte and address, `validate_shader_rec` uses
`nr_bo + nr_attributes ≤ 14` handles, 14 being the number of entries of its local array
`bo` (`ARRAY_SIZE(gl_bo_offsets) + 8`), and the array the handle loop fills has exactly
that many entries; every relocated field lies inside the body, `o + 4 ≤ packet_size`
(fields 4, 8, 12 and size 16 for NV; fields 4, 8, 16, 20, 28, 32 and `36 + 8i` for
`i < n`, size `36 + 8n`, for GL); and whatever the outcome of the call, every store it
makes goes to the `packet_size` bytes from `validated` on, for a record that passed the
length test. -/
theorem shader_rec_accesses_in_range (K : vc4_packet_h) (src : Mem) (exec : exec_info)
    (out : WriteLog) (validated unvalidated len : Nat) (state : vc4_shader_state) :
    gl_bo_offsets.length + 8 = 14 ∧
      shader_rec_nr_bo K state + shader_rec_nr_attributes K state ≤ 14 ∧
      (∀ bo, shader_rec_lookup src exec unvalidated
          (shader_rec_nr_bo K state + shader_rec_nr_attributes K state) = .found bo →
        bo.length = shader_rec_nr_bo K state + shader_rec_nr_attributes K state) ∧
      (shader_rec_bo_offsets K state).length = shader_rec_nr_bo K state ∧
      (∀ o ∈ shader_rec_bo_offsets K state, o + 4 ≤ shader_rec_packet_size K state) ∧
      (∀ i, i < shader_rec_nr_attributes K state →
        36 + i * 8 + 4 ≤ shader_rec_packet_size K state) ∧
      (state.packet = K.VC4_PACKET_NV_SHADER_STATE →
        shader_rec_bo_offsets K state = [4, 8, 12] ∧ shader_rec_nr_attributes K state = 0 ∧
          shader_rec_packet_size K state = 16) ∧
      (state.packet ≠ K.VC4_PACKET_NV_SHADER_STATE →
        shader_rec_bo_offsets K state = [4, 8, 16, 20, 28, 32] ∧
          shader_rec_packet_size K state = 36 + 8 * shader_rec_nr_attributes K state) ∧
      ∃ w, (validate_shader_rec K src exec out validated unvalidated len state).log out =
          out ++ w ∧
        (w ≠ [] → shader_rec_needed K state ≤ len) ∧
        ∀ x ∈ w, validated ≤ x.1 ∧ x.1 < validated + shader_rec_packet_size K state := by
  refine ⟨rfl, (shader_rec_handle_count_le K state).1,
    fun bo h => (lookup_found_handles src exec unvalidated _ bo h).1,
    bo_offsets_length K state, fun o ho => (bo_offsets_in_body K state o ho).2,
    fun i hi => ?_, fun hnv => ?_, fun hgl => ?_,
    validate_shader_rec_stores K src exec out validated unvalidated len state⟩
  · exact (attr_offsets_in_body K state (36 + i * 8) (by
      simp only [shader_rec_attr_offsets, List.mem_map, List.mem_range]
      exact ⟨i, hi, rfl⟩)).2
  · simp [shader_rec_bo_offsets, shader_rec_nr_attributes, shader_rec_packet_size, hnv,
      nv_bo_offsets]
  · refine ⟨by simp [shader_rec_bo_offsets, hgl, gl_bo_offsets], ?_⟩
    simp only [shader_rec_packet_size, if_neg hgl]
    omega

/-- C31: a pass of the walker over a packet whose opcode is not 254 leaves the scratch
handles `bo_index` as they were, however the pass ends; a handle packet that goes through
sets them to its two handle words; hence at every packet boundary reached without
scanning an opcode-254 packet the scratch handles are those of the start, and they are
the ones a handler is called with; and in `vc4_cl_validate` the render walk, when it is
run, starts on the context the bin walk left behind, scratch handles included. -/
theorem scratch_handles_frame (K : vc4_packet_h) (u : Mem) (len : Nat) (is_bin : Bool) :
    (∀ s, load8 u s.src_offset ≠ 254 →
        (vc4_validate_cl_iter K u len is_bin s).state.exec.bo_index = s.exec.bo_index) ∧
      (∀ s t, load8 u s.src_offset = 254 → vc4_validate_cl_iter K u len is_bin s = .next t →
        t.exec.bo_index = (load32 u (s.src_offset + 1), load32 u (s.src_offset + 1 + 4))) ∧
      (∀ n s0 s, vc4_validate_cl_at K u len is_bin n s0 = some s →
        254 ∉ vc4_validate_cl_scanned K u len is_bin n s0 →
        s.exec.bo_index = s0.exec.bo_index) ∧
      (∀ s info f, info.func = some f →
        run_handler K u s info =
          call_func K f u s.exec (copy_packet u s info) (s.dst_offset + 1)
            (s.src_offset + 1)) ∧
      ∀ (E : sim_env) (fuel : Nat) (args : drm_vc4_submit_cl) (exec : exec_info)
        (run : cl_validate_run) (r : WalkResult),
        vc4_cl_validate K E fuel args exec = .returned run → run.render = some r →
        ∃ s u2 len2, run.bin = some (.ok s) ∧
          vc4_validate_cl K fuel u2 len2 false s.exec = some r ∧
          (vc4_validate_cl_entry s.exec).exec.bo_index = s.exec.bo_index := by
  refine ⟨fun s h => (iter_frame K u len is_bin s).2.2 h,
    fun s t hc h => iter_gem_handles_index K u len is_bin s t hc h,
    fun n s0 s h hno => (at_frame K u len is_bin n s0 s h).2.2 hno,
    fun s info f hf => by simp only [run_handler, hf],
    fun E fuel args exec run r h hr => ?_⟩
  obtain ⟨s, u2, len2, h1, h2⟩ := cl_validate_render_start K E fuel args exec run r h hr
  exact ⟨s, u2, len2, h1, h2, rfl⟩

/-- C32, for a submission without buffers: `vc4_simulator_flush` builds a context with
`bo_count = 0`, an empty buffer table and scratch handles 0; the bin list of `branch_args`
is one branch-to-sublist packet (opcode 17) not preceded by a handle packet, and its
handler reads `exec->bo[bo_index[0]]` with `bo_index[0] = 0`, which is not below
`bo_count`: the lookup is outside the buffer table. -/
theorem lookup_out_of_range_without_buffers :
    (vc4_simulator_pin_bos E0 branch_args exec_zero).bo_count = 0 ∧
      (vc4_simulator_pin_bos E0 branch_args exec_zero).bo = [] ∧
      (vc4_simulator_pin_bos E0 branch_args exec_zero).bo_index = (0, 0) ∧
      ¬ ((vc4_simulator_pin_bos E0 branch_args exec_zero).bo_index.1 <
        (vc4_simulator_pin_bos E0 branch_args exec_zero).bo_count) ∧
      vc4_validate_cl K0 1 (mem_of [17, 0, 0, 0, 0]) 5 true exec_empty =
        some (.undefined (.bo_out_of_bounds 0)
          { dst_offset := 0, src_offset := 0, exec := exec_empty,
            out := [(0, 17), (1, 0), (2, 0), (3, 0), (4, 0)] }) ∧
      vc4_cl_validate K0 E0 1 branch_args (vc4_simulator_pin_bos E0 branch_args exec_zero) =
        .undefined (.bo_out_of_bounds 0) ∧
      vc4_simulator_flush K0 E0 1 branch_args = .not_returned :=
  ⟨rfl, rfl, rfl, by decide, branch_packet_run, branch_args_run, branch_args_flush⟩

/-- C34, for a stream longer than 2^32 - 16 bytes: with `len = 4294967295` the scan of
`wrap_stream` (nop bytes, and a two-byte packet at offset 4294967294) comes back to source
offset 0 after 4294967295 passes, the length test of the last packet having wrapped; the
pass over that packet takes the source offset from 4294967294 down to 0, and the loop
has not returned after any number of passes. -/
theorem walk_does_not_terminate (K : vc4_packet_h) (is_bin : Bool) (exec : exec_info) :
    (∃ out, vc4_validate_cl_at K wrap_stream 4294967295 is_bin 4294967295
          (vc4_validate_cl_entry exec) =
        some { dst_offset := 0, src_offset := 0, exec := exec, out := out }) ∧
      (∀ out, vc4_validate_cl_iter K wrap_stream 4294967295 is_bin
          { dst_offset := 4294967294, src_offset := 4294967294, exec := exec, out := out } =
        .next { dst_offset := 0, src_offset := 0, exec := exec,
                out := out ++ [(4294967294, 56), (4294967295, 1)] }) ∧
      ∀ fuel, vc4_validate_cl K fuel wrap_stream 4294967295 is_bin exec = none := by
  refine ⟨wrap_stream_cycle K is_bin exec [], fun out => wrap_stream_step K is_bin exec out,
    fun fuel => ?_⟩
  obtain ⟨t, h⟩ := wrap_stream_forever K is_bin fuel exec []
  have h2 := loop_of_at K wrap_stream 4294967295 is_bin fuel 0 _ t h
  unfold vc4_validate_cl
  rw [Nat.add_zero] at h2
  rw [show vc4_validate_cl_entry exec =
    { dst_offset := 0, src_offset := 0, exec := exec, out := [] } from rfl, h2]
  rfl

/-- C35, for a render list of 4294967295 bytes: on `wrap_args` (empty bin list, render list
length 4294967295, no shader records) the layout check of `vc4_cl_validate` passes for every
size of a shader state slot from 1 to 4294967295 and whatever `roundup` returns, although
the 32-bit shader record offset is not both at or after the end of the render list and a
multiple of 16; with the parameters `E0` the shader record offset and `exec_size` are 0, so
the render region of 4294967295 bytes is not inside the `exec_size` bytes, and the copy of
the render list runs past them. -/
theorem layout_check_passes_on_wrapped_layout (E : sim_env)
    (hs : 1 ≤ E.sizeof_vc4_shader_state) (hs2 : E.sizeof_vc4_shader_state ≤ 4294967295) :
    layout_check_fails E wrap_args = false ∧
      ¬ (wrap_args.bin_cl_len + wrap_args.render_cl_len ≤ shader_rec_offset E wrap_args ∧
          16 ∣ shader_rec_offset E wrap_args) ∧
      shader_rec_offset E0 wrap_args = 0 ∧ exec_size E0 wrap_args = 0 ∧
      ∀ (K : vc4_packet_h) (fuel : Nat) (exec : exec_info),
        vc4_cl_validate K E0 fuel wrap_args exec = .copy_out_of_region 1 := by
  refine ⟨wrap_args_layout E hs hs2, ?_, by decide, by decide,
    fun K fuel exec => wrap_args_run K fuel exec⟩
  have h := shader_rec_offset_lt E wrap_args
  have h1 : wrap_args.bin_cl_len + wrap_args.render_cl_len = 4294967295 := by decide
  rw [h1]
  omega

theorem layout_check_passes_on_wrapped_layout_witness :
    (1 ≤ E0.sizeof_vc4_shader_state ∧ E0.sizeof_vc4_shader_state ≤ 4294967295) ∧
      layout_check_fails E0 wrap_args = false ∧
      ¬ (wrap_args.bin_cl_len + wrap_args.render_cl_len ≤ shader_rec_offset E0 wrap_args ∧
          16 ∣ shader_rec_offset E0 wrap_args) :=
  ⟨by decide, (layout_check_passes_on_wrapped_layout E0 (by decide) (by decide)).1,
    (layout_check_passes_on_wrapped_layout E0 (by decide) (by decide)).2.1⟩

/-- C37: in each of the five specialisations of `MultisampleTraits` and for every sample
number below `numSamples`, `vXi` and `vYi` return a broadcast of an integer, `vX` and `vY` a
broadcast of a float, the integer is exactly 256 times the float (the float as 0.8 fixed
point), and each integer is a multiple of 0x10 from 0x00 to 0xF0. -/
theorem sample_positions_fixed_point (sampleCount : SWR_MULTISAMPLE_COUNT) (sampleNum : Nat)
    (h : sampleNum < MultisampleTraits.numSamples sampleCount) :
    ∃ (xi yi : Nat) (x y : ℚ),
      MultisampleTraits.vXi sampleCount sampleNum = some (_mm_set1_epi32 xi) ∧
      MultisampleTraits.vYi sampleCount sampleNum = some (_mm_set1_epi32 yi) ∧
      MultisampleTraits.vX sampleCount sampleNum = some (_simd_set1_ps x) ∧
      MultisampleTraits.vY sampleCount sampleNum = some (_simd_set1_ps y) ∧
      (xi : ℚ) = 256 * x ∧ (yi : ℚ) = 256 * y ∧
      16 ∣ xi ∧ xi ≤ 0xF0 ∧ 16 ∣ yi ∧ yi ≤ 0xF0 := by
  cases sampleCount <;> simp only [MultisampleTraits.numSamples] at h <;>
    interval_cases sampleNum <;>
    exact ⟨_, _, _, _, rfl, rfl, rfl, rfl, by norm_num, by norm_num, by decide, by decide,
      by decide, by decide⟩

theorem sample_positions_fixed_point_witness :
    12 < MultisampleTraits.numSamples .SWR_MULTISAMPLE_16X ∧
      ∃ (xi yi : Nat) (x y : ℚ),
        MultisampleTraits.vXi .SWR_MULTISAMPLE_16X 12 = some (_mm_set1_epi32 xi) ∧
        MultisampleTraits.vYi .SWR_MULTISAMPLE_16X 12 = some (_mm_set1_epi32 yi) ∧
        MultisampleTraits.vX .SWR_MULTISAMPLE_16X 12 = some (_simd_set1_ps x) ∧
        MultisampleTraits.vY .SWR_MULTISAMPLE_16X 12 = some (_simd_set1_ps y) ∧
        (xi : ℚ) = 256 * x ∧ (yi : ℚ) = 256 * y ∧
        16 ∣ xi ∧ xi ≤ 0xF0 ∧ 16 ∣ yi ∧ yi ≤ 0xF0 :=
  ⟨by decide, sample_positions_fixed_point .SWR_MULTISAMPLE_16X 12 (by decide)⟩

/-- C38: in each of the five specialisations of `MultisampleTraits`, `TileSampleOffsetsX`
holds (left, right, left, right) and `TileSampleOffsetsY` (top, top, bottom, bottom) in the
lanes of the corners UL, UR, BL, BR, lowest lane first; every sample below `numSamples`
has its `vXi` value from left to right and its `vYi` value from top to bottom, and each of
the four edges is the `vXi` or `vYi` value of one of these samples, so that left and right
are the minimum and the maximum of the `vXi` values and top and bottom those of the
`vYi` values. -/
theorem tile_sample_offsets_tight (sampleCount : SWR_MULTISAMPLE_COUNT) :
    ∃ left right top bottom : Nat,
      MultisampleTraits.TileSampleOffsetsX sampleCount =
        { e0 := left, e1 := right, e2 := left, e3 := right } ∧
      MultisampleTraits.TileSampleOffsetsY sampleCount =
        { e0 := top, e1 := top, e2 := bottom, e3 := bottom } ∧
      (∀ sampleNum, sampleNum < MultisampleTraits.numSamples sampleCount →
        ∃ xi yi : Nat,
          MultisampleTraits.vXi sampleCount sampleNum = some (_mm_set1_epi32 xi) ∧
          MultisampleTraits.vYi sampleCount sampleNum = some (_mm_set1_epi32 yi) ∧
          left ≤ xi ∧ xi ≤ right ∧ top ≤ yi ∧ yi ≤ bottom) ∧
      (∃ sampleNum, sampleNum < MultisampleTraits.numSamples sampleCount ∧
        MultisampleTraits.vXi sampleCount sampleNum = some (_mm_set1_epi32 left)) ∧
      (∃ sampleNum, sampleNum < MultisampleTraits.numSamples sampleCount ∧
        MultisampleTraits.vXi sampleCount sampleNum = some (_mm_set1_epi32 right)) ∧
      (∃ sampleNum, sampleNum < MultisampleTraits.numSamples sampleCount ∧
        MultisampleTraits.vYi sampleCount sampleNum = some (_mm_set1_epi32 top)) ∧
      (∃ sampleNum, sampleNum < MultisampleTraits.numSamples sampleCount ∧
        MultisampleTraits.vYi sampleCount sampleNum = some (_mm_set1_epi32 bottom)) := by
  cases sampleCount
  · refine ⟨0x80, 0x80, 0x80, 0x80, rfl, rfl, ?_, ⟨0, by decide, rfl⟩, ⟨0, by decide, rfl⟩,
      ⟨0, by decide, rfl⟩, ⟨0, by decide, rfl⟩⟩
    intro s hs
    exact ⟨_, _, rfl, rfl, by decide, by decide, by decide, by decide⟩
  · refine ⟨0x40, 0xC0, 0x40, 0xC0, rfl, rfl, ?_, ⟨1, by decide, rfl⟩, ⟨0, by decide, rfl⟩,
      ⟨1, by decide, rfl⟩, ⟨0, by decide, rfl⟩⟩
    intro s hs
    simp only [MultisampleTraits.numSamples] at hs
    interval_cases s <;> exact ⟨_, _, rfl, rfl, by decide, by decide, by decide, by decide⟩
  · refine ⟨0x20, 0xE0, 0x20, 0xE0, rfl, rfl, ?_, ⟨2, by decide, rfl⟩, ⟨1, by decide, rfl⟩,
      ⟨0, by decide, rfl⟩, ⟨3, by decide, rfl⟩⟩
    intro s hs
    simp only [MultisampleTraits.numSamples] at hs
    interval_cases s <;> exact ⟨_, _, rfl, rfl, by decide, by decide, by decide, by decide⟩
  · refine ⟨0x10, 0xF0, 0x10, 0xF0, rfl, rfl, ?_, ⟨5, by decide, rfl⟩, ⟨7, by decide, rfl⟩,
      ⟨7, by decide, rfl⟩, ⟨6, by decide, rfl⟩⟩
    intro s hs
    simp only [MultisampleTraits.numSamples] at hs
    interval_cases s <;> exact ⟨_, _, rfl, rfl, by decide, by decide, by decide, by decide⟩
  · refine ⟨0x00, 0xF0, 0x00, 0xF0, rfl, rfl, ?_, ⟨12, by decide, rfl⟩, ⟨13, by decide, rfl⟩,
      ⟨15, by decide, rfl⟩, ⟨14, by decide, rfl⟩⟩
    intro s hs
    simp only [MultisampleTraits.numSamples] at hs
    interval_cases s <;> exact ⟨_, _, rfl, rfl, by decide, by decide, by decide, by decide⟩

/-- C39: with the enumerators of `SWR_MULTISAMPLE_COUNT` numbered from 0 in the order 1X,
2X, 4X, 8X, 16X and `SWR_MULTISAMPLE_TYPE_MAX` at least 5, `GetSampleCount` after
`GetNumSamples` gives back each of the five sample counts, `GetNumSamples` after
`GetSampleCount` gives back each of 1, 2, 4, 8 and 16, `GetNumSamples` returns the
`numSamples` of the specialisation, and the `sampleMask` of a specialisation is
`2^numSamples - 1`. -/
theorem sample_count_round_trip (H : state_h)
    (h1 : H.value .SWR_MULTISAMPLE_1X = 0) (h2 : H.value .SWR_MULTISAMPLE_2X = 1)
    (h4 : H.value .SWR_MULTISAMPLE_4X = 2) (h8 : H.value .SWR_MULTISAMPLE_8X = 3)
    (h16 : H.value .SWR_MULTISAMPLE_16X = 4) (hmax : 5 ≤ H.SWR_MULTISAMPLE_TYPE_MAX) :
    (∀ c, (GetNumSamples H c).bind GetSampleCount = some c) ∧
      (∀ n, n ∈ [1, 2, 4, 8, 16] → (GetSampleCount n).bind (GetNumSamples H) = some n) ∧
      (∀ c, GetNumSamples H c = some (MultisampleTraits.numSamples c)) ∧
      ∀ c, MultisampleTraits.sampleMask c = 2 ^ MultisampleTraits.numSamples c - 1 := by
  have hN := GetNumSamples_eq H h1 h2 h4 h8 h16 hmax
  refine ⟨fun c => ?_, fun n hn => ?_, hN, fun c => ?_⟩
  · rw [hN c]
    cases c <;> rfl
  · simp only [List.mem_cons, List.mem_singleton, List.not_mem_nil, or_false] at hn
    rcases hn with rfl | rfl | rfl | rfl | rfl <;>
      simp only [GetSampleCount, Option.some_bind, hN] <;> rfl
  · cases c <;> rfl

theorem sample_count_round_trip_witness :
    (H0.value .SWR_MULTISAMPLE_1X = 0 ∧ H0.value .SWR_MULTISAMPLE_2X = 1 ∧
        H0.value .SWR_MULTISAMPLE_4X = 2 ∧ H0.value .SWR_MULTISAMPLE_8X = 3 ∧
        H0.value .SWR_MULTISAMPLE_16X = 4 ∧ 5 ≤ H0.SWR_MULTISAMPLE_TYPE_MAX) ∧
      (∀ c, (GetNumSamples H0 c).bind GetSampleCount = some c) ∧
      (∀ n, n ∈ [1, 2, 4, 8, 16] → (GetSampleCount n).bind (GetNumSamples H0) = some n) ∧
      (∀ c, GetNumSamples H0 c = some (MultisampleTraits.numSamples c)) ∧
      ∀ c, MultisampleTraits.sampleMask c = 2 ^ MultisampleTraits.numSamples c - 1 :=
  ⟨by decide, sample_count_round_trip H0 rfl rfl rfl rfl rfl (by decide)⟩

end VC4
